import Mathlib

/-!
# MoarVM speculative-specialization optimizer

A shallow embedding of `src/spesh/optimize.c`, and of the boolification functions of
`src/core/coerce.c`, and properties of them.

Conventions of the embedding.

* Pointers are natural numbers: a block pointer indexes `MVMSpeshGraph.bbs`, an instruction
  pointer indexes `MVMSpeshGraph.ins`; object, string and STable handles are numbers with
  `0` for `NULL`.  A pointer that may be `NULL` in a field is an `Option`.
* The doubly linked instruction list of a block (`first_ins`, `last_ins`, `prev`, `next`) is
  the list `MVMSpeshBB.ins` of instruction pointers, first instruction first.
* `MVMSpeshFacts *` values are kept as the register operand they were obtained from, and every
  `p->field` reads the current graph, so that aliasing between two fact pointers is kept.
* The `value` union of a fact record is its 64-bit storage word; `value.i64`, `value.i16`,
  `value.o`, `value.n64` are views of that word (little-endian, two's complement, IEEE 754).
* The `usages` counter is a signed 32-bit integer in C; it is an `Int` here and is never
  wrapped.
* Loops over the `linear_next` chain and over a block's instructions take a `fuel` argument;
  running out of fuel is the fault `out_of_fuel`, distinct from the faults of the C code.
* The thread context `tc` carries every collaborator that is not part of `optimize.c`.
-/

namespace MoarVM

/-- Ways in which a run of the embedded code can stop without returning. -/
inductive Fault
  | null_deref
  | out_of_bounds
  | unhandled_invoke
  | out_of_fuel
  deriving DecidableEq, Repr

/-- The opcodes that `optimize.c` names; `MVM_OP_ext` is the sentinel `(MVMuint16)-1`, and
`MVM_OP_other` stands for any opcode the file does not name. -/
inductive MVMOpcode
  | MVM_OP_set | MVM_OP_istrue | MVM_OP_isfalse
  | MVM_OP_if_i | MVM_OP_if_s | MVM_OP_if_n | MVM_OP_if_o | MVM_OP_ifnonnull
  | MVM_OP_unless_i | MVM_OP_unless_s | MVM_OP_unless_n | MVM_OP_unless_o
  | MVM_OP_prepargs
  | MVM_OP_arg_i | MVM_OP_arg_n | MVM_OP_arg_s | MVM_OP_arg_o
  | MVM_OP_argconst_i | MVM_OP_argconst_n | MVM_OP_argconst_s
  | MVM_OP_coerce_in | MVM_OP_coerce_ns | MVM_OP_coerce_is
  | MVM_OP_smrt_numify | MVM_OP_smrt_strify
  | MVM_OP_invoke_v | MVM_OP_invoke_i | MVM_OP_invoke_n | MVM_OP_invoke_s | MVM_OP_invoke_o
  | MVM_OP_throwcatdyn | MVM_OP_throwcatlex | MVM_OP_throwcatlexotic
  | MVM_OP_islist | MVM_OP_ishash | MVM_OP_isint | MVM_OP_isnum | MVM_OP_isstr
  | MVM_OP_findmeth | MVM_OP_can | MVM_OP_can_s | MVM_OP_create
  | MVM_OP_isconcrete | MVM_OP_istype | MVM_OP_objprimspec
  | MVM_OP_bindattr_i | MVM_OP_bindattr_n | MVM_OP_bindattr_s | MVM_OP_bindattr_o
  | MVM_OP_bindattrs_i | MVM_OP_bindattrs_n | MVM_OP_bindattrs_s | MVM_OP_bindattrs_o
  | MVM_OP_getattr_i | MVM_OP_getattr_n | MVM_OP_getattr_s | MVM_OP_getattr_o
  | MVM_OP_getattrs_i | MVM_OP_getattrs_n | MVM_OP_getattrs_s | MVM_OP_getattrs_o
  | MVM_OP_box_i | MVM_OP_box_n | MVM_OP_box_s
  | MVM_OP_unbox_i | MVM_OP_unbox_n | MVM_OP_unbox_s
  | MVM_OP_elems | MVM_OP_hllize | MVM_OP_decont | MVM_OP_assertparamcheck
  | MVM_OP_getlexstatic_o | MVM_OP_getlexperinvtype_o
  | MVM_OP_sp_log | MVM_OP_sp_osrfinalize
  | MVM_OP_goto | MVM_OP_const_i64_16 | MVM_OP_const_n64 | MVM_OP_isnonnull | MVM_OP_not_i
  | MVM_OP_sp_getspeshslot | MVM_OP_sp_findmeth | MVM_OP_sp_get_s
  | MVM_OP_sp_fastinvoke_v | MVM_OP_sp_fastinvoke_i | MVM_OP_sp_fastinvoke_n
  | MVM_OP_sp_fastinvoke_s | MVM_OP_sp_fastinvoke_o
  | MVM_SSA_PHI
  | MVM_OP_ext
  | MVM_OP_other
  deriving DecidableEq, Repr

open MVMOpcode

/-- The read/write kind of an operand, `info->operands[i] & MVM_operand_rw_mask`. -/
inductive MVMOperandRW
  | MVM_operand_literal
  | MVM_operand_read_reg
  | MVM_operand_write_reg
  | MVM_operand_read_lex
  | MVM_operand_write_lex
  deriving DecidableEq, Repr

open MVMOperandRW

/-- The op descriptor `MVMOpInfo`: opcode, operand count, `pure` flag and the read/write kind
of each operand. -/
structure MVMOpInfo where
  opcode : MVMOpcode
  num_operands : Nat
  pure : Bool
  operands : List MVMOperandRW
  deriving DecidableEq, Repr

/-- The operand union `MVMSpeshOperand`, tagged with the member that was stored last. -/
inductive MVMSpeshOperand
  | reg (orig i : Nat)
  | lit_i16 (v : Int)
  | lit_i64 (v : Int)
  | lit_n64 (bits : Nat)
  | lit_str_idx (idx : Nat)
  | callsite_idx (idx : Nat)
  | ins_bb (bb : Nat)
  deriving DecidableEq, Repr

/-- The kinds of instruction annotation the optimizer looks at. -/
inductive MVMSpeshAnnType
  | MVM_SPESH_ANN_FH_START
  | MVM_SPESH_ANN_FH_END
  | MVM_SPESH_ANN_FH_GOTO
  | MVM_SPESH_ANN_other
  deriving DecidableEq, Repr

open MVMSpeshAnnType

/-- One entry of an instruction's annotation list. -/
structure MVMSpeshAnn where
  type : MVMSpeshAnnType
  frame_handler_index : Nat
  deriving DecidableEq, Repr

/-- An instruction: op descriptor, operand array and annotation list. -/
structure MVMSpeshIns where
  info : MVMOpInfo
  operands : List MVMSpeshOperand
  annotations : List MVMSpeshAnn
  deriving DecidableEq, Repr

/-- A basic block.  `ins` is the instruction list from `first_ins` to `last_ins`. -/
structure MVMSpeshBB where
  idx : Nat
  ins : List Nat
  succ : List Nat
  linear_next : Option Nat
  children : List Nat
  inlined : Bool
  deriving DecidableEq, Repr

/-- The fact record of one register version. -/
structure MVMSpeshFacts where
  flags : Nat
  type : Nat
  decont_type : Nat
  value : Nat
  log_guard : Nat
  usages : Int
  deriving DecidableEq, Repr

/-- A log guard: the block and instruction of the guard and whether a rewrite relied on it. -/
structure MVMSpeshLogGuard where
  ins : Nat
  bb : Nat
  used : Bool
  deriving DecidableEq, Repr

/-- An argument guard of the specialization, of which only the slot is read here. -/
structure MVMSpeshGuard where
  slot : Nat
  kind : Nat
  match_st : Nat
  deriving DecidableEq, Repr

/-- The action of a frame handler; only `MVM_EX_ACTION_GOTO` is told apart. -/
inductive MVMExAction
  | MVM_EX_ACTION_GOTO
  | MVM_EX_ACTION_other (n : Nat)
  deriving DecidableEq, Repr

open MVMExAction

/-- A frame handler of the static frame. -/
structure MVMFrameHandler where
  category_mask : Nat
  action : MVMExAction
  deriving DecidableEq, Repr

/-- What the optimizer reads of the static frame and its compilation unit:
`sf->body.handlers`, `cu->body.strings`, `cu->body.callsites`, `cu->body.hll_config`. -/
structure MVMStaticFrame where
  handlers : List MVMFrameHandler
  strings : Nat → Nat
  callsites : Nat → Nat
  hll_config : Nat

/-- The spesh graph.  `bbs` and `ins` are the arena of blocks and instructions, `ins_alloc`
the next free instruction pointer of the arena, `facts orig i` is `g->facts[orig][i]`. -/
structure MVMSpeshGraph where
  sf : MVMStaticFrame
  bbs : Nat → MVMSpeshBB
  ins : Nat → MVMSpeshIns
  ins_alloc : Nat
  entry : Nat
  num_bbs : Nat
  facts : Nat → Nat → MVMSpeshFacts
  spesh_slots : List Nat
  alloc_spesh_slots : Nat
  log_guards : List MVMSpeshLogGuard
  log_slots : Nat → Nat
  arg_guards : List MVMSpeshGuard

/-- Representation IDs the optimizer compares against; `MVM_REPR_ID_other n` is any other. -/
inductive MVMReprId
  | MVM_REPR_ID_MVMArray
  | MVM_REPR_ID_MVMHash
  | MVM_REPR_ID_P6int
  | MVM_REPR_ID_P6num
  | MVM_REPR_ID_P6str
  | MVM_REPR_ID_MVMException
  | MVM_REPR_ID_MVMCode
  | MVM_REPR_ID_other (n : Nat)
  deriving DecidableEq, Repr

open MVMReprId

/-- Boolification modes of a boolification spec. -/
inductive MVMBoolMode
  | MVM_BOOL_MODE_CALL_METHOD
  | MVM_BOOL_MODE_UNBOX_INT
  | MVM_BOOL_MODE_UNBOX_NUM
  | MVM_BOOL_MODE_UNBOX_STR_NOT_EMPTY
  | MVM_BOOL_MODE_UNBOX_STR_NOT_EMPTY_OR_ZERO
  | MVM_BOOL_MODE_NOT_TYPE_OBJECT
  | MVM_BOOL_MODE_BIGINT
  | MVM_BOOL_MODE_ITER
  | MVM_BOOL_MODE_HAS_ELEMS
  | MVM_BOOL_MODE_other
  deriving DecidableEq, Repr

open MVMBoolMode

/-- The storage spec of a representation: boxed primitive code and `can_box` bits. -/
structure MVMStorageSpec where
  boxed_primitive : Int
  can_box : Nat
  deriving DecidableEq, Repr

/-- The register kinds asked of `MVM_spesh_manipulate_get_temp_reg`. -/
inductive MVMRegKind
  | MVM_reg_int64
  | MVM_reg_num64
  deriving DecidableEq, Repr

open MVMRegKind

/-- The container spec of an STable: `fetch_never_invokes` and the optional `spesh` hook,
which receives the STable, the graph, the block and the instruction. -/
structure MVMContainerSpec where
  fetch_never_invokes : Bool
  spesh : Option (Nat → MVMSpeshGraph → Nat → Nat → MVMSpeshGraph)

/-- The invocation spec of an STable (handles are `0` when null). -/
structure MVMInvocationSpec where
  class_handle : Nat
  attr_name : Nat
  hint : Int
  md_class_handle : Nat
  md_cache_attr_name : Nat
  md_cache_hint : Int
  md_valid_attr_name : Nat
  md_valid_hint : Int
  deriving DecidableEq, Repr

/-- The kinds of guard of a spesh candidate. -/
inductive MVMSpeshGuardKind
  | MVM_SPESH_GUARD_CONC
  | MVM_SPESH_GUARD_TYPE
  | MVM_SPESH_GUARD_DC_CONC
  | MVM_SPESH_GUARD_DC_TYPE
  | MVM_SPESH_GUARD_other
  deriving DecidableEq, Repr

open MVMSpeshGuardKind

/-- A guard of a spesh candidate: argument slot, kind and the STable to match. -/
structure MVMSpeshCandGuard where
  slot : Nat
  kind : MVMSpeshGuardKind
  match_st : Nat
  deriving DecidableEq, Repr

/-- A spesh candidate of a static frame: its callsite and its guards. -/
structure MVMSpeshCandidate where
  cs : Nat
  guards : List MVMSpeshCandGuard
  deriving DecidableEq, Repr

/-- The call info gathered between `prepargs` and `invoke_*`.  A `MVMSpeshFacts *` is the
pair `(orig, i)` of the fact row and column it points to. -/
structure MVMSpeshCallInfo where
  cs : Nat
  prepargs_ins : Option Nat
  arg_is_const : Nat → Bool
  arg_facts : Nat → Option (Nat × Nat)
  arg_ins : Nat → Option Nat

/-- An extension-op record: the op descriptor and the optional `spesh` callback. -/
structure MVMExtOpRecord where
  info : MVMOpInfo
  spesh : Option (MVMSpeshGraph → Nat → Nat → MVMSpeshGraph)

/-- The thread context: everything `optimize.c` reaches through `tc`, the object model, the
representation tables and the compilation unit, none of which it defines. -/
structure MVMThreadContext where
  MVM_op_get_op : MVMOpcode → MVMOpInfo
  MVM_is_null : Nat → Bool
  STABLE : Nat → Nat
  REPR_ID : Nat → MVMReprId
  IS_CONCRETE : Nat → Bool
  WHAT : Nat → Nat
  boolification_mode : Nat → Option MVMBoolMode
  MVM_coerce_istrue : Nat → Int
  MVM_6model_find_method_cache_only : Nat → Nat → Nat
  MVM_6model_can_method_cache_only : Nat → Nat → Int
  MVM_6model_try_cache_type_check : Nat → Nat → Option Int
  get_storage_spec : Nat → MVMStorageSpec
  hll_owner : Nat → Nat
  container_spec : Nat → Option MVMContainerSpec
  invocation_spec : Nat → Option MVMInvocationSpec
  REPR_spesh : Nat → Option (Nat → MVMSpeshGraph → Nat → Nat → MVMSpeshGraph)
  get_attribute_i64 : Nat → Nat → Nat → Int → Int
  get_attribute_o : Nat → Nat → Nat → Int → Nat
  MVM_multi_cache_find_spesh : Nat → MVMSpeshCallInfo → Nat
  is_compiler_stub : Nat → Bool
  spesh_candidates : Nat → List MVMSpeshCandidate
  MVM_spesh_inline_try_get_graph : MVMSpeshGraph → Nat → Nat → Option Nat
  MVM_spesh_inline : MVMSpeshGraph → MVMSpeshCallInfo → Nat → Nat → Nat → Nat → MVMSpeshGraph
  MVM_spesh_manipulate_get_temp_reg : MVMSpeshGraph → MVMRegKind → MVMSpeshOperand × MVMSpeshGraph
  MVM_spesh_manipulate_release_temp_reg : MVMSpeshGraph → MVMSpeshOperand → MVMSpeshGraph
  extops : List MVMExtOpRecord
  str_consts_Str : Nat
  str_consts_Num : Nat
  offsetof_MVMException_body_message : Int
  MVM_SPESH_LOG_RUNS : Nat
  i64_to_n64 : Int → Nat
  uninit_arg_info : MVMSpeshCallInfo
  operand_as_reg : MVMSpeshOperand → Nat × Nat

/-! ## Constants of headers that `optimize.c` includes -/

/-- Modelled from the spec: the flag vocabulary of a fact record (section 3), one bit each;
the `#define`s live in `spesh/facts.h`. -/
def MVM_SPESH_FACT_KNOWN_TYPE : Nat := 1

/-- Modelled from the spec: fact flag `KNOWN_VALUE`. -/
def MVM_SPESH_FACT_KNOWN_VALUE : Nat := 2

/-- Modelled from the spec: fact flag `DECONTED`. -/
def MVM_SPESH_FACT_DECONTED : Nat := 4

/-- Modelled from the spec: fact flag `CONCRETE`. -/
def MVM_SPESH_FACT_CONCRETE : Nat := 8

/-- Modelled from the spec: fact flag `TYPEOBJ`. -/
def MVM_SPESH_FACT_TYPEOBJ : Nat := 16

/-- Modelled from the spec: fact flag `KNOWN_DECONT_TYPE`. -/
def MVM_SPESH_FACT_KNOWN_DECONT_TYPE : Nat := 32

/-- Modelled from the spec: fact flag `DECONT_CONCRETE`. -/
def MVM_SPESH_FACT_DECONT_CONCRETE : Nat := 64

/-- Modelled from the spec: fact flag `DECONT_TYPEOBJ`. -/
def MVM_SPESH_FACT_DECONT_TYPEOBJ : Nat := 128

/-- Modelled from the spec: fact flag `FROM_LOG_GUARD`. -/
def MVM_SPESH_FACT_FROM_LOG_GUARD : Nat := 256

/-- Modelled from the spec: the cap on arguments recorded in a `CallInfo` (section 3,
"typically 8"); the `#define` lives in `spesh/graph.h`. -/
def MAX_ARGS_FOR_OPT : Int := 8

/-- The `can_box` bit for native integers (`6model.h`). -/
def MVM_STORAGE_SPEC_CAN_BOX_INT : Nat := 1

/-- The `can_box` bit for native numbers (`6model.h`). -/
def MVM_STORAGE_SPEC_CAN_BOX_NUM : Nat := 2

/-- The `can_box` bit for native strings (`6model.h`). -/
def MVM_STORAGE_SPEC_CAN_BOX_STR : Nat := 4

/-! ## Machine integers and the views of the `value` union -/

/-- Conversion to `MVMuint8`. -/
def to_uint8 (v : Int) : Nat := (v % 256).toNat

/-- Conversion to `MVMint16`. -/
def to_int16 (v : Int) : Int := (v + 32768) % 65536 - 32768

/-- Conversion to `MVMuint16`. -/
def to_uint16 (v : Int) : Nat := (v % 65536).toNat

/-- Conversion to `MVMuint32`. -/
def to_uint32 (v : Int) : Nat := (v % 4294967296).toNat

/-- The view `value.i64` of the storage word. -/
def value_i64 (w : Nat) : Int :=
  if w % 2 ^ 64 < 2 ^ 63 then ((w % 2 ^ 64 : Nat) : Int) else ((w % 2 ^ 64 : Nat) : Int) - 2 ^ 64

/-- The storage word after `value.i64 = v`. -/
def store_i64 (v : Int) : Nat := (v % 2 ^ 64).toNat

/-- The view `value.i16` of the storage word: its low 16 bits, signed. -/
def value_i16 (w : Nat) : Int := to_int16 ((w % 65536 : Nat) : Int)

/-- The storage word after `value.i16 = v`: the low 16 bits are replaced. -/
def store_i16 (w : Nat) (v : Int) : Nat := w / 65536 * 65536 + to_uint16 v

/-- The truth of `value.n64 != 0.0`: every bit but the sign bit is clear in a zero. -/
def value_n64_nonzero (w : Nat) : Bool := w % 2 ^ 63 != 0

/-! ## Access to the graph -/

/-- The operand `ins->operands[k]`. -/
def MVMSpeshIns.operand (i : MVMSpeshIns) (k : Nat) : MVMSpeshOperand :=
  i.operands.getD k (MVMSpeshOperand.lit_i64 0)

/-- The register `(o.reg.orig, o.reg.i)` of an operand; what the bytes of another member
read as is given by the platform, through `tc`. -/
def MVMSpeshOperand.get_reg (tc : MVMThreadContext) (o : MVMSpeshOperand) : Nat × Nat :=
  match o with
  | MVMSpeshOperand.reg orig i => (orig, i)
  | _ => tc.operand_as_reg o

/-- The member `o.lit_i16` of an operand that holds a 16-bit literal. -/
def MVMSpeshOperand.get_lit_i16 (o : MVMSpeshOperand) : Int :=
  match o with
  | MVMSpeshOperand.lit_i16 v => v
  | _ => 0

/-- The member `o.lit_i64` of an operand that holds a 64-bit literal. -/
def MVMSpeshOperand.get_lit_i64 (o : MVMSpeshOperand) : Int :=
  match o with
  | MVMSpeshOperand.lit_i64 v => v
  | _ => 0

/-- The member `o.lit_str_idx` of an operand that holds a string index. -/
def MVMSpeshOperand.get_lit_str_idx (o : MVMSpeshOperand) : Nat :=
  match o with
  | MVMSpeshOperand.lit_str_idx v => v
  | _ => 0

/-- The member `o.callsite_idx` of an operand that holds a callsite index. -/
def MVMSpeshOperand.get_callsite_idx (o : MVMSpeshOperand) : Nat :=
  match o with
  | MVMSpeshOperand.callsite_idx v => v
  | _ => 0

/-- The member `o.ins_bb` of an operand that holds a branch target; `none` is `NULL`. -/
def MVMSpeshOperand.get_ins_bb (o : MVMSpeshOperand) : Option Nat :=
  match o with
  | MVMSpeshOperand.ins_bb b => some b
  | _ => none

/-- The fact record a `MVMSpeshFacts *` points to. -/
def MVMSpeshGraph.facts_at (g : MVMSpeshGraph) (p : Nat × Nat) : MVMSpeshFacts :=
  g.facts p.1 p.2

/-- Store through a `MVMSpeshFacts *`. -/
def MVMSpeshGraph.set_facts_at (g : MVMSpeshGraph) (p : Nat × Nat) (f : MVMSpeshFacts) :
    MVMSpeshGraph :=
  { g with facts := fun orig i => if (orig, i) = p then f else g.facts orig i }

/-- Store a whole instruction record. -/
def MVMSpeshGraph.set_ins (g : MVMSpeshGraph) (p : Nat) (i : MVMSpeshIns) : MVMSpeshGraph :=
  { g with ins := fun q => if q = p then i else g.ins q }

/-- The assignment `ins->info = info`. -/
def MVMSpeshGraph.set_info (g : MVMSpeshGraph) (p : Nat) (info : MVMOpInfo) : MVMSpeshGraph :=
  g.set_ins p { g.ins p with info := info }

/-- The assignment `ins->operands[k] = o` (or to one member of it). -/
def MVMSpeshGraph.set_operand (g : MVMSpeshGraph) (p k : Nat) (o : MVMSpeshOperand) :
    MVMSpeshGraph :=
  g.set_ins p { g.ins p with operands := (g.ins p).operands.set k o }

/-- The assignment `ins->operands = ops` of a freshly allocated operand array. -/
def MVMSpeshGraph.set_operands (g : MVMSpeshGraph) (p : Nat) (ops : List MVMSpeshOperand) :
    MVMSpeshGraph :=
  g.set_ins p { g.ins p with operands := ops }

/-- Store a whole block record. -/
def MVMSpeshGraph.set_bb (g : MVMSpeshGraph) (b : Nat) (bb : MVMSpeshBB) : MVMSpeshGraph :=
  { g with bbs := fun q => if q = b then bb else g.bbs q }

/-- The statement `g->log_guards[k].used = 1`. -/
def MVMSpeshGraph.set_guard_used (g : MVMSpeshGraph) (k : Nat) : MVMSpeshGraph :=
  { g with log_guards := g.log_guards.modify (fun lg => { lg with used := true }) k }

/-- The test `flags & mask` of C. -/
def has_flag (flags mask : Nat) : Bool := flags &&& mask != 0

/-! ## Graph manipulation primitives (`spesh/manipulate.c`) -/

/-- Modelled from the spec: `delete_ins` of section 6, defined in `spesh/manipulate.c`, which
deletes the instruction from its block: the instruction leaves the block's instruction list
and every other instruction keeps its place. -/
def MVM_spesh_manipulate_delete_ins (_tc : MVMThreadContext) (g : MVMSpeshGraph) (bb ins : Nat) :
    MVMSpeshGraph :=
  g.set_bb bb { g.bbs bb with ins := (g.bbs bb).ins.erase ins }

/-- The instruction list with `to_insert` placed right after `previous`. -/
def insert_after (previous to_insert : Nat) : List Nat → List Nat
  | [] => []
  | p :: rest =>
    if p = previous then p :: to_insert :: rest else p :: insert_after previous to_insert rest

/-- Modelled from the spec: `insert_ins` of section 6, defined in `spesh/manipulate.c`, which
inserts an instruction into a block after a given one, or first when that one is `NULL`. -/
def MVM_spesh_manipulate_insert_ins (_tc : MVMThreadContext) (g : MVMSpeshGraph) (bb : Nat)
    (previous : Option Nat) (to_insert : Nat) : MVMSpeshGraph :=
  match previous with
  | none => g.set_bb bb { g.bbs bb with ins := to_insert :: (g.bbs bb).ins }
  | some p => g.set_bb bb { g.bbs bb with ins := insert_after p to_insert (g.bbs bb).ins }

/-- Modelled from the spec: `remove_successor` of section 6, defined in
`spesh/manipulate.c`, which drops one successor from the block's `succ[]`, the others keeping
their order; a `NULL` successor is in no `succ[]`. -/
def MVM_spesh_manipulate_remove_successor (_tc : MVMThreadContext) (g : MVMSpeshGraph) (bb : Nat)
    (succ : Option Nat) : MVMSpeshGraph :=
  match succ with
  | none => g
  | some s => g.set_bb bb { g.bbs bb with succ := (g.bbs bb).succ.erase s }

/-- The allocation `MVM_spesh_alloc(tc, g, sizeof(MVMSpeshIns))` of a fresh instruction
record from the graph's arena: the pointer and the graph after it. -/
def MVM_spesh_alloc_ins (_tc : MVMThreadContext) (g : MVMSpeshGraph) : Nat × MVMSpeshGraph :=
  (g.ins_alloc, { g with ins_alloc := g.ins_alloc + 1 })

/-! ## `optimize.c` -/

/-- Obtains facts for an operand, just directly accessing them. -/
def get_facts_direct (tc : MVMThreadContext) (_g : MVMSpeshGraph) (o : MVMSpeshOperand) :
    Nat × Nat :=
  o.get_reg tc

/-- Obtains facts for an operand, indicating they are being used. -/
def MVM_spesh_get_and_use_facts (tc : MVMThreadContext) (g : MVMSpeshGraph)
    (o : MVMSpeshOperand) : (Nat × Nat) × MVMSpeshGraph :=
  let facts := get_facts_direct tc g o
  if has_flag (g.facts_at facts).flags MVM_SPESH_FACT_FROM_LOG_GUARD then
    (facts, g.set_guard_used (g.facts_at facts).log_guard)
  else
    (facts, g)

/-- Obtains facts for an operand, without indicating usefulness. -/
def MVM_spesh_get_facts (tc : MVMThreadContext) (g : MVMSpeshGraph) (o : MVMSpeshOperand) :
    Nat × Nat :=
  get_facts_direct tc g o

/-- Mark facts for an operand as being relied upon. -/
def MVM_spesh_use_facts (_tc : MVMThreadContext) (g : MVMSpeshGraph) (f : Nat × Nat) :
    MVMSpeshGraph :=
  if has_flag (g.facts_at f).flags MVM_SPESH_FACT_FROM_LOG_GUARD then
    g.set_guard_used (g.facts_at f).log_guard
  else
    g

/-- Obtains a string constant. -/
def MVM_spesh_get_string (_tc : MVMThreadContext) (g : MVMSpeshGraph) (o : MVMSpeshOperand) :
    Nat :=
  g.sf.strings o.get_lit_str_idx

/-- Copy facts between two register operands. -/
def copy_facts (tc : MVMThreadContext) (g : MVMSpeshGraph) (to_op from_op : MVMSpeshOperand) :
    MVMSpeshGraph :=
  let tfacts := get_facts_direct tc g to_op
  let ffacts := get_facts_direct tc g from_op
  let g := g.set_facts_at tfacts { g.facts_at tfacts with flags := (g.facts_at ffacts).flags }
  let g := g.set_facts_at tfacts { g.facts_at tfacts with type := (g.facts_at ffacts).type }
  let g := g.set_facts_at tfacts
    { g.facts_at tfacts with decont_type := (g.facts_at ffacts).decont_type }
  let g := g.set_facts_at tfacts { g.facts_at tfacts with value := (g.facts_at ffacts).value }
  g.set_facts_at tfacts { g.facts_at tfacts with log_guard := (g.facts_at ffacts).log_guard }

/-- Adds a value into a spesh slot and returns its index, as the `MVMint16` of the C
signature. -/
def MVM_spesh_add_spesh_slot (_tc : MVMThreadContext) (g : MVMSpeshGraph) (c : Nat) :
    Int × MVMSpeshGraph :=
  let g :=
    if g.spesh_slots.length ≥ g.alloc_spesh_slots then
      { g with alloc_spesh_slots := g.alloc_spesh_slots + 8 }
    else g
  (to_int16 g.spesh_slots.length, { g with spesh_slots := g.spesh_slots ++ [c] })

/-- Performs optimization on a method lookup. -/
def optimize_method_lookup (tc : MVMThreadContext) (g : MVMSpeshGraph) (ins : Nat) :
    MVMSpeshGraph :=
  let obj_facts := MVM_spesh_get_facts tc g ((g.ins ins).operand 1)
  let r : Bool × MVMSpeshGraph :=
    if has_flag (g.facts_at obj_facts).flags MVM_SPESH_FACT_KNOWN_TYPE then
      let name := MVM_spesh_get_string tc g ((g.ins ins).operand 2)
      let meth := tc.MVM_6model_find_method_cache_only (g.facts_at obj_facts).type name
      if !tc.MVM_is_null meth then
        let ssg := MVM_spesh_add_spesh_slot tc g meth
        let ss := ssg.1
        let g := ssg.2
        let mg := MVM_spesh_get_and_use_facts tc g ((g.ins ins).operand 0)
        let meth_facts := mg.1
        let g := mg.2
        let g := g.set_facts_at meth_facts
          { g.facts_at meth_facts with
            flags := (g.facts_at meth_facts).flags ||| MVM_SPESH_FACT_KNOWN_VALUE }
        let g := g.set_facts_at meth_facts { g.facts_at meth_facts with value := meth }
        let g := g.set_info ins (tc.MVM_op_get_op MVM_OP_sp_getspeshslot)
        let g := g.set_operand ins 1 (MVMSpeshOperand.lit_i16 ss)
        let g := MVM_spesh_use_facts tc g obj_facts
        let g := g.set_facts_at obj_facts
          { g.facts_at obj_facts with usages := (g.facts_at obj_facts).usages - 1 }
        (true, g)
      else (false, g)
    else (false, g)
  let resolved := r.1
  let g := r.2
  if !resolved then
    let orig_o := (g.ins ins).operands
    let g := g.set_info ins (tc.MVM_op_get_op MVM_OP_sp_findmeth)
    let g := g.set_operands ins ((List.range 4).map fun k =>
      if k < 3 then orig_o.getD k (MVMSpeshOperand.lit_i64 0) else MVMSpeshOperand.lit_i64 0)
    let sg := MVM_spesh_add_spesh_slot tc g 0
    let g := sg.2.set_operand ins 3 (MVMSpeshOperand.lit_i16 sg.1)
    (MVM_spesh_add_spesh_slot tc g 0).2
  else g

/-- Sees if we can resolve an istype at compile time. -/
def optimize_istype (tc : MVMThreadContext) (g : MVMSpeshGraph) (ins : Nat) : MVMSpeshGraph :=
  let obj_facts := MVM_spesh_get_facts tc g ((g.ins ins).operand 1)
  let type_facts := MVM_spesh_get_facts tc g ((g.ins ins).operand 2)
  if has_flag (g.facts_at type_facts).flags MVM_SPESH_FACT_KNOWN_TYPE &&
      has_flag (g.facts_at obj_facts).flags MVM_SPESH_FACT_KNOWN_TYPE then
    match tc.MVM_6model_try_cache_type_check (g.facts_at obj_facts).type
        (g.facts_at type_facts).type with
    | none => g
    | some result =>
      let g := g.set_info ins (tc.MVM_op_get_op MVM_OP_const_i64_16)
      let result_facts := MVM_spesh_get_facts tc g ((g.ins ins).operand 0)
      let g := g.set_facts_at result_facts
        { g.facts_at result_facts with
          flags := (g.facts_at result_facts).flags ||| MVM_SPESH_FACT_KNOWN_VALUE }
      let g := g.set_operand ins 1 (MVMSpeshOperand.lit_i16 (to_int16 result))
      let g := g.set_facts_at result_facts
        { g.facts_at result_facts with
          value := store_i16 (g.facts_at result_facts).value result }
      let g := g.set_facts_at obj_facts
        { g.facts_at obj_facts with usages := (g.facts_at obj_facts).usages - 1 }
      let g := g.set_facts_at type_facts
        { g.facts_at type_facts with usages := (g.facts_at type_facts).usages - 1 }
      let g := MVM_spesh_use_facts tc g obj_facts
      MVM_spesh_use_facts tc g type_facts
  else g

/-- The stores of the conclusive case of `optimize_istype`, from `ins->info = ...` to
`type_facts->usages--`, before the two calls of `MVM_spesh_use_facts`. -/
def optimize_istype_fold (tc : MVMThreadContext) (g : MVMSpeshGraph) (ins : Nat)
    (obj_facts type_facts : Nat × Nat) (result : Int) : MVMSpeshGraph :=
  let g := g.set_info ins (tc.MVM_op_get_op MVM_OP_const_i64_16)
  let result_facts := MVM_spesh_get_facts tc g ((g.ins ins).operand 0)
  let g := g.set_facts_at result_facts
    { g.facts_at result_facts with
      flags := (g.facts_at result_facts).flags ||| MVM_SPESH_FACT_KNOWN_VALUE }
  let g := g.set_operand ins 1 (MVMSpeshOperand.lit_i16 (to_int16 result))
  let g := g.set_facts_at result_facts
    { g.facts_at result_facts with
      value := store_i16 (g.facts_at result_facts).value result }
  let g := g.set_facts_at obj_facts
    { g.facts_at obj_facts with usages := (g.facts_at obj_facts).usages - 1 }
  g.set_facts_at type_facts
    { g.facts_at type_facts with usages := (g.facts_at type_facts).usages - 1 }

/-- The representation ID probed by each of `islist`, `ishash`, `isint`, `isnum`, `isstr`
(the `switch` of `optimize_is_reprid`); `none` is its `default: return`. -/
def wanted_repr_id (op : MVMOpcode) : Option MVMReprId :=
  match op with
  | MVM_OP_islist => some MVM_REPR_ID_MVMArray
  | MVM_OP_ishash => some MVM_REPR_ID_MVMHash
  | MVM_OP_isint => some MVM_REPR_ID_P6int
  | MVM_OP_isnum => some MVM_REPR_ID_P6num
  | MVM_OP_isstr => some MVM_REPR_ID_P6str
  | _ => none

/-- Resolves `islist`, `ishash`, `isint`, `isnum`, `isstr` on a known type. -/
def optimize_is_reprid (tc : MVMThreadContext) (g : MVMSpeshGraph) (ins : Nat) : MVMSpeshGraph :=
  let obj_facts := MVM_spesh_get_facts tc g ((g.ins ins).operand 1)
  if !has_flag (g.facts_at obj_facts).flags MVM_SPESH_FACT_KNOWN_TYPE then g
  else
    match wanted_repr_id (g.ins ins).info.opcode with
    | none => g
    | some wanted =>
      let g := MVM_spesh_use_facts tc g obj_facts
      let result_value : Nat := if tc.REPR_ID (g.facts_at obj_facts).type = wanted then 1 else 0
      if result_value = 0 then
        let result_facts := MVM_spesh_get_facts tc g ((g.ins ins).operand 0)
        let g := g.set_info ins (tc.MVM_op_get_op MVM_OP_const_i64_16)
        let g := g.set_operand ins 1 (MVMSpeshOperand.lit_i16 0)
        let g := g.set_facts_at result_facts
          { g.facts_at result_facts with
            flags := (g.facts_at result_facts).flags ||| MVM_SPESH_FACT_KNOWN_VALUE }
        g.set_facts_at result_facts { g.facts_at result_facts with value := store_i64 0 }
      else
        g.set_info ins (tc.MVM_op_get_op MVM_OP_isnonnull)

/-- Sees if we can resolve an isconcrete at compile time. -/
def optimize_isconcrete (tc : MVMThreadContext) (g : MVMSpeshGraph) (ins : Nat) :
    MVMSpeshGraph :=
  let obj_facts := MVM_spesh_get_facts tc g ((g.ins ins).operand 1)
  if has_flag (g.facts_at obj_facts).flags
      (MVM_SPESH_FACT_CONCRETE ||| MVM_SPESH_FACT_TYPEOBJ) then
    let result_facts := MVM_spesh_get_facts tc g ((g.ins ins).operand 0)
    let g := g.set_info ins (tc.MVM_op_get_op MVM_OP_const_i64_16)
    let g := g.set_facts_at result_facts
      { g.facts_at result_facts with
        flags := (g.facts_at result_facts).flags ||| MVM_SPESH_FACT_KNOWN_VALUE }
    let g := g.set_facts_at result_facts
      { g.facts_at result_facts with
        value := store_i16 (g.facts_at result_facts).value
          (if has_flag (g.facts_at obj_facts).flags MVM_SPESH_FACT_CONCRETE then 1 else 0) }
    let g := g.set_operand ins 1
      (MVMSpeshOperand.lit_i16 (value_i16 (g.facts_at result_facts).value))
    let g := MVM_spesh_use_facts tc g obj_facts
    g.set_facts_at obj_facts
      { g.facts_at obj_facts with usages := (g.facts_at obj_facts).usages - 1 }
  else g

/-- The first `switch` of `optimize_iffy`: `negated_op` of the opcode, `none` for its
`default: return`. -/
def iffy_negated_op (op : MVMOpcode) : Option Nat :=
  match op with
  | MVM_OP_if_i | MVM_OP_if_s | MVM_OP_if_n | MVM_OP_if_o | MVM_OP_ifnonnull => some 0
  | MVM_OP_unless_i | MVM_OP_unless_s | MVM_OP_unless_n | MVM_OP_unless_o => some 1
  | _ => none

/-- The second `switch` of `optimize_iffy`: the `MVMuint8 truthvalue` read off the known
value of the flag, `none` where the C code returns. -/
def iffy_truthvalue (tc : MVMThreadContext) (g : MVMSpeshGraph) (flag_facts : Nat × Nat)
    (op : MVMOpcode) : Option Nat :=
  match op with
  | MVM_OP_if_i | MVM_OP_unless_i => some (to_uint8 (value_i64 (g.facts_at flag_facts).value))
  | MVM_OP_if_o | MVM_OP_unless_o =>
    let objval := (g.facts_at flag_facts).value
    let bs := tc.boolification_mode (tc.STABLE objval)
    match (match bs with | none => MVM_BOOL_MODE_NOT_TYPE_OBJECT | some mode => mode) with
    | MVM_BOOL_MODE_UNBOX_INT | MVM_BOOL_MODE_UNBOX_NUM | MVM_BOOL_MODE_UNBOX_STR_NOT_EMPTY
    | MVM_BOOL_MODE_UNBOX_STR_NOT_EMPTY_OR_ZERO | MVM_BOOL_MODE_BIGINT | MVM_BOOL_MODE_ITER
    | MVM_BOOL_MODE_HAS_ELEMS | MVM_BOOL_MODE_NOT_TYPE_OBJECT =>
      some (to_uint8 (tc.MVM_coerce_istrue objval))
    | _ => none
  | MVM_OP_if_n | MVM_OP_unless_n =>
    some (if value_n64_nonzero (g.facts_at flag_facts).value then 1 else 0)
  | _ => none

/-- Iffy ops that operate on a known value register can turn into goto or be dropped. -/
def optimize_iffy (tc : MVMThreadContext) (g : MVMSpeshGraph) (ins bb : Nat) : MVMSpeshGraph :=
  let flag_facts := MVM_spesh_get_facts tc g ((g.ins ins).operand 0)
  match iffy_negated_op (g.ins ins).info.opcode with
  | none => g
  | some negated_op =>
    if has_flag (g.facts_at flag_facts).flags MVM_SPESH_FACT_KNOWN_VALUE then
      match iffy_truthvalue tc g flag_facts (g.ins ins).info.opcode with
      | none => g
      | some truthvalue =>
        let g := MVM_spesh_use_facts tc g flag_facts
        let g := g.set_facts_at flag_facts
          { g.facts_at flag_facts with usages := (g.facts_at flag_facts).usages - 1 }
        let truthvalue : Nat := if truthvalue ≠ 0 then 1 else 0
        if truthvalue ≠ negated_op then
          let g := g.set_info ins (tc.MVM_op_get_op MVM_OP_goto)
          let g := g.set_operand ins 0 ((g.ins ins).operand 1)
          MVM_spesh_manipulate_remove_successor tc g bb (g.bbs bb).linear_next
        else
          let g := MVM_spesh_manipulate_remove_successor tc g bb
            ((g.ins ins).operand 1).get_ins_bb
          MVM_spesh_manipulate_delete_ins tc g bb ins
    else g

/-- The rewrite of objprimspec when the type is known. -/
def optimize_objprimspec (tc : MVMThreadContext) (g : MVMSpeshGraph) (ins : Nat) :
    MVMSpeshGraph :=
  let obj_facts := MVM_spesh_get_facts tc g ((g.ins ins).operand 1)
  if has_flag (g.facts_at obj_facts).flags MVM_SPESH_FACT_KNOWN_TYPE &&
      (g.facts_at obj_facts).type != 0 then
    let result_facts := MVM_spesh_get_facts tc g ((g.ins ins).operand 0)
    let g := g.set_info ins (tc.MVM_op_get_op MVM_OP_const_i64_16)
    let g := g.set_facts_at result_facts
      { g.facts_at result_facts with
        flags := (g.facts_at result_facts).flags ||| MVM_SPESH_FACT_KNOWN_VALUE }
    let g := g.set_facts_at result_facts
      { g.facts_at result_facts with
        value := store_i16 (g.facts_at result_facts).value
          (tc.get_storage_spec (tc.STABLE (g.facts_at obj_facts).type)).boxed_primitive }
    let g := g.set_operand ins 1
      (MVMSpeshOperand.lit_i16 (value_i16 (g.facts_at result_facts).value))
    let g := MVM_spesh_use_facts tc g obj_facts
    g.set_facts_at obj_facts
      { g.facts_at obj_facts with usages := (g.facts_at obj_facts).usages - 1 }
  else g

/-- Optimizes a hllize instruction away if the type is known and already in the right HLL,
by turning it into a set. -/
def optimize_hllize (tc : MVMThreadContext) (g : MVMSpeshGraph) (ins : Nat) : MVMSpeshGraph :=
  let obj_facts := MVM_spesh_get_facts tc g ((g.ins ins).operand 1)
  if has_flag (g.facts_at obj_facts).flags MVM_SPESH_FACT_KNOWN_TYPE &&
      (g.facts_at obj_facts).type != 0 then
    if tc.hll_owner (tc.STABLE (g.facts_at obj_facts).type) = g.sf.hll_config then
      let g := g.set_info ins (tc.MVM_op_get_op MVM_OP_set)
      let g := MVM_spesh_use_facts tc g obj_facts
      copy_facts tc g ((g.ins ins).operand 0) ((g.ins ins).operand 1)
    else g
  else g

/-- Turns a decont into a set, if we know it is not needed, and propagates what is known of
the decontainerized value otherwise. -/
def optimize_decont (tc : MVMThreadContext) (g : MVMSpeshGraph) (bb ins : Nat) :
    MVMSpeshGraph :=
  let obj_facts := MVM_spesh_get_facts tc g ((g.ins ins).operand 1)
  if has_flag (g.facts_at obj_facts).flags
      (MVM_SPESH_FACT_DECONTED ||| MVM_SPESH_FACT_TYPEOBJ) then
    let g := g.set_info ins (tc.MVM_op_get_op MVM_OP_set)
    let g := MVM_spesh_use_facts tc g obj_facts
    copy_facts tc g ((g.ins ins).operand 0) ((g.ins ins).operand 1)
  else
    let g :=
      if has_flag (g.facts_at obj_facts).flags MVM_SPESH_FACT_KNOWN_TYPE &&
          (g.facts_at obj_facts).type != 0 then
        let stable := tc.STABLE (g.facts_at obj_facts).type
        match tc.container_spec stable with
        | some contspec =>
          if contspec.fetch_never_invokes then
            match contspec.spesh with
            | some spesh => spesh stable g bb ins
            | none => g
          else g
        | none => g
      else g
    let g := MVM_spesh_use_facts tc g obj_facts
    let res_facts := MVM_spesh_get_facts tc g ((g.ins ins).operand 0)
    let g :=
      if has_flag (g.facts_at obj_facts).flags MVM_SPESH_FACT_KNOWN_DECONT_TYPE then
        let g := g.set_facts_at res_facts
          { g.facts_at res_facts with type := (g.facts_at obj_facts).decont_type }
        g.set_facts_at res_facts
          { g.facts_at res_facts with
            flags := (g.facts_at res_facts).flags ||| MVM_SPESH_FACT_KNOWN_TYPE }
      else g
    if has_flag (g.facts_at obj_facts).flags MVM_SPESH_FACT_DECONT_CONCRETE then
      g.set_facts_at res_facts
        { g.facts_at res_facts with
          flags := (g.facts_at res_facts).flags ||| MVM_SPESH_FACT_CONCRETE }
    else if has_flag (g.facts_at obj_facts).flags MVM_SPESH_FACT_DECONT_TYPEOBJ then
      g.set_facts_at res_facts
        { g.facts_at res_facts with
          flags := (g.facts_at res_facts).flags ||| MVM_SPESH_FACT_TYPEOBJ }
    else g

/-- The end of `optimize_decont` (from `MVM_spesh_use_facts(tc, g, obj_facts)` on), which
propagates what is known of the decontainerized value to the result, as a function of the
graph `g` that the container's `spesh` hook left and of `obj_facts`. -/
def optimize_decont_propagate (tc : MVMThreadContext) (g : MVMSpeshGraph) (ins : Nat)
    (obj_facts : Nat × Nat) : MVMSpeshGraph :=
  let g := MVM_spesh_use_facts tc g obj_facts
  let res_facts := MVM_spesh_get_facts tc g ((g.ins ins).operand 0)
  let g :=
    if has_flag (g.facts_at obj_facts).flags MVM_SPESH_FACT_KNOWN_DECONT_TYPE then
      let g := g.set_facts_at res_facts
        { g.facts_at res_facts with type := (g.facts_at obj_facts).decont_type }
      g.set_facts_at res_facts
        { g.facts_at res_facts with
          flags := (g.facts_at res_facts).flags ||| MVM_SPESH_FACT_KNOWN_TYPE }
    else g
  if has_flag (g.facts_at obj_facts).flags MVM_SPESH_FACT_DECONT_CONCRETE then
    g.set_facts_at res_facts
      { g.facts_at res_facts with
        flags := (g.facts_at res_facts).flags ||| MVM_SPESH_FACT_CONCRETE }
  else if has_flag (g.facts_at obj_facts).flags MVM_SPESH_FACT_DECONT_TYPEOBJ then
    g.set_facts_at res_facts
      { g.facts_at res_facts with
        flags := (g.facts_at res_facts).flags ||| MVM_SPESH_FACT_TYPEOBJ }
  else g

/-- The graph that the container's `spesh` hook leaves in `optimize_decont` (the hook is
called when the type of the source is known, its container spec never invokes on fetch and
has a hook). -/
def optimize_decont_hooked (tc : MVMThreadContext) (g : MVMSpeshGraph) (bb ins : Nat)
    (obj_facts : Nat × Nat) : MVMSpeshGraph :=
  if has_flag (g.facts_at obj_facts).flags MVM_SPESH_FACT_KNOWN_TYPE &&
      (g.facts_at obj_facts).type != 0 then
    let stable := tc.STABLE (g.facts_at obj_facts).type
    match tc.container_spec stable with
    | some contspec =>
      if contspec.fetch_never_invokes then
        match contspec.spesh with
        | some spesh => spesh stable g bb ins
        | none => g
      else g
    | none => g
  else g

/-- Optimize away assertparamcheck if we know it will pass. -/
def optimize_assertparamcheck (tc : MVMThreadContext) (g : MVMSpeshGraph) (bb ins : Nat) :
    MVMSpeshGraph :=
  let facts := MVM_spesh_get_facts tc g ((g.ins ins).operand 0)
  if has_flag (g.facts_at facts).flags MVM_SPESH_FACT_KNOWN_VALUE &&
      value_i64 (g.facts_at facts).value != 0 then
    let g := MVM_spesh_use_facts tc g facts
    let g := g.set_facts_at facts
      { g.facts_at facts with usages := (g.facts_at facts).usages - 1 }
    MVM_spesh_manipulate_delete_ins tc g bb ins
  else g

/-- The rewrite of `can` and `can_s`, which the driver does not call. -/
def optimize_can_op (tc : MVMThreadContext) (g : MVMSpeshGraph) (_bb ins : Nat) :
    MVMSpeshGraph :=
  let obj_facts := MVM_spesh_get_facts tc g ((g.ins ins).operand 1)
  if !has_flag (g.facts_at obj_facts).flags MVM_SPESH_FACT_KNOWN_TYPE ||
      (g.facts_at obj_facts).type == 0 then g
  else
    let method_name : Option Nat :=
      if (g.ins ins).info.opcode = MVM_OP_can_s then
        let name_facts := MVM_spesh_get_facts tc g ((g.ins ins).operand 2)
        if !has_flag (g.facts_at name_facts).flags MVM_SPESH_FACT_KNOWN_VALUE then none
        else some (g.facts_at name_facts).value
      else some (MVM_spesh_get_string tc g ((g.ins ins).operand 2))
    match method_name with
    | none => g
    | some method_name =>
      let can_result := tc.MVM_6model_can_method_cache_only (g.facts_at obj_facts).type
        method_name
      if can_result = -1 then g
      else
        let g :=
          if (g.ins ins).info.opcode = MVM_OP_can_s then
            let name_facts := MVM_spesh_get_facts tc g ((g.ins ins).operand 2)
            g.set_facts_at name_facts
              { g.facts_at name_facts with usages := (g.facts_at name_facts).usages - 1 }
          else g
        let result_facts := MVM_spesh_get_facts tc g ((g.ins ins).operand 0)
        let g := g.set_info ins (tc.MVM_op_get_op MVM_OP_const_i64_16)
        let g := g.set_facts_at result_facts
          { g.facts_at result_facts with
            flags := (g.facts_at result_facts).flags ||| MVM_SPESH_FACT_KNOWN_VALUE }
        let g := g.set_operand ins 1 (MVMSpeshOperand.lit_i16 (to_int16 can_result))
        let g := g.set_facts_at result_facts
          { g.facts_at result_facts with
            value := store_i16 (g.facts_at result_facts).value can_result }
        let g := g.set_facts_at obj_facts
          { g.facts_at obj_facts with usages := (g.facts_at obj_facts).usages - 1 }
        MVM_spesh_use_facts tc g obj_facts

/-- If we have a const_i and a coerce_in, we can emit a const_n instead. -/
def optimize_coerce (tc : MVMThreadContext) (g : MVMSpeshGraph) (_bb ins : Nat) :
    MVMSpeshGraph :=
  let facts := MVM_spesh_get_facts tc g ((g.ins ins).operand 1)
  if has_flag (g.facts_at facts).flags MVM_SPESH_FACT_KNOWN_VALUE then
    let result_facts := MVM_spesh_get_facts tc g ((g.ins ins).operand 0)
    let result := tc.i64_to_n64 (value_i64 (g.facts_at facts).value)
    let g := MVM_spesh_use_facts tc g facts
    let g := g.set_facts_at facts
      { g.facts_at facts with usages := (g.facts_at facts).usages - 1 }
    let g := g.set_info ins (tc.MVM_op_get_op MVM_OP_const_n64)
    let g := g.set_operand ins 1 (MVMSpeshOperand.lit_n64 result)
    let g := g.set_facts_at result_facts
      { g.facts_at result_facts with
        flags := (g.facts_at result_facts).flags ||| MVM_SPESH_FACT_KNOWN_VALUE }
    g.set_facts_at result_facts { g.facts_at result_facts with value := result }
  else g

/-- If we know the type of a significant operand, we might try to specialize by
representation. -/
def optimize_repr_op (tc : MVMThreadContext) (g : MVMSpeshGraph) (bb ins type_operand : Nat) :
    MVMSpeshGraph :=
  let facts := MVM_spesh_get_facts tc g ((g.ins ins).operand type_operand)
  if has_flag (g.facts_at facts).flags MVM_SPESH_FACT_KNOWN_TYPE &&
      (g.facts_at facts).type != 0 then
    match tc.REPR_spesh (g.facts_at facts).type with
    | some spesh =>
      let g := spesh (tc.STABLE (g.facts_at facts).type) g bb ins
      MVM_spesh_use_facts tc g facts
    | none => g
  else g

/-- The instruction `ins->next` of an instruction of a block; `none` is `NULL`. -/
def list_next (p : Nat) : List Nat → Option Nat
  | [] => none
  | q :: rest => if q = p then rest.head? else list_next p rest

/-- The instruction `ins->prev` of an instruction of a block; `none` is `NULL`. -/
def list_prev (p : Nat) : List Nat → Option Nat
  | [] => none
  | q :: rest =>
    if q = p then none
    else if rest.head? = some p then some q
    else list_prev p rest

/-- The rewrite of smrt_strify and smrt_numify on a known type. -/
def optimize_smart_coerce (tc : MVMThreadContext) (g : MVMSpeshGraph) (bb ins : Nat) :
    MVMSpeshGraph :=
  let facts := MVM_spesh_get_facts tc g ((g.ins ins).operand 1)
  let is_strify : Bool := (g.ins ins).info.opcode == MVM_OP_smrt_strify
  if has_flag (g.facts_at facts).flags
      (MVM_SPESH_FACT_KNOWN_TYPE ||| MVM_SPESH_FACT_CONCRETE) then
    let ss := tc.get_storage_spec (tc.STABLE (g.facts_at facts).type)
    if is_strify && has_flag ss.can_box MVM_STORAGE_SPEC_CAN_BOX_STR then
      let g := MVM_spesh_use_facts tc g facts
      let g := g.set_info ins (tc.MVM_op_get_op MVM_OP_unbox_s)
      optimize_repr_op tc g bb ins 1
    else
      let can_result := tc.MVM_6model_can_method_cache_only (g.facts_at facts).type
        (if is_strify then tc.str_consts_Str else tc.str_consts_Num)
      if can_result = -1 then g
      else if can_result = 0 then
        let g := MVM_spesh_use_facts tc g facts
        if is_strify && tc.REPR_ID (g.facts_at facts).type == MVM_REPR_ID_MVMException then
          let old_opers := (g.ins ins).operands
          let g := g.set_info ins (tc.MVM_op_get_op MVM_OP_sp_get_s)
          g.set_operands ins
            [old_opers.getD 0 (MVMSpeshOperand.lit_i64 0),
             old_opers.getD 1 (MVMSpeshOperand.lit_i64 0),
             MVMSpeshOperand.lit_i16 tc.offsetof_MVMException_body_message]
        else if has_flag ss.can_box
            (MVM_STORAGE_SPEC_CAN_BOX_NUM ||| MVM_STORAGE_SPEC_CAN_BOX_INT) then
          let register_type : MVMRegKind :=
            if has_flag ss.can_box MVM_STORAGE_SPEC_CAN_BOX_INT then MVM_reg_int64
            else MVM_reg_num64
          let ng := MVM_spesh_alloc_ins tc g
          let new_ins := ng.1
          let g := ng.2
          let tg := tc.MVM_spesh_manipulate_get_temp_reg g register_type
          let temp := tg.1
          let g := tg.2
          let orig_dst := (g.ins ins).operand 0
          let g := g.set_info ins (tc.MVM_op_get_op
            (if register_type = MVM_reg_num64 then MVM_OP_unbox_n else MVM_OP_unbox_i))
          let g := g.set_operand ins 0 temp
          let new_info :=
            if is_strify then
              tc.MVM_op_get_op
                (if register_type = MVM_reg_num64 then MVM_OP_coerce_ns else MVM_OP_coerce_is)
            else
              tc.MVM_op_get_op
                (if register_type = MVM_reg_num64 then MVM_OP_set else MVM_OP_coerce_in)
          let g := g.set_ins new_ins
            { info := new_info, operands := [orig_dst, temp], annotations := [] }
          let g :=
            if (g.ins new_ins).info.opcode ≠ MVM_OP_set then
              let g := MVM_spesh_manipulate_insert_ins tc g bb (some ins) new_ins
              let tf := MVM_spesh_get_facts tc g temp
              g.set_facts_at tf { g.facts_at tf with usages := (g.facts_at tf).usages + 1 }
            else
              g.set_operand ins 0 orig_dst
          let g := optimize_repr_op tc g bb ins 1
          tc.MVM_spesh_manipulate_release_temp_reg g temp
        else if !is_strify && (tc.REPR_ID (g.facts_at facts).type == MVM_REPR_ID_MVMArray ||
            tc.REPR_ID (g.facts_at facts).type == MVM_REPR_ID_MVMHash) then
          let ng := MVM_spesh_alloc_ins tc g
          let new_ins := ng.1
          let g := ng.2
          let tg := tc.MVM_spesh_manipulate_get_temp_reg g MVM_reg_int64
          let temp := tg.1
          let g := tg.2
          let orig_dst := (g.ins ins).operand 0
          let g := g.set_info ins (tc.MVM_op_get_op MVM_OP_elems)
          let g := g.set_operand ins 0 temp
          let g := g.set_ins new_ins
            { info := tc.MVM_op_get_op MVM_OP_coerce_in, operands := [orig_dst, temp],
              annotations := [] }
          let g := MVM_spesh_manipulate_insert_ins tc g bb (some ins) new_ins
          let g := optimize_repr_op tc g bb ins 1
          let tf := MVM_spesh_get_facts tc g temp
          let g := g.set_facts_at tf { g.facts_at tf with usages := (g.facts_at tf).usages + 1 }
          tc.MVM_spesh_manipulate_release_temp_reg g temp
        else g
      else g
  else g

/-- The branch of `optimize_smart_coerce` for a type that can box a native number or integer:
an `unbox_n` or `unbox_i` into a temporary register, followed, unless a `set` would do, by
the coercion of the temporary into the destination. -/
def optimize_smart_coerce_unbox (tc : MVMThreadContext) (g : MVMSpeshGraph) (bb ins : Nat)
    (is_strify : Bool) (register_type : MVMRegKind) : MVMSpeshGraph :=
  let ng := MVM_spesh_alloc_ins tc g
  let new_ins := ng.1
  let g := ng.2
  let tg := tc.MVM_spesh_manipulate_get_temp_reg g register_type
  let temp := tg.1
  let g := tg.2
  let orig_dst := (g.ins ins).operand 0
  let g := g.set_info ins (tc.MVM_op_get_op
    (if register_type = MVM_reg_num64 then MVM_OP_unbox_n else MVM_OP_unbox_i))
  let g := g.set_operand ins 0 temp
  let new_info :=
    if is_strify then
      tc.MVM_op_get_op
        (if register_type = MVM_reg_num64 then MVM_OP_coerce_ns else MVM_OP_coerce_is)
    else
      tc.MVM_op_get_op
        (if register_type = MVM_reg_num64 then MVM_OP_set else MVM_OP_coerce_in)
  let g := g.set_ins new_ins
    { info := new_info, operands := [orig_dst, temp], annotations := [] }
  let g :=
    if (g.ins new_ins).info.opcode ≠ MVM_OP_set then
      let g := MVM_spesh_manipulate_insert_ins tc g bb (some ins) new_ins
      let tf := MVM_spesh_get_facts tc g temp
      g.set_facts_at tf { g.facts_at tf with usages := (g.facts_at tf).usages + 1 }
    else
      g.set_operand ins 0 orig_dst
  let g := optimize_repr_op tc g bb ins 1
  tc.MVM_spesh_manipulate_release_temp_reg g temp

/-- The branch of `optimize_smart_coerce` for the numification of an array or a hash:
`elems` into a temporary register, followed by its coercion into the destination. -/
def optimize_smart_coerce_elems (tc : MVMThreadContext) (g : MVMSpeshGraph) (bb ins : Nat) :
    MVMSpeshGraph :=
  let ng := MVM_spesh_alloc_ins tc g
  let new_ins := ng.1
  let g := ng.2
  let tg := tc.MVM_spesh_manipulate_get_temp_reg g MVM_reg_int64
  let temp := tg.1
  let g := tg.2
  let orig_dst := (g.ins ins).operand 0
  let g := g.set_info ins (tc.MVM_op_get_op MVM_OP_elems)
  let g := g.set_operand ins 0 temp
  let g := g.set_ins new_ins
    { info := tc.MVM_op_get_op MVM_OP_coerce_in, operands := [orig_dst, temp],
      annotations := [] }
  let g := MVM_spesh_manipulate_insert_ins tc g bb (some ins) new_ins
  let g := optimize_repr_op tc g bb ins 1
  let tf := MVM_spesh_get_facts tc g temp
  let g := g.set_facts_at tf { g.facts_at tf with usages := (g.facts_at tf).usages + 1 }
  tc.MVM_spesh_manipulate_release_temp_reg g temp

/-- The rewrite of istrue and isfalse on a known type with a simple boolification mode. -/
def optimize_istrue_isfalse (tc : MVMThreadContext) (g : MVMSpeshGraph) (bb ins : Nat) :
    MVMSpeshGraph :=
  let facts := MVM_spesh_get_facts tc g ((g.ins ins).operand 1)
  let negated : Option Bool :=
    if (g.ins ins).info.opcode = MVM_OP_istrue then some false
    else if (g.ins ins).info.opcode = MVM_OP_isfalse then some true
    else none
  match negated with
  | none => g
  | some negated_op =>
    if has_flag (g.facts_at facts).flags MVM_SPESH_FACT_KNOWN_TYPE then
      let bs := tc.boolification_mode (tc.STABLE (g.facts_at facts).type)
      let rewritten : Option MVMSpeshGraph :=
        match (match bs with | none => MVM_BOOL_MODE_NOT_TYPE_OBJECT | some mode => mode) with
        | MVM_BOOL_MODE_UNBOX_INT =>
          let g := g.set_info ins (tc.MVM_op_get_op MVM_OP_unbox_i)
          some (optimize_repr_op tc g bb ins 1)
        | MVM_BOOL_MODE_NOT_TYPE_OBJECT =>
          let g := g.set_info ins (tc.MVM_op_get_op MVM_OP_isconcrete)
          some (optimize_isconcrete tc g ins)
        | _ => none
      match rewritten with
      | none => g
      | some g =>
        let g :=
          if negated_op then
            let ng := MVM_spesh_alloc_ins tc g
            let new_ins := ng.1
            let g := ng.2
            let res_facts := MVM_spesh_get_facts tc g ((g.ins ins).operand 0)
            let g := g.set_ins new_ins
              { info := tc.MVM_op_get_op MVM_OP_not_i,
                operands := [(g.ins ins).operand 0, (g.ins ins).operand 0],
                annotations := [] }
            let g := MVM_spesh_manipulate_insert_ins tc g bb (some ins) new_ins
            if has_flag (g.facts_at res_facts).flags MVM_SPESH_FACT_KNOWN_VALUE then
              g.set_facts_at res_facts
                { g.facts_at res_facts with
                  value := store_i64
                    (if value_i64 (g.facts_at res_facts).value = 0 then 1 else 0) }
            else g
          else g
        MVM_spesh_use_facts tc g facts
    else g

/-- The `switch` of `optimize_istrue_isfalse` on the boolification mode of the known type:
the graph after the rewrite of the instruction, `none` for `default: return`. -/
def optimize_istrue_isfalse_rewrite (tc : MVMThreadContext) (g : MVMSpeshGraph) (bb ins : Nat) :
    Option MVMSpeshGraph :=
  let facts := MVM_spesh_get_facts tc g ((g.ins ins).operand 1)
  let bs := tc.boolification_mode (tc.STABLE (g.facts_at facts).type)
  match (match bs with | none => MVM_BOOL_MODE_NOT_TYPE_OBJECT | some mode => mode) with
  | MVM_BOOL_MODE_UNBOX_INT =>
    let g := g.set_info ins (tc.MVM_op_get_op MVM_OP_unbox_i)
    some (optimize_repr_op tc g bb ins 1)
  | MVM_BOOL_MODE_NOT_TYPE_OBJECT =>
    let g := g.set_info ins (tc.MVM_op_get_op MVM_OP_isconcrete)
    some (optimize_isconcrete tc g ins)
  | _ => none

/-- The block `if (negated_op) { ... }` of `optimize_istrue_isfalse`, when `negated_op` is
set: the new `not_i` after the instruction and the update of a known value. -/
def optimize_istrue_isfalse_negate (tc : MVMThreadContext) (g : MVMSpeshGraph) (bb ins : Nat) :
    MVMSpeshGraph :=
  let ng := MVM_spesh_alloc_ins tc g
  let new_ins := ng.1
  let g := ng.2
  let res_facts := MVM_spesh_get_facts tc g ((g.ins ins).operand 0)
  let g := g.set_ins new_ins
    { info := tc.MVM_op_get_op MVM_OP_not_i,
      operands := [(g.ins ins).operand 0, (g.ins ins).operand 0],
      annotations := [] }
  let g := MVM_spesh_manipulate_insert_ins tc g bb (some ins) new_ins
  if has_flag (g.facts_at res_facts).flags MVM_SPESH_FACT_KNOWN_VALUE then
    g.set_facts_at res_facts
      { g.facts_at res_facts with
        value := store_i64
          (if value_i64 (g.facts_at res_facts).value = 0 then 1 else 0) }
  else g

/-- Checks if we have specialized on the invocant. -/
def specialized_on_invocant (_tc : MVMThreadContext) (g : MVMSpeshGraph) : Bool :=
  g.arg_guards.any fun guard => guard.slot == 0

/-- Optimizes away a lexical lookup when we know the value will not change from the logged
one. -/
def optimize_getlex_known (tc : MVMThreadContext) (g : MVMSpeshGraph) (bb ins : Nat) :
    MVMSpeshGraph :=
  match list_next ins (g.bbs bb).ins with
  | none => g
  | some next =>
    if (g.ins next).info.opcode = MVM_OP_sp_log then
      let log_slot := to_uint16 (((g.ins next).operand 1).get_lit_i16 * tc.MVM_SPESH_LOG_RUNS)
      let log_obj := g.log_slots log_slot
      if log_obj ≠ 0 then
        let sg := MVM_spesh_add_spesh_slot tc g log_obj
        let ss := to_uint16 sg.1
        let g := sg.2
        let g := MVM_spesh_manipulate_delete_ins tc g bb next
        let uf := MVM_spesh_get_facts tc g ((g.ins ins).operand 1)
        let g := g.set_facts_at uf { g.facts_at uf with usages := (g.facts_at uf).usages - 1 }
        let g := g.set_info ins (tc.MVM_op_get_op MVM_OP_sp_getspeshslot)
        let g := g.set_operand ins 1 (MVMSpeshOperand.lit_i16 (to_int16 ss))
        let facts := MVM_spesh_get_facts tc g ((g.ins ins).operand 0)
        let g := g.set_facts_at facts
          { g.facts_at facts with
            flags := (g.facts_at facts).flags |||
              (MVM_SPESH_FACT_KNOWN_TYPE ||| MVM_SPESH_FACT_KNOWN_VALUE) }
        let g := g.set_facts_at facts { g.facts_at facts with type := tc.WHAT (tc.STABLE log_obj) }
        let g := g.set_facts_at facts { g.facts_at facts with value := log_obj }
        if tc.IS_CONCRETE log_obj then
          let g := g.set_facts_at facts
            { g.facts_at facts with
              flags := (g.facts_at facts).flags ||| MVM_SPESH_FACT_CONCRETE }
          if (tc.container_spec (tc.STABLE log_obj)).isNone then
            g.set_facts_at facts
              { g.facts_at facts with
                flags := (g.facts_at facts).flags ||| MVM_SPESH_FACT_DECONTED }
          else g
        else
          g.set_facts_at facts
            { g.facts_at facts with
              flags := (g.facts_at facts).flags ||| MVM_SPESH_FACT_TYPEOBJ }
      else g
    else g

/-- The test of one guard of a candidate against the recorded argument facts: `true` when
`guard_failed` is set. -/
def guard_failed (tc : MVMThreadContext) (g : MVMSpeshGraph) (arg_info : MVMSpeshCallInfo)
    (guard : MVMSpeshCandGuard) : Bool :=
  let facts : Option (Nat × Nat) :=
    if (guard.slot : Int) < MAX_ARGS_FOR_OPT then arg_info.arg_facts guard.slot else none
  let want_st := guard.match_st
  match facts with
  | none => true
  | some facts =>
    match guard.kind with
    | MVM_SPESH_GUARD_CONC =>
      !has_flag (g.facts_at facts).flags MVM_SPESH_FACT_CONCRETE ||
        !has_flag (g.facts_at facts).flags MVM_SPESH_FACT_KNOWN_TYPE ||
        tc.STABLE (g.facts_at facts).type != want_st
    | MVM_SPESH_GUARD_TYPE =>
      !has_flag (g.facts_at facts).flags MVM_SPESH_FACT_TYPEOBJ ||
        !has_flag (g.facts_at facts).flags MVM_SPESH_FACT_KNOWN_TYPE ||
        tc.STABLE (g.facts_at facts).type != want_st
    | MVM_SPESH_GUARD_DC_CONC =>
      !has_flag (g.facts_at facts).flags MVM_SPESH_FACT_DECONT_CONCRETE ||
        !has_flag (g.facts_at facts).flags MVM_SPESH_FACT_KNOWN_DECONT_TYPE ||
        tc.STABLE (g.facts_at facts).decont_type != want_st
    | MVM_SPESH_GUARD_DC_TYPE =>
      !has_flag (g.facts_at facts).flags MVM_SPESH_FACT_DECONT_TYPEOBJ ||
        !has_flag (g.facts_at facts).flags MVM_SPESH_FACT_KNOWN_DECONT_TYPE ||
        tc.STABLE (g.facts_at facts).decont_type != want_st
    | MVM_SPESH_GUARD_other => true

/-- The loop over the candidates of `try_find_spesh_candidate`, from candidate `i` on. -/
def try_find_spesh_candidate_from (tc : MVMThreadContext) (g : MVMSpeshGraph)
    (arg_info : MVMSpeshCallInfo) : List MVMSpeshCandidate → Nat → Int
  | [], _ => -1
  | cand :: rest, i =>
    if cand.cs = arg_info.cs && !(cand.guards.any (guard_failed tc g arg_info)) then (i : Int)
    else try_find_spesh_candidate_from tc g arg_info rest (i + 1)

/-- Determines if there is a matching spesh candidate for a callee and a given set of
argument info. -/
def try_find_spesh_candidate (tc : MVMThreadContext) (g : MVMSpeshGraph) (code : Nat)
    (arg_info : MVMSpeshCallInfo) : Int :=
  try_find_spesh_candidate_from tc g arg_info (tc.spesh_candidates code) 0

/-- The resolution of the code object to call in `optimize_call`: `target`, `0` when none
was found. -/
def optimize_call_target (tc : MVMThreadContext) (code : Nat) (arg_info : MVMSpeshCallInfo) :
    Nat :=
  if tc.REPR_ID code = MVM_REPR_ID_MVMCode then code
  else
    match tc.invocation_spec (tc.STABLE code) with
    | none => 0
    | some is =>
      if !tc.MVM_is_null is.md_class_handle then
        let dest_i64 := tc.get_attribute_i64 code is.md_class_handle is.md_valid_attr_name
          is.md_valid_hint
        if dest_i64 ≠ 0 then
          let dest_o := tc.get_attribute_o code is.md_class_handle is.md_cache_attr_name
            is.md_cache_hint
          if !tc.MVM_is_null dest_o then
            let found := tc.MVM_multi_cache_find_spesh dest_o arg_info
            if found ≠ 0 then
              if tc.REPR_ID found = MVM_REPR_ID_MVMCode then found
              else
                match tc.invocation_spec (tc.STABLE found) with
                | none => 0
                | some m_is =>
                  if !tc.MVM_is_null m_is.class_handle then
                    let dest_o := tc.get_attribute_o found is.class_handle is.attr_name is.hint
                    if tc.REPR_ID dest_o = MVM_REPR_ID_MVMCode then dest_o else 0
                  else 0
            else 0
          else 0
        else 0
      else if !tc.MVM_is_null is.class_handle then
        let dest_o := tc.get_attribute_o code is.class_handle is.attr_name is.hint
        if tc.REPR_ID dest_o = MVM_REPR_ID_MVMCode then dest_o else 0
      else 0

/-- Drives optimization of a call. -/
def optimize_call (tc : MVMThreadContext) (g : MVMSpeshGraph) (bb ins callee_idx : Nat)
    (arg_info : MVMSpeshCallInfo) : Except Fault MVMSpeshGraph :=
  let cg := MVM_spesh_get_and_use_facts tc g ((g.ins ins).operand callee_idx)
  let callee_facts := cg.1
  let g := cg.2
  if has_flag (g.facts_at callee_facts).flags MVM_SPESH_FACT_KNOWN_VALUE then
    let code := (g.facts_at callee_facts).value
    let target := optimize_call_target tc code arg_info
    let inserted : Except Fault MVMSpeshGraph :=
      if target ≠ 0 && target ≠ code && !tc.is_compiler_stub target then
        match arg_info.prepargs_ins with
        | none => Except.error Fault.null_deref
        | some pa_ins =>
          let ng := MVM_spesh_alloc_ins tc g
          let ss_ins := ng.1
          let g := ng.2
          let sg := MVM_spesh_add_spesh_slot tc g target
          let g := sg.2
          let g := g.set_ins ss_ins
            { info := tc.MVM_op_get_op MVM_OP_sp_getspeshslot,
              operands := [(g.ins ins).operand callee_idx, MVMSpeshOperand.lit_i16 sg.1],
              annotations := [] }
          Except.ok (MVM_spesh_manipulate_insert_ins tc g bb
            (list_prev pa_ins (g.bbs bb).ins) ss_ins)
      else Except.ok g
    match inserted with
    | Except.error e => Except.error e
    | Except.ok g =>
      if target ≠ 0 then
        let spesh_cand := try_find_spesh_candidate tc g target arg_info
        if spesh_cand ≥ 0 then
          match tc.MVM_spesh_inline_try_get_graph g target spesh_cand.toNat with
          | some inline_graph =>
            Except.ok (tc.MVM_spesh_inline g arg_info bb ins inline_graph target)
          | none =>
            if (g.ins ins).info.opcode = MVM_OP_invoke_v then
              let g := g.set_operands ins
                [(g.ins ins).operand 0, MVMSpeshOperand.lit_i16 (to_int16 spesh_cand),
                 MVMSpeshOperand.lit_i64 0]
              Except.ok (g.set_info ins (tc.MVM_op_get_op MVM_OP_sp_fastinvoke_v))
            else
              let g := g.set_operands ins
                [(g.ins ins).operand 0, (g.ins ins).operand 1,
                 MVMSpeshOperand.lit_i16 (to_int16 spesh_cand)]
              match (g.ins ins).info.opcode with
              | MVM_OP_invoke_i =>
                Except.ok (g.set_info ins (tc.MVM_op_get_op MVM_OP_sp_fastinvoke_i))
              | MVM_OP_invoke_n =>
                Except.ok (g.set_info ins (tc.MVM_op_get_op MVM_OP_sp_fastinvoke_n))
              | MVM_OP_invoke_s =>
                Except.ok (g.set_info ins (tc.MVM_op_get_op MVM_OP_sp_fastinvoke_s))
              | MVM_OP_invoke_o =>
                Except.ok (g.set_info ins (tc.MVM_op_get_op MVM_OP_sp_fastinvoke_o))
              | _ => Except.error Fault.unhandled_invoke
        else Except.ok g
      else Except.ok g
  else Except.ok g

/-- The block `if (target && target != code && !is_compiler_stub) { ... }` of
`optimize_call`: the resolved target goes into a spesh slot and a lookup of that slot is
inserted before the `prepargs` of the call info. -/
def optimize_call_insert (tc : MVMThreadContext) (g : MVMSpeshGraph) (bb ins callee_idx : Nat)
    (arg_info : MVMSpeshCallInfo) (code target : Nat) : Except Fault MVMSpeshGraph :=
  if target ≠ 0 && target ≠ code && !tc.is_compiler_stub target then
    match arg_info.prepargs_ins with
    | none => Except.error Fault.null_deref
    | some pa_ins =>
      let ng := MVM_spesh_alloc_ins tc g
      let ss_ins := ng.1
      let g := ng.2
      let sg := MVM_spesh_add_spesh_slot tc g target
      let g := sg.2
      let g := g.set_ins ss_ins
        { info := tc.MVM_op_get_op MVM_OP_sp_getspeshslot,
          operands := [(g.ins ins).operand callee_idx, MVMSpeshOperand.lit_i16 sg.1],
          annotations := [] }
      Except.ok (MVM_spesh_manipulate_insert_ins tc g bb
        (list_prev pa_ins (g.bbs bb).ins) ss_ins)
  else Except.ok g

/-- The block `if (target) { ... }` of `optimize_call`: the call is pointed at a
specialization of the target, or inlined. -/
def optimize_call_point (tc : MVMThreadContext) (g : MVMSpeshGraph) (bb ins : Nat)
    (arg_info : MVMSpeshCallInfo) (target : Nat) : Except Fault MVMSpeshGraph :=
  if target ≠ 0 then
    let spesh_cand := try_find_spesh_candidate tc g target arg_info
    if spesh_cand ≥ 0 then
      match tc.MVM_spesh_inline_try_get_graph g target spesh_cand.toNat with
      | some inline_graph =>
        Except.ok (tc.MVM_spesh_inline g arg_info bb ins inline_graph target)
      | none =>
        if (g.ins ins).info.opcode = MVM_OP_invoke_v then
          let g := g.set_operands ins
            [(g.ins ins).operand 0, MVMSpeshOperand.lit_i16 (to_int16 spesh_cand),
             MVMSpeshOperand.lit_i64 0]
          Except.ok (g.set_info ins (tc.MVM_op_get_op MVM_OP_sp_fastinvoke_v))
        else
          let g := g.set_operands ins
            [(g.ins ins).operand 0, (g.ins ins).operand 1,
             MVMSpeshOperand.lit_i16 (to_int16 spesh_cand)]
          match (g.ins ins).info.opcode with
          | MVM_OP_invoke_i =>
            Except.ok (g.set_info ins (tc.MVM_op_get_op MVM_OP_sp_fastinvoke_i))
          | MVM_OP_invoke_n =>
            Except.ok (g.set_info ins (tc.MVM_op_get_op MVM_OP_sp_fastinvoke_n))
          | MVM_OP_invoke_s =>
            Except.ok (g.set_info ins (tc.MVM_op_get_op MVM_OP_sp_fastinvoke_s))
          | MVM_OP_invoke_o =>
            Except.ok (g.set_info ins (tc.MVM_op_get_op MVM_OP_sp_fastinvoke_o))
          | _ => Except.error Fault.unhandled_invoke
    else Except.ok g
  else Except.ok g

/-- The loop over the extension-op records of `optimize_extop`.  The test
`extops[i].info == ins->info` compares the descriptors themselves: two records whose
descriptors are equal are taken to share one descriptor. -/
def optimize_extop_from (g : MVMSpeshGraph) (bb ins : Nat) : List MVMExtOpRecord → MVMSpeshGraph
  | [] => g
  | r :: rest =>
    if r.info = (g.ins ins).info then
      match r.spesh with
      | some spesh => spesh g bb ins
      | none => g
    else optimize_extop_from g bb ins rest

/-- Optimizes an extension op. -/
def optimize_extop (tc : MVMThreadContext) (g : MVMSpeshGraph) (bb ins : Nat) : MVMSpeshGraph :=
  optimize_extop_from g bb ins tc.extops

/-- The locals of the search of `optimize_throwcat`: `in_handlers[]`, `goto_bbs[]` and
`picked` (`none` is `-1`). -/
structure ThrowcatSearch where
  in_handlers : Nat → Bool
  goto_bbs : Nat → Option Nat
  picked : Option Nat

/-- The indices of the goto handlers whose category mask meets `category`, in order
(`handlers_found[0 .. num_found - 1]`). -/
def handlers_found (g : MVMSpeshGraph) (category : Nat) : List Nat :=
  (List.range g.sf.handlers.length).filter fun i =>
    match g.sf.handlers.get? i with
    | some h => h.action = MVM_EX_ACTION_GOTO && has_flag h.category_mask category
    | none => false

/-- The `while (ann)` loop of `optimize_throwcat` over the annotations of one instruction of
block `search_bb`; the flag is `true` on `goto search_over`. -/
def throwcat_track_handlers (search_bb : Nat) :
    List MVMSpeshAnn → ThrowcatSearch → ThrowcatSearch × Bool
  | [], st => (st, false)
  | ann :: rest, st =>
    match ann.type with
    | MVM_SPESH_ANN_FH_START =>
      throwcat_track_handlers search_bb rest
        { st with in_handlers := fun k =>
            if k = ann.frame_handler_index then true else st.in_handlers k }
    | MVM_SPESH_ANN_FH_END =>
      throwcat_track_handlers search_bb rest
        { st with in_handlers := fun k =>
            if k = ann.frame_handler_index then false else st.in_handlers k }
    | MVM_SPESH_ANN_FH_GOTO =>
      let st := { st with goto_bbs := fun k =>
        if k = ann.frame_handler_index then some search_bb else st.goto_bbs k }
      if st.picked = some ann.frame_handler_index then (st, true)
      else throwcat_track_handlers search_bb rest st
    | MVM_SPESH_ANN_other => throwcat_track_handlers search_bb rest st

/-- The `while (search_ins)` loop of `optimize_throwcat` over the instructions of block
`search_bb`; the flag is `true` on `goto search_over`. -/
def throwcat_search_ins (g : MVMSpeshGraph) (ins : Nat) (found : List Nat) (search_bb : Nat) :
    List Nat → ThrowcatSearch → ThrowcatSearch × Bool
  | [], st => (st, false)
  | search_ins :: rest, st =>
    match throwcat_track_handlers search_bb (g.ins search_ins).annotations st with
    | (st, true) => (st, true)
    | (st, false) =>
      if search_ins = ins then
        match found.find? (fun h => st.in_handlers h) with
        | some h =>
          let st := { st with picked := some h }
          if (st.goto_bbs h).isSome then (st, true)
          else throwcat_search_ins g ins found search_bb rest st
        | none => throwcat_search_ins g ins found search_bb rest st
      else throwcat_search_ins g ins found search_bb rest st

/-- The `while (search_bb)` loop of `optimize_throwcat` along `linear_next`. -/
def throwcat_search_bb (g : MVMSpeshGraph) (ins : Nat) (found : List Nat) :
    Nat → Option Nat → ThrowcatSearch → Except Fault ThrowcatSearch
  | _, none, st => Except.ok st
  | 0, some _, _ => Except.error Fault.out_of_fuel
  | fuel + 1, some search_bb, st =>
    match throwcat_search_ins g ins found search_bb (g.bbs search_bb).ins st with
    | (st, true) => Except.ok st
    | (st, false) => throwcat_search_bb g ins found fuel (g.bbs search_bb).linear_next st

/-- Tries to optimize a throwcat instruction. -/
def optimize_throwcat (tc : MVMThreadContext) (fuel : Nat) (g : MVMSpeshGraph) (bb ins : Nat) :
    Except Fault MVMSpeshGraph :=
  let category := to_uint32 ((g.ins ins).operand 1).get_lit_i64
  let found := handlers_found g category
  if found.length ≠ 0 then
    match throwcat_search_bb g ins found fuel (some g.entry)
        { in_handlers := fun _ => false, goto_bbs := fun _ => none, picked := none } with
    | Except.error e => Except.error e
    | Except.ok st =>
      match st.picked with
      | some picked =>
        match st.goto_bbs picked with
        | some target =>
          let g := g.set_info ins (tc.MVM_op_get_op MVM_OP_goto)
          let g := g.set_operand ins 0 (MVMSpeshOperand.ins_bb target)
          if (g.bbs bb).succ.length = 0 then Except.error Fault.out_of_bounds
          else Except.ok (g.set_bb bb { g.bbs bb with succ := (g.bbs bb).succ.set 0 target })
        | none => Except.ok g
      | none => Except.ok g
  else Except.ok g

/-- The body of the `arg_i`, `arg_n`, `arg_s`, `arg_o` case of `optimize_bb`. -/
def optimize_bb_arg (tc : MVMThreadContext) (g : MVMSpeshGraph) (ins : Nat)
    (arg_info : MVMSpeshCallInfo) : Except Fault (MVMSpeshGraph × MVMSpeshCallInfo) :=
  let idx := to_int16 ((g.ins ins).operand 0).get_lit_i16
  if idx < MAX_ARGS_FOR_OPT then
    if idx < 0 then Except.error Fault.out_of_bounds
    else
      let arg_info := { arg_info with
        arg_is_const := fun k => if k = idx.toNat then false else arg_info.arg_is_const k }
      let fg := MVM_spesh_get_and_use_facts tc g ((g.ins ins).operand 1)
      let arg_info := { arg_info with
        arg_facts := fun k => if k = idx.toNat then some fg.1 else arg_info.arg_facts k }
      let arg_info := { arg_info with
        arg_ins := fun k => if k = idx.toNat then some ins else arg_info.arg_ins k }
      Except.ok (fg.2, arg_info)
  else Except.ok (g, arg_info)

/-- The body of the `argconst_i`, `argconst_n`, `argconst_s` case of `optimize_bb`. -/
def optimize_bb_argconst (_tc : MVMThreadContext) (g : MVMSpeshGraph) (ins : Nat)
    (arg_info : MVMSpeshCallInfo) : Except Fault (MVMSpeshGraph × MVMSpeshCallInfo) :=
  let idx := to_int16 ((g.ins ins).operand 0).get_lit_i16
  if idx < MAX_ARGS_FOR_OPT then
    if idx < 0 then Except.error Fault.out_of_bounds
    else
      let arg_info := { arg_info with
        arg_is_const := fun k => if k = idx.toNat then true else arg_info.arg_is_const k }
      let arg_info := { arg_info with
        arg_ins := fun k => if k = idx.toNat then some ins else arg_info.arg_ins k }
      Except.ok (g, arg_info)
  else Except.ok (g, arg_info)

/-- The `switch (ins->info->opcode)` of `optimize_bb` on one instruction. -/
def optimize_bb_switch (tc : MVMThreadContext) (fuel : Nat) (g : MVMSpeshGraph) (bb ins : Nat)
    (arg_info : MVMSpeshCallInfo) : Except Fault (MVMSpeshGraph × MVMSpeshCallInfo) :=
  match (g.ins ins).info.opcode with
  | MVM_OP_set =>
    Except.ok (copy_facts tc g ((g.ins ins).operand 0) ((g.ins ins).operand 1), arg_info)
  | MVM_OP_istrue | MVM_OP_isfalse => Except.ok (optimize_istrue_isfalse tc g bb ins, arg_info)
  | MVM_OP_if_i | MVM_OP_unless_i | MVM_OP_if_n | MVM_OP_unless_n | MVM_OP_if_o
  | MVM_OP_unless_o => Except.ok (optimize_iffy tc g ins bb, arg_info)
  | MVM_OP_prepargs =>
    let arg_info := { arg_info with
      cs := g.sf.callsites ((g.ins ins).operand 0).get_callsite_idx }
    Except.ok (g, { arg_info with prepargs_ins := some ins })
  | MVM_OP_arg_i | MVM_OP_arg_n | MVM_OP_arg_s | MVM_OP_arg_o =>
    optimize_bb_arg tc g ins arg_info
  | MVM_OP_argconst_i | MVM_OP_argconst_n | MVM_OP_argconst_s =>
    optimize_bb_argconst tc g ins arg_info
  | MVM_OP_coerce_in => Except.ok (optimize_coerce tc g bb ins, arg_info)
  | MVM_OP_smrt_numify | MVM_OP_smrt_strify =>
    Except.ok (optimize_smart_coerce tc g bb ins, arg_info)
  | MVM_OP_invoke_v => (optimize_call tc g bb ins 0 arg_info).map fun g => (g, arg_info)
  | MVM_OP_invoke_i | MVM_OP_invoke_n | MVM_OP_invoke_s | MVM_OP_invoke_o =>
    (optimize_call tc g bb ins 1 arg_info).map fun g => (g, arg_info)
  | MVM_OP_throwcatdyn | MVM_OP_throwcatlex | MVM_OP_throwcatlexotic =>
    (optimize_throwcat tc fuel g bb ins).map fun g => (g, arg_info)
  | MVM_OP_islist | MVM_OP_ishash | MVM_OP_isint | MVM_OP_isnum | MVM_OP_isstr =>
    Except.ok (optimize_is_reprid tc g ins, arg_info)
  | MVM_OP_findmeth => Except.ok (optimize_method_lookup tc g ins, arg_info)
  | MVM_OP_can | MVM_OP_can_s => Except.ok (g, arg_info)
  | MVM_OP_create => Except.ok (optimize_repr_op tc g bb ins 1, arg_info)
  | MVM_OP_isconcrete => Except.ok (optimize_isconcrete tc g ins, arg_info)
  | MVM_OP_istype => Except.ok (optimize_istype tc g ins, arg_info)
  | MVM_OP_objprimspec => Except.ok (optimize_objprimspec tc g ins, arg_info)
  | MVM_OP_bindattr_i | MVM_OP_bindattr_n | MVM_OP_bindattr_s | MVM_OP_bindattr_o
  | MVM_OP_bindattrs_i | MVM_OP_bindattrs_n | MVM_OP_bindattrs_s | MVM_OP_bindattrs_o =>
    Except.ok (optimize_repr_op tc g bb ins 0, arg_info)
  | MVM_OP_getattr_i | MVM_OP_getattr_n | MVM_OP_getattr_s | MVM_OP_getattr_o
  | MVM_OP_getattrs_i | MVM_OP_getattrs_n | MVM_OP_getattrs_s | MVM_OP_getattrs_o =>
    Except.ok (optimize_repr_op tc g bb ins 1, arg_info)
  | MVM_OP_box_i | MVM_OP_box_n | MVM_OP_box_s =>
    Except.ok (optimize_repr_op tc g bb ins 2, arg_info)
  | MVM_OP_unbox_i | MVM_OP_unbox_n | MVM_OP_unbox_s =>
    Except.ok (optimize_repr_op tc g bb ins 1, arg_info)
  | MVM_OP_elems => Except.ok (optimize_repr_op tc g bb ins 1, arg_info)
  | MVM_OP_hllize => Except.ok (optimize_hllize tc g ins, arg_info)
  | MVM_OP_decont => Except.ok (optimize_decont tc g bb ins, arg_info)
  | MVM_OP_assertparamcheck => Except.ok (optimize_assertparamcheck tc g bb ins, arg_info)
  | MVM_OP_getlexstatic_o => Except.ok (optimize_getlex_known tc g bb ins, arg_info)
  | MVM_OP_getlexperinvtype_o =>
    if specialized_on_invocant tc g then Except.ok (optimize_getlex_known tc g bb ins, arg_info)
    else Except.ok (g, arg_info)
  | MVM_OP_sp_log | MVM_OP_sp_osrfinalize =>
    Except.ok (MVM_spesh_manipulate_delete_ins tc g bb ins, arg_info)
  | _ =>
    if (g.ins ins).info.opcode = MVM_OP_ext then Except.ok (optimize_extop tc g bb ins, arg_info)
    else Except.ok (g, arg_info)

/-- The value of `ins->next` after the instruction was processed: its successor in the
block as it is now, or, when the instruction was deleted meanwhile, the successor it had. -/
def ins_next (g_before g_after : MVMSpeshGraph) (bb ins : Nat) : Option Nat :=
  if ins ∈ (g_after.bbs bb).ins then list_next ins (g_after.bbs bb).ins
  else list_next ins (g_before.bbs bb).ins

/-- The `while (ins)` loop of `optimize_bb` over the instructions of a block. -/
def optimize_bb_ins (tc : MVMThreadContext) (fuel : Nat) (bb : Nat) :
    Nat → MVMSpeshGraph → MVMSpeshCallInfo → Option Nat → Except Fault MVMSpeshGraph
  | _, g, _, none => Except.ok g
  | 0, _, _, some _ => Except.error Fault.out_of_fuel
  | n + 1, g, arg_info, some ins =>
    match optimize_bb_switch tc fuel g bb ins arg_info with
    | Except.error e => Except.error e
    | Except.ok (g1, arg_info) => optimize_bb_ins tc fuel bb n g1 arg_info (ins_next g g1 bb ins)

/-- The `for` loop of `optimize_bb` over `bb->children`, from child `i` on, with the visit of
a child passed in. -/
def optimize_bb_children (visit : MVMSpeshGraph → Nat → Except Fault MVMSpeshGraph) (bb : Nat) :
    Nat → MVMSpeshGraph → Nat → Except Fault MVMSpeshGraph
  | 0, _, _ => Except.error Fault.out_of_fuel
  | n + 1, g, i =>
    match (g.bbs bb).children.get? i with
    | none => Except.ok g
    | some child =>
      match visit g child with
      | Except.error e => Except.error e
      | Except.ok g => optimize_bb_children visit bb n g (i + 1)

/-- Visits the blocks in dominator tree order, recursively. -/
def optimize_bb (tc : MVMThreadContext) : Nat → MVMSpeshGraph → Nat → Except Fault MVMSpeshGraph
  | 0, _, _ => Except.error Fault.out_of_fuel
  | fuel + 1, g, bb =>
    match optimize_bb_ins tc fuel bb fuel g tc.uninit_arg_info (g.bbs bb).ins.head? with
    | Except.error e => Except.error e
    | Except.ok g => optimize_bb_children (fun g child => optimize_bb tc fuel g child) bb fuel g 0

/-- The loop `for (i = 1; i < ins->info->num_operands; i++)` of `eliminate_dead_ins` that
propagates non-usage, from operand `i` on; with `only_read_regs` the decrement is under the
test that the operand is a read register. -/
def propagate_non_usage (tc : MVMThreadContext) (ins : Nat) (only_read_regs : Bool) :
    Nat → MVMSpeshGraph → Nat → MVMSpeshGraph
  | 0, g, _ => g
  | n + 1, g, i =>
    let g :=
      if !only_read_regs || (g.ins ins).info.operands.getD i MVM_operand_literal
          = MVM_operand_read_reg then
        let f := get_facts_direct tc g ((g.ins ins).operand i)
        g.set_facts_at f { g.facts_at f with usages := (g.facts_at f).usages - 1 }
      else g
    propagate_non_usage tc ins only_read_regs n g (i + 1)

/-- The body of the `while (ins)` loop of `eliminate_dead_ins` on one instruction: the graph
and whether `death` was set. -/
def eliminate_dead_ins_visit (tc : MVMThreadContext) (g : MVMSpeshGraph) (bb ins : Nat) :
    MVMSpeshGraph × Bool :=
  if (g.ins ins).info.opcode = MVM_SSA_PHI then
    let facts := get_facts_direct tc g ((g.ins ins).operand 0)
    if (g.facts_at facts).usages = 0 then
      let g := propagate_non_usage tc ins false ((g.ins ins).info.num_operands - 1) g 1
      (MVM_spesh_manipulate_delete_ins tc g bb ins, true)
    else (g, false)
  else if (g.ins ins).info.pure then
    if (g.ins ins).info.operands.getD 0 MVM_operand_literal = MVM_operand_write_reg then
      let facts := get_facts_direct tc g ((g.ins ins).operand 0)
      if (g.facts_at facts).usages = 0 then
        let g := propagate_non_usage tc ins true ((g.ins ins).info.num_operands - 1) g 1
        (MVM_spesh_manipulate_delete_ins tc g bb ins, true)
      else (g, false)
    else (g, false)
  else (g, false)

/-- The `while (ins)` loop of `eliminate_dead_ins` over one block, last instruction first;
the list holds the instructions still to visit, in visiting order. -/
def eliminate_dead_ins_block (tc : MVMThreadContext) (bb : Nat) :
    List Nat → MVMSpeshGraph × Bool → MVMSpeshGraph × Bool
  | [], r => r
  | ins :: prevs, (g, death) =>
    let r := eliminate_dead_ins_visit tc g bb ins
    eliminate_dead_ins_block tc bb prevs (r.1, death || r.2)

/-- The loop `while (bb && !bb->inlined)` of `eliminate_dead_ins` along `linear_next`. -/
def eliminate_dead_ins_pass (tc : MVMThreadContext) :
    Nat → Option Nat → MVMSpeshGraph × Bool → Except Fault (MVMSpeshGraph × Bool)
  | _, none, r => Except.ok r
  | 0, some _, _ => Except.error Fault.out_of_fuel
  | fuel + 1, some bb, (g, death) =>
    if (g.bbs bb).inlined then Except.ok (g, death)
    else
      let r := eliminate_dead_ins_block tc bb (g.bbs bb).ins.reverse (g, death)
      eliminate_dead_ins_pass tc fuel (r.1.bbs bb).linear_next r

/-- The loop `while (death)` of `eliminate_dead_ins`; every pass along the chain is given
`chain_fuel`. -/
def eliminate_dead_ins_loop (tc : MVMThreadContext) (chain_fuel : Nat) :
    Nat → MVMSpeshGraph → Except Fault MVMSpeshGraph
  | 0, _ => Except.error Fault.out_of_fuel
  | fuel + 1, g =>
    match eliminate_dead_ins_pass tc chain_fuel (some g.entry) (g, false) with
    | Except.error e => Except.error e
    | Except.ok (g, death) => if death then eliminate_dead_ins_loop tc chain_fuel fuel g
      else Except.ok g

/-- Eliminates any unused instructions. -/
def eliminate_dead_ins (tc : MVMThreadContext) (fuel : Nat) (g : MVMSpeshGraph) :
    Except Fault MVMSpeshGraph :=
  eliminate_dead_ins_loop tc fuel fuel g

/-- The inner loop `for (i = 0; i < cur_bb->num_succ; i++) seen[cur_bb->succ[i]->idx] = 1`
of the first pass of `eliminate_dead_bbs`; `size` is the size of the `seen` array. -/
def mark_successors (g : MVMSpeshGraph) (size : Nat) :
    List Nat → (Nat → Bool) → Except Fault (Nat → Bool)
  | [], seen => Except.ok seen
  | s :: rest, seen =>
    if (g.bbs s).idx < size then
      mark_successors g size rest (fun k => if k = (g.bbs s).idx then true else seen k)
    else Except.error Fault.out_of_bounds

/-- The first pass of `eliminate_dead_bbs`: the loop `while (cur_bb)` that marks the
successors of every block of the chain. -/
def eliminate_dead_bbs_mark (g : MVMSpeshGraph) (size : Nat) :
    Nat → Option Nat → (Nat → Bool) → Except Fault (Nat → Bool)
  | _, none, seen => Except.ok seen
  | 0, some _, _ => Except.error Fault.out_of_fuel
  | fuel + 1, some cur_bb, seen =>
    match mark_successors g size (g.bbs cur_bb).succ seen with
    | Except.error e => Except.error e
    | Except.ok seen => eliminate_dead_bbs_mark g size fuel (g.bbs cur_bb).linear_next seen

/-- The second pass of `eliminate_dead_bbs`: the loop `while (cur_bb->linear_next)` that
splices dead blocks out; `cur_bb` is `none` when the C variable is `NULL`, and the loop test
then dereferences it. -/
def eliminate_dead_bbs_splice (seen : Nat → Bool) (size : Nat) :
    Nat → Option Nat → MVMSpeshGraph × Bool → Except Fault (MVMSpeshGraph × Bool)
  | _, none, _ => Except.error Fault.null_deref
  | 0, some _, _ => Except.error Fault.out_of_fuel
  | fuel + 1, some cur_bb, (g, death) =>
    match (g.bbs cur_bb).linear_next with
    | none => Except.ok (g, death)
    | some next =>
      if (g.bbs next).idx < size then
        let r : MVMSpeshGraph × Bool :=
          if !seen (g.bbs next).idx then
            if !(g.bbs next).inlined then
              let g := g.set_bb cur_bb
                { g.bbs cur_bb with linear_next := (g.bbs next).linear_next }
              ({ g with num_bbs := g.num_bbs - 1 }, true)
            else (g, death)
          else (g, death)
        eliminate_dead_bbs_splice seen size fuel (r.1.bbs cur_bb).linear_next r
      else Except.error Fault.out_of_bounds

/-- The loop `while (death)` of `eliminate_dead_bbs`; `seen` is the array as the previous
round left it, `size` its size (`orig_bbs`), and every walk along the chain is given
`chain_fuel`. -/
def eliminate_dead_bbs_loop (chain_fuel : Nat) (size : Nat) :
    Nat → (Nat → Bool) → MVMSpeshGraph → Except Fault MVMSpeshGraph
  | 0, _, _ => Except.error Fault.out_of_fuel
  | fuel + 1, seen, g =>
    if size = 0 then Except.error Fault.out_of_bounds
    else
      let seen : Nat → Bool := fun k => if k < g.num_bbs then false else seen k
      let seen : Nat → Bool := fun k => if k = 0 then true else seen k
      match eliminate_dead_bbs_mark g size chain_fuel (some g.entry) seen with
      | Except.error e => Except.error e
      | Except.ok seen =>
        match eliminate_dead_bbs_splice seen size chain_fuel (some g.entry) (g, false) with
        | Except.error e => Except.error e
        | Except.ok (g, death) =>
          if death then eliminate_dead_bbs_loop chain_fuel size fuel seen g else Except.ok g

/-- The renumbering loop at the end of `eliminate_dead_bbs`. -/
def eliminate_dead_bbs_renumber :
    Nat → Option Nat → Nat → MVMSpeshGraph → Except Fault MVMSpeshGraph
  | _, none, _, g => Except.ok g
  | 0, some _, _, _ => Except.error Fault.out_of_fuel
  | fuel + 1, some cur_bb, new_idx, g =>
    let g := g.set_bb cur_bb { g.bbs cur_bb with idx := new_idx }
    eliminate_dead_bbs_renumber fuel (g.bbs cur_bb).linear_next (new_idx + 1) g

/-- Eliminates any unreachable basic blocks.  The content of the freshly allocated `seen`
array is never read: the first `memset` covers all of it. -/
def eliminate_dead_bbs (_tc : MVMThreadContext) (fuel : Nat) (g : MVMSpeshGraph) :
    Except Fault MVMSpeshGraph :=
  let orig_bbs := g.num_bbs
  match eliminate_dead_bbs_loop fuel orig_bbs fuel (fun _ => false) g with
  | Except.error e => Except.error e
  | Except.ok g =>
    if g.num_bbs ≠ orig_bbs then eliminate_dead_bbs_renumber fuel (some g.entry) 0 g
    else Except.ok g

/-- The loop of `eliminate_unused_log_guards` over the log guards still to visit. -/
def eliminate_unused_log_guards_from (tc : MVMThreadContext) :
    List MVMSpeshLogGuard → MVMSpeshGraph → MVMSpeshGraph
  | [], g => g
  | guard :: rest, g =>
    if !guard.used then
      eliminate_unused_log_guards_from tc rest
        (MVM_spesh_manipulate_delete_ins tc g guard.bb guard.ins)
    else eliminate_unused_log_guards_from tc rest g

/-- Goes through the various log-based guard instructions and removes any that are not
being made use of. -/
def eliminate_unused_log_guards (tc : MVMThreadContext) (g : MVMSpeshGraph) : MVMSpeshGraph :=
  eliminate_unused_log_guards_from tc g.log_guards g

/-- Drives the overall optimization work taking place on a spesh graph. -/
def MVM_spesh_optimize (tc : MVMThreadContext) (fuel : Nat) (g : MVMSpeshGraph) :
    Except Fault MVMSpeshGraph :=
  match optimize_bb tc fuel g g.entry with
  | Except.error e => Except.error e
  | Except.ok g =>
    match eliminate_dead_ins tc fuel g with
    | Except.error e => Except.error e
    | Except.ok g =>
      match eliminate_dead_bbs tc fuel g with
      | Except.error e => Except.error e
      | Except.ok g => Except.ok (eliminate_unused_log_guards tc g)

/-! ## `core/coerce.c` -/

/-- What `coerce.c` reads of a string: `IS_CONCRETE(str)` and its graphemes; `NUM_GRAPHS(str)`
is their number and `MVM_string_get_codepoint_at_nocheck(tc, str, i)` the `i`-th of them. -/
structure MVMString where
  is_concrete : Bool
  graphs : List Int
  deriving DecidableEq, Repr

/-- The modes of an iterator (`iter->body.mode`). -/
inductive MVMIterMode
  | MVM_ITER_MODE_ARRAY
  | MVM_ITER_MODE_HASH
  | MVM_ITER_MODE_other
  deriving DecidableEq, Repr

open MVMIterMode

/-- What `coerce.c` reads of an object: the mode of `obj->st->boolification_spec` (`none` for
`NULL`), `IS_CONCRETE(obj)`, the answers of the box functions `get_int`, `get_num` (as the
64-bit word of the double) and `get_str` of its representation, and, for an iterator, its mode,
the index and limit of its array state and the `next` pointer of its hash state. -/
structure MVMObject where
  boolification_spec : Option MVMBoolMode
  is_concrete : Bool
  get_int : Int
  get_num : Nat
  get_str : Option MVMString
  iter_mode : MVMIterMode
  array_state_index : Int
  array_state_limit : Int
  hash_state_next : Option Nat
  deriving DecidableEq, Repr

/-- Ways in which a run of `MVM_coerce_istrue` stops without returning: the exception that
`MVM_exception_throw_adhoc` throws, with its message, or a fault of the C code. -/
inductive Thrown
  | adhoc (message : String)
  | fault (f : Fault)
  deriving DecidableEq, Repr

/-- The boolification of a string: `MVM_coerce_istrue_s`. -/
def MVM_coerce_istrue_s (str : Option MVMString) : Int :=
  match str with
  | none => 0
  | some s =>
    if !s.is_concrete || s.graphs.length == 0 ||
        (s.graphs.length == 1 && s.graphs.getD 0 0 == 48) then 0
    else 1

/-- The boolification of an object: `MVM_coerce_istrue`.  The sum `index + 1` of the array
state is not wrapped. -/
def MVM_coerce_istrue (obj : Option MVMObject) : Except Thrown Int :=
  match obj with
  | none => Except.ok 0
  | some o =>
    match (match o.boolification_spec with
        | none => MVM_BOOL_MODE_NOT_TYPE_OBJECT
        | some mode => mode) with
    | MVM_BOOL_MODE_UNBOX_INT =>
      Except.ok (if !o.is_concrete || o.get_int == 0 then 0 else 1)
    | MVM_BOOL_MODE_UNBOX_NUM =>
      Except.ok (if !o.is_concrete || !value_n64_nonzero o.get_num then 0 else 1)
    | MVM_BOOL_MODE_UNBOX_STR_NOT_EMPTY =>
      if !o.is_concrete then Except.ok 0
      else
        match o.get_str with
        | none => Except.error (Thrown.fault Fault.null_deref)
        | some s => Except.ok (if s.graphs.length == 0 then 0 else 1)
    | MVM_BOOL_MODE_UNBOX_STR_NOT_EMPTY_OR_ZERO =>
      if !o.is_concrete then Except.ok 0
      else Except.ok (MVM_coerce_istrue_s o.get_str)
    | MVM_BOOL_MODE_NOT_TYPE_OBJECT =>
      Except.ok (if !o.is_concrete then 0 else 1)
    | MVM_BOOL_MODE_ITER =>
      if !o.is_concrete then Except.ok 0
      else
        match o.iter_mode with
        | MVM_ITER_MODE_ARRAY =>
          Except.ok (if o.array_state_index + 1 < o.array_state_limit then 1 else 0)
        | MVM_ITER_MODE_HASH =>
          Except.ok (if o.hash_state_next ≠ none then 1 else 0)
        | _ => Except.error (Thrown.adhoc "Invalid iteration mode used")
    | _ => Except.error (Thrown.adhoc "Invalid boolification spec mode used")

/-- The six boolification modes that `MVM_coerce_istrue` handles. -/
def handled_bool_mode (mode : MVMBoolMode) : Bool :=
  mode == MVM_BOOL_MODE_UNBOX_INT || mode == MVM_BOOL_MODE_UNBOX_NUM ||
  mode == MVM_BOOL_MODE_UNBOX_STR_NOT_EMPTY ||
  mode == MVM_BOOL_MODE_UNBOX_STR_NOT_EMPTY_OR_ZERO ||
  mode == MVM_BOOL_MODE_NOT_TYPE_OBJECT || mode == MVM_BOOL_MODE_ITER

/-- The mode that `MVM_coerce_istrue` switches on: that of the boolification spec, or
not-type-object when the type has none. -/
def effective_bool_mode (o : MVMObject) : MVMBoolMode :=
  match o.boolification_spec with
  | none => MVM_BOOL_MODE_NOT_TYPE_OBJECT
  | some mode => mode

/-- An object of the given boolification mode and concreteness that boxes the integer 5, and
that as an iterator has a mode that is neither array nor hash. -/
def sample_object (mode : Option MVMBoolMode) (concrete : Bool) : MVMObject :=
  { boolification_spec := mode, is_concrete := concrete, get_int := 5, get_num := 0,
    get_str := none, iter_mode := MVM_ITER_MODE_other, array_state_index := 0,
    array_state_limit := 0, hash_state_next := none }

/-! ## A concrete thread context and concrete graphs -/

/-- An op table for the concrete runs: the operand layout and `pure` flag of the ops that
occur in them, as in the op list of the virtual machine. -/
def sample_op_info (op : MVMOpcode) : MVMOpInfo :=
  match op with
  | MVM_OP_goto =>
    { opcode := op, num_operands := 1, pure := false, operands := [MVM_operand_literal] }
  | MVM_OP_if_i | MVM_OP_unless_i =>
    { opcode := op, num_operands := 2, pure := false,
      operands := [MVM_operand_read_reg, MVM_operand_literal] }
  | MVM_OP_const_i64_16 | MVM_OP_sp_getspeshslot =>
    { opcode := op, num_operands := 2, pure := true,
      operands := [MVM_operand_write_reg, MVM_operand_literal] }
  | MVM_OP_set | MVM_OP_isnonnull | MVM_OP_islist | MVM_OP_ishash | MVM_OP_isint | MVM_OP_isnum
  | MVM_OP_isstr | MVM_OP_isconcrete =>
    { opcode := op, num_operands := 2, pure := true,
      operands := [MVM_operand_write_reg, MVM_operand_read_reg] }
  | MVM_OP_decont =>
    { opcode := op, num_operands := 2, pure := false,
      operands := [MVM_operand_write_reg, MVM_operand_read_reg] }
  | MVM_OP_findmeth =>
    { opcode := op, num_operands := 3, pure := false,
      operands := [MVM_operand_write_reg, MVM_operand_read_reg, MVM_operand_literal] }
  | MVM_OP_sp_findmeth =>
    { opcode := op, num_operands := 4, pure := false,
      operands := [MVM_operand_write_reg, MVM_operand_read_reg, MVM_operand_literal,
        MVM_operand_literal] }
  | MVM_OP_throwcatdyn | MVM_OP_throwcatlex | MVM_OP_throwcatlexotic =>
    { opcode := op, num_operands := 2, pure := false,
      operands := [MVM_operand_write_reg, MVM_operand_literal] }
  | MVM_OP_prepargs =>
    { opcode := op, num_operands := 1, pure := false, operands := [MVM_operand_literal] }
  | MVM_OP_arg_i | MVM_OP_arg_n | MVM_OP_arg_s | MVM_OP_arg_o =>
    { opcode := op, num_operands := 2, pure := false,
      operands := [MVM_operand_literal, MVM_operand_read_reg] }
  | MVM_OP_argconst_i | MVM_OP_argconst_n | MVM_OP_argconst_s =>
    { opcode := op, num_operands := 2, pure := false,
      operands := [MVM_operand_literal, MVM_operand_literal] }
  | MVM_OP_invoke_v =>
    { opcode := op, num_operands := 1, pure := false, operands := [MVM_operand_read_reg] }
  | MVM_OP_invoke_i | MVM_OP_invoke_n | MVM_OP_invoke_s | MVM_OP_invoke_o =>
    { opcode := op, num_operands := 2, pure := false,
      operands := [MVM_operand_write_reg, MVM_operand_read_reg] }
  | MVM_OP_sp_fastinvoke_v =>
    { opcode := op, num_operands := 2, pure := false,
      operands := [MVM_operand_read_reg, MVM_operand_literal] }
  | MVM_OP_sp_fastinvoke_i | MVM_OP_sp_fastinvoke_n | MVM_OP_sp_fastinvoke_s
  | MVM_OP_sp_fastinvoke_o =>
    { opcode := op, num_operands := 3, pure := false,
      operands := [MVM_operand_write_reg, MVM_operand_read_reg, MVM_operand_literal] }
  | _ => { opcode := op, num_operands := 0, pure := false, operands := [] }

/-- A thread context whose object model knows one method (`find_method` answers `meth`),
has no representation or container hooks, no candidates and no extension ops. -/
def sample_tc (meth : Nat) : MVMThreadContext :=
  { MVM_op_get_op := sample_op_info
    MVM_is_null := fun h => h == 0
    STABLE := fun h => h
    REPR_ID := fun _ => MVM_REPR_ID_other 0
    IS_CONCRETE := fun _ => true
    WHAT := fun h => h
    boolification_mode := fun _ => none
    MVM_coerce_istrue := fun _ => 1
    MVM_6model_find_method_cache_only := fun _ _ => meth
    MVM_6model_can_method_cache_only := fun _ _ => -1
    MVM_6model_try_cache_type_check := fun _ _ => none
    get_storage_spec := fun _ => { boxed_primitive := 0, can_box := 0 }
    hll_owner := fun _ => 0
    container_spec := fun _ => none
    invocation_spec := fun _ => none
    REPR_spesh := fun _ => none
    get_attribute_i64 := fun _ _ _ _ => 0
    get_attribute_o := fun _ _ _ _ => 0
    MVM_multi_cache_find_spesh := fun _ _ => 0
    is_compiler_stub := fun _ => false
    spesh_candidates := fun _ => []
    MVM_spesh_inline_try_get_graph := fun _ _ _ => none
    MVM_spesh_inline := fun g _ _ _ _ _ => g
    MVM_spesh_manipulate_get_temp_reg := fun g _ => (MVMSpeshOperand.reg 0 0, g)
    MVM_spesh_manipulate_release_temp_reg := fun g _ => g
    extops := []
    str_consts_Str := 1
    str_consts_Num := 2
    offsetof_MVMException_body_message := 0
    MVM_SPESH_LOG_RUNS := 8
    i64_to_n64 := fun _ => 0
    uninit_arg_info :=
      { cs := 0, prepargs_ins := none, arg_is_const := fun _ => false,
        arg_facts := fun _ => none, arg_ins := fun _ => none }
    operand_as_reg := fun _ => (0, 0) }

/-- The fact record of a register version nothing is known about, read `usages` times. -/
def blank_facts (usages : Int) : MVMSpeshFacts :=
  { flags := 0, type := 0, decont_type := 0, value := 0, log_guard := 0, usages := usages }

/-- A static frame without handlers. -/
def sample_sf : MVMStaticFrame :=
  { handlers := [], strings := fun k => k, callsites := fun k => k, hll_config := 0 }

/-- A block without instructions, successors or children. -/
def empty_bb (idx : Nat) : MVMSpeshBB :=
  { idx := idx, ins := [], succ := [], linear_next := none, children := [], inlined := false }

/-- An instruction record that no block holds. -/
def no_ins : MVMSpeshIns :=
  { info := sample_op_info MVM_OP_other, operands := [], annotations := [] }

/-- A graph of three blocks whose entry block ends in `if_i r1, L2`, the flag `r1` having
the known value `v` and one reader; block 1 is the linear successor, block 2 the target. -/
def g_iffy (v : Nat) : MVMSpeshGraph :=
  { sf := sample_sf
    bbs := fun b =>
      if b = 0 then
        { idx := 0, ins := [0, 1], succ := [2, 1], linear_next := some 1, children := [1, 2],
          inlined := false }
      else if b = 1 then
        { idx := 1, ins := [], succ := [2], linear_next := some 2, children := [],
          inlined := false }
      else empty_bb 2
    ins := fun p =>
      if p = 0 then
        { info := sample_op_info MVM_OP_other,
          operands := [MVMSpeshOperand.reg 1 0, MVMSpeshOperand.lit_i64 v], annotations := [] }
      else if p = 1 then
        { info := sample_op_info MVM_OP_if_i,
          operands := [MVMSpeshOperand.reg 1 0, MVMSpeshOperand.ins_bb 2], annotations := [] }
      else no_ins
    ins_alloc := 2
    entry := 0
    num_bbs := 3
    facts := fun orig i =>
      if orig = 1 ∧ i = 0 then
        { flags := MVM_SPESH_FACT_KNOWN_TYPE ||| MVM_SPESH_FACT_KNOWN_VALUE, type := 7,
          decont_type := 0, value := v, log_guard := 0, usages := 1 }
      else blank_facts 0
    spesh_slots := []
    alloc_spesh_slots := 0
    log_guards := []
    log_slots := fun _ => 0
    arg_guards := [] }

/-- A graph of one block holding `findmeth r3, r2, "5"`, with `r2` of known type `7` and read
once, and the given spesh slots. -/
def g_findmeth (slots : List Nat) : MVMSpeshGraph :=
  { sf := sample_sf
    bbs := fun b =>
      if b = 0 then
        { idx := 0, ins := [0], succ := [], linear_next := none, children := [],
          inlined := false }
      else empty_bb b
    ins := fun p =>
      if p = 0 then
        { info := sample_op_info MVM_OP_findmeth,
          operands := [MVMSpeshOperand.reg 3 0, MVMSpeshOperand.reg 2 0,
            MVMSpeshOperand.lit_str_idx 5],
          annotations := [] }
      else no_ins
    ins_alloc := 1
    entry := 0
    num_bbs := 1
    facts := fun orig i =>
      if orig = 2 ∧ i = 0 then
        { flags := MVM_SPESH_FACT_KNOWN_TYPE, type := 7, decont_type := 0, value := 0,
          log_guard := 0, usages := 1 }
      else blank_facts 0
    spesh_slots := slots
    alloc_spesh_slots := slots.length
    log_guards := []
    log_slots := fun _ => 0
    arg_guards := [] }

/-- A graph of one block holding the single instruction `op r2, r1`, where `r1` has the
given flags, type `7`, value `11`, log guard `0` and one reader, and `r2` has no reader. -/
def g_unary (op : MVMOpcode) (src_flags : Nat) : MVMSpeshGraph :=
  { sf := sample_sf
    bbs := fun b =>
      if b = 0 then
        { idx := 0, ins := [0], succ := [], linear_next := none, children := [],
          inlined := false }
      else empty_bb b
    ins := fun p =>
      if p = 0 then
        { info := sample_op_info op,
          operands := [MVMSpeshOperand.reg 2 0, MVMSpeshOperand.reg 1 0], annotations := [] }
      else no_ins
    ins_alloc := 1
    entry := 0
    num_bbs := 1
    facts := fun orig i =>
      if orig = 1 ∧ i = 0 then
        { flags := src_flags, type := 7, decont_type := 0, value := 11, log_guard := 0,
          usages := 1 }
      else blank_facts 0
    spesh_slots := []
    alloc_spesh_slots := 0
    log_guards := []
    log_slots := fun _ => 0
    arg_guards := [] }

/-- A graph of one block holding the phi `r4 = phi(r1, r2)`, where `r4` has no reader and
`r1` and `r2` have this phi as only reader. -/
def g_phi : MVMSpeshGraph :=
  { sf := sample_sf
    bbs := fun b =>
      if b = 0 then
        { idx := 0, ins := [0], succ := [], linear_next := none, children := [],
          inlined := false }
      else empty_bb b
    ins := fun p =>
      if p = 0 then
        { info :=
            { opcode := MVM_SSA_PHI, num_operands := 3, pure := false,
              operands := [MVM_operand_write_reg, MVM_operand_read_reg, MVM_operand_read_reg] },
          operands := [MVMSpeshOperand.reg 4 0, MVMSpeshOperand.reg 1 0,
            MVMSpeshOperand.reg 2 0],
          annotations := [] }
      else no_ins
    ins_alloc := 1
    entry := 0
    num_bbs := 1
    facts := fun orig i =>
      if (orig = 1 ∨ orig = 2) ∧ i = 0 then blank_facts 1 else blank_facts 0
    spesh_slots := []
    alloc_spesh_slots := 0
    log_guards := []
    log_slots := fun _ => 0
    arg_guards := [] }

/-- A graph of one block with three instructions, of which instruction 0 is the guard of a
log guard that was relied upon and instruction 1 the guard of one that was not. -/
def g_guards : MVMSpeshGraph :=
  { sf := sample_sf
    bbs := fun b =>
      if b = 0 then
        { idx := 0, ins := [0, 1, 2], succ := [], linear_next := none, children := [],
          inlined := false }
      else empty_bb b
    ins := fun _ => no_ins
    ins_alloc := 3
    entry := 0
    num_bbs := 1
    facts := fun _ _ => blank_facts 0
    spesh_slots := []
    alloc_spesh_slots := 0
    log_guards := [{ ins := 0, bb := 0, used := true }, { ins := 1, bb := 0, used := false }]
    log_slots := fun _ => 0
    arg_guards := [] }

/-- The predicate, on the instructions of block `b`, of being the guard instruction of a log
guard of the table whose `used` flag is false. -/
def is_unused_guard_ins (guards : List MVMSpeshLogGuard) (b p : Nat) : Bool :=
  guards.any fun lg => !lg.used && lg.bb == b && lg.ins == p

/-- The block with its instruction list replaced by `l`. -/
def MVMSpeshBB.with_ins (bb : MVMSpeshBB) (l : List Nat) : MVMSpeshBB :=
  { bb with ins := l }

/-- The blocks of the `linear_next` chain from a block on, in order; `none` when the walk
does not end within `fuel` steps. -/
def linear_chain (g : MVMSpeshGraph) : Nat → Option Nat → Option (List Nat)
  | _, none => some []
  | 0, some _ => none
  | fuel + 1, some b => (linear_chain g fuel (g.bbs b).linear_next).map fun l => b :: l

/-- The number of read-register operands of instruction `p` that reference the register
version `r`: for a phi every operand after the first, for another instruction the operands
that its op descriptor marks as read registers. -/
def ins_read_count (tc : MVMThreadContext) (g : MVMSpeshGraph) (p : Nat) (r : Nat × Nat) : Nat :=
  ((List.range (g.ins p).info.num_operands).filter fun k =>
    (if (g.ins p).info.opcode = MVM_SSA_PHI then decide (0 < k)
     else decide ((g.ins p).info.operands.getD k MVM_operand_literal = MVM_operand_read_reg)) &&
    decide (((g.ins p).operand k).get_reg tc = r)).length

/-- The number of read-register operands referencing `r` across the instructions of the
blocks of the linear chain. -/
def graph_read_count (tc : MVMThreadContext) (g : MVMSpeshGraph) (fuel : Nat) (r : Nat × Nat) :
    Nat :=
  match linear_chain g fuel (some g.entry) with
  | some chain =>
    (chain.map fun b => ((g.bbs b).ins.map fun p => ins_read_count tc g p r).sum).sum
  | none => 0

/-- A graph whose blocks are given by `bbs`, `n` of them in the chain, and all of whose
instructions are of an opcode the optimizer passes over, without operands. -/
def g_blocks (bbs : Nat → MVMSpeshBB) (n : Nat) : MVMSpeshGraph :=
  { sf := sample_sf
    bbs := bbs
    ins := fun _ => no_ins
    ins_alloc := 0
    entry := 0
    num_bbs := n
    facts := fun _ _ => blank_facts 0
    spesh_slots := []
    alloc_spesh_slots := 0
    log_guards := []
    log_slots := fun _ => 0
    arg_guards := [] }

/-- A chain of four blocks, indexed 0 to 3 in linear order, each holding one instruction: the entry block 0 branches to
block 1, which returns; block 2 is not reached and falls through to block 3, the last block,
whose only predecessor it is. -/
def g_dead_tail : MVMSpeshGraph :=
  g_blocks (fun b =>
    if b = 0 then
      { idx := 0, ins := [0], succ := [1], linear_next := some 1, children := [1],
        inlined := false }
    else if b = 1 then
      { idx := 1, ins := [1], succ := [], linear_next := some 2, children := [],
        inlined := false }
    else if b = 2 then
      { idx := 2, ins := [2], succ := [3], linear_next := some 3, children := [],
        inlined := false }
    else if b = 3 then
      { idx := 3, ins := [3], succ := [], linear_next := none, children := [],
        inlined := false }
    else empty_bb b) 4

/-- A chain of six blocks, indexed 0 to 5 in linear order, each holding one instruction: the entry block 0 goes to block 2
and block 2 to block 5; blocks 1 and 3 are not reached, and block 4 has block 3 as its only
predecessor. -/
def g_dead_pair : MVMSpeshGraph :=
  g_blocks (fun b =>
    if b = 0 then
      { idx := 0, ins := [0], succ := [2], linear_next := some 1, children := [2],
        inlined := false }
    else if b = 1 then
      { idx := 1, ins := [1], succ := [2], linear_next := some 2, children := [],
        inlined := false }
    else if b = 2 then
      { idx := 2, ins := [2], succ := [5], linear_next := some 3, children := [5],
        inlined := false }
    else if b = 3 then
      { idx := 3, ins := [3], succ := [4], linear_next := some 4, children := [],
        inlined := false }
    else if b = 4 then
      { idx := 4, ins := [4], succ := [5], linear_next := some 5, children := [],
        inlined := false }
    else if b = 5 then
      { idx := 5, ins := [5], succ := [], linear_next := none, children := [],
        inlined := false }
    else empty_bb b) 6

/-- The instructions of the blocks of a chain in linear order, each with its block. -/
def chain_ins (g : MVMSpeshGraph) (chain : List Nat) : List (Nat × Nat) :=
  chain.flatMap fun b => (g.bbs b).ins.map fun p => (b, p)

/-- The annotations of a run of instructions in order, each with the block of its
instruction. -/
def annotations_of (g : MVMSpeshGraph) (l : List (Nat × Nat)) : List (Nat × MVMSpeshAnn) :=
  l.flatMap fun x => (g.ins x.2).annotations.map fun a => (x.1, a)

/-- Whether an annotation opens or closes the scope of handler `h`. -/
def is_scope_marker (h : Nat) (a : MVMSpeshAnn) : Bool :=
  a.frame_handler_index == h &&
    (a.type == MVM_SPESH_ANN_FH_START || a.type == MVM_SPESH_ANN_FH_END)

/-- Whether, at the end of a run of annotations, one is after the `FH_START` and before the
`FH_END` of handler `h`: the last of the two kinds of annotation of `h` in the run is an
`FH_START`. -/
def handler_in_scope (anns : List MVMSpeshAnn) (h : Nat) : Bool :=
  match anns.reverse.find? (is_scope_marker h) with
  | some a => a.type == MVM_SPESH_ANN_FH_START
  | none => false

/-- Whether an annotation is the `FH_GOTO` annotation of handler `h`. -/
def is_goto_marker (h : Nat) (a : MVMSpeshAnn) : Bool :=
  a.type == MVM_SPESH_ANN_FH_GOTO && a.frame_handler_index == h

/-- The block of the last `FH_GOTO` annotation of handler `h` in a run of annotations. -/
def last_goto (banns : List (Nat × MVMSpeshAnn)) (h : Nat) : Option Nat :=
  (banns.reverse.find? fun x => is_goto_marker h x.2).map fun x => x.1

/-- The search of `optimize_throwcat` over a run of instructions given with their blocks:
the two inner loops of `throwcat_search_bb` laid out along the chain. -/
def throwcat_search_flat (g : MVMSpeshGraph) (ins : Nat) (found : List Nat) :
    List (Nat × Nat) → ThrowcatSearch → ThrowcatSearch × Bool
  | [], st => (st, false)
  | (search_bb, search_ins) :: rest, st =>
    match throwcat_track_handlers search_bb (g.ins search_ins).annotations st with
    | (st, true) => (st, true)
    | (st, false) =>
      if search_ins = ins then
        match found.find? (fun h => st.in_handlers h) with
        | some h =>
          let st := { st with picked := some h }
          if (st.goto_bbs h).isSome then (st, true)
          else throwcat_search_flat g ins found rest st
        | none => throwcat_search_flat g ins found rest st
      else throwcat_search_flat g ins found rest st

/-- A graph of three blocks in a chain.  Block 0 holds the instruction that opens the scope
of handler 0, block 1 holds `throwcatlex r1, 4` and then the instruction that closes the
scope, block 2 holds the instruction with the goto annotation of handler 0.  Handler 0 is a
goto handler for the categories of mask 4. -/
def g_throwcat : MVMSpeshGraph :=
  { sf :=
      { handlers := [{ category_mask := 4, action := MVM_EX_ACTION_GOTO }],
        strings := fun k => k, callsites := fun k => k, hll_config := 0 }
    bbs := fun b =>
      if b = 0 then
        { idx := 0, ins := [0], succ := [1], linear_next := some 1, children := [1],
          inlined := false }
      else if b = 1 then
        { idx := 1, ins := [1, 2], succ := [2], linear_next := some 2, children := [2],
          inlined := false }
      else if b = 2 then
        { idx := 2, ins := [3], succ := [], linear_next := none, children := [],
          inlined := false }
      else empty_bb b
    ins := fun p =>
      if p = 0 then
        { info := sample_op_info MVM_OP_other, operands := [],
          annotations := [{ type := MVM_SPESH_ANN_FH_START, frame_handler_index := 0 }] }
      else if p = 1 then
        { info := sample_op_info MVM_OP_throwcatlex,
          operands := [MVMSpeshOperand.reg 1 0, MVMSpeshOperand.lit_i64 4], annotations := [] }
      else if p = 2 then
        { info := sample_op_info MVM_OP_other, operands := [],
          annotations := [{ type := MVM_SPESH_ANN_FH_END, frame_handler_index := 0 }] }
      else if p = 3 then
        { info := sample_op_info MVM_OP_other, operands := [],
          annotations := [{ type := MVM_SPESH_ANN_FH_GOTO, frame_handler_index := 0 }] }
      else no_ins
    ins_alloc := 4
    entry := 0
    num_bbs := 3
    facts := fun _ _ => blank_facts 0
    spesh_slots := []
    alloc_spesh_slots := 0
    log_guards := []
    log_slots := fun _ => 0
    arg_guards := [] }

/-- The search state agrees with a run of annotations: `in_handlers[]` tells for every
handler whether the run ends in its scope, `goto_bbs[]` holds for every handler the block of
its last `FH_GOTO` annotation. -/
def search_tracks (st : ThrowcatSearch) (banns : List (Nat × MVMSpeshAnn)) : Prop :=
  (∀ k, st.in_handlers k = handler_in_scope (banns.map fun x => x.2) k) ∧
  (∀ k, st.goto_bbs k = last_goto banns k)

/-! ## Specification-side predicates on calls, flags and dead instructions, and more graphs -/

/-- C16's reading of "the guard is satisfied by the recorded fact of its argument slot": the
slot is below `MAX_ARGS_FOR_OPT`, a fact is recorded for it, and the fact has the flags and
the STable that the kind of the guard asks for; a guard of an unknown kind is not satisfied. -/
def guard_satisfied (tc : MVMThreadContext) (g : MVMSpeshGraph) (arg_info : MVMSpeshCallInfo)
    (guard : MVMSpeshCandGuard) : Bool :=
  decide ((guard.slot : Int) < MAX_ARGS_FOR_OPT) &&
  match arg_info.arg_facts guard.slot with
  | none => false
  | some f =>
    match guard.kind with
    | MVM_SPESH_GUARD_CONC =>
      has_flag (g.facts_at f).flags MVM_SPESH_FACT_CONCRETE &&
        has_flag (g.facts_at f).flags MVM_SPESH_FACT_KNOWN_TYPE &&
        tc.STABLE (g.facts_at f).type == guard.match_st
    | MVM_SPESH_GUARD_TYPE =>
      has_flag (g.facts_at f).flags MVM_SPESH_FACT_TYPEOBJ &&
        has_flag (g.facts_at f).flags MVM_SPESH_FACT_KNOWN_TYPE &&
        tc.STABLE (g.facts_at f).type == guard.match_st
    | MVM_SPESH_GUARD_DC_CONC =>
      has_flag (g.facts_at f).flags MVM_SPESH_FACT_DECONT_CONCRETE &&
        has_flag (g.facts_at f).flags MVM_SPESH_FACT_KNOWN_DECONT_TYPE &&
        tc.STABLE (g.facts_at f).decont_type == guard.match_st
    | MVM_SPESH_GUARD_DC_TYPE =>
      has_flag (g.facts_at f).flags MVM_SPESH_FACT_DECONT_TYPEOBJ &&
        has_flag (g.facts_at f).flags MVM_SPESH_FACT_KNOWN_DECONT_TYPE &&
        tc.STABLE (g.facts_at f).decont_type == guard.match_st
    | MVM_SPESH_GUARD_other => false

/-- C16's reading of "the candidate qualifies": its callsite is that of the call info and
every one of its guards is satisfied. -/
def candidate_qualifies (tc : MVMThreadContext) (g : MVMSpeshGraph)
    (arg_info : MVMSpeshCallInfo) (cand : MVMSpeshCandidate) : Bool :=
  cand.cs == arg_info.cs && cand.guards.all (guard_satisfied tc g arg_info)

/-- A call info for a call of callsite `3` whose argument 0 is the register `r1`. -/
def sample_arg_info : MVMSpeshCallInfo :=
  { cs := 3, prepargs_ins := some 0, arg_is_const := fun _ => false,
    arg_facts := fun k => if k = 0 then some (1, 0) else none,
    arg_ins := fun k => if k = 0 then some 1 else none }

/-- Three candidates: one of another callsite, one whose guard asks for a type object, and
one whose guard asks for a concrete object of STable `7`. -/
def sample_candidates : List MVMSpeshCandidate :=
  [{ cs := 4, guards := [] },
   { cs := 3, guards := [{ slot := 0, kind := MVM_SPESH_GUARD_TYPE, match_st := 7 }] },
   { cs := 3, guards := [{ slot := 0, kind := MVM_SPESH_GUARD_CONC, match_st := 7 }] }]

/-- The graph `g_guards` in which `r1` carries a fact that came from the log guard 1. -/
def g_logged : MVMSpeshGraph :=
  g_guards.set_facts_at (1, 0)
    { flags := MVM_SPESH_FACT_FROM_LOG_GUARD, type := 0, decont_type := 0, value := 0,
      log_guard := 1, usages := 1 }

/-- A thread context in which every known callee is a code object with the given
candidates, and the inliner grants no inline graph. -/
def sample_call_tc (cands : List MVMSpeshCandidate) : MVMThreadContext :=
  { sample_tc 0 with
    REPR_ID := fun _ => MVM_REPR_ID_MVMCode
    spesh_candidates := fun _ => cands }

/-- A graph of one block with two calls of the known code object `9` held by `r5`:
`prepargs 3; arg_o 0, r1; invoke_o r6, r5` and then
`prepargs 4; argconst_i 0, 77; invoke_o r7, r5`.  The register `r1` is known to hold a
concrete object of type `7`. -/
def g_two_calls : MVMSpeshGraph :=
  { sf := sample_sf
    bbs := fun b =>
      if b = 0 then
        { idx := 0, ins := [0, 1, 2, 3, 4, 5], succ := [], linear_next := none, children := [],
          inlined := false }
      else empty_bb b
    ins := fun p =>
      if p = 0 then
        { info := sample_op_info MVM_OP_prepargs,
          operands := [MVMSpeshOperand.callsite_idx 3], annotations := [] }
      else if p = 1 then
        { info := sample_op_info MVM_OP_arg_o,
          operands := [MVMSpeshOperand.lit_i16 0, MVMSpeshOperand.reg 1 0], annotations := [] }
      else if p = 2 then
        { info := sample_op_info MVM_OP_invoke_o,
          operands := [MVMSpeshOperand.reg 6 0, MVMSpeshOperand.reg 5 0], annotations := [] }
      else if p = 3 then
        { info := sample_op_info MVM_OP_prepargs,
          operands := [MVMSpeshOperand.callsite_idx 4], annotations := [] }
      else if p = 4 then
        { info := sample_op_info MVM_OP_argconst_i,
          operands := [MVMSpeshOperand.lit_i16 0, MVMSpeshOperand.lit_i64 77], annotations := [] }
      else if p = 5 then
        { info := sample_op_info MVM_OP_invoke_o,
          operands := [MVMSpeshOperand.reg 7 0, MVMSpeshOperand.reg 5 0], annotations := [] }
      else no_ins
    ins_alloc := 6
    entry := 0
    num_bbs := 1
    facts := fun orig i =>
      if orig = 1 ∧ i = 0 then
        { flags := MVM_SPESH_FACT_KNOWN_TYPE ||| MVM_SPESH_FACT_CONCRETE, type := 7,
          decont_type := 0, value := 0, log_guard := 0, usages := 1 }
      else if orig = 5 ∧ i = 0 then
        { flags := MVM_SPESH_FACT_KNOWN_VALUE, type := 0, decont_type := 0, value := 9,
          log_guard := 0, usages := 2 }
      else blank_facts 0
    spesh_slots := []
    alloc_spesh_slots := 0
    log_guards := []
    log_slots := fun _ => 0
    arg_guards := [] }

/-- One candidate, of callsite `4`, that guards argument slot 0 for a concrete object of
STable `7`. -/
def guarded_candidates : List MVMSpeshCandidate :=
  [{ cs := 4, guards := [{ slot := 0, kind := MVM_SPESH_GUARD_CONC, match_st := 7 }] }]

/-- As many candidates of callsite `4` as given, followed by one of callsite `3`; none has a
guard. -/
def many_candidates (n : Nat) : List MVMSpeshCandidate :=
  List.replicate n { cs := 4, guards := [] } ++ [{ cs := 3, guards := [] }]

/-- C11's reading of an instruction that the walk removes: a phi whose destination has no
usages, or an instruction marked pure whose first operand is a write register without
usages. -/
def is_dead_ins (tc : MVMThreadContext) (g : MVMSpeshGraph) (ins : Nat) : Bool :=
  (decide ((g.ins ins).info.opcode = MVM_SSA_PHI) &&
    decide ((g.facts_at (((g.ins ins).operand 0).get_reg tc)).usages = 0)) ||
  ((g.ins ins).info.pure &&
    decide ((g.ins ins).info.operands.getD 0 MVM_operand_literal = MVM_operand_write_reg) &&
    decide ((g.facts_at (((g.ins ins).operand 0).get_reg tc)).usages = 0))

/-- The blocks of the `linear_next` chain from `start` on that precede the first inlined
block of that chain. -/
inductive before_inlined (g : MVMSpeshGraph) : Option Nat → Nat → Prop
  | here (b : Nat) : (g.bbs b).inlined = false → before_inlined g (some b) b
  | next (b c : Nat) : (g.bbs b).inlined = false →
      before_inlined g (g.bbs b).linear_next c → before_inlined g (some b) c

/-- One deletion, in C11's reading: the instruction `ins` is in the list of block `bb`, a
block of the chain that precedes the first inlined block, and it is dead in `g1`; `g2` is
`g1` with `ins` erased from the list of `bb` and with the usages counter of every register
version taken down by the number of read-register operands of `ins` that reference it;
nothing else of the graph differs. -/
def deletes_dead_ins (tc : MVMThreadContext) (g1 g2 : MVMSpeshGraph) : Prop :=
  ∃ bb ins, before_inlined g1 (some g1.entry) bb ∧ ins ∈ (g1.bbs bb).ins ∧
    is_dead_ins tc g1 ins = true ∧
    g2 = { g1 with
      bbs := fun b =>
        if b = bb then (g1.bbs bb).with_ins ((g1.bbs bb).ins.erase ins) else g1.bbs b
      facts := fun a b =>
        { g1.facts a b with
          usages := (g1.facts a b).usages - (ins_read_count tc g1 ins (a, b) : Nat) } }

/-- C11's reading of an instruction that is never deleted whatever the usages are: it is not
a phi, and it is not marked pure or its first operand is not a write register. -/
def never_dead_ins (g : MVMSpeshGraph) (ins : Nat) : Prop :=
  (g.ins ins).info.opcode ≠ MVM_SSA_PHI ∧
  ((g.ins ins).info.pure = false ∨
    (g.ins ins).info.operands.getD 0 MVM_operand_literal ≠ MVM_operand_write_reg)

/-- The invariant of C19 on one fact record: `KNOWN_VALUE` implies `KNOWN_TYPE`. -/
def known_value_has_type (f : MVMSpeshFacts) : Bool :=
  !has_flag f.flags MVM_SPESH_FACT_KNOWN_VALUE || has_flag f.flags MVM_SPESH_FACT_KNOWN_TYPE

/-- The invariant of C20 on one fact record: not both `CONCRETE` and `TYPEOBJ`. -/
def concrete_excludes_typeobj (f : MVMSpeshFacts) : Bool :=
  !(has_flag f.flags MVM_SPESH_FACT_CONCRETE && has_flag f.flags MVM_SPESH_FACT_TYPEOBJ)

/-- What a rewriter that folds its instruction does to the flags: every record keeps its
flags, except that the one of the destination may get `KNOWN_VALUE` or-ed in. -/
def sets_known_value_only (g g' : MVMSpeshGraph) (dst : Nat × Nat) : Prop :=
  ∀ a b, (g'.facts a b).flags = (g.facts a b).flags ∨
    ((a, b) = dst ∧ (g'.facts a b).flags = (g.facts a b).flags ||| MVM_SPESH_FACT_KNOWN_VALUE)

/-- The graph of `decont r2, r1` where `r1` is known to hold a concrete object once
decontainerized and the fact of `r2` carries `TYPEOBJ`. -/
def g_decont_clash : MVMSpeshGraph :=
  (g_unary MVM_OP_decont MVM_SPESH_FACT_DECONT_CONCRETE).set_facts_at (2, 0)
    { flags := MVM_SPESH_FACT_TYPEOBJ, type := 0, decont_type := 0, value := 0, log_guard := 0,
      usages := 0 }

/-! ## More thread contexts and graphs -/

/-- A thread context whose representations report the given `can_box` bits and whose method
cache answers `can` to every `can` query; otherwise as `sample_tc 0`. -/
def sample_coerce_tc (can_box : Nat) (can : Int) : MVMThreadContext :=
  { sample_tc 0 with
    get_storage_spec := fun _ => { boxed_primitive := 0, can_box := can_box }
    MVM_6model_can_method_cache_only := fun _ _ => can }

/-- A thread context for a multi-dispatch call.  The callee `9` is not a code object; its
invocation spec names the class handle `11`, attribute `12`, hint `13`, and for
multi-dispatch the class handle `14` with the validity attribute `17` (which reads 1) and the
cache attribute `15` (which reads the cache `19`).  The cache finds the object `20`, which is
not a code object either and whose own invocation spec names the class handle `21`,
attribute `22`, hint `23`.  Read with its own spec the object `20` gives the code object `30`;
read with the spec of the callee it gives the code object `31`. -/
def sample_multi_tc : MVMThreadContext :=
  { sample_tc 0 with
    REPR_ID := fun h => if h = 30 ∨ h = 31 then MVM_REPR_ID_MVMCode else MVM_REPR_ID_other 0
    invocation_spec := fun st =>
      if st = 9 then
        some { class_handle := 11, attr_name := 12, hint := 13, md_class_handle := 14,
               md_cache_attr_name := 15, md_cache_hint := 16, md_valid_attr_name := 17,
               md_valid_hint := 18 }
      else if st = 20 then
        some { class_handle := 21, attr_name := 22, hint := 23, md_class_handle := 0,
               md_cache_attr_name := 0, md_cache_hint := 0, md_valid_attr_name := 0,
               md_valid_hint := 0 }
      else none
    get_attribute_i64 := fun obj ch an hint =>
      if obj = 9 ∧ ch = 14 ∧ an = 17 ∧ hint = 18 then 1 else 0
    get_attribute_o := fun obj ch an hint =>
      if obj = 9 ∧ ch = 14 ∧ an = 15 ∧ hint = 16 then 19
      else if obj = 20 ∧ ch = 21 ∧ an = 22 ∧ hint = 23 then 30
      else if obj = 20 ∧ ch = 11 ∧ an = 12 ∧ hint = 13 then 31
      else 0
    MVM_multi_cache_find_spesh := fun cache _ => if cache = 19 then 20 else 0 }

/-- A thread context whose type-check cache answers `check` to every question; otherwise as
`sample_tc 0`. -/
def sample_type_tc (check : Option Int) : MVMThreadContext :=
  { sample_tc 0 with MVM_6model_try_cache_type_check := fun _ _ => check }

/-- A graph of one block holding `istype r3, r1, r2`, where `r1` has the known type `7`, comes
from the log guard `0` and has one reader, `r2` has the known type `8` and one reader, and
the one log guard of the table is not yet used. -/
def g_istype : MVMSpeshGraph :=
  { sf := sample_sf
    bbs := fun b =>
      if b = 0 then
        { idx := 0, ins := [0], succ := [], linear_next := none, children := [],
          inlined := false }
      else empty_bb b
    ins := fun p =>
      if p = 0 then
        { info := sample_op_info MVM_OP_istype,
          operands := [MVMSpeshOperand.reg 3 0, MVMSpeshOperand.reg 1 0,
            MVMSpeshOperand.reg 2 0],
          annotations := [] }
      else no_ins
    ins_alloc := 1
    entry := 0
    num_bbs := 1
    facts := fun orig i =>
      if orig = 1 ∧ i = 0 then
        { flags := MVM_SPESH_FACT_KNOWN_TYPE ||| MVM_SPESH_FACT_FROM_LOG_GUARD, type := 7,
          decont_type := 0, value := 0, log_guard := 0, usages := 1 }
      else if orig = 2 ∧ i = 0 then
        { flags := MVM_SPESH_FACT_KNOWN_TYPE, type := 8, decont_type := 0, value := 0,
          log_guard := 0, usages := 1 }
      else blank_facts 0
    spesh_slots := []
    alloc_spesh_slots := 0
    log_guards := [{ ins := 5, bb := 0, used := false }]
    log_slots := fun _ => 0
    arg_guards := [] }

/-- A graph of one block holding `getlexstatic_o r2, r3` (or the given lookup op) followed by
`sp_log r2, 0`; the op descriptors mark `r2` as written and `r3` as read by the lookup, and
`r2` as read by the `sp_log`.  `r3` has this one reader, the first log slot of that entry
holds the object `9`, and the graph has the given spesh slots and one argument guard on the
given slot. -/
def g_getlex (op : MVMOpcode) (slots : List Nat) (guard_slot : Nat) : MVMSpeshGraph :=
  { sf := sample_sf
    bbs := fun b =>
      if b = 0 then
        { idx := 0, ins := [0, 1], succ := [], linear_next := none, children := [],
          inlined := false }
      else empty_bb b
    ins := fun p =>
      if p = 0 then
        { info :=
            { opcode := op, num_operands := 2, pure := false,
              operands := [MVM_operand_write_reg, MVM_operand_read_reg] },
          operands := [MVMSpeshOperand.reg 2 0, MVMSpeshOperand.reg 3 0],
          annotations := [] }
      else if p = 1 then
        { info :=
            { opcode := MVM_OP_sp_log, num_operands := 2, pure := false,
              operands := [MVM_operand_read_reg, MVM_operand_literal] },
          operands := [MVMSpeshOperand.reg 2 0, MVMSpeshOperand.lit_i16 0], annotations := [] }
      else no_ins
    ins_alloc := 2
    entry := 0
    num_bbs := 1
    facts := fun orig i =>
      if (orig = 2 ∨ orig = 3) ∧ i = 0 then blank_facts 1 else blank_facts 0
    spesh_slots := slots
    alloc_spesh_slots := slots.length
    log_guards := []
    log_slots := fun k => if k = 0 then 9 else 0
    arg_guards := [{ slot := guard_slot, kind := 0, match_st := 0 }] }

/-- The graph `g_two_calls` with the given spesh slots. -/
def g_two_calls_slots (slots : List Nat) : MVMSpeshGraph :=
  { g_two_calls with spesh_slots := slots, alloc_spesh_slots := slots.length }

/-- The call info at the second `invoke_o` of `g_two_calls`: callsite `4` and the `prepargs`
at instruction 3. -/
def second_arg_info : MVMSpeshCallInfo :=
  { cs := 4, prepargs_ins := some 3, arg_is_const := fun k => decide (k = 0),
    arg_facts := fun _ => none, arg_ins := fun k => if k = 0 then some 4 else none }

/-- A graph of one block holding the single instruction `op r1, L0`, where `r1` has the given
flags, type `7`, the given value and one reader. -/
def g_flag_op (op : MVMOpcode) (flags value : Nat) : MVMSpeshGraph :=
  { sf := sample_sf
    bbs := fun b =>
      if b = 0 then
        { idx := 0, ins := [0], succ := [0], linear_next := none, children := [],
          inlined := false }
      else empty_bb b
    ins := fun p =>
      if p = 0 then
        { info := sample_op_info op,
          operands := [MVMSpeshOperand.reg 1 0, MVMSpeshOperand.ins_bb 0], annotations := [] }
      else no_ins
    ins_alloc := 1
    entry := 0
    num_bbs := 1
    facts := fun orig i =>
      if orig = 1 ∧ i = 0 then
        { flags := flags, type := 7, decont_type := 0, value := value, log_guard := 0,
          usages := 1 }
      else blank_facts 0
    spesh_slots := []
    alloc_spesh_slots := 0
    log_guards := []
    log_slots := fun _ => 0
    arg_guards := [] }

/-- The sample thread context with call-method boolification for every type and with HLL
owner `1` for every type, the sample static frame having HLL `0`. -/
def sample_bail_tc : MVMThreadContext :=
  { sample_tc 0 with
    boolification_mode := fun _ => some MVM_BOOL_MODE_CALL_METHOD
    hll_owner := fun _ => 1 }

/-- C31's reading of a handler that takes the throwcat: handler `h` of the static frame has
action GOTO, its category mask meets `category`, and the run of annotations `anns` ends in
its scope. -/
def handler_qualifies (g : MVMSpeshGraph) (category : Nat) (anns : List MVMSpeshAnn)
    (h : Nat) : Bool :=
  match g.sf.handlers.get? h with
  | some hd =>
    decide (hd.action = MVM_EX_ACTION_GOTO) && has_flag hd.category_mask category &&
      handler_in_scope anns h
  | none => false

/-- Whether `l` is the `linear_next` chain of `g` from the block pointer `o` on, up to the
block whose `linear_next` is null. -/
def is_chain (g : MVMSpeshGraph) : Option Nat → List Nat → Prop
  | o, [] => o = none
  | o, b :: l => o = some b ∧ is_chain g (g.bbs b).linear_next l

/-- The second pass of `eliminate_dead_bbs` on the list of the blocks of the chain from
`cur_bb` on, `dead` telling the blocks it splices out: the chain that is left, or `none`
when `cur_bb` ends up null. -/
def splice_list (dead : Nat → Bool) : List Nat → Option (List Nat)
  | [] => none
  | [a] => some [a]
  | a :: n :: rest =>
    if dead n then (splice_list dead rest).map fun l => a :: l
    else (splice_list dead (n :: rest)).map fun l => a :: l

/-- The graph `g'` is `g` up to the `linear_next` of its blocks and `num_bbs`. -/
def relinked (g g' : MVMSpeshGraph) : Prop :=
  { g' with bbs := g.bbs, num_bbs := g.num_bbs } = g ∧
  ∀ b, { g'.bbs b with linear_next := (g.bbs b).linear_next } = g.bbs b

/-- The blocks of a chain and their successors have indices below `size`. -/
def valid_indices (g : MVMSpeshGraph) (size : Nat) (l : List Nat) : Prop :=
  ∀ b ∈ l, (g.bbs b).idx < size ∧ ∀ s ∈ (g.bbs b).succ, (g.bbs s).idx < size

/-- The number of read-register operands referencing `r` across the instructions of the
blocks of a list. -/
def blocks_read_count (tc : MVMThreadContext) (g : MVMSpeshGraph) (l : List Nat)
    (r : Nat × Nat) : Nat :=
  (l.map fun b => ((g.bbs b).ins.map fun p => ins_read_count tc g p r).sum).sum

/-- The number of instructions of the blocks of a list. -/
def ins_total (g : MVMSpeshGraph) (l : List Nat) : Nat :=
  (l.map fun b => (g.bbs b).ins.length).sum

/-- C37's reading of usage balance over the blocks of a list: the usages counter of every
register version equals the number of read-register operands that reference it, the sources
of a phi included, among the instructions of these blocks. -/
def usage_balanced (tc : MVMThreadContext) (g : MVMSpeshGraph) (l : List Nat) : Prop :=
  ∀ r : Nat × Nat, (g.facts_at r).usages = (blocks_read_count tc g l r : Nat)

/-- What a stretch of dead-instruction elimination does to a graph, over the blocks `l` of
the chain: the instruction records, the entry and the links and inlined marks of the blocks
stay, no instruction is added, no usages counter goes up, and every usages counter goes down
by as much as the number of read-register operands that reference its register version. -/
def dead_ins_progress (tc : MVMThreadContext) (l : List Nat) (g g' : MVMSpeshGraph) : Prop :=
  g'.ins = g.ins ∧ g'.entry = g.entry ∧
  (∀ b, (g'.bbs b).linear_next = (g.bbs b).linear_next ∧
    (g'.bbs b).inlined = (g.bbs b).inlined) ∧
  ins_total g' l ≤ ins_total g l ∧
  (∀ r, (g'.facts_at r).usages ≤ (g.facts_at r).usages) ∧
  ∀ r, (g'.facts_at r).usages + (blocks_read_count tc g l r : Nat)
    = (g.facts_at r).usages + (blocks_read_count tc g' l r : Nat)

/-- A chain of two blocks, indexed 0 and 1 in linear order: the entry block returns, and
block 1, the last block, is not inlined and has no predecessor. -/
def g_dead_last : MVMSpeshGraph :=
  g_blocks (fun b =>
    if b = 0 then
      { idx := 0, ins := [0], succ := [], linear_next := some 1, children := [],
        inlined := false }
    else if b = 1 then
      { idx := 1, ins := [1], succ := [], linear_next := none, children := [],
        inlined := false }
    else empty_bb b) 2

/-- A chain of three blocks, indexed 0 to 2 in linear order: the entry block goes to block 1,
which returns, and block 2, the last block, is not inlined and has no predecessor. -/
def g_dead_end : MVMSpeshGraph :=
  g_blocks (fun b =>
    if b = 0 then
      { idx := 0, ins := [0], succ := [1], linear_next := some 1, children := [1],
        inlined := false }
    else if b = 1 then
      { idx := 1, ins := [1], succ := [], linear_next := some 2, children := [],
        inlined := false }
    else if b = 2 then
      { idx := 2, ins := [2], succ := [], linear_next := none, children := [],
        inlined := false }
    else empty_bb b) 3

/-- A graph of one block holding the single instruction `sp_log r1, 0`, whose op descriptor
marks the first operand as a read register; `r1` has this one reader. -/
def g_sp_log : MVMSpeshGraph :=
  { sf := sample_sf
    bbs := fun b =>
      if b = 0 then
        { idx := 0, ins := [0], succ := [], linear_next := none, children := [],
          inlined := false }
      else empty_bb b
    ins := fun p =>
      if p = 0 then
        { info :=
            { opcode := MVM_OP_sp_log, num_operands := 2, pure := false,
              operands := [MVM_operand_read_reg, MVM_operand_literal] },
          operands := [MVMSpeshOperand.reg 1 0, MVMSpeshOperand.lit_i16 0], annotations := [] }
      else no_ins
    ins_alloc := 1
    entry := 0
    num_bbs := 1
    facts := fun orig i => if orig = 1 ∧ i = 0 then blank_facts 1 else blank_facts 0
    spesh_slots := []
    alloc_spesh_slots := 0
    log_guards := []
    log_slots := fun _ => 0
    arg_guards := [] }

/-- Every log guard that was relied upon in `g` is the same guard, relied upon, in `g'`. -/
structure guards_kept (g g' : MVMSpeshGraph) : Prop where
  kept : ∀ k lg, g.log_guards.get? k = some lg → lg.used = true →
    g'.log_guards.get? k = some lg

/-- Whether the opcode is one of `arg_i`, `arg_n`, `arg_s`, `arg_o`. -/
def is_arg_op (op : MVMOpcode) : Bool :=
  match op with
  | MVM_OP_arg_i | MVM_OP_arg_n | MVM_OP_arg_s | MVM_OP_arg_o => true
  | _ => false

/-- Whether the opcode is one of `argconst_i`, `argconst_n`, `argconst_s`. -/
def is_argconst_op (op : MVMOpcode) : Bool :=
  match op with
  | MVM_OP_argconst_i | MVM_OP_argconst_n | MVM_OP_argconst_s => true
  | _ => false

/-- A graph of one block holding `prepargs 3; arg_o 0, r1`, where the fact of `r1` came from
log guard 1 of two log guards, none of them relied upon yet. -/
def g_arg_logged : MVMSpeshGraph :=
  { sf := sample_sf
    bbs := fun b =>
      if b = 0 then
        { idx := 0, ins := [0, 1], succ := [], linear_next := none, children := [],
          inlined := false }
      else empty_bb b
    ins := fun p =>
      if p = 0 then
        { info := sample_op_info MVM_OP_prepargs,
          operands := [MVMSpeshOperand.callsite_idx 3], annotations := [] }
      else if p = 1 then
        { info := sample_op_info MVM_OP_arg_o,
          operands := [MVMSpeshOperand.lit_i16 0, MVMSpeshOperand.reg 1 0], annotations := [] }
      else no_ins
    ins_alloc := 2
    entry := 0
    num_bbs := 1
    facts := fun orig i =>
      if orig = 1 ∧ i = 0 then
        { flags := MVM_SPESH_FACT_FROM_LOG_GUARD, type := 0, decont_type := 0, value := 0,
          log_guard := 1, usages := 1 }
      else blank_facts 0
    spesh_slots := []
    alloc_spesh_slots := 0
    log_guards := [{ ins := 7, bb := 0, used := false }, { ins := 8, bb := 0, used := false }]
    log_slots := fun _ => 0
    arg_guards := [] }

/-- What C36 asks of the collaborators that receive the graph: the `spesh` hooks of the
representations, of the container specs and of the extension ops, the inliner and the
allocator of temporary registers keep the log guards that were relied upon. -/
def collaborators_keep_guards (tc : MVMThreadContext) : Prop :=
  (∀ t hook, tc.REPR_spesh t = some hook →
    ∀ st g bb ins, guards_kept g (hook st g bb ins)) ∧
  (∀ st cs hook, tc.container_spec st = some cs → cs.spesh = some hook →
    ∀ st2 g bb ins, guards_kept g (hook st2 g bb ins)) ∧
  (∀ g info bb ins inline_graph target,
    guards_kept g (tc.MVM_spesh_inline g info bb ins inline_graph target)) ∧
  (∀ g kind, guards_kept g (tc.MVM_spesh_manipulate_get_temp_reg g kind).2) ∧
  (∀ g o, guards_kept g (tc.MVM_spesh_manipulate_release_temp_reg g o)) ∧
  (∀ r ∈ tc.extops, ∀ hook, r.spesh = some hook → ∀ g bb ins, guards_kept g (hook g bb ins))

/-! ## Properties

### How the primitive updates act on the fields of the graph -/

section frame_lemmas

variable (tc : MVMThreadContext) (g : MVMSpeshGraph)

@[simp] theorem set_facts_at_facts (p : Nat × Nat) (f : MVMSpeshFacts) (a b : Nat) :
    (g.set_facts_at p f).facts a b = if (a, b) = p then f else g.facts a b := rfl

@[simp] theorem set_facts_at_ins (p : Nat × Nat) (f : MVMSpeshFacts) :
    (g.set_facts_at p f).ins = g.ins := rfl

@[simp] theorem set_facts_at_bbs (p : Nat × Nat) (f : MVMSpeshFacts) :
    (g.set_facts_at p f).bbs = g.bbs := rfl

@[simp] theorem set_facts_at_spesh_slots (p : Nat × Nat) (f : MVMSpeshFacts) :
    (g.set_facts_at p f).spesh_slots = g.spesh_slots := rfl

@[simp] theorem set_facts_at_log_guards (p : Nat × Nat) (f : MVMSpeshFacts) :
    (g.set_facts_at p f).log_guards = g.log_guards := rfl

@[simp] theorem set_facts_at_sf (p : Nat × Nat) (f : MVMSpeshFacts) :
    (g.set_facts_at p f).sf = g.sf := rfl

@[simp] theorem set_ins_ins (p : Nat) (i : MVMSpeshIns) (q : Nat) :
    (g.set_ins p i).ins q = if q = p then i else g.ins q := rfl

@[simp] theorem set_ins_facts (p : Nat) (i : MVMSpeshIns) : (g.set_ins p i).facts = g.facts := rfl

@[simp] theorem set_ins_bbs (p : Nat) (i : MVMSpeshIns) : (g.set_ins p i).bbs = g.bbs := rfl

@[simp] theorem set_ins_spesh_slots (p : Nat) (i : MVMSpeshIns) :
    (g.set_ins p i).spesh_slots = g.spesh_slots := rfl

@[simp] theorem set_ins_log_guards (p : Nat) (i : MVMSpeshIns) :
    (g.set_ins p i).log_guards = g.log_guards := rfl

@[simp] theorem set_ins_sf (p : Nat) (i : MVMSpeshIns) : (g.set_ins p i).sf = g.sf := rfl

@[simp] theorem set_bb_bbs (b : Nat) (bb : MVMSpeshBB) (q : Nat) :
    (g.set_bb b bb).bbs q = if q = b then bb else g.bbs q := rfl

@[simp] theorem set_bb_ins (b : Nat) (bb : MVMSpeshBB) : (g.set_bb b bb).ins = g.ins := rfl

@[simp] theorem set_bb_facts (b : Nat) (bb : MVMSpeshBB) : (g.set_bb b bb).facts = g.facts := rfl

@[simp] theorem set_bb_spesh_slots (b : Nat) (bb : MVMSpeshBB) :
    (g.set_bb b bb).spesh_slots = g.spesh_slots := rfl

@[simp] theorem set_bb_log_guards (b : Nat) (bb : MVMSpeshBB) :
    (g.set_bb b bb).log_guards = g.log_guards := rfl

@[simp] theorem set_bb_sf (b : Nat) (bb : MVMSpeshBB) : (g.set_bb b bb).sf = g.sf := rfl

@[simp] theorem set_guard_used_facts (k : Nat) : (g.set_guard_used k).facts = g.facts := rfl

@[simp] theorem set_guard_used_ins (k : Nat) : (g.set_guard_used k).ins = g.ins := rfl

@[simp] theorem set_guard_used_bbs (k : Nat) : (g.set_guard_used k).bbs = g.bbs := rfl

@[simp] theorem set_guard_used_spesh_slots (k : Nat) :
    (g.set_guard_used k).spesh_slots = g.spesh_slots := rfl

@[simp] theorem set_guard_used_sf (k : Nat) : (g.set_guard_used k).sf = g.sf := rfl

@[simp] theorem use_facts_facts (f : Nat × Nat) : (MVM_spesh_use_facts tc g f).facts = g.facts := by
  unfold MVM_spesh_use_facts; split <;> rfl

@[simp] theorem use_facts_ins (f : Nat × Nat) : (MVM_spesh_use_facts tc g f).ins = g.ins := by
  unfold MVM_spesh_use_facts; split <;> rfl

@[simp] theorem use_facts_bbs (f : Nat × Nat) : (MVM_spesh_use_facts tc g f).bbs = g.bbs := by
  unfold MVM_spesh_use_facts; split <;> rfl

@[simp] theorem use_facts_spesh_slots (f : Nat × Nat) :
    (MVM_spesh_use_facts tc g f).spesh_slots = g.spesh_slots := by
  unfold MVM_spesh_use_facts; split <;> rfl

@[simp] theorem use_facts_sf (f : Nat × Nat) : (MVM_spesh_use_facts tc g f).sf = g.sf := by
  unfold MVM_spesh_use_facts; split <;> rfl

@[simp] theorem get_and_use_facts_fst (o : MVMSpeshOperand) :
    (MVM_spesh_get_and_use_facts tc g o).1 = o.get_reg tc := by
  unfold MVM_spesh_get_and_use_facts; simp only [get_facts_direct]; split <;> rfl

@[simp] theorem get_and_use_facts_facts (o : MVMSpeshOperand) :
    (MVM_spesh_get_and_use_facts tc g o).2.facts = g.facts := by
  unfold MVM_spesh_get_and_use_facts; simp only []; split <;> rfl

@[simp] theorem get_and_use_facts_ins (o : MVMSpeshOperand) :
    (MVM_spesh_get_and_use_facts tc g o).2.ins = g.ins := by
  unfold MVM_spesh_get_and_use_facts; simp only []; split <;> rfl

@[simp] theorem get_and_use_facts_bbs (o : MVMSpeshOperand) :
    (MVM_spesh_get_and_use_facts tc g o).2.bbs = g.bbs := by
  unfold MVM_spesh_get_and_use_facts; simp only []; split <;> rfl

@[simp] theorem get_and_use_facts_spesh_slots (o : MVMSpeshOperand) :
    (MVM_spesh_get_and_use_facts tc g o).2.spesh_slots = g.spesh_slots := by
  unfold MVM_spesh_get_and_use_facts; simp only []; split <;> rfl

@[simp] theorem add_spesh_slot_fst (c : Nat) :
    (MVM_spesh_add_spesh_slot tc g c).1 = to_int16 g.spesh_slots.length := by
  unfold MVM_spesh_add_spesh_slot; simp only []; split <;> rfl

@[simp] theorem add_spesh_slot_spesh_slots (c : Nat) :
    (MVM_spesh_add_spesh_slot tc g c).2.spesh_slots = g.spesh_slots ++ [c] := by
  unfold MVM_spesh_add_spesh_slot; simp only []; split <;> rfl

@[simp] theorem add_spesh_slot_facts (c : Nat) :
    (MVM_spesh_add_spesh_slot tc g c).2.facts = g.facts := by
  unfold MVM_spesh_add_spesh_slot; simp only []; split <;> rfl

@[simp] theorem add_spesh_slot_ins (c : Nat) :
    (MVM_spesh_add_spesh_slot tc g c).2.ins = g.ins := by
  unfold MVM_spesh_add_spesh_slot; simp only []; split <;> rfl

@[simp] theorem add_spesh_slot_bbs (c : Nat) :
    (MVM_spesh_add_spesh_slot tc g c).2.bbs = g.bbs := by
  unfold MVM_spesh_add_spesh_slot; simp only []; split <;> rfl

@[simp] theorem add_spesh_slot_log_guards (c : Nat) :
    (MVM_spesh_add_spesh_slot tc g c).2.log_guards = g.log_guards := by
  unfold MVM_spesh_add_spesh_slot; simp only []; split <;> rfl

end frame_lemmas

/-- A flag that was just or-ed in is set. -/
theorem has_flag_or_self (a m : Nat) (hm : m ≠ 0) : has_flag (a ||| m) m = true := by
  have h : (a ||| m) &&& m = m := by
    apply Nat.eq_of_testBit_eq; intro i
    simp only [Nat.testBit_and, Nat.testBit_or]
    cases a.testBit i <;> cases m.testBit i <;> rfl
  simp [has_flag, h, hm]

/-- An index below `2^15` survives the conversion to `MVMint16`. -/
theorem to_int16_of_lt (n : Nat) (h : n < 32768) : to_int16 (n : Int) = n := by
  unfold to_int16; omega


/-- A bitwise or is zero exactly when both sides are. -/
theorem nat_or_eq_zero (x y : Nat) : x ||| y = 0 ↔ x = 0 ∧ y = 0 := by
  constructor
  · intro h
    have hb : ∀ i, (x.testBit i || y.testBit i) = false := by
      intro i
      rw [← Nat.testBit_or, h, Nat.zero_testBit]
    constructor
    · apply Nat.eq_of_testBit_eq; intro i
      have := hb i
      rw [Nat.zero_testBit]
      cases hx : x.testBit i <;> simp_all
    · apply Nat.eq_of_testBit_eq; intro i
      have := hb i
      rw [Nat.zero_testBit]
      cases hy : y.testBit i <;> simp_all
  · rintro ⟨rfl, rfl⟩; rfl

/-- Testing against the union of two masks is testing against either. -/
theorem has_flag_or (a m1 m2 : Nat) :
    has_flag a (m1 ||| m2) = (has_flag a m1 || has_flag a m2) := by
  unfold has_flag
  rw [Nat.and_or_distrib_left, Bool.eq_iff_iff]
  simp only [bne_iff_ne, Bool.or_eq_true, ne_eq, nat_or_eq_zero]
  tauto

/-! ### C1: constant branch folding on integers -/

/-- C1, at the failing input: `if_i r1, L2` whose flag `r1` has the known 64-bit value 256,
which is not zero.  `optimize_iffy` narrows the value to `MVMuint8` before testing it, finds
0, and so deletes the instruction and drops the branch target `L2` from the successors,
instead of turning the instruction into `goto L2` and dropping the linear successor. -/
theorem C1_if_i_known_256_deleted :
    has_flag ((g_iffy 256).facts 1 0).flags MVM_SPESH_FACT_KNOWN_VALUE = true ∧
    value_i64 ((g_iffy 256).facts 1 0).value = 256 ∧
    ((g_iffy 256).ins 1).info.opcode = MVM_OP_if_i ∧
    ((optimize_iffy (sample_tc 0) (g_iffy 256) 1 0).bbs 0).ins = [0] ∧
    ((optimize_iffy (sample_tc 0) (g_iffy 256) 1 0).bbs 0).succ = [1] ∧
    ((optimize_iffy (sample_tc 0) (g_iffy 256) 1 0).ins 1).info.opcode = MVM_OP_if_i ∧
    ((optimize_iffy (sample_tc 0) (g_iffy 256) 1 0).facts 1 0).usages = 0 := by
  decide

/-! ### C2: method monomorphization -/

/-- C2, as amended: for `findmeth dst, obj, name` whose invocant fact has `KNOWN_TYPE` and
whose cache-only lookup gives a non-null method `M`, `optimize_method_lookup` appends `M` to
the spesh-slot table, turns the instruction into `sp_getspeshslot dst, s` where `s` is the
index at which `M` was stored converted to `MVMint16` (that index itself when the table held
fewer than 32768 entries), sets `KNOWN_VALUE` and the value `M` on the fact of `dst`, and
decrements the usages of the invocant by exactly one. -/
theorem C2_method_lookup_resolved (tc : MVMThreadContext) (g : MVMSpeshGraph)
    (ins d_orig d_i o_orig o_i name M : Nat)
    (hops : (g.ins ins).operands =
      [MVMSpeshOperand.reg d_orig d_i, MVMSpeshOperand.reg o_orig o_i,
       MVMSpeshOperand.lit_str_idx name])
    (hkt : has_flag (g.facts o_orig o_i).flags MVM_SPESH_FACT_KNOWN_TYPE = true)
    (hM : tc.MVM_6model_find_method_cache_only (g.facts o_orig o_i).type (g.sf.strings name) = M)
    (hnn : tc.MVM_is_null M = false) :
    (optimize_method_lookup tc g ins).spesh_slots = g.spesh_slots ++ [M] ∧
    ((optimize_method_lookup tc g ins).ins ins).info = tc.MVM_op_get_op MVM_OP_sp_getspeshslot ∧
    ((optimize_method_lookup tc g ins).ins ins).operands =
      [MVMSpeshOperand.reg d_orig d_i,
       MVMSpeshOperand.lit_i16 (to_int16 g.spesh_slots.length),
       MVMSpeshOperand.lit_str_idx name] ∧
    (g.spesh_slots.length < 32768 →
      to_int16 g.spesh_slots.length = (g.spesh_slots.length : Int)) ∧
    has_flag ((optimize_method_lookup tc g ins).facts d_orig d_i).flags
      MVM_SPESH_FACT_KNOWN_VALUE = true ∧
    ((optimize_method_lookup tc g ins).facts d_orig d_i).value = M ∧
    ((optimize_method_lookup tc g ins).facts o_orig o_i).usages
      = (g.facts o_orig o_i).usages - 1 := by
  have e1 : (g.ins ins).operand 1 = MVMSpeshOperand.reg o_orig o_i := by
    simp [MVMSpeshIns.operand, hops]
  have e0 : (g.ins ins).operand 0 = MVMSpeshOperand.reg d_orig d_i := by
    simp [MVMSpeshIns.operand, hops]
  have e2 : (g.ins ins).operand 2 = MVMSpeshOperand.lit_str_idx name := by
    simp [MVMSpeshIns.operand, hops]
  have hkv : ∀ a, has_flag (a ||| MVM_SPESH_FACT_KNOWN_VALUE) MVM_SPESH_FACT_KNOWN_VALUE = true :=
    fun a => has_flag_or_self a _ (by decide)
  have hlen := to_int16_of_lt g.spesh_slots.length
  by_cases hal : d_orig = o_orig ∧ d_i = o_i
  · obtain ⟨h1, h2⟩ := hal
    subst h1 h2
    simp [optimize_method_lookup, MVM_spesh_get_facts, get_facts_direct, e1, e0,
      MVMSpeshOperand.get_reg, MVMSpeshGraph.facts_at, hkt, MVM_spesh_get_string, e2,
      MVMSpeshOperand.get_lit_str_idx, hM, hnn, MVMSpeshGraph.set_info, MVMSpeshGraph.set_operand,
      hops, hkv]
    exact hlen
  · have hal2 : ¬ (o_orig = d_orig ∧ o_i = d_i) := fun h => hal ⟨h.1.symm, h.2.symm⟩
    simp [optimize_method_lookup, MVM_spesh_get_facts, get_facts_direct, e1, e0,
      MVMSpeshOperand.get_reg, MVMSpeshGraph.facts_at, hkt, MVM_spesh_get_string, e2,
      MVMSpeshOperand.get_lit_str_idx, hM, hnn, MVMSpeshGraph.set_info, MVMSpeshGraph.set_operand,
      hops, hkv, hal, hal2]
    exact hlen

/-- C2, witness: the amended statement at `findmeth r3, r2, "5"` with an empty slot table
and the method `9`. -/
theorem C2_method_lookup_resolved_witness :
    (optimize_method_lookup (sample_tc 9) (g_findmeth []) 0).spesh_slots = [9] ∧
    ((optimize_method_lookup (sample_tc 9) (g_findmeth []) 0).ins 0).operands =
      [MVMSpeshOperand.reg 3 0, MVMSpeshOperand.lit_i16 0, MVMSpeshOperand.lit_str_idx 5] ∧
    ((optimize_method_lookup (sample_tc 9) (g_findmeth []) 0).facts 3 0).value = 9 ∧
    ((optimize_method_lookup (sample_tc 9) (g_findmeth []) 0).facts 2 0).usages = 0 :=
  have h := C2_method_lookup_resolved (sample_tc 9) (g_findmeth []) 0 3 0 2 0 5 9 rfl
    (by decide) rfl rfl
  ⟨h.1, h.2.2.1, h.2.2.2.2.2.1, h.2.2.2.2.2.2⟩

/-- The resolved rewrite on `findmeth r3, r2, "5"` when the slot table holds exactly 32768
entries. -/
theorem method_lookup_full_table (slots : List Nat) (h : slots.length = 32768) :
    (optimize_method_lookup (sample_tc 9) (g_findmeth slots) 0).spesh_slots = slots ++ [9] ∧
    ((optimize_method_lookup (sample_tc 9) (g_findmeth slots) 0).ins 0).operands
      = [MVMSpeshOperand.reg 3 0, MVMSpeshOperand.lit_i16 (-32768),
         MVMSpeshOperand.lit_str_idx 5] := by
  have h16 : to_int16 (32768 : Nat) = -32768 := by decide
  simp [optimize_method_lookup, MVM_spesh_get_facts, get_facts_direct, g_findmeth,
      MVMSpeshOperand.get_reg, MVMSpeshGraph.facts_at, MVM_spesh_get_string, MVMSpeshIns.operand,
      MVMSpeshOperand.get_lit_str_idx, MVMSpeshGraph.set_info, MVMSpeshGraph.set_operand, sample_tc,
      has_flag, MVM_SPESH_FACT_KNOWN_TYPE, h, sample_sf]
  exact h16

/-- C2, counterexample: with 32768 entries already in the slot table, the method `9` is
stored at index 32768 while the rewritten instruction is `sp_getspeshslot r3, -32768`: the
operand is not the index at which the method was stored. -/
theorem C2_counterexample_slot_index_wraps :
    has_flag ((g_findmeth (List.replicate 32768 0)).facts 2 0).flags
      MVM_SPESH_FACT_KNOWN_TYPE = true ∧
    (sample_tc 9).MVM_is_null
      ((sample_tc 9).MVM_6model_find_method_cache_only
        ((g_findmeth (List.replicate 32768 0)).facts 2 0).type
        ((g_findmeth (List.replicate 32768 0)).sf.strings 5)) = false ∧
    (optimize_method_lookup (sample_tc 9) (g_findmeth (List.replicate 32768 0)) 0).spesh_slots
      = List.replicate 32768 0 ++ [9] ∧
    (List.replicate 32768 0 ++ [9]).get? 32768 = some 9 ∧
    ((optimize_method_lookup (sample_tc 9) (g_findmeth (List.replicate 32768 0)) 0).ins 0).operands
      = [MVMSpeshOperand.reg 3 0, MVMSpeshOperand.lit_i16 (-32768),
         MVMSpeshOperand.lit_str_idx 5] ∧
    MVMSpeshOperand.lit_i16 (-32768) ≠ MVMSpeshOperand.lit_i16 32768 :=
  ⟨rfl, rfl, (method_lookup_full_table _ (List.length_replicate _ _)).1,
    (fun (l : List Nat) (n : Nat) (h : l.length = n) =>
      show (l ++ [9]).get? n = some 9 by subst h; simp) _ _ (List.length_replicate _ _),
    (method_lookup_full_table _ (List.length_replicate _ _)).2, by decide⟩

/-! ### C3: decont elision -/

/-- C3: for `decont dst, src` whose source fact has `DECONTED` or `TYPEOBJ`,
`optimize_decont` changes only the op descriptor of the instruction, to that of `set`, both
operands staying as they were, and makes the flags, type, decont type, value and log-guard
index of `dst` equal to those of `src`; no usages counter changes, that of `dst` and of `src`
included, and no other fact record changes. -/
theorem C3_decont_elision (tc : MVMThreadContext) (g : MVMSpeshGraph)
    (bb ins d_orig d_i s_orig s_i : Nat)
    (hops : (g.ins ins).operands =
      [MVMSpeshOperand.reg d_orig d_i, MVMSpeshOperand.reg s_orig s_i])
    (hflag : has_flag (g.facts s_orig s_i).flags MVM_SPESH_FACT_DECONTED = true ∨
      has_flag (g.facts s_orig s_i).flags MVM_SPESH_FACT_TYPEOBJ = true) :
    (optimize_decont tc g bb ins).ins ins
      = { g.ins ins with info := tc.MVM_op_get_op MVM_OP_set } ∧
    ((optimize_decont tc g bb ins).facts d_orig d_i).flags = (g.facts s_orig s_i).flags ∧
    ((optimize_decont tc g bb ins).facts d_orig d_i).type = (g.facts s_orig s_i).type ∧
    ((optimize_decont tc g bb ins).facts d_orig d_i).decont_type
      = (g.facts s_orig s_i).decont_type ∧
    ((optimize_decont tc g bb ins).facts d_orig d_i).value = (g.facts s_orig s_i).value ∧
    ((optimize_decont tc g bb ins).facts d_orig d_i).log_guard
      = (g.facts s_orig s_i).log_guard ∧
    (∀ a b, ((optimize_decont tc g bb ins).facts a b).usages = (g.facts a b).usages) ∧
    (∀ a b, (a, b) ≠ (d_orig, d_i) → (optimize_decont tc g bb ins).facts a b = g.facts a b) ∧
    (∀ q, q ≠ ins → (optimize_decont tc g bb ins).ins q = g.ins q) ∧
    (optimize_decont tc g bb ins).bbs = g.bbs ∧
    (optimize_decont tc g bb ins).spesh_slots = g.spesh_slots := by
  have e1 : (g.ins ins).operand 1 = MVMSpeshOperand.reg s_orig s_i := by
    simp [MVMSpeshIns.operand, hops]
  have e0 : (g.ins ins).operand 0 = MVMSpeshOperand.reg d_orig d_i := by
    simp [MVMSpeshIns.operand, hops]
  have hf : has_flag (g.facts s_orig s_i).flags
      (MVM_SPESH_FACT_DECONTED ||| MVM_SPESH_FACT_TYPEOBJ) = true := by
    rw [has_flag_or]; rcases hflag with h | h <;> simp [h]
  have hcopy : optimize_decont tc g bb ins
      = copy_facts tc (MVM_spesh_use_facts tc
          (g.set_info ins (tc.MVM_op_get_op MVM_OP_set)) (s_orig, s_i))
          (MVMSpeshOperand.reg d_orig d_i) (MVMSpeshOperand.reg s_orig s_i) := by
    simp [optimize_decont, MVM_spesh_get_facts, get_facts_direct, e1, e0, MVMSpeshOperand.get_reg,
      MVMSpeshGraph.facts_at, hf, MVMSpeshGraph.set_info, MVMSpeshIns.operand, hops]
  rw [hcopy]
  have hfacts : ∀ a b, (copy_facts tc (MVM_spesh_use_facts tc
          (g.set_info ins (tc.MVM_op_get_op MVM_OP_set)) (s_orig, s_i))
          (MVMSpeshOperand.reg d_orig d_i) (MVMSpeshOperand.reg s_orig s_i)).facts a b
      = if (a, b) = (d_orig, d_i) then
          { g.facts s_orig s_i with usages := (g.facts d_orig d_i).usages }
        else g.facts a b := by
    intro a b
    by_cases hal : d_orig = s_orig ∧ d_i = s_i
    · obtain ⟨h1, h2⟩ := hal
      subst h1 h2
      by_cases hab : a = d_orig ∧ b = d_i <;>
        simp [copy_facts, get_facts_direct, MVMSpeshOperand.get_reg, MVMSpeshGraph.facts_at,
          MVMSpeshGraph.set_info, hab]
    · have hal2 : ¬ (s_orig = d_orig ∧ s_i = d_i) := fun h => hal ⟨h.1.symm, h.2.symm⟩
      by_cases hab : a = d_orig ∧ b = d_i <;>
        simp [copy_facts, get_facts_direct, MVMSpeshOperand.get_reg, MVMSpeshGraph.facts_at,
          MVMSpeshGraph.set_info, hab, hal, hal2]
  refine ⟨?_, ?_, ?_, ?_, ?_, ?_, ?_, ?_, ?_, ?_, ?_⟩
  · simp [copy_facts, get_facts_direct, MVMSpeshGraph.set_info]
  · simp [hfacts]
  · simp [hfacts]
  · simp [hfacts]
  · simp [hfacts]
  · simp [hfacts]
  · intro a b
    rw [hfacts]
    by_cases hab : (a, b) = (d_orig, d_i)
    · simp only [hab, if_true]
      rw [← (Prod.mk.inj hab).1, ← (Prod.mk.inj hab).2]
    · simp [hab]
  · intro a b hab
    rw [hfacts, if_neg hab]
  · intro q hq
    simp [copy_facts, get_facts_direct, MVMSpeshGraph.set_info, hq]
  · simp [copy_facts, get_facts_direct, MVMSpeshGraph.set_info]
  · simp [copy_facts, get_facts_direct, MVMSpeshGraph.set_info]

/-- C3, witness: `decont r2, r1` where `r1` has `DECONTED`. -/
theorem C3_decont_elision_witness :
    has_flag ((g_unary MVM_OP_decont MVM_SPESH_FACT_DECONTED).facts 1 0).flags
      MVM_SPESH_FACT_DECONTED = true ∧
    ((optimize_decont (sample_tc 0) (g_unary MVM_OP_decont MVM_SPESH_FACT_DECONTED) 0 0).ins
      0).info.opcode = MVM_OP_set ∧
    ((optimize_decont (sample_tc 0) (g_unary MVM_OP_decont MVM_SPESH_FACT_DECONTED) 0 0).facts
      2 0).value = 11 :=
  have h := C3_decont_elision (sample_tc 0) (g_unary MVM_OP_decont MVM_SPESH_FACT_DECONTED)
    0 0 2 0 1 0 rfl (Or.inl (by decide))
  ⟨by decide, by rw [h.1]; rfl, by rw [h.2.2.2.2.1]; rfl⟩

/-! ### C4: representation probe -/

/-- C4: for `islist`, `ishash`, `isint`, `isnum`, `isstr` (probing `MVMArray`, `MVMHash`,
`P6int`, `P6num`, `P6str` respectively) on an invocant whose fact has `KNOWN_TYPE`,
`optimize_is_reprid` replaces the op descriptor by that of `isnonnull`, operands unchanged,
when the representation ID of the type is the probed one, and otherwise turns the instruction
into `const_i64_16 dst, 0` and records `KNOWN_VALUE` with value 0 on `dst`; when the invocant
lacks `KNOWN_TYPE` the graph is returned unchanged. -/
theorem C4_is_reprid (tc : MVMThreadContext) (g : MVMSpeshGraph)
    (ins d_orig d_i o_orig o_i : Nat) (op : MVMOpcode) (wanted : MVMReprId)
    (hpair : (op, wanted) ∈
      [(MVM_OP_islist, MVM_REPR_ID_MVMArray), (MVM_OP_ishash, MVM_REPR_ID_MVMHash),
       (MVM_OP_isint, MVM_REPR_ID_P6int), (MVM_OP_isnum, MVM_REPR_ID_P6num),
       (MVM_OP_isstr, MVM_REPR_ID_P6str)])
    (hop : (g.ins ins).info.opcode = op)
    (hops : (g.ins ins).operands =
      [MVMSpeshOperand.reg d_orig d_i, MVMSpeshOperand.reg o_orig o_i]) :
    (has_flag (g.facts o_orig o_i).flags MVM_SPESH_FACT_KNOWN_TYPE = true →
      tc.REPR_ID (g.facts o_orig o_i).type = wanted →
      (optimize_is_reprid tc g ins).ins ins
        = { g.ins ins with info := tc.MVM_op_get_op MVM_OP_isnonnull } ∧
      (optimize_is_reprid tc g ins).facts = g.facts) ∧
    (has_flag (g.facts o_orig o_i).flags MVM_SPESH_FACT_KNOWN_TYPE = true →
      tc.REPR_ID (g.facts o_orig o_i).type ≠ wanted →
      ((optimize_is_reprid tc g ins).ins ins).info = tc.MVM_op_get_op MVM_OP_const_i64_16 ∧
      ((optimize_is_reprid tc g ins).ins ins).operands
        = [MVMSpeshOperand.reg d_orig d_i, MVMSpeshOperand.lit_i16 0] ∧
      has_flag ((optimize_is_reprid tc g ins).facts d_orig d_i).flags
        MVM_SPESH_FACT_KNOWN_VALUE = true ∧
      value_i64 ((optimize_is_reprid tc g ins).facts d_orig d_i).value = 0) ∧
    (has_flag (g.facts o_orig o_i).flags MVM_SPESH_FACT_KNOWN_TYPE = false →
      optimize_is_reprid tc g ins = g) := by
  have e1 : (g.ins ins).operand 1 = MVMSpeshOperand.reg o_orig o_i := by
    simp [MVMSpeshIns.operand, hops]
  have e0 : (g.ins ins).operand 0 = MVMSpeshOperand.reg d_orig d_i := by
    simp [MVMSpeshIns.operand, hops]
  have hw : wanted_repr_id (g.ins ins).info.opcode = some wanted := by
    rw [hop]
    simp only [List.mem_cons, Prod.mk.injEq, List.mem_singleton, List.mem_nil_iff, or_false]
      at hpair
    rcases hpair with h | h | h | h | h <;> (obtain ⟨h1, h2⟩ := h; subst h1 h2; rfl)
  have hkv : ∀ a, has_flag (a ||| MVM_SPESH_FACT_KNOWN_VALUE) MVM_SPESH_FACT_KNOWN_VALUE = true :=
    fun a => has_flag_or_self a _ (by decide)
  have hz : value_i64 (store_i64 0) = 0 := by decide
  refine ⟨?_, ?_, ?_⟩
  · intro hkt hid
    simp [optimize_is_reprid, MVM_spesh_get_facts, get_facts_direct, e1, e0,
      MVMSpeshOperand.get_reg, MVMSpeshGraph.facts_at, hkt, hw, hid, MVMSpeshGraph.set_info]
  · intro hkt hid
    simp [optimize_is_reprid, MVM_spesh_get_facts, get_facts_direct, e1, e0,
      MVMSpeshOperand.get_reg, MVMSpeshGraph.facts_at, hkt, hw, hid, MVMSpeshGraph.set_info,
      MVMSpeshGraph.set_operand, hops, hkv, hz]
  · intro hkt
    simp [optimize_is_reprid, MVM_spesh_get_facts, get_facts_direct, e1,
      MVMSpeshOperand.get_reg, MVMSpeshGraph.facts_at, hkt]

/-- C4, witness: `islist r2, r1` where `r1` has a known type whose representation is not
`MVMArray`. -/
theorem C4_is_reprid_witness :
    has_flag ((g_unary MVM_OP_islist MVM_SPESH_FACT_KNOWN_TYPE).facts 1 0).flags
      MVM_SPESH_FACT_KNOWN_TYPE = true ∧
    (sample_tc 0).REPR_ID ((g_unary MVM_OP_islist MVM_SPESH_FACT_KNOWN_TYPE).facts 1 0).type
      ≠ MVM_REPR_ID_MVMArray ∧
    ((optimize_is_reprid (sample_tc 0) (g_unary MVM_OP_islist MVM_SPESH_FACT_KNOWN_TYPE) 0).ins
      0).operands = [MVMSpeshOperand.reg 2 0, MVMSpeshOperand.lit_i16 0] :=
  ⟨by decide, by decide,
    ((C4_is_reprid (sample_tc 0) (g_unary MVM_OP_islist MVM_SPESH_FACT_KNOWN_TYPE) 0 2 0 1 0
      MVM_OP_islist MVM_REPR_ID_MVMArray (by simp) rfl rfl).2.1 (by decide) (by decide)).2.1⟩

/-! ### C5: unused phi removal -/

/-- The loop that propagates non-usage of a phi leaves instructions and blocks alone and takes
from the usages of every register version the number of times it occurs among the operands
the loop runs over. -/
theorem propagate_non_usage_phi (tc : MVMThreadContext) (ins : Nat) :
    ∀ (n : Nat) (g : MVMSpeshGraph) (i : Nat),
      (propagate_non_usage tc ins false n g i).ins = g.ins ∧
      (propagate_non_usage tc ins false n g i).bbs = g.bbs ∧
      ∀ a b, (propagate_non_usage tc ins false n g i).facts a b
        = { g.facts a b with
            usages := (g.facts a b).usages -
              (((List.range' i n).map fun k => ((g.ins ins).operand k).get_reg tc).count (a, b)
                : Nat) } := by
  intro n
  induction n with
  | zero => intro g i; simp [propagate_non_usage]
  | succ n ih =>
    intro g i
    obtain ⟨h1, h2, h3⟩ := ih
      (g.set_facts_at (get_facts_direct tc g ((g.ins ins).operand i))
        { g.facts_at (get_facts_direct tc g ((g.ins ins).operand i)) with
          usages := (g.facts_at (get_facts_direct tc g ((g.ins ins).operand i))).usages - 1 })
      (i + 1)
    simp only [propagate_non_usage, Bool.not_false, Bool.true_or, if_true]
    refine ⟨by rw [h1]; rfl, by rw [h2]; rfl, ?_⟩
    intro a b
    rw [h3 a b]
    simp only [set_facts_at_ins, set_facts_at_facts, get_facts_direct, MVMSpeshGraph.facts_at,
      List.range'_succ, List.map_cons, List.count_cons]
    by_cases hab : (a, b) = ((g.ins ins).operand i).get_reg tc
    · rw [if_pos hab, ← hab]
      simp only [beq_self_eq_true, if_true]
      congr 1
      push_cast
      ring
    · have hab2 : (((g.ins ins).operand i).get_reg tc == (a, b)) = false := by
        rw [beq_eq_false_iff_ne]; exact fun h => hab h.symm
      rw [if_neg hab, hab2]
      simp

/-- The loop that propagates non-usage never touches a block. -/
theorem propagate_non_usage_bbs (tc : MVMThreadContext) (ins : Nat) (only_read_regs : Bool) :
    ∀ (n : Nat) (g : MVMSpeshGraph) (i : Nat),
      (propagate_non_usage tc ins only_read_regs n g i).bbs = g.bbs := by
  intro n
  induction n with
  | zero => intro g i; rfl
  | succ n ih =>
    intro g i
    simp only [propagate_non_usage]
    rw [ih]
    split <;> rfl

/-- The visit of one instruction removes no other instruction from any block. -/
theorem eliminate_dead_ins_visit_keeps (tc : MVMThreadContext) (g : MVMSpeshGraph)
    (b p bb ins : Nat) (hne : p ≠ ins) :
    ins ∈ ((eliminate_dead_ins_visit tc g b p).1.bbs bb).ins ↔ ins ∈ (g.bbs bb).ins := by
  have hdel : ∀ g1 : MVMSpeshGraph, g1.bbs = g.bbs →
      (ins ∈ ((MVM_spesh_manipulate_delete_ins tc g1 b p).bbs bb).ins ↔ ins ∈ (g.bbs bb).ins) := by
    intro g1 h1
    simp only [MVM_spesh_manipulate_delete_ins, set_bb_bbs, h1]
    by_cases hb : bb = b
    · subst hb
      simp only [if_true]
      exact List.mem_erase_of_ne (fun h => hne h.symm)
    · simp only [if_neg hb]
  unfold eliminate_dead_ins_visit
  split
  · simp only []
    split
    · exact hdel _ (propagate_non_usage_bbs tc p false _ g 1)
    · exact Iff.rfl
  · split
    · split
      · simp only []
        split
        · exact hdel _ (propagate_non_usage_bbs tc p true _ g 1)
        · exact Iff.rfl
      · exact Iff.rfl
    · exact Iff.rfl

/-- The registers read off the operands after the first are the sources of the phi. -/
theorem phi_sources_of_operands (tc : MVMThreadContext) (srcs : List (Nat × Nat)) :
    ∀ (pre : List MVMSpeshOperand),
      ((List.range' pre.length srcs.length).map fun k =>
        ((pre ++ srcs.map fun r => MVMSpeshOperand.reg r.1 r.2).getD k
          (MVMSpeshOperand.lit_i64 0)).get_reg tc) = srcs := by
  induction srcs with
  | nil => intro pre; simp
  | cons s rest ih =>
    intro pre
    have h := ih (pre ++ [MVMSpeshOperand.reg s.1 s.2])
    simp only [List.length_append, List.length_singleton, List.append_assoc,
      List.singleton_append] at h
    simp only [List.length_cons, List.range'_succ, List.map_cons]
    rw [h, List.getD_append_right _ _ _ _ (Nat.le_refl _)]
    simp [MVMSpeshOperand.get_reg]

/-- C5: when the backward walk of `eliminate_dead_ins` visits a phi whose destination
register version has `usages == 0`, the phi is deleted from its block and the usages of every
register version goes down by the number of times it occurs among the source operands of the
phi, nothing else changing; a phi whose destination has a usages counter other than 0 (so
also one above 0) is not deleted and the graph stays as it is, and the visit of any other
instruction leaves the phi in its block. -/
theorem C5_unused_phi_removal (tc : MVMThreadContext) (g : MVMSpeshGraph)
    (bb ins d_orig d_i : Nat) (srcs : List (Nat × Nat))
    (hphi : (g.ins ins).info.opcode = MVM_SSA_PHI)
    (hnum : (g.ins ins).info.num_operands = srcs.length + 1)
    (hops : (g.ins ins).operands =
      MVMSpeshOperand.reg d_orig d_i :: srcs.map fun r => MVMSpeshOperand.reg r.1 r.2) :
    ((g.facts d_orig d_i).usages = 0 →
      (eliminate_dead_ins_visit tc g bb ins).2 = true ∧
      ((eliminate_dead_ins_visit tc g bb ins).1.bbs bb).ins = (g.bbs bb).ins.erase ins ∧
      ((g.bbs bb).ins.Nodup → ins ∉ ((eliminate_dead_ins_visit tc g bb ins).1.bbs bb).ins) ∧
      (∀ q, q ≠ ins → (q ∈ ((eliminate_dead_ins_visit tc g bb ins).1.bbs bb).ins ↔
        q ∈ (g.bbs bb).ins)) ∧
      (∀ b, b ≠ bb → (eliminate_dead_ins_visit tc g bb ins).1.bbs b = g.bbs b) ∧
      (eliminate_dead_ins_visit tc g bb ins).1.ins = g.ins ∧
      (∀ a b, (eliminate_dead_ins_visit tc g bb ins).1.facts a b
        = { g.facts a b with usages := (g.facts a b).usages - (srcs.count (a, b) : Nat) })) ∧
    ((g.facts d_orig d_i).usages ≠ 0 → eliminate_dead_ins_visit tc g bb ins = (g, false)) ∧
    (∀ b p, p ≠ ins → (ins ∈ ((eliminate_dead_ins_visit tc g b p).1.bbs bb).ins ↔
      ins ∈ (g.bbs bb).ins)) := by
  have e0 : (g.ins ins).operand 0 = MVMSpeshOperand.reg d_orig d_i := by
    simp [MVMSpeshIns.operand, hops]
  have hsrc : ((List.range' 1 srcs.length).map fun k =>
      ((g.ins ins).operand k).get_reg tc) = srcs := by
    have h := phi_sources_of_operands tc srcs [MVMSpeshOperand.reg d_orig d_i]
    simpa [MVMSpeshIns.operand, hops] using h
  obtain ⟨p1, p2, p3⟩ := propagate_non_usage_phi tc ins srcs.length g 1
  refine ⟨?_, ?_, fun b p hp => eliminate_dead_ins_visit_keeps tc g b p bb ins hp⟩
  · intro hz
    have hv : eliminate_dead_ins_visit tc g bb ins
        = (MVM_spesh_manipulate_delete_ins tc
            (propagate_non_usage tc ins false srcs.length g 1) bb ins, true) := by
      simp [eliminate_dead_ins_visit, hphi, get_facts_direct, e0, MVMSpeshOperand.get_reg,
        MVMSpeshGraph.facts_at, hz, hnum]
    rw [hv]
    refine ⟨rfl, ?_, ?_, ?_, ?_, ?_, ?_⟩
    · simp [MVM_spesh_manipulate_delete_ins, p2]
    · intro hnd
      simp only [MVM_spesh_manipulate_delete_ins, set_bb_bbs, if_true, p2]
      exact fun h => (List.Nodup.mem_erase_iff hnd).1 h |>.1 rfl
    · intro q hq
      simp only [MVM_spesh_manipulate_delete_ins, set_bb_bbs, if_true, p2]
      exact List.mem_erase_of_ne hq
    · intro b hb
      simp [MVM_spesh_manipulate_delete_ins, p2, hb]
    · simp [MVM_spesh_manipulate_delete_ins, p1]
    · intro a b
      simp only [MVM_spesh_manipulate_delete_ins, set_bb_facts]
      rw [p3 a b, hsrc]
  · intro hnz
    simp [eliminate_dead_ins_visit, hphi, get_facts_direct, e0, MVMSpeshOperand.get_reg,
      MVMSpeshGraph.facts_at, hnz]

/-- C5, witness: the phi `r4 = phi(r1, r2)` with `usages[r4] == 0` is deleted and the usages
of `r1` and of `r2` go from 1 to 0. -/
theorem C5_unused_phi_removal_witness :
    (g_phi.facts 4 0).usages = 0 ∧
    (eliminate_dead_ins_visit (sample_tc 0) g_phi 0 0).2 = true ∧
    ((eliminate_dead_ins_visit (sample_tc 0) g_phi 0 0).1.bbs 0).ins = [] ∧
    ((eliminate_dead_ins_visit (sample_tc 0) g_phi 0 0).1.facts 1 0).usages = 0 ∧
    ((eliminate_dead_ins_visit (sample_tc 0) g_phi 0 0).1.facts 2 0).usages = 0 :=
  have h := (C5_unused_phi_removal (sample_tc 0) g_phi 0 0 4 0 [(1, 0), (2, 0)] rfl rfl rfl).1 rfl
  ⟨rfl, h.1, by rw [h.2.1]; decide, by rw [h.2.2.2.2.2.2 1 0]; decide,
    by rw [h.2.2.2.2.2.2 2 0]; decide⟩

/-! ### C6: throwcat to goto -/

/-- The scope of a handler after one more annotation. -/
theorem handler_in_scope_concat (l : List MVMSpeshAnn) (a : MVMSpeshAnn) (k : Nat) :
    handler_in_scope (l ++ [a]) k
      = if is_scope_marker k a then a.type == MVM_SPESH_ANN_FH_START
        else handler_in_scope l k := by
  unfold handler_in_scope
  rw [List.reverse_append, List.reverse_singleton, List.singleton_append, List.find?_cons]
  cases h : is_scope_marker k a <;> simp

/-- The last goto annotation of a handler after one more annotation. -/
theorem last_goto_concat (l : List (Nat × MVMSpeshAnn)) (x : Nat × MVMSpeshAnn) (k : Nat) :
    last_goto (l ++ [x]) k = if is_goto_marker k x.2 then some x.1 else last_goto l k := by
  unfold last_goto
  rw [List.reverse_append, List.reverse_singleton, List.singleton_append, List.find?_cons]
  cases h : is_goto_marker k x.2 <;> simp

/-- Before a handler is picked, the annotation loop never leaves the search and keeps the
state in agreement with the annotations seen. -/
theorem track_handlers_unpicked (b : Nat) :
    ∀ (anns : List MVMSpeshAnn) (st : ThrowcatSearch) (done : List (Nat × MVMSpeshAnn)),
      st.picked = none → search_tracks st done →
      (throwcat_track_handlers b anns st).2 = false ∧
      (throwcat_track_handlers b anns st).1.picked = none ∧
      search_tracks (throwcat_track_handlers b anns st).1 (done ++ anns.map fun a => (b, a)) := by
  intro anns
  induction anns with
  | nil => intro st done hp ht; simpa [throwcat_track_handlers] using ⟨hp, ht⟩
  | cons a rest ih =>
    intro st done hp ht
    have hstep : ∀ st1 : ThrowcatSearch, st1.picked = none →
        search_tracks st1 (done ++ [(b, a)]) →
        (throwcat_track_handlers b rest st1).2 = false ∧
        (throwcat_track_handlers b rest st1).1.picked = none ∧
        search_tracks (throwcat_track_handlers b rest st1).1
          (done ++ (a :: rest).map fun a => (b, a)) := by
      intro st1 h1 h2
      have := ih st1 (done ++ [(b, a)]) h1 h2
      simpa [List.append_assoc] using this
    obtain ⟨ht1, ht2⟩ := ht
    cases hty : a.type with
    | MVM_SPESH_ANN_FH_START =>
      simp only [throwcat_track_handlers, hty]
      refine hstep _ ?_ ?_
      · exact hp
      refine ⟨?_, ?_⟩
      · intro k
        simp only [List.map_append, List.map_cons, List.map_nil, handler_in_scope_concat,
          is_scope_marker, hty]
        by_cases hk : k = a.frame_handler_index
        · subst hk; simp
        · have hk2 : ¬ a.frame_handler_index = k := fun h => hk h.symm
          simp [hk, hk2, ht1]
      · intro k
        simp [last_goto_concat, is_goto_marker, hty, ht2]
    | MVM_SPESH_ANN_FH_END =>
      simp only [throwcat_track_handlers, hty]
      refine hstep _ ?_ ?_
      · exact hp
      refine ⟨?_, ?_⟩
      · intro k
        simp only [List.map_append, List.map_cons, List.map_nil, handler_in_scope_concat,
          is_scope_marker, hty]
        by_cases hk : k = a.frame_handler_index
        · subst hk; simp
        · have hk2 : ¬ a.frame_handler_index = k := fun h => hk h.symm
          simp [hk, hk2, ht1]
      · intro k
        simp [last_goto_concat, is_goto_marker, hty, ht2]
    | MVM_SPESH_ANN_FH_GOTO =>
      simp only [throwcat_track_handlers, hty, hp]
      simp only [reduceCtorEq, if_false]
      refine hstep _ ?_ ?_
      · rfl
      refine ⟨?_, ?_⟩
      · intro k
        simp [handler_in_scope_concat, is_scope_marker, hty, ht1]
      · intro k
        simp only [last_goto_concat, is_goto_marker, hty]
        by_cases hk : k = a.frame_handler_index
        · subst hk; simp
        · have hk2 : ¬ a.frame_handler_index = k := fun h => hk h.symm
          simp [hk, hk2, ht2]
    | MVM_SPESH_ANN_other =>
      simp only [throwcat_track_handlers, hty]
      refine hstep _ ?_ ?_
      · exact hp
      refine ⟨?_, ?_⟩
      · intro k
        simp [handler_in_scope_concat, is_scope_marker, hty, ht1]
      · intro k
        simp [last_goto_concat, is_goto_marker, hty, ht2]

/-- The instruction loop over one block is the flat search over its instructions. -/
theorem search_ins_eq_flat (g : MVMSpeshGraph) (ins : Nat) (found : List Nat) (b : Nat) :
    ∀ (l : List Nat) (st : ThrowcatSearch),
      throwcat_search_ins g ins found b l st
        = throwcat_search_flat g ins found (l.map fun p => (b, p)) st := by
  intro l
  induction l with
  | nil => intro st; rfl
  | cons p rest ih =>
    intro st
    simp only [throwcat_search_ins, List.map_cons, throwcat_search_flat, ih]

/-- The flat search over two runs in a row: the second run is searched from the state the
first one ended in, unless the first one left the search. -/
theorem search_flat_append (g : MVMSpeshGraph) (ins : Nat) (found : List Nat) :
    ∀ (l1 l2 : List (Nat × Nat)) (st : ThrowcatSearch),
      throwcat_search_flat g ins found (l1 ++ l2) st
        = if (throwcat_search_flat g ins found l1 st).2 then throwcat_search_flat g ins found l1 st
          else throwcat_search_flat g ins found l2 (throwcat_search_flat g ins found l1 st).1 := by
  intro l1
  induction l1 with
  | nil => intro l2 st; simp [throwcat_search_flat]
  | cons x rest ih =>
    intro l2 st
    obtain ⟨b, p⟩ := x
    simp only [List.cons_append, throwcat_search_flat]
    rcases htr : throwcat_track_handlers b (g.ins p).annotations st with ⟨st1, fl⟩
    cases fl with
    | true => simp
    | false =>
      simp only
      by_cases hp : p = ins
      · simp only [hp, if_true]
        cases hf : found.find? (fun h => st1.in_handlers h) with
        | none => exact ih l2 st1
        | some h =>
          simp only
          by_cases hg : (st1.goto_bbs h).isSome = true
          · simp [hg]
          · simp only [hg]
            exact ih l2 _
      · simp only [hp, if_false]
        exact ih l2 st1

/-- The walk of `optimize_throwcat` along a chain that ends is the flat search over its
instructions, and returns. -/
theorem search_bb_eq_flat (g : MVMSpeshGraph) (ins : Nat) (found : List Nat) :
    ∀ (fuel : Nat) (start : Option Nat) (chain : List Nat) (st : ThrowcatSearch),
      linear_chain g fuel start = some chain →
      throwcat_search_bb g ins found fuel start st
        = Except.ok (throwcat_search_flat g ins found (chain_ins g chain) st).1 := by
  intro fuel
  induction fuel with
  | zero =>
    intro start chain st h
    cases start with
    | none =>
      simp only [linear_chain, Option.some.injEq] at h
      subst h
      simp [throwcat_search_bb, chain_ins, throwcat_search_flat]
    | some b => simp [linear_chain] at h
  | succ fuel ih =>
    intro start chain st h
    cases start with
    | none =>
      simp only [linear_chain, Option.some.injEq] at h
      subst h
      simp [throwcat_search_bb, chain_ins, throwcat_search_flat]
    | some b =>
      simp only [linear_chain, Option.map_eq_some'] at h
      obtain ⟨chain1, h1, h2⟩ := h
      subst h2
      have hc : chain_ins g (b :: chain1)
          = ((g.bbs b).ins.map fun p => (b, p)) ++ chain_ins g chain1 := by
        simp [chain_ins]
      rw [hc, search_flat_append]
      simp only [throwcat_search_bb, search_ins_eq_flat]
      rcases hs : throwcat_search_flat g ins found ((g.bbs b).ins.map fun p => (b, p)) st
        with ⟨st1, fl⟩
      cases fl with
      | true => simp
      | false => simp [ih _ _ _ h1]

/-- Before the throwcat instruction is reached no handler is picked: the flat search runs
through a stretch of other instructions without leaving, and the state stays in agreement
with the annotations seen. -/
theorem search_flat_unpicked (g : MVMSpeshGraph) (ins : Nat) (found : List Nat) :
    ∀ (l : List (Nat × Nat)) (st : ThrowcatSearch) (done : List (Nat × MVMSpeshAnn)),
      (∀ x ∈ l, x.2 ≠ ins) → st.picked = none → search_tracks st done →
      (throwcat_search_flat g ins found l st).2 = false ∧
      (throwcat_search_flat g ins found l st).1.picked = none ∧
      search_tracks (throwcat_search_flat g ins found l st).1 (done ++ annotations_of g l) := by
  intro l
  induction l with
  | nil =>
    intro st done _ hp ht
    simpa [throwcat_search_flat, annotations_of] using ⟨hp, ht⟩
  | cons x rest ih =>
    intro st done hne hp ht
    obtain ⟨b, p⟩ := x
    obtain ⟨t1, t2, t3⟩ := track_handlers_unpicked b (g.ins p).annotations st done hp ht
    have hpne : p ≠ ins := hne (b, p) (List.mem_cons_self _ _)
    have hrest : ∀ x ∈ rest, x.2 ≠ ins := fun x hx => hne x (List.mem_cons_of_mem _ hx)
    have htr : throwcat_track_handlers b (g.ins p).annotations st
        = ((throwcat_track_handlers b (g.ins p).annotations st).1, false) := Prod.ext rfl t1
    have h := ih _ _ hrest t2 t3
    have hann : annotations_of g ((b, p) :: rest)
        = ((g.ins p).annotations.map fun a => (b, a)) ++ annotations_of g rest := by
      simp [annotations_of]
    rw [hann, ← List.append_assoc]
    simp only [throwcat_search_flat]
    rw [htr]
    simp only [hpne, if_false]
    exact h

/-- Once handler `h` is picked, the annotation loop keeps it picked; it leaves the search
with the block at hand as goto target of `h` if one of the annotations is the goto
annotation of `h`, and otherwise runs through and leaves the goto target of `h` as it was. -/
theorem track_handlers_picked (b h : Nat) :
    ∀ (anns : List MVMSpeshAnn) (st : ThrowcatSearch), st.picked = some h →
      (throwcat_track_handlers b anns st).1.picked = some h ∧
      ((∃ a ∈ anns, is_goto_marker h a = true) →
        (throwcat_track_handlers b anns st).2 = true ∧
        (throwcat_track_handlers b anns st).1.goto_bbs h = some b) ∧
      ((∀ a ∈ anns, is_goto_marker h a = false) →
        (throwcat_track_handlers b anns st).2 = false ∧
        (throwcat_track_handlers b anns st).1.goto_bbs h = st.goto_bbs h) := by
  intro anns
  induction anns with
  | nil => intro st hp; simp [throwcat_track_handlers, hp]
  | cons a rest ih =>
    intro st hp
    cases hty : a.type with
    | MVM_SPESH_ANN_FH_START =>
      have hm : is_goto_marker h a = false := by simp [is_goto_marker, hty]
      simp only [throwcat_track_handlers, hty, List.mem_cons, exists_eq_or_imp, hm,
        forall_eq_or_imp, true_and, Bool.false_eq_true, false_or]
      exact ih _ hp
    | MVM_SPESH_ANN_FH_END =>
      have hm : is_goto_marker h a = false := by simp [is_goto_marker, hty]
      simp only [throwcat_track_handlers, hty, List.mem_cons, exists_eq_or_imp, hm,
        forall_eq_or_imp, true_and, Bool.false_eq_true, false_or]
      exact ih _ hp
    | MVM_SPESH_ANN_other =>
      have hm : is_goto_marker h a = false := by simp [is_goto_marker, hty]
      simp only [throwcat_track_handlers, hty, List.mem_cons, exists_eq_or_imp, hm,
        forall_eq_or_imp, true_and, Bool.false_eq_true, false_or]
      exact ih _ hp
    | MVM_SPESH_ANN_FH_GOTO =>
      by_cases hk : a.frame_handler_index = h
      · have hm : is_goto_marker h a = true := by simp [is_goto_marker, hty, hk]
        simp [throwcat_track_handlers, hty, hp, hk, hm]
      · have hm : is_goto_marker h a = false := by simp [is_goto_marker, hty, hk]
        have hk2 : ¬ h = a.frame_handler_index := fun e => hk e.symm
        have hne : ¬ (some h = some a.frame_handler_index) := by simpa using hk2
        simp only [throwcat_track_handlers, hty, hp, hne, if_false, List.mem_cons,
          exists_eq_or_imp, hm, forall_eq_or_imp, true_and, Bool.false_eq_true, false_or]
        have h2 := ih { in_handlers := st.in_handlers, goto_bbs := fun k =>
          if k = a.frame_handler_index then some b else st.goto_bbs k, picked := some h } rfl
        simpa [hk2] using h2

/-- After handler `h` is picked, the flat search over a stretch of other instructions keeps
it picked; if the stretch carries a goto annotation of `h`, all of them in block `B`, the
goto target of `h` ends up being `B`, and if it carries none the goto target of `h` is left
as it was. -/
theorem search_flat_picked (g : MVMSpeshGraph) (ins : Nat) (found : List Nat) (h B : Nat) :
    ∀ (l : List (Nat × Nat)) (st : ThrowcatSearch),
      (∀ x ∈ l, x.2 ≠ ins) → st.picked = some h →
      (∀ x ∈ l, ∀ a ∈ (g.ins x.2).annotations, is_goto_marker h a = true → x.1 = B) →
      (throwcat_search_flat g ins found l st).1.picked = some h ∧
      ((∃ x ∈ l, ∃ a ∈ (g.ins x.2).annotations, is_goto_marker h a = true) →
        (throwcat_search_flat g ins found l st).1.goto_bbs h = some B) ∧
      ((∀ x ∈ l, ∀ a ∈ (g.ins x.2).annotations, is_goto_marker h a = false) →
        (throwcat_search_flat g ins found l st).1.goto_bbs h = st.goto_bbs h) := by
  intro l
  induction l with
  | nil => intro st _ hp _; simp [throwcat_search_flat, hp]
  | cons x rest ih =>
    intro st hne hp hB
    obtain ⟨b, p⟩ := x
    obtain ⟨t1, t2, t3⟩ := track_handlers_picked b h (g.ins p).annotations st hp
    have hpne : p ≠ ins := hne (b, p) (List.mem_cons_self _ _)
    have hrest : ∀ x ∈ rest, x.2 ≠ ins := fun x hx => hne x (List.mem_cons_of_mem _ hx)
    have hBrest : ∀ x ∈ rest, ∀ a ∈ (g.ins x.2).annotations, is_goto_marker h a = true → x.1 = B :=
      fun x hx => hB x (List.mem_cons_of_mem _ hx)
    by_cases hex : ∃ a ∈ (g.ins p).annotations, is_goto_marker h a = true
    · obtain ⟨u1, u2⟩ := t2 hex
      have hbB : b = B := by
        obtain ⟨a, ha, hm⟩ := hex
        exact hB (b, p) (List.mem_cons_self _ _) a ha hm
      have htr : throwcat_track_handlers b (g.ins p).annotations st
          = ((throwcat_track_handlers b (g.ins p).annotations st).1, true) := Prod.ext rfl u1
      have hres : throwcat_search_flat g ins found ((b, p) :: rest) st
          = ((throwcat_track_handlers b (g.ins p).annotations st).1, true) := by
        simp only [throwcat_search_flat]
        rw [htr]
      rw [hres]
      refine ⟨t1, fun _ => by rw [u2, hbB], ?_⟩
      intro hall
      obtain ⟨a, ha, hm⟩ := hex
      have := hall (b, p) (List.mem_cons_self _ _) a ha
      rw [hm] at this
      exact absurd this (by simp)
    · have hnone : ∀ a ∈ (g.ins p).annotations, is_goto_marker h a = false := by
        intro a ha
        cases hm : is_goto_marker h a with
        | false => rfl
        | true => exact absurd ⟨a, ha, hm⟩ hex
      obtain ⟨u1, u2⟩ := t3 hnone
      have htr : throwcat_track_handlers b (g.ins p).annotations st
          = ((throwcat_track_handlers b (g.ins p).annotations st).1, false) := Prod.ext rfl u1
      have hres : throwcat_search_flat g ins found ((b, p) :: rest) st
          = throwcat_search_flat g ins found rest
              (throwcat_track_handlers b (g.ins p).annotations st).1 := by
        simp only [throwcat_search_flat]
        rw [htr]
        simp only [hpne, if_false]
      rw [hres]
      obtain ⟨i1, i2, i3⟩ := ih _ hrest t1 hBrest
      refine ⟨i1, ?_, ?_⟩
      · rintro ⟨x, hx, a, ha, hm⟩
        rcases List.mem_cons.1 hx with hx1 | hx1
        · subst hx1
          have := hnone a ha
          rw [hm] at this
          exact absurd this (by simp)
        · exact i2 ⟨x, hx1, a, ha, hm⟩
      · intro hall
        rw [i3 (fun x hx => hall x (List.mem_cons_of_mem _ hx)), u2]

/-- Membership in the annotations of a run of instructions. -/
theorem mem_annotations_of (g : MVMSpeshGraph) (l : List (Nat × Nat)) (y : Nat × MVMSpeshAnn) :
    y ∈ annotations_of g l ↔ ∃ x ∈ l, x.1 = y.1 ∧ y.2 ∈ (g.ins x.2).annotations := by
  obtain ⟨b, a⟩ := y
  simp only [annotations_of, List.mem_flatMap, List.mem_map, Prod.mk.injEq]
  constructor
  · rintro ⟨x, hx, a', ha', h1, h2⟩
    exact ⟨x, hx, h1, h2 ▸ ha'⟩
  · rintro ⟨x, hx, h1, h2⟩
    exact ⟨x, hx, a, h2, h1, rfl⟩

/-- A last goto annotation is one of the annotations. -/
theorem last_goto_some (banns : List (Nat × MVMSpeshAnn)) (h b : Nat)
    (hl : last_goto banns h = some b) :
    ∃ y ∈ banns, y.1 = b ∧ is_goto_marker h y.2 = true := by
  unfold last_goto at hl
  simp only [Option.map_eq_some'] at hl
  obtain ⟨y, hy, hb⟩ := hl
  have hm := List.find?_some hy
  exact ⟨y, List.mem_reverse.1 (List.mem_of_find?_eq_some hy), hb, by simpa using hm⟩

/-- Without a last goto annotation there is no goto annotation. -/
theorem last_goto_none (banns : List (Nat × MVMSpeshAnn)) (h : Nat)
    (hl : last_goto banns h = none) :
    ∀ y ∈ banns, is_goto_marker h y.2 = false := by
  unfold last_goto at hl
  simp only [Option.map_eq_none', List.find?_eq_none, List.mem_reverse] at hl
  intro y hy
  simpa using hl y hy

/-- The first element of a filtered range that passes a test is the least number of the range
that passes the filter and the test. -/
theorem find_filter_range' (P Q : Nat → Bool) (h : Nat) (hP : P h = true) (hQ : Q h = true)
    (hleast : ∀ k, k < h → P k = true → Q k = false) :
    ∀ (n s : Nat), s ≤ h → h < s + n → ((List.range' s n).filter P).find? Q = some h := by
  intro n
  induction n with
  | zero => intro s h1 h2; omega
  | succ n ih =>
    intro s h1 h2
    rw [List.range'_succ]
    by_cases hs : s = h
    · subst hs
      simp [List.filter_cons, hP, hQ]
    · have hlt : s < h := Nat.lt_of_le_of_ne h1 hs
      have hrec := ih (s + 1) hlt (by omega)
      cases hPs : P s with
      | false => simpa [List.filter_cons, hPs] using hrec
      | true =>
        have hQs := hleast s hlt hPs
        simpa [List.filter_cons, hPs, hQs] using hrec

/-- The outcome of the search of `optimize_throwcat` when the handler that the throwcat
instruction picks is `h` and the goto annotations of `h` along the chain are all in block
`B`, with at least one of them: the search returns with `h` picked and `B` as its target. -/
theorem throwcat_search_result (g : MVMSpeshGraph) (ins h B fuel bb : Nat) (found chain : List Nat)
    (pre post : List (Nat × Nat))
    (hchain : linear_chain g fuel (some g.entry) = some chain)
    (hsplit : chain_ins g chain = pre ++ (bb, ins) :: post)
    (hpre : ∀ x ∈ pre, x.2 ≠ ins) (hpost : ∀ x ∈ post, x.2 ≠ ins)
    (hfind : ∀ st : ThrowcatSearch,
      (∀ k, st.in_handlers k
        = handler_in_scope ((annotations_of g (pre ++ [(bb, ins)])).map fun x => x.2) k) →
      found.find? (fun k => st.in_handlers k) = some h)
    (hB : ∃ x ∈ chain_ins g chain, ∃ a ∈ (g.ins x.2).annotations, is_goto_marker h a = true)
    (huniq : ∀ x ∈ chain_ins g chain, ∀ a ∈ (g.ins x.2).annotations,
      is_goto_marker h a = true → x.1 = B) :
    ∃ stf, throwcat_search_bb g ins found fuel (some g.entry)
        { in_handlers := fun _ => false, goto_bbs := fun _ => none, picked := none }
          = Except.ok stf ∧
      stf.picked = some h ∧ stf.goto_bbs h = some B := by
  rw [search_bb_eq_flat g ins found fuel _ chain _ hchain, hsplit, search_flat_append]
  obtain ⟨a1, a2, a3⟩ := search_flat_unpicked g ins found pre
    { in_handlers := fun _ => false, goto_bbs := fun _ => none, picked := none } [] hpre rfl
    ⟨fun k => by simp [handler_in_scope], fun k => by simp [last_goto]⟩
  rw [a1]
  simp only [Bool.false_eq_true, if_false]
  refine ⟨_, rfl, ?_⟩
  rw [List.nil_append] at a3
  obtain ⟨t1, t2, t3⟩ := track_handlers_unpicked bb (g.ins ins).annotations _
    (annotations_of g pre) a2 a3
  have htr : throwcat_track_handlers bb (g.ins ins).annotations
        (throwcat_search_flat g ins found pre
          { in_handlers := fun _ => false, goto_bbs := fun _ => none, picked := none }).1
      = ((throwcat_track_handlers bb (g.ins ins).annotations
        (throwcat_search_flat g ins found pre
          { in_handlers := fun _ => false, goto_bbs := fun _ => none, picked := none }).1).1,
         false) := Prod.ext rfl t1
  have hann : annotations_of g pre ++ ((g.ins ins).annotations.map fun a => (bb, a))
      = annotations_of g (pre ++ [(bb, ins)]) := by
    simp [annotations_of]
  rw [hann] at t3
  have hf := hfind _ t3.1
  have hgo := t3.2 h
  simp only [throwcat_search_flat]
  rw [htr]
  simp only [if_true, hf]
  by_cases hg : (((throwcat_track_handlers bb (g.ins ins).annotations
      (throwcat_search_flat g ins found pre
        { in_handlers := fun _ => false, goto_bbs := fun _ => none, picked := none }).1).1).goto_bbs
          h).isSome = true
  · simp only [hg, if_true]
    refine ⟨trivial, ?_⟩
    obtain ⟨b0, hb0⟩ := Option.isSome_iff_exists.1 hg
    obtain ⟨y, hy, hy1, hy2⟩ := last_goto_some _ h b0 (hgo ▸ hb0)
    obtain ⟨x, hx, hx1, hx2⟩ := (mem_annotations_of g _ y).1 hy
    have hxc : x ∈ chain_ins g chain := by
      rw [hsplit]
      rcases List.mem_append.1 hx with hx' | hx'
      · exact List.mem_append_left _ hx'
      · rw [List.mem_singleton] at hx'
        exact List.mem_append_right _ (hx' ▸ List.mem_cons_self _ _)
    have hxB := huniq x hxc y.2 hx2 hy2
    show _ = some B
    rw [hb0, ← hy1, ← hx1, hxB]
  · simp only [hg]
    have hnone : last_goto (annotations_of g (pre ++ [(bb, ins)])) h = none := by
      rw [← hgo]
      cases hc : ((throwcat_track_handlers bb (g.ins ins).annotations
        (throwcat_search_flat g ins found pre
          { in_handlers := fun _ => false, goto_bbs := fun _ => none, picked := none }).1).1).goto_bbs
            h with
      | none => rfl
      | some v => rw [hc] at hg; simp at hg
    obtain ⟨i1, i2, _⟩ := search_flat_picked g ins found h B post
      { (throwcat_track_handlers bb (g.ins ins).annotations
        (throwcat_search_flat g ins found pre
          { in_handlers := fun _ => false, goto_bbs := fun _ => none, picked := none }).1).1
        with picked := some h } hpost rfl
      (fun x hx => huniq x (by
        rw [hsplit]; exact List.mem_append_right _ (List.mem_cons_of_mem _ hx)))
    refine ⟨i1, i2 ?_⟩
    obtain ⟨x, hx, a, ha, hm⟩ := hB
    rw [hsplit] at hx
    rcases List.mem_append.1 hx with hx' | hx'
    · have hmem : (x.1, a) ∈ annotations_of g (pre ++ [(bb, ins)]) :=
        (mem_annotations_of g _ (x.1, a)).2 ⟨x, List.mem_append_left _ hx', rfl, ha⟩
      have := last_goto_none _ h hnone _ hmem
      rw [hm] at this
      exact absurd this (by simp)
    · rcases List.mem_cons.1 hx' with hx'' | hx''
      · have hmem : (x.1, a) ∈ annotations_of g (pre ++ [(bb, ins)]) :=
          (mem_annotations_of g _ (x.1, a)).2
            ⟨x, List.mem_append_right _ (by rw [hx'']; exact List.mem_singleton_self _), rfl, ha⟩
        have := last_goto_none _ h hnone _ hmem
        rw [hm] at this
        exact absurd this (by simp)
      · exact ⟨x, hx'', a, ha, hm⟩

/-- The goto annotation of handler `h` is the annotation of kind `FH_GOTO` with index `h`. -/
theorem is_goto_marker_iff (h : Nat) (a : MVMSpeshAnn) :
    is_goto_marker h a = true
      ↔ a = { type := MVM_SPESH_ANN_FH_GOTO, frame_handler_index := h } := by
  obtain ⟨ty, k⟩ := a
  simp [is_goto_marker]

/-- C6: let a throwcat instruction `ins` with category operand `category` lie in block `bb`
of the linear chain, let `h` be a handler of the static frame whose action is GOTO and whose
category mask meets the category, in whose scope the instruction lies (going through the
annotations in linear order up to and including those of the instruction, the last
`FH_START` or `FH_END` of `h` is an `FH_START`), and let `h` be the lowest-indexed handler of
which all this holds.  If an `FH_GOTO` annotation of `h` occurs in the chain on an instruction
of block `B`, and on no instruction of another block, and `bb` has a first successor, then
`optimize_throwcat` returns, the instruction is `goto B` and the first successor of `bb` is
`B`. -/
theorem C6_throwcat_to_goto (tc : MVMThreadContext) (g : MVMSpeshGraph)
    (fuel bb ins h B r_orig r_i : Nat) (category : Int) (hd : MVMFrameHandler)
    (chain : List Nat) (pre post : List (Nat × Nat))
    (hchain : linear_chain g fuel (some g.entry) = some chain)
    (hsplit : chain_ins g chain = pre ++ (bb, ins) :: post)
    (hpre : ∀ x ∈ pre, x.2 ≠ ins) (hpost : ∀ x ∈ post, x.2 ≠ ins)
    (hops : (g.ins ins).operands =
      [MVMSpeshOperand.reg r_orig r_i, MVMSpeshOperand.lit_i64 category])
    (hh : g.sf.handlers.get? h = some hd)
    (hgoto : hd.action = MVM_EX_ACTION_GOTO)
    (hcat : has_flag hd.category_mask (to_uint32 category) = true)
    (hactive : handler_in_scope
      ((annotations_of g (pre ++ [(bb, ins)])).map fun x => x.2) h = true)
    (hlowest : ∀ h' hd', h' < h → g.sf.handlers.get? h' = some hd' →
      hd'.action = MVM_EX_ACTION_GOTO →
      has_flag hd'.category_mask (to_uint32 category) = true →
      handler_in_scope ((annotations_of g (pre ++ [(bb, ins)])).map fun x => x.2) h' = false)
    (hB : ∃ x ∈ chain_ins g chain, x.1 = B ∧
      { type := MVM_SPESH_ANN_FH_GOTO, frame_handler_index := h } ∈ (g.ins x.2).annotations)
    (huniq : ∀ x ∈ chain_ins g chain,
      { type := MVM_SPESH_ANN_FH_GOTO, frame_handler_index := h } ∈ (g.ins x.2).annotations →
      x.1 = B)
    (hsucc : (g.bbs bb).succ ≠ []) :
    ∃ g', optimize_throwcat tc fuel g bb ins = Except.ok g' ∧
      (g'.ins ins).info = tc.MVM_op_get_op MVM_OP_goto ∧
      (g'.ins ins).operands = [MVMSpeshOperand.ins_bb B, MVMSpeshOperand.lit_i64 category] ∧
      (g'.bbs bb).succ = B :: (g.bbs bb).succ.tail ∧
      g'.facts = g.facts := by
  have e1 : (g.ins ins).operand 1 = MVMSpeshOperand.lit_i64 category := by
    simp [MVMSpeshIns.operand, hops]
  have hlt : h < g.sf.handlers.length := by
    rw [List.get?_eq_some] at hh
    exact hh.1
  have hfind : ∀ st : ThrowcatSearch,
      (∀ k, st.in_handlers k
        = handler_in_scope ((annotations_of g (pre ++ [(bb, ins)])).map fun x => x.2) k) →
      (handlers_found g (to_uint32 category)).find? (fun k => st.in_handlers k) = some h := by
    intro st hst
    unfold handlers_found
    rw [List.range_eq_range']
    refine find_filter_range' _ _ h ?_ ?_ ?_ _ 0 (Nat.zero_le _) (by omega)
    · simp only [hh]
      simp [hgoto, hcat]
    · rw [hst h, hactive]
    · intro k hk hPk
      cases hget : g.sf.handlers.get? k with
      | none =>
        simp only [hget] at hPk
        exact absurd hPk (by simp)
      | some hd' =>
        simp only [hget, Bool.and_eq_true, decide_eq_true_eq] at hPk
        rw [hst k]
        exact hlowest k hd' hk hget hPk.1 hPk.2
  have hne : (handlers_found g (to_uint32 category)).length ≠ 0 := by
    have hf := hfind
      { in_handlers := handler_in_scope
          ((annotations_of g (pre ++ [(bb, ins)])).map fun x => x.2),
        goto_bbs := fun _ => none, picked := none } (fun _ => rfl)
    intro h0
    rw [List.length_eq_zero] at h0
    rw [h0] at hf
    simp at hf
  obtain ⟨stf, hs, hp, hgb⟩ := throwcat_search_result g ins h B fuel bb
    (handlers_found g (to_uint32 category)) chain pre post hchain hsplit hpre hpost hfind
    (by
      obtain ⟨x, hx, _, ha⟩ := hB
      exact ⟨x, hx, _, ha, (is_goto_marker_iff h _).2 rfl⟩)
    (by
      intro x hx a ha hm
      rw [(is_goto_marker_iff h a).1 hm] at ha
      exact huniq x hx ha)
  have hlen : ¬ (g.bbs bb).succ.length = 0 := by
    rw [List.length_eq_zero]; exact hsucc
  have hset : (g.bbs bb).succ.set 0 B = B :: (g.bbs bb).succ.tail := by
    cases hsc : (g.bbs bb).succ with
    | nil => exact absurd hsc hsucc
    | cons s rest => rfl
  unfold optimize_throwcat
  simp only [e1, MVMSpeshOperand.get_lit_i64, hne, hs, hp, hgb]
  simp only [MVMSpeshGraph.set_info, MVMSpeshGraph.set_operand, set_ins_bbs, hlen, hset, hops,
    ne_eq, not_false_eq_true, if_true, if_false, set_ins_ins]
  rw [if_pos hne]
  refine ⟨_, rfl, ?_, ?_, ?_, ?_⟩ <;> simp

/-- C6, witness: in `g_throwcat` the `throwcatlex` of block 1 lies in the scope of goto
handler 0, whose goto annotation is in block 2: it becomes `goto` block 2 and the first
successor of block 1 is block 2. -/
theorem C6_throwcat_to_goto_witness :
    ∃ g', optimize_throwcat (sample_tc 0) 3 g_throwcat 1 1 = Except.ok g' ∧
      (g'.ins 1).info = (sample_tc 0).MVM_op_get_op MVM_OP_goto ∧
      (g'.ins 1).operands = [MVMSpeshOperand.ins_bb 2, MVMSpeshOperand.lit_i64 4] ∧
      (g'.bbs 1).succ = 2 :: (g_throwcat.bbs 1).succ.tail ∧
      g'.facts = g_throwcat.facts :=
  C6_throwcat_to_goto (sample_tc 0) g_throwcat 3 1 1 0 2 1 0 4
    { category_mask := 4, action := MVM_EX_ACTION_GOTO } [0, 1, 2] [(0, 0)] [(1, 2), (2, 3)]
    (by decide) (by decide) (by decide) (by decide) rfl rfl rfl (by decide) (by decide)
    (by intro h' hd' hlt; omega) ⟨(2, 3), by decide, rfl, by decide⟩ (by decide) (by decide)

/-! ### Runs on concrete graphs -/

/-- A run that passes a decidable check returned a graph, and the graph has the property
checked. -/
theorem exists_ok_of_check {p : MVMSpeshGraph → Prop} [DecidablePred p]
    (r : Except Fault MVMSpeshGraph)
    (h : (match r with
      | Except.ok g => decide (p g)
      | Except.error _ => false) = true) :
    ∃ g, r = Except.ok g ∧ p g := by
  cases r with
  | error e => simp at h
  | ok g => exact ⟨g, rfl, by simpa using h⟩

/-! ### C7: usage balance -/

/-- C7, at the failing input: the graph made of the single instruction `islist r2, r1`, where
`r1` has a known type that is not an array and this one reader, is balanced on entry.
`MVM_spesh_optimize` returns a graph in which no instruction is left, yet the usages counter
of `r1` is still 1: `optimize_is_reprid` turned the instruction into `const_i64_16 r2, 0`,
which no longer reads `r1`, without decrementing the counter. -/
theorem C7_usage_balance_broken_by_is_reprid :
    (∀ orig i, ((g_unary MVM_OP_islist MVM_SPESH_FACT_KNOWN_TYPE).facts orig i).usages
      = graph_read_count (sample_tc 0) (g_unary MVM_OP_islist MVM_SPESH_FACT_KNOWN_TYPE) 3
          (orig, i)) ∧
    ∃ g, MVM_spesh_optimize (sample_tc 0) 3 (g_unary MVM_OP_islist MVM_SPESH_FACT_KNOWN_TYPE)
        = Except.ok g ∧
      (g.facts 1 0).usages = 1 ∧ graph_read_count (sample_tc 0) g 3 (1, 0) = 0 ∧
      linear_chain g 3 (some g.entry) = some [0] ∧ (g.bbs 0).ins = [] := by
  constructor
  · intro orig i
    by_cases h : orig = 1 ∧ i = 0
    · obtain ⟨h1, h2⟩ := h
      subst h1 h2
      decide
    · have h2 : ¬ ((1, 0) = (orig, i)) := fun e => h ⟨(Prod.mk.inj e).1.symm, (Prod.mk.inj e).2.symm⟩
      simp [g_unary, graph_read_count, linear_chain, ins_read_count, sample_op_info, h, h2,
        blank_facts, List.range_succ, MVMSpeshIns.operand, MVMSpeshOperand.get_reg, List.filter]
  · exact exists_ok_of_check _ (by decide)

/-! ### C8: reachability after dead-block elimination -/

/-- C8, at the failing input: the chain `g_dead_tail` of four blocks indexed 0 to 3.
`eliminate_dead_bbs`, and so `MVM_spesh_optimize`, returns the chain of blocks 0, 1, 3: block
2 was spliced out in the first round, and in the second round `memset(seen, 0, g->num_bbs)`
cleared only three entries, so that the mark block 2 had left on block 3 was still there.
Block 3 is not the entry block, is not marked inlined, and is a successor of no block of the
chain. -/
theorem C8_unreachable_block_survives :
    linear_chain g_dead_tail 4 (some g_dead_tail.entry) = some [0, 1, 2, 3] ∧
    (∀ b ∈ [0, 1, 2, 3], (g_dead_tail.bbs b).idx = b) ∧
    (∃ g, eliminate_dead_bbs (sample_tc 0) 5 g_dead_tail = Except.ok g ∧
      linear_chain g 5 (some g.entry) = some [0, 1, 3] ∧
      g.entry ≠ 3 ∧ (g.bbs 3).inlined = false ∧ ∀ b ∈ [0, 1, 3], 3 ∉ (g.bbs b).succ) ∧
    (∃ g, MVM_spesh_optimize (sample_tc 0) 5 g_dead_tail = Except.ok g ∧
      linear_chain g 5 (some g.entry) = some [0, 1, 3] ∧
      g.entry ≠ 3 ∧ (g.bbs 3).inlined = false ∧ ∀ b ∈ [0, 1, 3], 3 ∉ (g.bbs b).succ) :=
  ⟨by decide, by decide, exists_ok_of_check _ (by decide), exists_ok_of_check _ (by decide)⟩

/-! ### C9: idempotence -/

/-- C9, at the failing input: the chain `g_dead_pair` of six blocks.  A first run of
`MVM_spesh_optimize` returns the chain of blocks 0, 2, 4, 5 with `num_bbs` 4 and block 5
renumbered 3; a second run on that graph returns the chain 0, 2, 5 with `num_bbs` 3 and block
5 renumbered 2: it removed block 4 and renumbered block 5. -/
theorem C9_second_run_removes_block :
    ∃ g1, MVM_spesh_optimize (sample_tc 0) 7 g_dead_pair = Except.ok g1 ∧
      linear_chain g1 7 (some g1.entry) = some [0, 2, 4, 5] ∧ g1.num_bbs = 4 ∧
      (g1.bbs 5).idx = 3 ∧
      ∃ g2, MVM_spesh_optimize (sample_tc 0) 7 g1 = Except.ok g2 ∧
        linear_chain g2 7 (some g2.entry) = some [0, 2, 5] ∧ g2.num_bbs = 3 ∧
        (g2.bbs 5).idx = 2 := by
  obtain ⟨g1, h1, h2, h3, h4, h5⟩ := exists_ok_of_check
    (p := fun g1 => linear_chain g1 7 (some g1.entry) = some [0, 2, 4, 5] ∧ g1.num_bbs = 4 ∧
      (g1.bbs 5).idx = 3 ∧
      (match MVM_spesh_optimize (sample_tc 0) 7 g1 with
        | Except.ok g2 => decide (linear_chain g2 7 (some g2.entry) = some [0, 2, 5] ∧
            g2.num_bbs = 3 ∧ (g2.bbs 5).idx = 2)
        | Except.error _ => false) = true)
    (MVM_spesh_optimize (sample_tc 0) 7 g_dead_pair) (by decide)
  exact ⟨g1, h1, h2, h3, h4, exists_ok_of_check _ h5⟩

/-! ### C10: guard cleanup -/

/-- Erasing from a list without repetition is filtering, also after a filter. -/
theorem erase_filter_of_nodup (l : List Nat) (hnd : l.Nodup) (keep : Nat → Bool) (p : Nat) :
    (l.filter keep).erase p = l.filter fun q => keep q && !(q == p) := by
  rw [List.Nodup.erase_eq_filter (hnd.filter _), List.filter_filter]
  congr 1
  funext q
  rw [Bool.and_comm]
  rfl

/-- The loop over the log guards erases, in every block, the guard instructions of the
unused guards visited, and touches nothing else. -/
theorem eliminate_unused_log_guards_from_spec (tc : MVMThreadContext)
    (guards : List MVMSpeshLogGuard) :
    ∀ (g g0 : MVMSpeshGraph) (seen : List MVMSpeshLogGuard),
      (∀ b, (g0.bbs b).ins.Nodup) →
      (∀ b, g.bbs b = (g0.bbs b).with_ins
        ((g0.bbs b).ins.filter fun p => !is_unused_guard_ins seen b p)) →
      (∀ b, (eliminate_unused_log_guards_from tc guards g).bbs b = (g0.bbs b).with_ins
        ((g0.bbs b).ins.filter fun p => !is_unused_guard_ins (seen ++ guards) b p)) ∧
      (eliminate_unused_log_guards_from tc guards g).ins = g.ins ∧
      (eliminate_unused_log_guards_from tc guards g).facts = g.facts ∧
      (eliminate_unused_log_guards_from tc guards g).log_guards = g.log_guards ∧
      (eliminate_unused_log_guards_from tc guards g).spesh_slots = g.spesh_slots := by
  induction guards with
  | nil => intro g g0 seen _ hg; simp [eliminate_unused_log_guards_from, hg]
  | cons lg rest ih =>
    intro g g0 seen hnd hg
    by_cases hu : lg.used = true
    · have h := ih g g0 (seen ++ [lg]) hnd (by
        intro b; rw [hg b]; congr 1
        apply List.filter_congr; intro p _
        simp [is_unused_guard_ins, hu])
      simpa [eliminate_unused_log_guards_from, hu] using h
    · have hu2 : lg.used = false := by simpa using hu
      have h := ih (MVM_spesh_manipulate_delete_ins tc g lg.bb lg.ins) g0 (seen ++ [lg]) hnd (by
        intro b
        by_cases hb : b = lg.bb
        · subst hb
          simp only [MVM_spesh_manipulate_delete_ins, set_bb_bbs, if_true]
          rw [hg lg.bb]
          show ((g0.bbs lg.bb).with_ins _).with_ins (List.erase _ lg.ins) = _
          simp only [MVMSpeshBB.with_ins, erase_filter_of_nodup _ (hnd lg.bb)]
          congr 1
          apply List.filter_congr; intro p _
          by_cases hp : p = lg.ins
          · simp [is_unused_guard_ins, hu2, hp]
          · have hp2 : ¬ lg.ins = p := fun h => hp h.symm
            have e1 : (p == lg.ins) = false := by simpa using hp
            have e2 : (lg.ins == p) = false := by simpa using hp2
            simp [is_unused_guard_ins, hu2, hp, hp2, e1, e2]
        · simp only [MVM_spesh_manipulate_delete_ins, set_bb_bbs, if_neg hb]
          rw [hg b]; congr 1
          apply List.filter_congr; intro p _
          have hb2 : ¬ lg.bb = b := fun h => hb h.symm
          simp [is_unused_guard_ins, hb2])
      simpa [eliminate_unused_log_guards_from, hu2, MVM_spesh_manipulate_delete_ins] using h

/-- C10: `eliminate_unused_log_guards` leaves in every block exactly the instructions that
are not the guard instruction of a log guard of that block whose `used` flag is false, in
their order: the guard instruction of every unused guard is gone from the guard's block,
while an instruction that is the guard of used guards only, or of no guard, stays in place;
instruction records, facts, the log-guard table and the spesh slots are untouched. -/
theorem C10_guard_cleanup (tc : MVMThreadContext) (g : MVMSpeshGraph)
    (hnd : ∀ b, (g.bbs b).ins.Nodup) :
    (∀ b, (eliminate_unused_log_guards tc g).bbs b = (g.bbs b).with_ins
      ((g.bbs b).ins.filter fun p => !is_unused_guard_ins g.log_guards b p)) ∧
    (∀ lg ∈ g.log_guards, lg.used = false →
      lg.ins ∉ ((eliminate_unused_log_guards tc g).bbs lg.bb).ins) ∧
    (∀ b p, p ∈ (g.bbs b).ins →
      (∀ lg ∈ g.log_guards, lg.bb = b → lg.ins = p → lg.used = true) →
      p ∈ ((eliminate_unused_log_guards tc g).bbs b).ins) ∧
    (eliminate_unused_log_guards tc g).ins = g.ins ∧
    (eliminate_unused_log_guards tc g).facts = g.facts ∧
    (eliminate_unused_log_guards tc g).log_guards = g.log_guards ∧
    (eliminate_unused_log_guards tc g).spesh_slots = g.spesh_slots := by
  obtain ⟨h1, h2, h3, h4, h5⟩ :=
    eliminate_unused_log_guards_from_spec tc g.log_guards g g [] hnd (by
      intro b; simp [is_unused_guard_ins, MVMSpeshBB.with_ins])
  simp only [List.nil_append] at h1
  refine ⟨h1, ?_, ?_, h2, h3, h4, h5⟩
  · intro lg hlg hu hmem
    rw [show eliminate_unused_log_guards tc g
      = eliminate_unused_log_guards_from tc g.log_guards g from rfl, h1] at hmem
    simp only [MVMSpeshBB.with_ins, List.mem_filter, is_unused_guard_ins, Bool.not_eq_true',
      List.any_eq_false] at hmem
    have := hmem.2 lg hlg
    simp [hu] at this
  · intro b p hp hall
    rw [show eliminate_unused_log_guards tc g
      = eliminate_unused_log_guards_from tc g.log_guards g from rfl, h1]
    simp only [MVMSpeshBB.with_ins, List.mem_filter, is_unused_guard_ins, Bool.not_eq_true',
      List.any_eq_false]
    refine ⟨hp, ?_⟩
    intro lg hlg
    by_cases hb : lg.bb = b <;> by_cases hi : lg.ins = p <;> simp [hb, hi]
    exact hall lg hlg hb hi

/-- C10, witness: of the guards at instructions 0 (used) and 1 (unused) of a block holding
instructions 0, 1, 2, only instruction 1 is removed. -/
theorem C10_guard_cleanup_witness :
    ((eliminate_unused_log_guards (sample_tc 0) g_guards).bbs 0).ins = [0, 2] :=
  have h := (C10_guard_cleanup (sample_tc 0) g_guards (by
    intro b; unfold g_guards empty_bb; dsimp only; split <;> simp)).1 0
  by rw [h]; decide

/-! ### C11: the fixed point of dead-instruction elimination -/

/-- The loop that propagates non-usage writes no instruction record. -/
theorem propagate_non_usage_ins (tc : MVMThreadContext) (ins : Nat) (only_read_regs : Bool) :
    ∀ (n : Nat) (g : MVMSpeshGraph) (i : Nat),
      (propagate_non_usage tc ins only_read_regs n g i).ins = g.ins ∧
      (propagate_non_usage tc ins only_read_regs n g i).entry = g.entry := by
  intro n
  induction n with
  | zero => intro g i; exact ⟨rfl, rfl⟩
  | succ n ih =>
    intro g i
    simp only [propagate_non_usage]
    rw [(ih _ _).1, (ih _ _).2]
    split <;> exact ⟨rfl, rfl⟩

/-- The visit of one instruction: a dead instruction is deleted after the usages of what it
read were decremented, and `death` is set; another instruction is passed over. -/
theorem eliminate_dead_ins_visit_eq (tc : MVMThreadContext) (g : MVMSpeshGraph) (bb ins : Nat) :
    eliminate_dead_ins_visit tc g bb ins
      = if is_dead_ins tc g ins = true then
          (MVM_spesh_manipulate_delete_ins tc
            (propagate_non_usage tc ins (!decide ((g.ins ins).info.opcode = MVM_SSA_PHI))
              ((g.ins ins).info.num_operands - 1) g 1) bb ins, true)
        else (g, false) := by
  unfold eliminate_dead_ins_visit
  simp only [get_facts_direct]
  by_cases h1 : (g.ins ins).info.opcode = MVM_SSA_PHI
  · rw [if_pos h1]
    by_cases h2 : (g.facts_at (((g.ins ins).operand 0).get_reg tc)).usages = 0
    · have hd : is_dead_ins tc g ins = true := by
        simp only [is_dead_ins, h1, h2]; simp
      rw [if_pos h2, if_pos hd]
      simp [h1]
    · have hd : ¬ is_dead_ins tc g ins = true := by
        simp only [is_dead_ins, h1, h2]; simp
      rw [if_neg h2, if_neg hd]
  · rw [if_neg h1]
    by_cases h3 : (g.ins ins).info.pure = true
    · rw [if_pos h3]
      by_cases h4 : (g.ins ins).info.operands.getD 0 MVM_operand_literal = MVM_operand_write_reg
      · rw [if_pos h4]
        by_cases h2 : (g.facts_at (((g.ins ins).operand 0).get_reg tc)).usages = 0
        · have hd : is_dead_ins tc g ins = true := by
            simp only [is_dead_ins, h1, h2, h3, h4]; simp
          rw [if_pos h2, if_pos hd]
          simp [h1]
        · have hd : ¬ is_dead_ins tc g ins = true := by
            simp only [is_dead_ins, h1, h2, h3, h4]; simp
          rw [if_neg h2, if_neg hd]
      · have hd : ¬ is_dead_ins tc g ins = true := by
          simp only [is_dead_ins, h1, h3, h4]; simp
        rw [if_neg h4, if_neg hd]
    · have hd : ¬ is_dead_ins tc g ins = true := by
        simp only [is_dead_ins, h1, h3]; simp
      rw [if_neg h3, if_neg hd]

/-- The visit of one instruction sets `death` exactly when the instruction is dead. -/
theorem eliminate_dead_ins_visit_snd (tc : MVMThreadContext) (g : MVMSpeshGraph) (bb ins : Nat) :
    (eliminate_dead_ins_visit tc g bb ins).2 = is_dead_ins tc g ins := by
  rw [eliminate_dead_ins_visit_eq]
  cases is_dead_ins tc g ins <;> simp

/-- The visit of an instruction that is not dead changes nothing. -/
theorem eliminate_dead_ins_visit_of_not_dead (tc : MVMThreadContext) (g : MVMSpeshGraph)
    (bb ins : Nat) (h : is_dead_ins tc g ins = false) :
    (eliminate_dead_ins_visit tc g bb ins).1 = g := by
  rw [eliminate_dead_ins_visit_eq, h]
  simp

/-- A walk over one block that ends with `death` clear changed nothing, and no instruction
of the list it visited is dead. -/
theorem eliminate_dead_ins_block_clean (tc : MVMThreadContext) (bb : Nat) :
    ∀ (l : List Nat) (g : MVMSpeshGraph) (d : Bool),
      (eliminate_dead_ins_block tc bb l (g, d)).2 = false →
      (eliminate_dead_ins_block tc bb l (g, d)).1 = g ∧ d = false ∧
      ∀ ins ∈ l, is_dead_ins tc g ins = false := by
  intro l
  induction l with
  | nil =>
    intro g d h
    exact ⟨rfl, h, fun ins hi => absurd hi (List.not_mem_nil ins)⟩
  | cons ins prevs ih =>
    intro g d h
    simp only [eliminate_dead_ins_block] at h ⊢
    obtain ⟨h1, h2, h3⟩ := ih _ _ h
    rw [eliminate_dead_ins_visit_snd] at h2
    have hd : d = false := by cases d <;> simp_all
    have hdead : is_dead_ins tc g ins = false := by
      cases hx : is_dead_ins tc g ins <;> simp_all
    have hg := eliminate_dead_ins_visit_of_not_dead tc g bb ins hdead
    rw [hg] at h3
    refine ⟨by rw [h1, hg], hd, fun p hp => ?_⟩
    rcases List.mem_cons.1 hp with rfl | hp
    · exact hdead
    · exact h3 p hp

/-- A pass along the chain that ends with `death` clear changed nothing, and no instruction
of a block that precedes the first inlined block is dead. -/
theorem eliminate_dead_ins_pass_clean (tc : MVMThreadContext) :
    ∀ (fuel : Nat) (start : Option Nat) (g : MVMSpeshGraph) (d : Bool) (g' : MVMSpeshGraph),
      eliminate_dead_ins_pass tc fuel start (g, d) = Except.ok (g', false) →
      g' = g ∧ d = false ∧
      ∀ c, before_inlined g start c → ∀ ins ∈ (g.bbs c).ins, is_dead_ins tc g ins = false := by
  intro fuel
  induction fuel with
  | zero =>
    intro start g d g' h
    cases start with
    | none =>
      simp only [eliminate_dead_ins_pass] at h
      injection h with h
      injection h with h1 h2
      exact ⟨h1.symm, h2, fun c hc => by cases hc⟩
    | some b => simp [eliminate_dead_ins_pass] at h
  | succ n ih =>
    intro start g d g' h
    cases start with
    | none =>
      simp only [eliminate_dead_ins_pass] at h
      injection h with h
      injection h with h1 h2
      exact ⟨h1.symm, h2, fun c hc => by cases hc⟩
    | some b =>
      simp only [eliminate_dead_ins_pass] at h
      split at h
      · rename_i hinl
        injection h with h
        injection h with h1 h2
        refine ⟨h1.symm, h2, fun c hc => ?_⟩
        cases hc with
        | here _ hb => rw [hinl] at hb; cases hb
        | next _ _ hb _ => rw [hinl] at hb; cases hb
      · obtain ⟨e1, e2, e3⟩ := ih _ _ _ _ h
        obtain ⟨b1, b2, b3⟩ := eliminate_dead_ins_block_clean tc b _ g d e2
        rw [b1] at e1 e3
        refine ⟨e1, b2, fun c hc => ?_⟩
        cases hc with
        | here _ hb =>
          intro ins hins
          exact b3 ins (List.mem_reverse.2 hins)
        | next _ _ hb hnext => exact e3 c hnext

/-- The loop that propagates non-usage takes from the usages of every register version the
number of operands it decrements that reference it, and writes nothing else. -/
theorem propagate_non_usage_facts (tc : MVMThreadContext) (ins : Nat) (only_read_regs : Bool) :
    ∀ (n : Nat) (g : MVMSpeshGraph) (i : Nat) (a b : Nat),
      (propagate_non_usage tc ins only_read_regs n g i).facts a b
        = { g.facts a b with
            usages := (g.facts a b).usages -
              (((List.range' i n).filter fun k =>
                (!only_read_regs || decide ((g.ins ins).info.operands.getD k MVM_operand_literal
                  = MVM_operand_read_reg)) &&
                decide (((g.ins ins).operand k).get_reg tc = (a, b))).length : Nat) } := by
  intro n
  induction n with
  | zero => intro g i a b; simp [propagate_non_usage]
  | succ n ih =>
    intro g i a b
    simp only [propagate_non_usage]
    by_cases hc : (!only_read_regs || decide ((g.ins ins).info.operands.getD i MVM_operand_literal
        = MVM_operand_read_reg)) = true
    · rw [if_pos hc, ih]
      simp only [set_facts_at_ins, set_facts_at_facts, get_facts_direct, MVMSpeshGraph.facts_at,
        List.range'_succ, List.filter_cons, hc, Bool.true_and]
      by_cases hab : (a, b) = ((g.ins ins).operand i).get_reg tc
      · rw [if_pos hab, ← hab]
        simp only [decide_True, if_true, List.length_cons]
        congr 1
        push_cast
        ring
      · have hab2 : ¬ ((g.ins ins).operand i).get_reg tc = (a, b) := fun h => hab h.symm
        rw [if_neg hab]
        simp [hab2]
    · have hc3 : (!only_read_regs || decide ((g.ins ins).info.operands.getD i MVM_operand_literal
        = MVM_operand_read_reg)) = false := by
        cases h : (!only_read_regs || decide ((g.ins ins).info.operands.getD i
          MVM_operand_literal = MVM_operand_read_reg)) with
        | false => rfl
        | true => exact absurd h hc
      rw [if_neg hc, ih]
      simp only [List.range'_succ, List.filter_cons, hc3, Bool.false_and]
      simp

/-- The operands whose usages the deletion of a dead instruction gives back are the
read-register operands of the instruction, the sources of a phi included. -/
theorem dead_ins_read_count (tc : MVMThreadContext) (g : MVMSpeshGraph) (ins : Nat)
    (r : Nat × Nat) (hdead : is_dead_ins tc g ins = true) :
    ((List.range' 1 ((g.ins ins).info.num_operands - 1)).filter fun k =>
      (!(!decide ((g.ins ins).info.opcode = MVM_SSA_PHI)) ||
        decide ((g.ins ins).info.operands.getD k MVM_operand_literal = MVM_operand_read_reg)) &&
      decide (((g.ins ins).operand k).get_reg tc = r)).length
      = ins_read_count tc g ins r := by
  unfold ins_read_count
  rw [List.range_eq_range']
  cases hn : (g.ins ins).info.num_operands with
  | zero => simp
  | succ n =>
    rw [List.range'_succ]
    simp only [Nat.add_sub_cancel, Nat.zero_add]
    have h0 : ((if (g.ins ins).info.opcode = MVM_SSA_PHI then decide (0 < 0)
        else decide ((g.ins ins).info.operands.getD 0 MVM_operand_literal
          = MVM_operand_read_reg)) &&
        decide (((g.ins ins).operand 0).get_reg tc = r)) = false := by
      by_cases hphi : (g.ins ins).info.opcode = MVM_SSA_PHI
      · simp [hphi]
      · simp only [is_dead_ins, hphi, decide_False, Bool.false_and, Bool.false_or,
          Bool.and_eq_true, decide_eq_true_eq] at hdead
        have hk : decide ((g.ins ins).info.operands.getD 0 MVM_operand_literal
            = MVM_operand_read_reg) = false := by
          rw [hdead.1.2]; rfl
        rw [if_neg hphi, hk]
        rfl
    rw [List.filter_cons_of_neg (by simp only [h0]; simp)]
    congr 1
    apply List.filter_congr
    intro k hk
    have hk1 : 0 < k := by
      have := (List.mem_range'_1.1 hk).1
      omega
    by_cases hphi : (g.ins ins).info.opcode = MVM_SSA_PHI
    · simp [hphi, hk1]
    · simp [hphi]

/-- The loop that propagates non-usage writes the fact table and nothing else. -/
theorem propagate_non_usage_frame (tc : MVMThreadContext) (ins : Nat) (only_read_regs : Bool) :
    ∀ (n : Nat) (g : MVMSpeshGraph) (i : Nat),
      propagate_non_usage tc ins only_read_regs n g i
        = { g with facts := (propagate_non_usage tc ins only_read_regs n g i).facts } := by
  intro n
  induction n with
  | zero => intro g i; rfl
  | succ n ih =>
    intro g i
    simp only [propagate_non_usage]
    split
    · conv_lhs => rw [ih]
      rfl
    · conv_lhs => rw [ih]

/-- Whether a block precedes the first inlined block of a chain depends on the links and the
inlined marks of the blocks only. -/
theorem before_inlined_congr (g g' : MVMSpeshGraph)
    (h : ∀ b, (g'.bbs b).linear_next = (g.bbs b).linear_next ∧
      (g'.bbs b).inlined = (g.bbs b).inlined) :
    ∀ s c, before_inlined g s c → before_inlined g' s c := by
  intro s c hb
  induction hb with
  | here b hi => exact before_inlined.here b (by rw [(h b).2]; exact hi)
  | next b c hi _ ih =>
    exact before_inlined.next b c (by rw [(h b).2]; exact hi) (by rw [(h b).1]; exact ih)

/-- An instruction that is never deleted is not dead. -/
theorem never_dead_ins_not_dead (tc : MVMThreadContext) (g : MVMSpeshGraph) (ins : Nat)
    (h : never_dead_ins g ins) : is_dead_ins tc g ins = false := by
  obtain ⟨h1, h2⟩ := h
  unfold is_dead_ins
  rcases h2 with h2 | h2
  · simp [h1, h2]
  · have hw : decide ((g.ins ins).info.operands.getD 0 MVM_operand_literal
        = MVM_operand_write_reg) = false := decide_eq_false h2
    rw [hw]
    simp [h1]

/-- What one deletion keeps: the instruction records, the entry, the links and the inlined
marks of the blocks, every block that does not precede the first inlined block, and the
occurrences of every instruction other than a dead one. -/
theorem deletes_dead_ins_frame (tc : MVMThreadContext) (g1 g2 : MVMSpeshGraph)
    (h : deletes_dead_ins tc g1 g2) :
    g2.ins = g1.ins ∧ g2.entry = g1.entry ∧
    (∀ b, (g2.bbs b).linear_next = (g1.bbs b).linear_next ∧
      (g2.bbs b).inlined = (g1.bbs b).inlined) ∧
    (∀ b, ¬ before_inlined g1 (some g1.entry) b → g2.bbs b = g1.bbs b) ∧
    (∀ p, is_dead_ins tc g1 p = false → ∀ b, (g2.bbs b).ins.count p = (g1.bbs b).ins.count p) ∧
    (∀ b, (g2.bbs b).ins.Sublist (g1.bbs b).ins) ∧
    (∀ r, (g2.facts_at r).usages ≤ (g1.facts_at r).usages) := by
  obtain ⟨bb, ins, hb, hin, hdead, rfl⟩ := h
  refine ⟨rfl, rfl, fun b => ?_, fun b hnb => ?_, fun p hp b => ?_, fun b => ?_, fun r => ?_⟩
  · dsimp only
    by_cases e : b = bb
    · subst e
      rw [if_pos rfl]; exact ⟨rfl, rfl⟩
    · rw [if_neg e]; exact ⟨rfl, rfl⟩
  · dsimp only
    have e : b ≠ bb := fun e => hnb (e ▸ hb)
    rw [if_neg e]
  · dsimp only
    by_cases e : b = bb
    · subst e
      rw [if_pos rfl]
      have hne : p ≠ ins := fun e2 => by rw [e2, hdead] at hp; cases hp
      simp only [MVMSpeshBB.with_ins]
      rw [List.count_erase_of_ne hne]
    · rw [if_neg e]
  · dsimp only
    by_cases e : b = bb
    · subst e
      rw [if_pos rfl]
      exact List.erase_sublist _ _
    · rw [if_neg e]
  · simp only [MVMSpeshGraph.facts_at]
    omega

/-- What a chain of deletions keeps: the instruction records, the entry, the links and the
inlined marks of the blocks, every block that does not precede the first inlined block, and
the occurrences of every instruction that is never deleted; in every block the list becomes a
sublist of what it was, and no usages counter goes up. -/
theorem deletes_dead_ins_chain_frame (tc : MVMThreadContext) (g g' : MVMSpeshGraph)
    (h : Relation.ReflTransGen (deletes_dead_ins tc) g g') :
    g'.ins = g.ins ∧ g'.entry = g.entry ∧
    (∀ b, (g'.bbs b).linear_next = (g.bbs b).linear_next ∧
      (g'.bbs b).inlined = (g.bbs b).inlined) ∧
    (∀ b, ¬ before_inlined g (some g.entry) b → g'.bbs b = g.bbs b) ∧
    (∀ p, never_dead_ins g p → ∀ b, (g'.bbs b).ins.count p = (g.bbs b).ins.count p) ∧
    (∀ b, (g'.bbs b).ins.Sublist (g.bbs b).ins) ∧
    (∀ r, (g'.facts_at r).usages ≤ (g.facts_at r).usages) ∧
    (∀ p, 0 < (g'.facts_at (((g.ins p).operand 0).get_reg tc)).usages →
      ∀ b, (g'.bbs b).ins.count p = (g.bbs b).ins.count p) := by
  induction h with
  | refl =>
    exact ⟨rfl, rfl, fun _ => ⟨rfl, rfl⟩, fun _ _ => rfl, fun _ _ _ => rfl,
      fun _ => List.Sublist.refl _, fun _ => le_refl _, fun _ _ _ => rfl⟩
  | @tail g1 g2 _ hstep ih =>
    obtain ⟨i1, i2, i3, i4, i5, i6, i7, i8⟩ := ih
    obtain ⟨s1, s2, s3, s4, s5, s6, s7⟩ := deletes_dead_ins_frame tc g1 g2 hstep
    refine ⟨s1.trans i1, s2.trans i2, fun b => ⟨(s3 b).1.trans (i3 b).1, (s3 b).2.trans (i3 b).2⟩,
      fun b hnb => ?_, fun p hp b => ?_, fun b => (s6 b).trans (i6 b),
      fun r => le_trans (s7 r) (i7 r), fun p hp b => ?_⟩
    · rw [s4 b (fun hb1 => hnb ?_), i4 b hnb]
      have := before_inlined_congr g1 g (fun c => ⟨(i3 c).1.symm, (i3 c).2.symm⟩) _ _ hb1
      rw [i2] at this
      exact this
    · rw [s5 p (never_dead_ins_not_dead tc g1 p (by
        unfold never_dead_ins at hp ⊢
        rw [i1]
        exact hp)) b, i5 p hp b]
    · have hpos : 0 < (g1.facts_at (((g.ins p).operand 0).get_reg tc)).usages :=
        lt_of_lt_of_le hp (s7 _)
      have hnd : is_dead_ins tc g1 p = false := by
        have hne : (g1.facts_at (((g.ins p).operand 0).get_reg tc)).usages ≠ 0 := ne_of_gt hpos
        simp [is_dead_ins, i1, hne]
      rw [s5 p hnd b, i8 p hpos b]

/-- The visit of a dead instruction that is in its block, a block that precedes the first
inlined one, is one deletion. -/
theorem eliminate_dead_ins_visit_of_dead (tc : MVMThreadContext) (g : MVMSpeshGraph)
    (bb ins : Nat) (hb : before_inlined g (some g.entry) bb) (hin : ins ∈ (g.bbs bb).ins)
    (h : is_dead_ins tc g ins = true) :
    deletes_dead_ins tc g (eliminate_dead_ins_visit tc g bb ins).1 := by
  rw [eliminate_dead_ins_visit_eq, if_pos h]
  refine ⟨bb, ins, hb, hin, h, ?_⟩
  dsimp only
  have e := propagate_non_usage_frame tc ins (!decide ((g.ins ins).info.opcode = MVM_SSA_PHI))
    ((g.ins ins).info.num_operands - 1) g 1
  have hf : (propagate_non_usage tc ins (!decide ((g.ins ins).info.opcode = MVM_SSA_PHI))
      ((g.ins ins).info.num_operands - 1) g 1).facts
      = fun a b => { g.facts a b with
          usages := (g.facts a b).usages - (ins_read_count tc g ins (a, b) : Nat) } := by
    funext a b
    rw [propagate_non_usage_facts, dead_ins_read_count tc g ins (a, b) h]
  rw [hf] at e
  rw [e]
  rfl

/-- The visit of a dead instruction erases it from the list of its block. -/
theorem eliminate_dead_ins_visit_dead_list (tc : MVMThreadContext) (g : MVMSpeshGraph)
    (bb ins : Nat) (h : is_dead_ins tc g ins = true) :
    ((eliminate_dead_ins_visit tc g bb ins).1.bbs bb).ins = (g.bbs bb).ins.erase ins := by
  rw [eliminate_dead_ins_visit_eq, if_pos h]
  simp [MVM_spesh_manipulate_delete_ins, propagate_non_usage_bbs]

/-- The walk over one block that precedes the first inlined block, along instructions that
are in the block, is a sequence of deletions, and `death`, once set, stays set. -/
theorem eliminate_dead_ins_block_steps (tc : MVMThreadContext) (bb : Nat) :
    ∀ (l : List Nat) (g : MVMSpeshGraph) (d : Bool),
      before_inlined g (some g.entry) bb → (∀ a, l.count a ≤ (g.bbs bb).ins.count a) →
      Relation.ReflTransGen (deletes_dead_ins tc) g (eliminate_dead_ins_block tc bb l (g, d)).1 ∧
      (d = true → (eliminate_dead_ins_block tc bb l (g, d)).2 = true) := by
  intro l
  induction l with
  | nil => intro g d _ _; exact ⟨Relation.ReflTransGen.refl, fun h => h⟩
  | cons ins prevs ih =>
    intro g d hb hc
    simp only [eliminate_dead_ins_block]
    have hin : ins ∈ (g.bbs bb).ins := by
      apply List.count_pos_iff.1
      have := hc ins
      simp only [List.count_cons_self] at this
      omega
    cases hdead : is_dead_ins tc g ins
    · have hg := eliminate_dead_ins_visit_of_not_dead tc g bb ins hdead
      obtain ⟨h1, h2⟩ := ih (eliminate_dead_ins_visit tc g bb ins).1
        (d || (eliminate_dead_ins_visit tc g bb ins).2) (by rw [hg]; exact hb) (by
          rw [hg]
          intro a
          exact le_trans (List.count_le_count_cons _ _ _) (hc a))
      refine ⟨?_, fun hd => h2 (by simp [hd])⟩
      rw [hg] at h1 ⊢
      exact h1
    · have hstep := eliminate_dead_ins_visit_of_dead tc g bb ins hb hin hdead
      obtain ⟨_, s2, s3, _⟩ := deletes_dead_ins_frame tc g _ hstep
      obtain ⟨h1, h2⟩ := ih (eliminate_dead_ins_visit tc g bb ins).1
        (d || (eliminate_dead_ins_visit tc g bb ins).2) (by
          rw [s2]
          exact before_inlined_congr g _ s3 _ _ hb) (by
          rw [eliminate_dead_ins_visit_dead_list tc g bb ins hdead]
          intro a
          have := hc a
          by_cases e : a = ins
          · subst e
            rw [List.count_erase_self]
            simp only [List.count_cons_self] at this
            omega
          · rw [List.count_erase_of_ne e]
            rw [List.count_cons_of_ne e] at this
            exact this)
      exact ⟨Relation.ReflTransGen.head hstep h1, fun hd => h2 (by simp [hd])⟩

/-- A pass along the chain, from a block on that is reached from the entry without passing an
inlined block, is a sequence of deletions. -/
theorem eliminate_dead_ins_pass_steps (tc : MVMThreadContext) :
    ∀ (fuel : Nat) (start : Option Nat) (r r' : MVMSpeshGraph × Bool),
      (∀ c, before_inlined r.1 start c → before_inlined r.1 (some r.1.entry) c) →
      eliminate_dead_ins_pass tc fuel start r = Except.ok r' →
      Relation.ReflTransGen (deletes_dead_ins tc) r.1 r'.1 := by
  intro fuel
  induction fuel with
  | zero =>
    intro start r r' _ h
    cases start with
    | none =>
      simp only [eliminate_dead_ins_pass] at h
      injection h with h
      rw [h]
    | some b => simp [eliminate_dead_ins_pass] at h
  | succ n ih =>
    intro start r r' hstart h
    cases start with
    | none =>
      simp only [eliminate_dead_ins_pass] at h
      injection h with h
      rw [h]
    | some b =>
      obtain ⟨g, d⟩ := r
      simp only [eliminate_dead_ins_pass] at h
      split at h
      · injection h with h
        rw [← h]
      · rename_i hinl
        have hnot : (g.bbs b).inlined = false := by
          cases hx : (g.bbs b).inlined with
          | false => rfl
          | true => exact absurd hx hinl
        have hbb : before_inlined g (some g.entry) b := hstart b (before_inlined.here b hnot)
        have hblock := (eliminate_dead_ins_block_steps tc b (g.bbs b).ins.reverse g d hbb
          (fun a => by rw [List.count_reverse])).1
        obtain ⟨_, f2, f3, _⟩ := deletes_dead_ins_chain_frame tc g _ hblock
        refine Relation.ReflTransGen.trans hblock (ih _ _ _ (fun c hc => ?_) h)
        have hc1 : before_inlined g (g.bbs b).linear_next c := by
          rw [← (f3 b).1]
          exact before_inlined_congr _ g (fun x => ⟨(f3 x).1.symm, (f3 x).2.symm⟩) _ _ hc
        have hc2 := hstart c (before_inlined.next b c hnot hc1)
        rw [f2]
        exact before_inlined_congr g _ f3 _ _ hc2

/-- The fixed-point loop is a sequence of deletions, and it returns a graph on which a
further pass deletes nothing. -/
theorem eliminate_dead_ins_loop_spec (tc : MVMThreadContext) (chain_fuel : Nat) :
    ∀ (fuel : Nat) (g g' : MVMSpeshGraph),
      eliminate_dead_ins_loop tc chain_fuel fuel g = Except.ok g' →
      Relation.ReflTransGen (deletes_dead_ins tc) g g' ∧
      eliminate_dead_ins_pass tc chain_fuel (some g'.entry) (g', false)
        = Except.ok (g', false) := by
  intro fuel
  induction fuel with
  | zero => intro g g' h; simp [eliminate_dead_ins_loop] at h
  | succ n ih =>
    intro g g' h
    simp only [eliminate_dead_ins_loop] at h
    split at h
    · cases h
    · rename_i g1 death hpass
      have hsteps := eliminate_dead_ins_pass_steps tc _ _ (g, false) _ (fun c hc => hc) hpass
      cases death with
      | true =>
        simp only [if_true] at h
        obtain ⟨h1, h2⟩ := ih _ _ h
        exact ⟨Relation.ReflTransGen.trans hsteps h1, h2⟩
      | false =>
        simp only [Bool.false_eq_true, if_false] at h
        injection h with h
        subst h
        obtain ⟨e1, _, _⟩ := eliminate_dead_ins_pass_clean tc _ _ _ _ _ hpass
        subst e1
        exact ⟨Relation.ReflTransGen.refl, hpass⟩

/-- C11: when `eliminate_dead_ins` returns, no block of the linear chain that precedes the
first inlined block holds a dead instruction (a phi whose destination has `usages == 0`,
or an instruction marked pure whose first operand is a write register with `usages == 0`);
the graph it returns is reached from the one it was given by deletions, each of which takes
from a block that precedes the first inlined block an instruction that is dead in the graph
it is deleted from, gives back the usages of what that instruction read and changes nothing
else; so every block that does not precede the first inlined block is as it was, every
instruction that is not a phi and is impure or has no write register as first operand
occurs in every block as often as before, and so does every instruction whose destination
has usages left at the end; no instruction record is written and no instruction is added
to a block. -/
theorem C11_dead_ins_fixed_point (tc : MVMThreadContext) (fuel : Nat) (g g' : MVMSpeshGraph)
    (h : eliminate_dead_ins tc fuel g = Except.ok g') :
    (∀ b, before_inlined g' (some g'.entry) b →
      ∀ ins ∈ (g'.bbs b).ins, is_dead_ins tc g' ins = false) ∧
    Relation.ReflTransGen (deletes_dead_ins tc) g g' ∧
    (∀ b, ¬ before_inlined g (some g.entry) b → g'.bbs b = g.bbs b) ∧
    (∀ p, never_dead_ins g p → ∀ b, (g'.bbs b).ins.count p = (g.bbs b).ins.count p) ∧
    (∀ p, 0 < (g'.facts_at (((g.ins p).operand 0).get_reg tc)).usages →
      ∀ b, (g'.bbs b).ins.count p = (g.bbs b).ins.count p) ∧
    g'.ins = g.ins ∧ (∀ b, (g'.bbs b).ins.Sublist (g.bbs b).ins) := by
  obtain ⟨h1, h2⟩ := eliminate_dead_ins_loop_spec tc fuel fuel g g' h
  obtain ⟨f1, _, _, f4, f5, f6, _, f8⟩ := deletes_dead_ins_chain_frame tc g g' h1
  exact ⟨(eliminate_dead_ins_pass_clean tc _ _ _ _ _ h2).2.2, h1, f4, f5, f8, f1, f6⟩

/-- C11, witness: the run on the graph of one unused phi, which deletes it. -/
theorem C11_dead_ins_fixed_point_witness :
    ∃ g', eliminate_dead_ins (sample_tc 0) 4 g_phi = Except.ok g' ∧
      (g'.bbs 0).ins = [] ∧
      (∀ b, before_inlined g' (some g'.entry) b →
        ∀ ins ∈ (g'.bbs b).ins, is_dead_ins (sample_tc 0) g' ins = false) ∧
      Relation.ReflTransGen (deletes_dead_ins (sample_tc 0)) g_phi g' ∧
      (∀ b, ¬ before_inlined g_phi (some g_phi.entry) b → g'.bbs b = g_phi.bbs b) ∧
      (∀ p, never_dead_ins g_phi p →
        ∀ b, (g'.bbs b).ins.count p = (g_phi.bbs b).ins.count p) ∧
      (∀ p, 0 < (g'.facts_at (((g_phi.ins p).operand 0).get_reg (sample_tc 0))).usages →
        ∀ b, (g'.bbs b).ins.count p = (g_phi.bbs b).ins.count p) ∧
      g'.ins = g_phi.ins ∧ (∀ b, (g'.bbs b).ins.Sublist (g_phi.bbs b).ins) :=
  (exists_ok_of_check (eliminate_dead_ins (sample_tc 0) 4 g_phi) (by decide)).imp
    fun g' hg => ⟨hg.1, hg.2,
      C11_dead_ins_fixed_point (sample_tc 0) 4 g_phi g' hg.1⟩

/-! ### C12: the spesh-slot table is appended to -/

/-- C12, as amended: for every slot table with `n` entries and every handle `c`, the null
handle `0` included, `MVM_spesh_add_spesh_slot` returns `n` converted to `MVMint16`, which is
`n` itself whenever `n < 32768`; afterwards the table has `n + 1` entries, entry `n` is `c`,
and the entries `0 .. n - 1` are unchanged. -/
theorem C12_add_spesh_slot_appends (tc : MVMThreadContext) (g : MVMSpeshGraph) (c : Nat) :
    (MVM_spesh_add_spesh_slot tc g c).1 = to_int16 g.spesh_slots.length ∧
    (g.spesh_slots.length < 32768 →
      (MVM_spesh_add_spesh_slot tc g c).1 = (g.spesh_slots.length : Int)) ∧
    (MVM_spesh_add_spesh_slot tc g c).2.spesh_slots.length = g.spesh_slots.length + 1 ∧
    (MVM_spesh_add_spesh_slot tc g c).2.spesh_slots.get? g.spesh_slots.length = some c ∧
    ∀ i, i < g.spesh_slots.length →
      (MVM_spesh_add_spesh_slot tc g c).2.spesh_slots.get? i = g.spesh_slots.get? i := by
  refine ⟨add_spesh_slot_fst tc g c, ?_, ?_, ?_, ?_⟩
  · intro h
    rw [add_spesh_slot_fst]
    exact to_int16_of_lt _ h
  · simp
  · simp
  · intro i hi
    rw [add_spesh_slot_spesh_slots]
    simp [List.getElem?_append_left hi]

/-- C12, witness: the null handle added to a table that holds one entry. -/
theorem C12_add_spesh_slot_appends_witness :
    (MVM_spesh_add_spesh_slot (sample_tc 0) (g_findmeth [5]) 0).1
      = ((g_findmeth [5]).spesh_slots.length : Int) ∧
    (MVM_spesh_add_spesh_slot (sample_tc 0) (g_findmeth [5]) 0).2.spesh_slots.get?
      (g_findmeth [5]).spesh_slots.length = some 0 ∧
    (MVM_spesh_add_spesh_slot (sample_tc 0) (g_findmeth [5]) 0).2.spesh_slots.get? 0
      = (g_findmeth [5]).spesh_slots.get? 0 :=
  have h := C12_add_spesh_slot_appends (sample_tc 0) (g_findmeth [5]) 0
  ⟨h.2.1 (by decide), h.2.2.2.1, h.2.2.2.2 0 (by decide)⟩

/-- C12, counterexample: with 32768 entries in the table, the handle `9` is stored at index
32768 and the call returns -32768. -/
theorem C12_counterexample_index_wraps :
    (g_findmeth (List.replicate 32768 0)).spesh_slots.length = 32768 ∧
    (MVM_spesh_add_spesh_slot (sample_tc 0)
      (g_findmeth (List.replicate 32768 0)) 9).2.spesh_slots.get? 32768 = some 9 ∧
    (MVM_spesh_add_spesh_slot (sample_tc 0) (g_findmeth (List.replicate 32768 0)) 9).1
      = -32768 ∧
    (-32768 : Int) ≠ 32768 := by
  have hl : (g_findmeth (List.replicate 32768 0)).spesh_slots.length = 32768 :=
    List.length_replicate _ _
  refine ⟨hl, ?_, ?_, by decide⟩
  · rw [add_spesh_slot_spesh_slots]
    have h : ∀ (l : List Nat) (n : Nat), l.length = n → (l ++ [9]).get? n = some 9 := by
      intro l n h; subst h; simp
    exact h _ _ hl
  · rw [add_spesh_slot_fst, hl]
    decide

/-! ### C13: what `copy_facts` writes -/

/-- The fact table after `copy_facts`: the destination's record is the source's with the
destination's own `usages`; every other record is as before. -/
theorem copy_facts_facts (tc : MVMThreadContext) (g : MVMSpeshGraph)
    (to_op from_op : MVMSpeshOperand) (a b : Nat) :
    (copy_facts tc g to_op from_op).facts a b
      = if (a, b) = to_op.get_reg tc then
          { g.facts_at (from_op.get_reg tc) with usages := (g.facts_at (to_op.get_reg tc)).usages }
        else g.facts a b := by
  by_cases hal : to_op.get_reg tc = from_op.get_reg tc
  · by_cases hab : (a, b) = to_op.get_reg tc
    · simp [copy_facts, get_facts_direct, MVMSpeshGraph.facts_at, hab, ← hal]
    · simp [copy_facts, get_facts_direct, MVMSpeshGraph.facts_at, hab]
  · have hal2 : ¬ (from_op.get_reg tc = to_op.get_reg tc) := fun h => hal h.symm
    have hal3 : ¬ ((from_op.get_reg tc).1 = (to_op.get_reg tc).1 ∧
        (from_op.get_reg tc).2 = (to_op.get_reg tc).2) :=
      fun h => hal2 (Prod.ext h.1 h.2)
    by_cases hab : (a, b) = to_op.get_reg tc
    · simp [copy_facts, get_facts_direct, MVMSpeshGraph.facts_at, hab, hal2, hal3]
    · simp [copy_facts, get_facts_direct, MVMSpeshGraph.facts_at, hab]

/-- The fields of the graph other than the fact table are not written by `copy_facts`. -/
theorem copy_facts_frame (tc : MVMThreadContext) (g : MVMSpeshGraph)
    (to_op from_op : MVMSpeshOperand) :
    copy_facts tc g to_op from_op = { g with facts := (copy_facts tc g to_op from_op).facts } := by
  simp [copy_facts, MVMSpeshGraph.set_facts_at]

/-- C13: `copy_facts(to, from)` makes the flags, type, decont type, value and log-guard index
of the destination's fact equal to the source's, and leaves unchanged the destination's
`usages`, the whole source fact, every other fact record and every other field of the graph;
a second call changes nothing more, and the call changes nothing when `to` and `from` are the
same register version. -/
theorem C13_copy_facts (tc : MVMThreadContext) (g : MVMSpeshGraph)
    (to_op from_op : MVMSpeshOperand) :
    ((copy_facts tc g to_op from_op).facts_at (to_op.get_reg tc)).flags
      = (g.facts_at (from_op.get_reg tc)).flags ∧
    ((copy_facts tc g to_op from_op).facts_at (to_op.get_reg tc)).type
      = (g.facts_at (from_op.get_reg tc)).type ∧
    ((copy_facts tc g to_op from_op).facts_at (to_op.get_reg tc)).decont_type
      = (g.facts_at (from_op.get_reg tc)).decont_type ∧
    ((copy_facts tc g to_op from_op).facts_at (to_op.get_reg tc)).value
      = (g.facts_at (from_op.get_reg tc)).value ∧
    ((copy_facts tc g to_op from_op).facts_at (to_op.get_reg tc)).log_guard
      = (g.facts_at (from_op.get_reg tc)).log_guard ∧
    ((copy_facts tc g to_op from_op).facts_at (to_op.get_reg tc)).usages
      = (g.facts_at (to_op.get_reg tc)).usages ∧
    (copy_facts tc g to_op from_op).facts_at (from_op.get_reg tc)
      = g.facts_at (from_op.get_reg tc) ∧
    (∀ p, p ≠ to_op.get_reg tc → (copy_facts tc g to_op from_op).facts_at p = g.facts_at p) ∧
    copy_facts tc g to_op from_op = { g with facts := (copy_facts tc g to_op from_op).facts } ∧
    copy_facts tc (copy_facts tc g to_op from_op) to_op from_op = copy_facts tc g to_op from_op ∧
    (to_op.get_reg tc = from_op.get_reg tc → copy_facts tc g to_op from_op = g) := by
  have hat : ∀ (g : MVMSpeshGraph) p, (copy_facts tc g to_op from_op).facts_at p
      = if p = to_op.get_reg tc then
          { g.facts_at (from_op.get_reg tc) with usages := (g.facts_at (to_op.get_reg tc)).usages }
        else g.facts_at p := by
    intro g p
    show (copy_facts tc g to_op from_op).facts p.1 p.2 = _
    rw [copy_facts_facts]
    rfl
  have hsrc : (copy_facts tc g to_op from_op).facts_at (from_op.get_reg tc)
      = g.facts_at (from_op.get_reg tc) := by
    rw [hat]
    by_cases h : from_op.get_reg tc = to_op.get_reg tc
    · rw [if_pos h, h]
    · rw [if_neg h]
  have hnoop : to_op.get_reg tc = from_op.get_reg tc → copy_facts tc g to_op from_op = g := by
    intro h
    rw [copy_facts_frame]
    have hf : (copy_facts tc g to_op from_op).facts = g.facts := by
      funext a b
      rw [copy_facts_facts]
      by_cases hab : (a, b) = to_op.get_reg tc
      · rw [if_pos hab, ← h, ← hab]
        rfl
      · rw [if_neg hab]
    rw [hf]
  refine ⟨by rw [hat, if_pos rfl], by rw [hat, if_pos rfl], by rw [hat, if_pos rfl],
    by rw [hat, if_pos rfl], by rw [hat, if_pos rfl], by rw [hat, if_pos rfl], hsrc,
    fun p hp => by rw [hat, if_neg hp], copy_facts_frame tc g to_op from_op, ?_, hnoop⟩
  have hf : (copy_facts tc (copy_facts tc g to_op from_op) to_op from_op).facts
      = (copy_facts tc g to_op from_op).facts := by
    funext a b
    rw [copy_facts_facts]
    by_cases hab : (a, b) = to_op.get_reg tc
    · rw [if_pos hab, hsrc, hat, if_pos rfl, copy_facts_facts, if_pos hab]
    · rw [if_neg hab]
  have h1 := copy_facts_frame tc (copy_facts tc g to_op from_op) to_op from_op
  rw [hf] at h1
  exact h1

/-- C13, witness: `copy_facts(r2, r1)` and `copy_facts(r1, r1)` on the graph of `set r2, r1`
where `r1` has `KNOWN_TYPE`, type `7` and value `11`. -/
theorem C13_copy_facts_witness :
    ((copy_facts (sample_tc 0) (g_unary MVM_OP_set MVM_SPESH_FACT_KNOWN_TYPE)
      (MVMSpeshOperand.reg 2 0) (MVMSpeshOperand.reg 1 0)).facts 2 0).value = 11 ∧
    ((copy_facts (sample_tc 0) (g_unary MVM_OP_set MVM_SPESH_FACT_KNOWN_TYPE)
      (MVMSpeshOperand.reg 2 0) (MVMSpeshOperand.reg 1 0)).facts 2 0).usages = 0 ∧
    copy_facts (sample_tc 0) (g_unary MVM_OP_set MVM_SPESH_FACT_KNOWN_TYPE)
      (MVMSpeshOperand.reg 1 0) (MVMSpeshOperand.reg 1 0)
      = g_unary MVM_OP_set MVM_SPESH_FACT_KNOWN_TYPE :=
  ⟨(C13_copy_facts (sample_tc 0) (g_unary MVM_OP_set MVM_SPESH_FACT_KNOWN_TYPE)
      (MVMSpeshOperand.reg 2 0) (MVMSpeshOperand.reg 1 0)).2.2.2.1,
   (C13_copy_facts (sample_tc 0) (g_unary MVM_OP_set MVM_SPESH_FACT_KNOWN_TYPE)
      (MVMSpeshOperand.reg 2 0) (MVMSpeshOperand.reg 1 0)).2.2.2.2.2.1,
   (C13_copy_facts (sample_tc 0) (g_unary MVM_OP_set MVM_SPESH_FACT_KNOWN_TYPE)
      (MVMSpeshOperand.reg 1 0) (MVMSpeshOperand.reg 1 0)).2.2.2.2.2.2.2.2.2.2 rfl⟩

/-! ### C14: the fact accessors -/

/-- The log-guard table after `g->log_guards[k].used = 1`. -/
theorem set_guard_used_get? (g : MVMSpeshGraph) (k j : Nat) :
    (g.set_guard_used k).log_guards.get? j
      = if j = k then (g.log_guards.get? j).map fun lg => { lg with used := true }
        else g.log_guards.get? j := by
  simp only [MVMSpeshGraph.set_guard_used, List.get?_eq_getElem?, List.getElem?_modify]
  by_cases h : j = k
  · subst h; simp
  · have h2 : ¬ k = j := fun e => h e.symm
    simp [h, h2]

/-- C14: `MVM_spesh_get_facts` yields the fact record of the operand's register and no graph
(it writes nothing); `MVM_spesh_get_and_use_facts` yields the same record and the graph that
`MVM_spesh_use_facts` yields on it; and `MVM_spesh_use_facts`, when the fact has
`FROM_LOG_GUARD`, sets `used` on the guard at the fact's log-guard index, leaving the other
fields of that guard, every other guard, the size of the table and every other field of the
graph as they were, and otherwise changes nothing at all. -/
theorem C14_fact_accessors (tc : MVMThreadContext) (g : MVMSpeshGraph) (o : MVMSpeshOperand) :
    MVM_spesh_get_facts tc g o = o.get_reg tc ∧
    (MVM_spesh_get_and_use_facts tc g o).1 = MVM_spesh_get_facts tc g o ∧
    (MVM_spesh_get_and_use_facts tc g o).2
      = MVM_spesh_use_facts tc g (MVM_spesh_get_facts tc g o) ∧
    (∀ f, has_flag (g.facts_at f).flags MVM_SPESH_FACT_FROM_LOG_GUARD = true →
      MVM_spesh_use_facts tc g f
        = { g with log_guards := (MVM_spesh_use_facts tc g f).log_guards } ∧
      (MVM_spesh_use_facts tc g f).log_guards.length = g.log_guards.length ∧
      ∀ k, (MVM_spesh_use_facts tc g f).log_guards.get? k
        = if k = (g.facts_at f).log_guard then
            (g.log_guards.get? k).map fun lg => { ins := lg.ins, bb := lg.bb, used := true }
          else g.log_guards.get? k) ∧
    (∀ f, has_flag (g.facts_at f).flags MVM_SPESH_FACT_FROM_LOG_GUARD = false →
      MVM_spesh_use_facts tc g f = g) := by
  refine ⟨rfl, ?_, ?_, ?_, ?_⟩
  · simp [MVM_spesh_get_facts, get_facts_direct]
  · unfold MVM_spesh_get_and_use_facts MVM_spesh_use_facts MVM_spesh_get_facts
    simp only []
    split <;> rfl
  · intro f hf
    unfold MVM_spesh_use_facts
    rw [if_pos hf]
    refine ⟨rfl, ?_, ?_⟩
    · simp [MVMSpeshGraph.set_guard_used]
    · intro k
      exact set_guard_used_get? g _ k
  · intro f hf
    unfold MVM_spesh_use_facts
    rw [hf]
    rfl

/-- C14, witness: `r1` carries a fact from log guard 1, which was not yet relied upon. -/
theorem C14_fact_accessors_witness :
    has_flag (g_logged.facts_at (1, 0)).flags MVM_SPESH_FACT_FROM_LOG_GUARD = true ∧
    g_logged.log_guards.get? 1 = some { ins := 1, bb := 0, used := false } ∧
    (MVM_spesh_get_and_use_facts (sample_tc 0) g_logged
      (MVMSpeshOperand.reg 1 0)).2.log_guards.get? 1 = some { ins := 1, bb := 0, used := true } :=
  have h := C14_fact_accessors (sample_tc 0) g_logged (MVMSpeshOperand.reg 1 0)
  ⟨by decide, rfl, by rw [h.2.2.1]; exact ((h.2.2.2.1 (1, 0) (by decide)).2.2 1).trans rfl⟩

/-! ### C16: candidate selection -/

/-- The flag `guard_failed` of the code is set exactly when the guard is not satisfied. -/
theorem guard_failed_eq (tc : MVMThreadContext) (g : MVMSpeshGraph)
    (arg_info : MVMSpeshCallInfo) (guard : MVMSpeshCandGuard) :
    guard_failed tc g arg_info guard = !guard_satisfied tc g arg_info guard := by
  unfold guard_failed guard_satisfied
  by_cases hs : (guard.slot : Int) < MAX_ARGS_FOR_OPT
  · simp only [hs, if_true, decide_True, Bool.true_and]
    cases arg_info.arg_facts guard.slot with
    | none => rfl
    | some f =>
      cases guard.kind <;> simp [Bool.not_and, bne]
  · simp [hs]

/-- The test of a candidate in the loop of `try_find_spesh_candidate` is that it qualifies. -/
theorem candidate_test_eq (tc : MVMThreadContext) (g : MVMSpeshGraph)
    (arg_info : MVMSpeshCallInfo) (cand : MVMSpeshCandidate) :
    (decide (cand.cs = arg_info.cs) && !(cand.guards.any (guard_failed tc g arg_info)))
      = candidate_qualifies tc g arg_info cand := by
  unfold candidate_qualifies
  have h : (!(cand.guards.any (guard_failed tc g arg_info)))
      = cand.guards.all (guard_satisfied tc g arg_info) := by
    induction cand.guards with
    | nil => rfl
    | cons x xs ih =>
      simp only [List.any_cons, List.all_cons, Bool.not_or, ih, guard_failed_eq, Bool.not_not]
  rw [h]
  cases hcs : decide (cand.cs = arg_info.cs) <;> simp_all [beq_iff_eq]

/-- The loop over the candidates from index `i0` on yields either `-1`, no candidate of the
list qualifying, or `i0 + k` for the first position `k` of the list whose candidate
qualifies. -/
theorem try_find_spesh_candidate_from_spec (tc : MVMThreadContext) (g : MVMSpeshGraph)
    (arg_info : MVMSpeshCallInfo) (cands : List MVMSpeshCandidate) :
    ∀ i0 : Nat,
      (try_find_spesh_candidate_from tc g arg_info cands i0 = -1 ∧
        ∀ cand ∈ cands, candidate_qualifies tc g arg_info cand = false) ∨
      ∃ k cand, try_find_spesh_candidate_from tc g arg_info cands i0 = ((i0 + k : Nat) : Int) ∧
        cands.get? k = some cand ∧ candidate_qualifies tc g arg_info cand = true ∧
        ∀ j, j < k → ∀ c, cands.get? j = some c → candidate_qualifies tc g arg_info c = false := by
  induction cands with
  | nil => intro i0; left; exact ⟨rfl, fun c hc => absurd hc (List.not_mem_nil c)⟩
  | cons cand rest ih =>
    intro i0
    unfold try_find_spesh_candidate_from
    rw [candidate_test_eq]
    by_cases hq : candidate_qualifies tc g arg_info cand = true
    · right
      refine ⟨0, cand, ?_, rfl, hq, fun j hj => absurd hj (Nat.not_lt_zero j)⟩
      rw [if_pos hq]; rfl
    · rw [if_neg hq]
      have hq' : candidate_qualifies tc g arg_info cand = false := by
        cases h : candidate_qualifies tc g arg_info cand
        · rfl
        · exact absurd h hq
      rcases ih (i0 + 1) with ⟨h1, h2⟩ | ⟨k, c, h1, h2, h3, h4⟩
      · left
        refine ⟨h1, fun c hc => ?_⟩
        rcases List.mem_cons.1 hc with rfl | hc
        · exact hq'
        · exact h2 c hc
      · right
        refine ⟨k + 1, c, ?_, h2, h3, ?_⟩
        · rw [h1]; congr 1; omega
        · intro j hj c' hc'
          cases j with
          | zero =>
            have : cand = c' := by simpa using hc'
            rw [← this]; exact hq'
          | succ j => exact h4 j (by omega) c' hc'

/-- C16: `try_find_spesh_candidate` returns `i` exactly when candidate `i` is the first one
that qualifies (its callsite is that of the call info and each of its guards is satisfied by
the fact recorded for its slot), and returns `-1` exactly when no candidate qualifies; the
flag `guard_failed` of the code is the negation of "satisfied", so that it is set for a guard
on a slot at or beyond `MAX_ARGS_FOR_OPT`, on a slot without a fact, or of an unknown kind. -/
theorem C16_candidate_selection (tc : MVMThreadContext) (g : MVMSpeshGraph) (code : Nat)
    (arg_info : MVMSpeshCallInfo) :
    (∀ i : Nat, try_find_spesh_candidate tc g code arg_info = (i : Int) ↔
      (∃ cand, (tc.spesh_candidates code).get? i = some cand ∧
        candidate_qualifies tc g arg_info cand = true) ∧
      ∀ j, j < i → ∀ c, (tc.spesh_candidates code).get? j = some c →
        candidate_qualifies tc g arg_info c = false) ∧
    (try_find_spesh_candidate tc g code arg_info = -1 ↔
      ∀ cand ∈ tc.spesh_candidates code, candidate_qualifies tc g arg_info cand = false) ∧
    (∀ guard, guard_failed tc g arg_info guard = !guard_satisfied tc g arg_info guard) ∧
    (∀ guard, (MAX_ARGS_FOR_OPT ≤ (guard.slot : Int) ∨ arg_info.arg_facts guard.slot = none ∨
        guard.kind = MVM_SPESH_GUARD_other) → guard_failed tc g arg_info guard = true) := by
  have hspec := try_find_spesh_candidate_from_spec tc g arg_info (tc.spesh_candidates code) 0
  have hmem : ∀ k c, (tc.spesh_candidates code).get? k = some c → c ∈ tc.spesh_candidates code :=
    fun k c h => List.get?_mem h
  refine ⟨fun i => ⟨fun hi => ?_, fun hi => ?_⟩, ⟨fun h1 => ?_, fun h1 => ?_⟩,
    guard_failed_eq tc g arg_info, fun guard hg => ?_⟩
  · unfold try_find_spesh_candidate at hi
    rcases hspec with ⟨h1, _⟩ | ⟨k, c, h1, h2, h3, h4⟩
    · rw [h1] at hi; omega
    · rw [h1] at hi
      have hk : k = i := by omega
      subst hk
      exact ⟨⟨c, h2, h3⟩, h4⟩
  · unfold try_find_spesh_candidate
    obtain ⟨⟨cand, hc1, hc2⟩, hlt⟩ := hi
    rcases hspec with ⟨_, h2⟩ | ⟨k, c, h1, h2, h3, h4⟩
    · rw [h2 cand (hmem i cand hc1)] at hc2; exact absurd hc2 (by decide)
    · rw [h1]
      rcases Nat.lt_trichotomy k i with hlt' | heq | hgt
      · rw [hlt k hlt' c h2] at h3; exact absurd h3 (by decide)
      · subst heq; simp
      · rw [h4 i hgt cand hc1] at hc2; exact absurd hc2 (by decide)
  · unfold try_find_spesh_candidate at h1
    rcases hspec with ⟨_, h2⟩ | ⟨k, c, h1', _, _, _⟩
    · exact h2
    · rw [h1'] at h1; omega
  · unfold try_find_spesh_candidate
    rcases hspec with ⟨h, _⟩ | ⟨k, c, _, h2, h3, _⟩
    · exact h
    · rw [h1 c (hmem k c h2)] at h3; exact absurd h3 (by decide)
  · rw [guard_failed_eq]
    unfold guard_satisfied
    rcases hg with h | h | h
    · have : ¬ ((guard.slot : Int) < MAX_ARGS_FOR_OPT) := by omega
      simp [this]
    · simp [h]
    · cases hf : arg_info.arg_facts guard.slot <;> simp [h]

/-- C16, witness: of three candidates, the first has another callsite and the second a guard
that the recorded fact does not satisfy; the third is returned. -/
theorem C16_candidate_selection_witness :
    (∃ cand, ((sample_call_tc sample_candidates).spesh_candidates 0).get? 2 = some cand ∧
      candidate_qualifies (sample_call_tc sample_candidates)
        (g_unary MVM_OP_set (MVM_SPESH_FACT_KNOWN_TYPE ||| MVM_SPESH_FACT_CONCRETE))
        sample_arg_info cand = true) ∧
    ∀ j, j < 2 → ∀ c, ((sample_call_tc sample_candidates).spesh_candidates 0).get? j = some c →
      candidate_qualifies (sample_call_tc sample_candidates)
        (g_unary MVM_OP_set (MVM_SPESH_FACT_KNOWN_TYPE ||| MVM_SPESH_FACT_CONCRETE))
        sample_arg_info c = false :=
  ((C16_candidate_selection (sample_call_tc sample_candidates)
    (g_unary MVM_OP_set (MVM_SPESH_FACT_KNOWN_TYPE ||| MVM_SPESH_FACT_CONCRETE)) 0
    sample_arg_info).1 2).1 (by decide)

/-! ### C15 and C18: `optimize_call` -/

section call_lemmas

variable (tc : MVMThreadContext) (g : MVMSpeshGraph)

@[simp] theorem insert_ins_ins (bb : Nat) (prev : Option Nat) (x : Nat) :
    (MVM_spesh_manipulate_insert_ins tc g bb prev x).ins = g.ins := by
  unfold MVM_spesh_manipulate_insert_ins; split <;> rfl

@[simp] theorem insert_ins_facts (bb : Nat) (prev : Option Nat) (x : Nat) :
    (MVM_spesh_manipulate_insert_ins tc g bb prev x).facts = g.facts := by
  unfold MVM_spesh_manipulate_insert_ins; split <;> rfl

@[simp] theorem alloc_ins_fst : (MVM_spesh_alloc_ins tc g).1 = g.ins_alloc := rfl

@[simp] theorem alloc_ins_ins : (MVM_spesh_alloc_ins tc g).2.ins = g.ins := rfl

@[simp] theorem alloc_ins_facts : (MVM_spesh_alloc_ins tc g).2.facts = g.facts := rfl

@[simp] theorem get_and_use_facts_ins_alloc (o : MVMSpeshOperand) :
    (MVM_spesh_get_and_use_facts tc g o).2.ins_alloc = g.ins_alloc := by
  unfold MVM_spesh_get_and_use_facts; simp only []; split <;> rfl

/-- The test of a guard reads the graph through its fact table only. -/
theorem guard_failed_congr (g1 g2 : MVMSpeshGraph)
    (h : g1.facts = g2.facts) (arg_info : MVMSpeshCallInfo) :
    guard_failed tc g1 arg_info = guard_failed tc g2 arg_info := by
  funext guard
  simp only [guard_failed, MVMSpeshGraph.facts_at, h]

/-- The candidate search reads the graph through its fact table only. -/
theorem try_find_spesh_candidate_congr (g1 g2 : MVMSpeshGraph)
    (h : g1.facts = g2.facts) (code : Nat) (arg_info : MVMSpeshCallInfo) :
    try_find_spesh_candidate tc g1 code arg_info = try_find_spesh_candidate tc g2 code arg_info := by
  unfold try_find_spesh_candidate
  generalize tc.spesh_candidates code = cands
  generalize (0 : Nat) = i0
  induction cands generalizing i0 with
  | nil => rfl
  | cons c rest ih =>
    unfold try_find_spesh_candidate_from
    rw [guard_failed_congr tc g1 g2 h, ih]

end call_lemmas

/-- With the invoke an allocated instruction record and its opcode one of the five
`invoke_*`, `optimize_call` does not reach the `default:` of its `switch`. -/
theorem optimize_call_handles_invoke (tc : MVMThreadContext) (g : MVMSpeshGraph) (bb ins callee_idx : Nat)
    (arg_info : MVMSpeshCallInfo) (hins : ins ≠ g.ins_alloc)
    (hop : (g.ins ins).info.opcode = MVM_OP_invoke_v ∨ (g.ins ins).info.opcode = MVM_OP_invoke_i ∨
      (g.ins ins).info.opcode = MVM_OP_invoke_n ∨ (g.ins ins).info.opcode = MVM_OP_invoke_s ∨
      (g.ins ins).info.opcode = MVM_OP_invoke_o) :
    optimize_call tc g bb ins callee_idx arg_info ≠ Except.error Fault.unhandled_invoke := by
  intro h
  unfold optimize_call at h
  simp only [] at h
  split at h
  · split at h
    · rename_i e he
      injection h with h
      subst h
      split at he
      · split at he <;> cases he
      · cases he
    · rename_i gi hgi
      have hgi_ins : gi.ins ins = g.ins ins := by
        split at hgi
        · split at hgi
          · cases hgi
          · injection hgi with hgi
            subst hgi
            simp [hins]
        · injection hgi with hgi
          subst hgi
          simp
      split at h
      · split at h
        · split at h
          · cases h
          · split at h
            · cases h
            · rename_i hv
              rw [hgi_ins] at hv
              simp only [MVMSpeshGraph.set_operands, set_ins_ins, if_true, hgi_ins] at h
              rcases hop with hop | hop | hop | hop | hop
              · exact hv hop
              all_goals (rw [hop] at h; simp at h)
        · cases h
      · cases h
  · cases h

/-- The search of `optimize_throwcat` and its rewrite fail, if at all, in another way than
by the hard error of `optimize_call`. -/
theorem optimize_throwcat_not_unhandled (tc : MVMThreadContext) (fuel : Nat) (g : MVMSpeshGraph)
    (bb ins : Nat) : optimize_throwcat tc fuel g bb ins ≠ Except.error Fault.unhandled_invoke := by
  have hs : ∀ found fuel start st,
      throwcat_search_bb g ins found fuel start st ≠ Except.error Fault.unhandled_invoke := by
    intro found fuel
    induction fuel with
    | zero =>
      intro start st
      cases start <;> simp [throwcat_search_bb]
    | succ n ih =>
      intro start st
      cases start with
      | none => simp [throwcat_search_bb]
      | some b =>
        unfold throwcat_search_bb
        split
        · simp
        · exact ih _ _
  intro h
  unfold optimize_throwcat at h
  simp only [] at h
  split at h
  · split at h
    · rename_i e he
      injection h with h
      subst h
      exact hs _ _ _ _ he
    · split at h
      · split at h
        · split at h
          · cases h
          · cases h
        · cases h
      · cases h
  · cases h

/-- Whatever the opcode, the `switch` of `optimize_bb` on an allocated instruction record
does not end in the hard error of `optimize_call`. -/
theorem optimize_bb_switch_handles_invoke (tc : MVMThreadContext) (fuel : Nat) (g : MVMSpeshGraph)
    (bb ins : Nat) (arg_info : MVMSpeshCallInfo) (hins : ins ≠ g.ins_alloc) :
    optimize_bb_switch tc fuel g bb ins arg_info ≠ Except.error Fault.unhandled_invoke := by
  have hmap : ∀ (r : Except Fault MVMSpeshGraph), r ≠ Except.error Fault.unhandled_invoke →
      (r.map fun g => (g, arg_info)) ≠ Except.error Fault.unhandled_invoke := by
    intro r hr h
    cases r with
    | error e => apply hr; simpa [Except.map] using h
    | ok v => simp [Except.map] at h
  unfold optimize_bb_switch
  cases hop : (g.ins ins).info.opcode
  all_goals dsimp only
  all_goals first
    | (intro h; cases h)
    | (unfold optimize_bb_arg; simp only []; split <;> [split; skip] <;> (intro h; cases h))
    | (unfold optimize_bb_argconst; simp only []; split <;> [split; skip] <;> (intro h; cases h))
    | (apply hmap; apply optimize_call_handles_invoke tc g bb ins _ arg_info hins; simp [hop])
    | (apply hmap; exact optimize_throwcat_not_unhandled tc fuel g bb ins)
    | (split <;> (intro h; cases h))


/-- The rewrite of `optimize_call` for a known callee that resolves to the non-null code
object `target`, when the inliner grants no inline graph: with `c` the result of the
candidate search, the call returns; if `c` is an index the instruction gets the op descriptor
of the `sp_fastinvoke_*` that matches its opcode and a fresh operand array holding the first
operand (the first two, unless the opcode is `invoke_v`) followed by `c` as a 16-bit literal;
if `c` is negative the instruction is as before. -/
theorem optimize_call_fast_invoke (tc : MVMThreadContext) (g : MVMSpeshGraph)
    (bb ins callee_idx target : Nat) (c : Int) (arg_info : MVMSpeshCallInfo)
    (hins : ins ≠ g.ins_alloc)
    (hop : (g.ins ins).info.opcode = MVM_OP_invoke_v ∨ (g.ins ins).info.opcode = MVM_OP_invoke_i ∨
      (g.ins ins).info.opcode = MVM_OP_invoke_n ∨ (g.ins ins).info.opcode = MVM_OP_invoke_s ∨
      (g.ins ins).info.opcode = MVM_OP_invoke_o)
    (hkv : has_flag (g.facts_at (((g.ins ins).operand callee_idx).get_reg tc)).flags
      MVM_SPESH_FACT_KNOWN_VALUE = true)
    (htarget : optimize_call_target tc
      (g.facts_at (((g.ins ins).operand callee_idx).get_reg tc)).value arg_info = target)
    (hnz : target ≠ 0)
    (hpa : arg_info.prepargs_ins ≠ none)
    (hinl : ∀ g' k, tc.MVM_spesh_inline_try_get_graph g' target k = none)
    (hc : try_find_spesh_candidate tc g target arg_info = c) :
    ∃ g', optimize_call tc g bb ins callee_idx arg_info = Except.ok g' ∧
      (0 ≤ c →
        (g'.ins ins).info = tc.MVM_op_get_op
          (match (g.ins ins).info.opcode with
           | MVM_OP_invoke_v => MVM_OP_sp_fastinvoke_v
           | MVM_OP_invoke_i => MVM_OP_sp_fastinvoke_i
           | MVM_OP_invoke_n => MVM_OP_sp_fastinvoke_n
           | MVM_OP_invoke_s => MVM_OP_sp_fastinvoke_s
           | _ => MVM_OP_sp_fastinvoke_o) ∧
        (g'.ins ins).operands =
          if (g.ins ins).info.opcode = MVM_OP_invoke_v then
            [(g.ins ins).operand 0, MVMSpeshOperand.lit_i16 (to_int16 c),
             MVMSpeshOperand.lit_i64 0]
          else
            [(g.ins ins).operand 0, (g.ins ins).operand 1,
             MVMSpeshOperand.lit_i16 (to_int16 c)]) ∧
      (c < 0 → g'.ins ins = g.ins ins) := by
  have hfa : (MVM_spesh_get_and_use_facts tc g ((g.ins ins).operand callee_idx)).2.facts_at
      (MVM_spesh_get_and_use_facts tc g ((g.ins ins).operand callee_idx)).1
      = g.facts_at (((g.ins ins).operand callee_idx).get_reg tc) := by
    simp [MVMSpeshGraph.facts_at]
  unfold optimize_call
  simp only [hfa, hkv, htarget, if_true]
  split
  · rename_i e he
    exfalso
    split at he
    · split at he
      · rename_i hnone; exact hpa hnone
      · cases he
    · cases he
  · rename_i gi hgi
    have hgi_ins : gi.ins ins = g.ins ins := by
      split at hgi
      · split at hgi
        · cases hgi
        · injection hgi with hgi
          subst hgi
          simp [hins]
      · injection hgi with hgi
        subst hgi
        simp
    have hgi_facts : gi.facts = g.facts := by
      split at hgi
      · split at hgi
        · cases hgi
        · injection hgi with hgi
          subst hgi
          simp
      · injection hgi with hgi
        subst hgi
        simp
    rw [if_pos hnz, try_find_spesh_candidate_congr tc gi g hgi_facts, hc]
    by_cases hc0 : c ≥ 0
    · rw [if_pos hc0, hinl]
      simp only [MVMSpeshGraph.set_operands, MVMSpeshGraph.set_info, set_ins_ins, if_true,
        hgi_ins]
      rcases hop with hop | hop | hop | hop | hop
      all_goals simp only [hop]
      all_goals refine ⟨_, rfl, fun _ => ?_, fun h => by omega⟩
      all_goals simp
    · rw [if_neg hc0]
      exact ⟨gi, rfl, fun h => absurd h hc0, fun _ => hgi_ins⟩

/-- The loop over the candidates passes over leading candidates of another callsite. -/
theorem try_find_spesh_candidate_from_many (tc : MVMThreadContext) (g : MVMSpeshGraph)
    (arg_info : MVMSpeshCallInfo) (hcs : arg_info.cs = 3) (n : Nat) :
    ∀ i0, try_find_spesh_candidate_from tc g arg_info (many_candidates n) i0
      = ((i0 + n : Nat) : Int) := by
  induction n with
  | zero =>
    intro i0
    simp [many_candidates, try_find_spesh_candidate_from, hcs]
  | succ n ih =>
    intro i0
    have h : many_candidates (n + 1) = { cs := 4, guards := [] } :: many_candidates n := by
      simp [many_candidates, List.replicate_succ]
    rw [h]
    unfold try_find_spesh_candidate_from
    simp only [hcs]
    rw [if_neg (by simp), ih]
    congr 1
    omega


/-- C15: the hard error "Spesh: unhandled invoke instruction" is not reached.  For an
allocated instruction record, `optimize_call` on one of `invoke_v`, `invoke_i`, `invoke_n`,
`invoke_s`, `invoke_o` does not end in it, whatever the facts, the candidates, the call info
and the inliner's answer; and the `switch` of `optimize_bb`, which hands exactly these
opcodes to `optimize_call`, does not end in it for any opcode. -/
theorem C15_unhandled_invoke_unreachable (tc : MVMThreadContext) (fuel : Nat)
    (g : MVMSpeshGraph) (bb ins : Nat) (arg_info : MVMSpeshCallInfo)
    (hins : ins < g.ins_alloc) :
    optimize_bb_switch tc fuel g bb ins arg_info ≠ Except.error Fault.unhandled_invoke ∧
    ∀ callee_idx,
      ((g.ins ins).info.opcode = MVM_OP_invoke_v ∨ (g.ins ins).info.opcode = MVM_OP_invoke_i ∨
        (g.ins ins).info.opcode = MVM_OP_invoke_n ∨ (g.ins ins).info.opcode = MVM_OP_invoke_s ∨
        (g.ins ins).info.opcode = MVM_OP_invoke_o) →
      optimize_call tc g bb ins callee_idx arg_info ≠ Except.error Fault.unhandled_invoke :=
  ⟨optimize_bb_switch_handles_invoke tc fuel g bb ins arg_info (Nat.ne_of_lt hins),
   fun callee_idx hop =>
    optimize_call_handles_invoke tc g bb ins callee_idx arg_info (Nat.ne_of_lt hins) hop⟩

/-- C15, witness: the second `invoke_o` of the graph of two calls, with a candidate that
matches. -/
theorem C15_unhandled_invoke_unreachable_witness :
    (5 < g_two_calls.ins_alloc) ∧
    optimize_bb_switch (sample_call_tc guarded_candidates) 8 g_two_calls 0 5 sample_arg_info
      ≠ Except.error Fault.unhandled_invoke :=
  ⟨by decide,
   (C15_unhandled_invoke_unreachable (sample_call_tc guarded_candidates) 8 g_two_calls 0 5
      sample_arg_info (by decide)).1⟩

/-! ### C17: the call info across two calls of one block -/

/-- C17, at the failing input: a block with the calls `prepargs 3; arg_o 0, r1; invoke_o r6,
r5` and `prepargs 4; argconst_i 0, 77; invoke_o r7, r5`, where the only candidate of the
callee has callsite `4` and guards slot 0 for a concrete object of the type of `r1`.  The
second call fills slot 0 with a constant, yet `optimize_bb` turns its invoke into
`sp_fastinvoke_o r7, r5, 0`: the guard was satisfied by the fact that the first call left in
slot 0.  Walked from its own `prepargs` with no fact recorded, the same call keeps its
`invoke_o`. -/
theorem C17_stale_argument_fact :
    (g_two_calls.ins 3).info.opcode = MVM_OP_prepargs ∧
    (g_two_calls.ins 4).info.opcode = MVM_OP_argconst_i ∧
    (g_two_calls.ins 4).operands = [MVMSpeshOperand.lit_i16 0, MVMSpeshOperand.lit_i64 77] ∧
    (g_two_calls.ins 5).info.opcode = MVM_OP_invoke_o ∧
    (∃ g', optimize_bb (sample_call_tc guarded_candidates) 8 g_two_calls 0 = Except.ok g' ∧
      (g'.ins 5).info.opcode = MVM_OP_sp_fastinvoke_o ∧
      (g'.ins 5).operands
        = [MVMSpeshOperand.reg 7 0, MVMSpeshOperand.reg 5 0, MVMSpeshOperand.lit_i16 0]) ∧
    (∃ g', optimize_bb_ins (sample_call_tc guarded_candidates) 8 0 8 g_two_calls
        (sample_call_tc guarded_candidates).uninit_arg_info (some 3) = Except.ok g' ∧
      g'.ins 5 = g_two_calls.ins 5) :=
  ⟨rfl, rfl, rfl, rfl, exists_ok_of_check _ (by decide), exists_ok_of_check _ (by decide)⟩

/-! ### C18: the fast-invoke rewrite -/

/-- C18, as amended: for an `invoke_*` whose callee is known and resolves to a code object
for which the candidate search gives `c`, the inliner granting no inline graph:
if `c` is an index, `invoke_v callee` becomes `sp_fastinvoke_v callee, c'` and
`invoke_X dst, callee` becomes `sp_fastinvoke_X dst, callee, c'` with the same `X`, where `c'`
is `c` converted to `MVMint16`, which is `c` itself whenever `c < 32768`; if `c` is `-1`
the instruction is left as it was. -/
theorem C18_fast_invoke_rewrite (tc : MVMThreadContext) (g : MVMSpeshGraph)
    (bb ins callee_idx target : Nat) (c : Int) (arg_info : MVMSpeshCallInfo)
    (hins : ins < g.ins_alloc)
    (hop : (g.ins ins).info.opcode = MVM_OP_invoke_v ∨ (g.ins ins).info.opcode = MVM_OP_invoke_i ∨
      (g.ins ins).info.opcode = MVM_OP_invoke_n ∨ (g.ins ins).info.opcode = MVM_OP_invoke_s ∨
      (g.ins ins).info.opcode = MVM_OP_invoke_o)
    (hkv : has_flag (g.facts_at (((g.ins ins).operand callee_idx).get_reg tc)).flags
      MVM_SPESH_FACT_KNOWN_VALUE = true)
    (htarget : optimize_call_target tc
      (g.facts_at (((g.ins ins).operand callee_idx).get_reg tc)).value arg_info = target)
    (hnz : target ≠ 0)
    (hpa : arg_info.prepargs_ins ≠ none)
    (hinl : ∀ g' k, tc.MVM_spesh_inline_try_get_graph g' target k = none)
    (hc : try_find_spesh_candidate tc g target arg_info = c) :
    ∃ g', optimize_call tc g bb ins callee_idx arg_info = Except.ok g' ∧
      (0 ≤ c →
        ((g.ins ins).info.opcode = MVM_OP_invoke_v →
          (g'.ins ins).info = tc.MVM_op_get_op MVM_OP_sp_fastinvoke_v ∧
          (g'.ins ins).operands.take 2
            = [(g.ins ins).operand 0, MVMSpeshOperand.lit_i16 (to_int16 c)]) ∧
        ((g.ins ins).info.opcode = MVM_OP_invoke_i →
          (g'.ins ins).info = tc.MVM_op_get_op MVM_OP_sp_fastinvoke_i ∧
          (g'.ins ins).operands = [(g.ins ins).operand 0, (g.ins ins).operand 1,
            MVMSpeshOperand.lit_i16 (to_int16 c)]) ∧
        ((g.ins ins).info.opcode = MVM_OP_invoke_n →
          (g'.ins ins).info = tc.MVM_op_get_op MVM_OP_sp_fastinvoke_n ∧
          (g'.ins ins).operands = [(g.ins ins).operand 0, (g.ins ins).operand 1,
            MVMSpeshOperand.lit_i16 (to_int16 c)]) ∧
        ((g.ins ins).info.opcode = MVM_OP_invoke_s →
          (g'.ins ins).info = tc.MVM_op_get_op MVM_OP_sp_fastinvoke_s ∧
          (g'.ins ins).operands = [(g.ins ins).operand 0, (g.ins ins).operand 1,
            MVMSpeshOperand.lit_i16 (to_int16 c)]) ∧
        ((g.ins ins).info.opcode = MVM_OP_invoke_o →
          (g'.ins ins).info = tc.MVM_op_get_op MVM_OP_sp_fastinvoke_o ∧
          (g'.ins ins).operands = [(g.ins ins).operand 0, (g.ins ins).operand 1,
            MVMSpeshOperand.lit_i16 (to_int16 c)]) ∧
        (c < 32768 → to_int16 c = c)) ∧
      (c = -1 → g'.ins ins = g.ins ins) := by
  obtain ⟨g', h1, h2, h3⟩ := optimize_call_fast_invoke tc g bb ins callee_idx target c arg_info
    (Nat.ne_of_lt hins) hop hkv htarget hnz hpa hinl hc
  refine ⟨g', h1, fun h0 => ?_, fun hm => h3 (by omega)⟩
  obtain ⟨hi, ho⟩ := h2 h0
  refine ⟨fun hv => ?_, fun hv => ?_, fun hv => ?_, fun hv => ?_, fun hv => ?_, fun hlt => ?_⟩
  · rw [hv] at hi ho
    exact ⟨hi, by rw [ho]; simp⟩
  · rw [hv] at hi ho
    exact ⟨hi, by rw [ho]; simp⟩
  · rw [hv] at hi ho
    exact ⟨hi, by rw [ho]; simp⟩
  · rw [hv] at hi ho
    exact ⟨hi, by rw [ho]; simp⟩
  · rw [hv] at hi ho
    exact ⟨hi, by rw [ho]; simp⟩
  · unfold to_int16; omega

/-- C18, witness: the first `invoke_o` of the graph of two calls, where the third candidate
of the callee is the first that qualifies. -/
theorem C18_fast_invoke_rewrite_witness :
    ∃ g', optimize_call (sample_call_tc sample_candidates) g_two_calls 0 2 1 sample_arg_info
        = Except.ok g' ∧
      (g'.ins 2).info = (sample_call_tc sample_candidates).MVM_op_get_op MVM_OP_sp_fastinvoke_o ∧
      (g'.ins 2).operands = [(g_two_calls.ins 2).operand 0, (g_two_calls.ins 2).operand 1,
        MVMSpeshOperand.lit_i16 (to_int16 2)] :=
  have h := C18_fast_invoke_rewrite (sample_call_tc sample_candidates) g_two_calls 0 2 1 9 2
    sample_arg_info (by decide) (Or.inr (Or.inr (Or.inr (Or.inr rfl)))) (by decide) rfl
    (by decide) (by decide) (fun _ _ => rfl) (by decide)
  h.imp fun _ hg => ⟨hg.1, (hg.2.1 (by decide)).2.2.2.2.1 rfl⟩

/-- C18, counterexample: the callee has 32769 candidates of which the last, of index 32768,
is the first that qualifies; the rewritten instruction is `sp_fastinvoke_o r6, r5, -32768`. -/
theorem C18_counterexample_candidate_index_wraps :
    try_find_spesh_candidate (sample_call_tc (many_candidates 32768)) g_two_calls 9
      sample_arg_info = 32768 ∧
    (∃ g', optimize_call (sample_call_tc (many_candidates 32768)) g_two_calls 0 2 1
        sample_arg_info = Except.ok g' ∧
      (g'.ins 2).operands = [MVMSpeshOperand.reg 6 0, MVMSpeshOperand.reg 5 0,
        MVMSpeshOperand.lit_i16 (-32768)]) ∧
    MVMSpeshOperand.lit_i16 (-32768) ≠ MVMSpeshOperand.lit_i16 32768 := by
  have hfind : try_find_spesh_candidate (sample_call_tc (many_candidates 32768)) g_two_calls 9
      sample_arg_info = 32768 := by
    have h := try_find_spesh_candidate_from_many (sample_call_tc (many_candidates 32768))
      g_two_calls sample_arg_info rfl 32768 0
    simpa [try_find_spesh_candidate, sample_call_tc] using h
  refine ⟨hfind, ?_, by decide⟩
  obtain ⟨g', h1, h2, _⟩ := optimize_call_fast_invoke (sample_call_tc (many_candidates 32768))
    g_two_calls 0 2 1 9 32768 sample_arg_info (by decide) (Or.inr (Or.inr (Or.inr (Or.inr rfl))))
    (by decide) rfl (by decide) (by decide) (fun _ _ => rfl) hfind
  refine ⟨g', h1, ?_⟩
  rw [(h2 (by decide)).2]
  rfl

/-! ### C19: `KNOWN_VALUE` and `KNOWN_TYPE` -/

section operand_lemmas

variable (g : MVMSpeshGraph)

@[simp] theorem set_info_facts (p : Nat) (info : MVMOpInfo) :
    (g.set_info p info).facts = g.facts := rfl

@[simp] theorem set_operand_facts (p k : Nat) (o : MVMSpeshOperand) :
    (g.set_operand p k o).facts = g.facts := rfl

@[simp] theorem set_operands_facts (p : Nat) (ops : List MVMSpeshOperand) :
    (g.set_operands p ops).facts = g.facts := rfl

@[simp] theorem set_info_operand (p : Nat) (info : MVMOpInfo) (q k : Nat) :
    ((g.set_info p info).ins q).operand k = (g.ins q).operand k := by
  unfold MVMSpeshGraph.set_info MVMSpeshGraph.set_ins
  by_cases h : q = p
  · simp [h, MVMSpeshIns.operand]
  · simp [h]

@[simp] theorem set_operand_operand_zero (p k : Nat) (o : MVMSpeshOperand) (q : Nat) :
    ((g.set_operand p (k + 1) o).ins q).operand 0 = (g.ins q).operand 0 := by
  unfold MVMSpeshGraph.set_operand MVMSpeshGraph.set_ins
  by_cases h : q = p
  · simp only [h, if_true, MVMSpeshIns.operand]
    cases (g.ins p).operands <;> simp
  · simp [h]

end operand_lemmas

/-- The flags after `optimize_isconcrete`. -/
theorem isconcrete_flags (tc : MVMThreadContext) (g : MVMSpeshGraph) (ins : Nat) :
    sets_known_value_only g (optimize_isconcrete tc g ins)
      (((g.ins ins).operand 0).get_reg tc) := by
  intro a b
  obtain ⟨d, hd⟩ : ∃ d, ((g.ins ins).operand 0).get_reg tc = d := ⟨_, rfl⟩
  obtain ⟨o, ho⟩ : ∃ o, ((g.ins ins).operand 1).get_reg tc = o := ⟨_, rfl⟩
  rw [hd]
  by_cases hab : (a, b) = d
  · subst hab
    by_cases hao : (a, b) = o
    · subst hao
      simp [optimize_isconcrete, MVM_spesh_get_facts, get_facts_direct, MVMSpeshGraph.facts_at,
        MVM_spesh_get_string, hd, ho]
      try (split_ifs <;> simp_all)
    · have hao2 : ¬ o = (a, b) := fun h => hao h.symm
      simp [optimize_isconcrete, MVM_spesh_get_facts, get_facts_direct, MVMSpeshGraph.facts_at,
        MVM_spesh_get_string, hd, ho, hao, hao2]
      try (split_ifs <;> simp_all)
  · have hab2 : ¬ d = (a, b) := fun h => hab h.symm
    by_cases hao : (a, b) = o
    · subst hao
      simp [optimize_isconcrete, MVM_spesh_get_facts, get_facts_direct, MVMSpeshGraph.facts_at,
        MVM_spesh_get_string, hd, ho, hab, hab2]
      try (split_ifs <;> simp_all)
    · have hao2 : ¬ o = (a, b) := fun h => hao h.symm
      simp [optimize_isconcrete, MVM_spesh_get_facts, get_facts_direct, MVMSpeshGraph.facts_at,
        MVM_spesh_get_string, hd, ho, hab, hab2, hao, hao2]
      try (split_ifs <;> simp_all)

/-- The flags after `optimize_objprimspec`. -/
theorem objprimspec_flags (tc : MVMThreadContext) (g : MVMSpeshGraph) (ins : Nat) :
    sets_known_value_only g (optimize_objprimspec tc g ins)
      (((g.ins ins).operand 0).get_reg tc) := by
  intro a b
  obtain ⟨d, hd⟩ : ∃ d, ((g.ins ins).operand 0).get_reg tc = d := ⟨_, rfl⟩
  obtain ⟨o, ho⟩ : ∃ o, ((g.ins ins).operand 1).get_reg tc = o := ⟨_, rfl⟩
  rw [hd]
  by_cases hab : (a, b) = d
  · subst hab
    by_cases hao : (a, b) = o
    · subst hao
      simp [optimize_objprimspec, MVM_spesh_get_facts, get_facts_direct, MVMSpeshGraph.facts_at,
        MVM_spesh_get_string, hd, ho]
      try (split_ifs <;> simp_all)
    · have hao2 : ¬ o = (a, b) := fun h => hao h.symm
      simp [optimize_objprimspec, MVM_spesh_get_facts, get_facts_direct, MVMSpeshGraph.facts_at,
        MVM_spesh_get_string, hd, ho, hao, hao2]
      try (split_ifs <;> simp_all)
  · have hab2 : ¬ d = (a, b) := fun h => hab h.symm
    by_cases hao : (a, b) = o
    · subst hao
      simp [optimize_objprimspec, MVM_spesh_get_facts, get_facts_direct, MVMSpeshGraph.facts_at,
        MVM_spesh_get_string, hd, ho, hab, hab2]
      try (split_ifs <;> simp_all)
    · have hao2 : ¬ o = (a, b) := fun h => hao h.symm
      simp [optimize_objprimspec, MVM_spesh_get_facts, get_facts_direct, MVMSpeshGraph.facts_at,
        MVM_spesh_get_string, hd, ho, hab, hab2, hao, hao2]
      try (split_ifs <;> simp_all)

/-- The flags after `optimize_coerce`. -/
theorem coerce_flags (tc : MVMThreadContext) (g : MVMSpeshGraph) (bb ins : Nat) :
    sets_known_value_only g (optimize_coerce tc g bb ins)
      (((g.ins ins).operand 0).get_reg tc) := by
  intro a b
  obtain ⟨d, hd⟩ : ∃ d, ((g.ins ins).operand 0).get_reg tc = d := ⟨_, rfl⟩
  obtain ⟨o, ho⟩ : ∃ o, ((g.ins ins).operand 1).get_reg tc = o := ⟨_, rfl⟩
  rw [hd]
  by_cases hab : (a, b) = d
  · subst hab
    by_cases hao : (a, b) = o
    · subst hao
      simp [optimize_coerce, MVM_spesh_get_facts, get_facts_direct, MVMSpeshGraph.facts_at,
        MVM_spesh_get_string, hd, ho]
      try (split_ifs <;> simp_all)
    · have hao2 : ¬ o = (a, b) := fun h => hao h.symm
      simp [optimize_coerce, MVM_spesh_get_facts, get_facts_direct, MVMSpeshGraph.facts_at,
        MVM_spesh_get_string, hd, ho, hao, hao2]
      try (split_ifs <;> simp_all)
  · have hab2 : ¬ d = (a, b) := fun h => hab h.symm
    by_cases hao : (a, b) = o
    · subst hao
      simp [optimize_coerce, MVM_spesh_get_facts, get_facts_direct, MVMSpeshGraph.facts_at,
        MVM_spesh_get_string, hd, ho, hab, hab2]
      try (split_ifs <;> simp_all)
    · have hao2 : ¬ o = (a, b) := fun h => hao h.symm
      simp [optimize_coerce, MVM_spesh_get_facts, get_facts_direct, MVMSpeshGraph.facts_at,
        MVM_spesh_get_string, hd, ho, hab, hab2, hao, hao2]
      try (split_ifs <;> simp_all)

/-- The flags after `optimize_is_reprid`. -/
theorem is_reprid_flags (tc : MVMThreadContext) (g : MVMSpeshGraph) (ins : Nat) :
    sets_known_value_only g (optimize_is_reprid tc g ins)
      (((g.ins ins).operand 0).get_reg tc) := by
  intro a b
  obtain ⟨d, hd⟩ : ∃ d, ((g.ins ins).operand 0).get_reg tc = d := ⟨_, rfl⟩
  obtain ⟨o, ho⟩ : ∃ o, ((g.ins ins).operand 1).get_reg tc = o := ⟨_, rfl⟩
  rw [hd]
  unfold optimize_is_reprid
  simp only [MVM_spesh_get_facts, get_facts_direct, hd, ho]
  split
  · left; rfl
  · split
    · left; rfl
    · by_cases hab : (a, b) = d
      · subst hab
        by_cases hao : (a, b) = o
        · subst hao
          simp [MVM_spesh_get_facts, get_facts_direct, MVMSpeshGraph.facts_at,
            MVM_spesh_get_string, hd, ho]
          try (split_ifs <;> simp_all)
        · have hao2 : ¬ o = (a, b) := fun h => hao h.symm
          simp [MVM_spesh_get_facts, get_facts_direct, MVMSpeshGraph.facts_at,
            MVM_spesh_get_string, hd, ho, hao, hao2]
          try (split_ifs <;> simp_all)
      · have hab2 : ¬ d = (a, b) := fun h => hab h.symm
        by_cases hao : (a, b) = o
        · subst hao
          simp [MVM_spesh_get_facts, get_facts_direct, MVMSpeshGraph.facts_at,
            MVM_spesh_get_string, hd, ho, hab, hab2]
          try (split_ifs <;> simp_all)
        · have hao2 : ¬ o = (a, b) := fun h => hao h.symm
          simp [MVM_spesh_get_facts, get_facts_direct, MVMSpeshGraph.facts_at,
            MVM_spesh_get_string, hd, ho, hab, hab2, hao, hao2]
          try (split_ifs <;> simp_all)

/-- The flags after `optimize_istype`. -/
theorem istype_flags (tc : MVMThreadContext) (g : MVMSpeshGraph) (ins : Nat) :
    sets_known_value_only g (optimize_istype tc g ins)
      (((g.ins ins).operand 0).get_reg tc) := by
  intro a b
  obtain ⟨d, hd⟩ : ∃ d, ((g.ins ins).operand 0).get_reg tc = d := ⟨_, rfl⟩
  obtain ⟨o, ho⟩ : ∃ o, ((g.ins ins).operand 1).get_reg tc = o := ⟨_, rfl⟩
  obtain ⟨t, ht⟩ : ∃ t, ((g.ins ins).operand 2).get_reg tc = t := ⟨_, rfl⟩
  rw [hd]
  unfold optimize_istype
  simp only [MVM_spesh_get_facts, get_facts_direct, hd, ho, ht]
  split
  · split
    · left; rfl
    · by_cases had : (a, b) = d
      · subst had
        by_cases hao : (a, b) = o
        · subst hao
          by_cases hat : (a, b) = t
          · subst hat
            simp [MVM_spesh_get_facts, get_facts_direct, MVMSpeshGraph.facts_at,
              MVM_spesh_get_string, hd, ho, ht]
          · have hat2 : ¬ t = (a, b) := fun h => hat h.symm
            simp [MVM_spesh_get_facts, get_facts_direct, MVMSpeshGraph.facts_at,
              MVM_spesh_get_string, hd, ho, ht, hat, hat2]
        · have hao2 : ¬ o = (a, b) := fun h => hao h.symm
          by_cases hat : (a, b) = t
          · subst hat
            simp [MVM_spesh_get_facts, get_facts_direct, MVMSpeshGraph.facts_at,
              MVM_spesh_get_string, hd, ho, ht, hao, hao2]
          · have hat2 : ¬ t = (a, b) := fun h => hat h.symm
            simp [MVM_spesh_get_facts, get_facts_direct, MVMSpeshGraph.facts_at,
              MVM_spesh_get_string, hd, ho, ht, hao, hao2, hat, hat2]
      · have had2 : ¬ d = (a, b) := fun h => had h.symm
        by_cases hao : (a, b) = o
        · subst hao
          by_cases hat : (a, b) = t
          · subst hat
            simp [MVM_spesh_get_facts, get_facts_direct, MVMSpeshGraph.facts_at,
              MVM_spesh_get_string, hd, ho, ht, had, had2]
          · have hat2 : ¬ t = (a, b) := fun h => hat h.symm
            simp [MVM_spesh_get_facts, get_facts_direct, MVMSpeshGraph.facts_at,
              MVM_spesh_get_string, hd, ho, ht, had, had2, hat, hat2]
        · have hao2 : ¬ o = (a, b) := fun h => hao h.symm
          by_cases hat : (a, b) = t
          · subst hat
            simp [MVM_spesh_get_facts, get_facts_direct, MVMSpeshGraph.facts_at,
              MVM_spesh_get_string, hd, ho, ht, had, had2, hao, hao2]
          · have hat2 : ¬ t = (a, b) := fun h => hat h.symm
            simp [MVM_spesh_get_facts, get_facts_direct, MVMSpeshGraph.facts_at,
              MVM_spesh_get_string, hd, ho, ht, had, had2, hao, hao2, hat, hat2]
  · left; rfl

/-- The flags after `optimize_method_lookup`. -/
theorem method_lookup_flags (tc : MVMThreadContext) (g : MVMSpeshGraph) (ins : Nat) :
    sets_known_value_only g (optimize_method_lookup tc g ins)
      (((g.ins ins).operand 0).get_reg tc) := by
  intro a b
  obtain ⟨d, hd⟩ : ∃ d, ((g.ins ins).operand 0).get_reg tc = d := ⟨_, rfl⟩
  obtain ⟨o, ho⟩ : ∃ o, ((g.ins ins).operand 1).get_reg tc = o := ⟨_, rfl⟩
  rw [hd]
  by_cases hkt : has_flag (g.facts o.1 o.2).flags MVM_SPESH_FACT_KNOWN_TYPE = true
  · by_cases hnn : tc.MVM_is_null (tc.MVM_6model_find_method_cache_only (g.facts o.1 o.2).type
        (MVM_spesh_get_string tc g ((g.ins ins).operand 2))) = true
    · left
      simp [optimize_method_lookup, MVM_spesh_get_facts, get_facts_direct, MVMSpeshGraph.facts_at,
        ho, hkt, hnn]
    · by_cases hab : (a, b) = d
      · subst hab
        by_cases hao : (a, b) = o
        · subst hao
          simp [optimize_method_lookup, MVM_spesh_get_facts, get_facts_direct,
            MVMSpeshGraph.facts_at, hd, ho, hkt, hnn]
        · have hao2 : ¬ o = (a, b) := fun h => hao h.symm
          simp [optimize_method_lookup, MVM_spesh_get_facts, get_facts_direct,
            MVMSpeshGraph.facts_at, hd, ho, hkt, hnn, hao, hao2]
      · have hab2 : ¬ d = (a, b) := fun h => hab h.symm
        left
        by_cases hao : (a, b) = o
        · subst hao
          simp [optimize_method_lookup, MVM_spesh_get_facts, get_facts_direct,
            MVMSpeshGraph.facts_at, hd, ho, hkt, hnn, hab, hab2]
        · have hao2 : ¬ o = (a, b) := fun h => hao h.symm
          simp [optimize_method_lookup, MVM_spesh_get_facts, get_facts_direct,
            MVMSpeshGraph.facts_at, hd, ho, hkt, hnn, hab, hab2, hao, hao2]
  · left
    simp [optimize_method_lookup, MVM_spesh_get_facts, get_facts_direct, MVMSpeshGraph.facts_at,
      ho, hkt]


section delete_lemmas

variable (tc : MVMThreadContext) (g : MVMSpeshGraph)

@[simp] theorem delete_ins_facts (bb ins : Nat) :
    (MVM_spesh_manipulate_delete_ins tc g bb ins).facts = g.facts := rfl

@[simp] theorem delete_ins_ins (bb ins : Nat) :
    (MVM_spesh_manipulate_delete_ins tc g bb ins).ins = g.ins := rfl

end delete_lemmas

/-- The flags after `optimize_getlex_known`: every record keeps its flags, except that the
one of the destination may get `KNOWN_TYPE` and `KNOWN_VALUE` or-ed in together with either
`CONCRETE`, `CONCRETE` and `DECONTED`, or `TYPEOBJ`. -/
theorem getlex_known_flags (tc : MVMThreadContext) (g : MVMSpeshGraph) (bb ins a b : Nat) :
    ((optimize_getlex_known tc g bb ins).facts a b).flags = (g.facts a b).flags ∨
    ((a, b) = ((g.ins ins).operand 0).get_reg tc ∧
      (((optimize_getlex_known tc g bb ins).facts a b).flags
          = (g.facts a b).flags ||| (MVM_SPESH_FACT_KNOWN_TYPE ||| MVM_SPESH_FACT_KNOWN_VALUE)
            ||| MVM_SPESH_FACT_CONCRETE ∨
        ((optimize_getlex_known tc g bb ins).facts a b).flags
          = (g.facts a b).flags ||| (MVM_SPESH_FACT_KNOWN_TYPE ||| MVM_SPESH_FACT_KNOWN_VALUE)
            ||| MVM_SPESH_FACT_CONCRETE ||| MVM_SPESH_FACT_DECONTED ∨
        ((optimize_getlex_known tc g bb ins).facts a b).flags
          = (g.facts a b).flags ||| (MVM_SPESH_FACT_KNOWN_TYPE ||| MVM_SPESH_FACT_KNOWN_VALUE)
            ||| MVM_SPESH_FACT_TYPEOBJ)) := by
  obtain ⟨d, hd⟩ : ∃ d, ((g.ins ins).operand 0).get_reg tc = d := ⟨_, rfl⟩
  obtain ⟨o, ho⟩ : ∃ o, ((g.ins ins).operand 1).get_reg tc = o := ⟨_, rfl⟩
  rw [hd]
  cases hn : list_next ins (g.bbs bb).ins with
  | none => left; simp [optimize_getlex_known, hn]
  | some next =>
    by_cases hlog : (g.ins next).info.opcode = MVM_OP_sp_log
    · by_cases hobj : g.log_slots
          (to_uint16 (((g.ins next).operand 1).get_lit_i16 * tc.MVM_SPESH_LOG_RUNS)) = 0
      · left; simp [optimize_getlex_known, hn, hlog, hobj]
      · by_cases hab : (a, b) = d
        · subst hab
          by_cases hao : (a, b) = o
          · subst hao
            simp [optimize_getlex_known, hn, hlog, hobj, MVM_spesh_get_facts, get_facts_direct,
              MVMSpeshGraph.facts_at, hd, ho]
            split_ifs <;> simp_all
          · have hao2 : ¬ o = (a, b) := fun h => hao h.symm
            simp [optimize_getlex_known, hn, hlog, hobj, MVM_spesh_get_facts, get_facts_direct,
              MVMSpeshGraph.facts_at, hd, ho, hao, hao2]
            split_ifs <;> simp_all
        · have hab2 : ¬ d = (a, b) := fun h => hab h.symm
          left
          by_cases hao : (a, b) = o
          · subst hao
            simp [optimize_getlex_known, hn, hlog, hobj, MVM_spesh_get_facts, get_facts_direct,
              MVMSpeshGraph.facts_at, hd, ho, hab, hab2]
            split_ifs <;> simp_all
          · have hao2 : ¬ o = (a, b) := fun h => hao h.symm
            simp [optimize_getlex_known, hn, hlog, hobj, MVM_spesh_get_facts, get_facts_direct,
              MVMSpeshGraph.facts_at, hd, ho, hab, hab2, hao, hao2]
            split_ifs <;> simp_all
    · left; simp [optimize_getlex_known, hn, hlog]

/-- Testing a flag after or-ing a mask in. -/
theorem has_flag_or_left (x m k : Nat) :
    has_flag (x ||| m) k = (has_flag x k || has_flag m k) := by
  unfold has_flag
  rw [Nat.and_distrib_right, Bool.eq_iff_iff]
  simp only [bne_iff_ne, Bool.or_eq_true, ne_eq, nat_or_eq_zero]
  tauto

/-- A record that satisfies the invariant of C19 and has `KNOWN_TYPE`, or is not the
destination, satisfies it after a rewriter that only or-s `KNOWN_VALUE` into the
destination. -/
theorem known_value_has_type_of_sets (g g' : MVMSpeshGraph) (dst : Nat × Nat)
    (h : sets_known_value_only g g' dst)
    (hinv : ∀ a b, known_value_has_type (g.facts a b) = true) (a b : Nat)
    (hab : (a, b) ≠ dst ∨ has_flag (g.facts a b).flags MVM_SPESH_FACT_KNOWN_TYPE = true) :
    known_value_has_type (g'.facts a b) = true := by
  have hi := hinv a b
  unfold known_value_has_type at hi ⊢
  rcases h a b with h1 | ⟨h1, h2⟩
  · rw [h1]; exact hi
  · rcases hab with hab | hab
    · exact absurd h1 hab
    · rw [h2, has_flag_or_left, has_flag_or_left, hab]
      simp

/-- The invariant of C19 holds of the graph of `isconcrete r2, r1` where `r1` is known to be
concrete. -/
theorem g_unary_known_value_has_type (op : MVMOpcode) (a b : Nat) :
    known_value_has_type ((g_unary op MVM_SPESH_FACT_CONCRETE).facts a b) = true := by
  simp only [g_unary]
  split_ifs <;> decide

/-- C19, as amended: if every fact record satisfies "`KNOWN_VALUE` implies `KNOWN_TYPE`",
then every record satisfies it after `copy_facts` and after `optimize_getlex_known`; each of
`optimize_method_lookup`, `optimize_istype`, `optimize_is_reprid`, `optimize_isconcrete`,
`optimize_objprimspec` and `optimize_coerce` leaves the flags of every record as they were,
except that it may or `KNOWN_VALUE`, and nothing else, into the flags of its destination, so
that after it the invariant holds of every record other than the destination's, and of the
destination's if it had `KNOWN_TYPE` before. -/
theorem C19_known_value_invariant (tc : MVMThreadContext) (g : MVMSpeshGraph) (bb ins : Nat)
    (to_op from_op : MVMSpeshOperand)
    (hinv : ∀ a b, known_value_has_type (g.facts a b) = true) :
    (∀ a b, known_value_has_type ((copy_facts tc g to_op from_op).facts a b) = true) ∧
    (∀ a b, known_value_has_type ((optimize_getlex_known tc g bb ins).facts a b) = true) ∧
    ∀ g', g' ∈ [optimize_method_lookup tc g ins, optimize_istype tc g ins,
        optimize_is_reprid tc g ins, optimize_isconcrete tc g ins,
        optimize_objprimspec tc g ins, optimize_coerce tc g bb ins] →
      sets_known_value_only g g' (((g.ins ins).operand 0).get_reg tc) ∧
      ∀ a b, ((a, b) ≠ ((g.ins ins).operand 0).get_reg tc ∨
          has_flag (g.facts a b).flags MVM_SPESH_FACT_KNOWN_TYPE = true) →
        known_value_has_type (g'.facts a b) = true := by
  refine ⟨fun a b => ?_, fun a b => ?_, fun g' hg' => ?_⟩
  · rw [copy_facts_facts]
    split_ifs
    · exact hinv _ _
    · exact hinv a b
  · rcases getlex_known_flags tc g bb ins a b with h | ⟨_, h | h | h⟩
    · unfold known_value_has_type; rw [h]; exact hinv a b
    all_goals
      unfold known_value_has_type
      rw [h]
      simp [has_flag_or_left,
        (by decide : has_flag MVM_SPESH_FACT_KNOWN_TYPE MVM_SPESH_FACT_KNOWN_TYPE = true)]
  · have hs : sets_known_value_only g g' (((g.ins ins).operand 0).get_reg tc) := by
      simp only [List.mem_cons, List.mem_singleton, List.not_mem_nil, or_false] at hg'
      rcases hg' with rfl | rfl | rfl | rfl | rfl | rfl
      · exact method_lookup_flags tc g ins
      · exact istype_flags tc g ins
      · exact is_reprid_flags tc g ins
      · exact isconcrete_flags tc g ins
      · exact objprimspec_flags tc g ins
      · exact coerce_flags tc g bb ins
    exact ⟨hs, fun a b hab => known_value_has_type_of_sets g g' _ hs hinv a b hab⟩

/-- C19, witness: on the graph of `isconcrete r2, r1` with `r1` known to be concrete, the
invariant holds of `r2` after `copy_facts(r2, r1)` and of `r1` after `optimize_isconcrete`. -/
theorem C19_known_value_invariant_witness :
    known_value_has_type ((copy_facts (sample_tc 0)
      (g_unary MVM_OP_isconcrete MVM_SPESH_FACT_CONCRETE)
      (MVMSpeshOperand.reg 2 0) (MVMSpeshOperand.reg 1 0)).facts 2 0) = true ∧
    known_value_has_type ((optimize_isconcrete (sample_tc 0)
      (g_unary MVM_OP_isconcrete MVM_SPESH_FACT_CONCRETE) 0).facts 1 0) = true :=
  have h := C19_known_value_invariant (sample_tc 0)
    (g_unary MVM_OP_isconcrete MVM_SPESH_FACT_CONCRETE) 0 0
    (MVMSpeshOperand.reg 2 0) (MVMSpeshOperand.reg 1 0) (g_unary_known_value_has_type _)
  ⟨h.1 2 0, (h.2.2 _ (by simp)).2 1 0 (Or.inl (by decide))⟩

/-- C19, counterexample: on the graph of `isconcrete r2, r1` with `r1` known to be concrete,
every fact record satisfies the invariant; after `optimize_isconcrete` the record of `r2` has
`KNOWN_VALUE` without `KNOWN_TYPE`. -/
theorem C19_counterexample_isconcrete :
    (∀ a b, known_value_has_type
      ((g_unary MVM_OP_isconcrete MVM_SPESH_FACT_CONCRETE).facts a b) = true) ∧
    has_flag ((optimize_isconcrete (sample_tc 0)
      (g_unary MVM_OP_isconcrete MVM_SPESH_FACT_CONCRETE) 0).facts 2 0).flags
      MVM_SPESH_FACT_KNOWN_VALUE = true ∧
    has_flag ((optimize_isconcrete (sample_tc 0)
      (g_unary MVM_OP_isconcrete MVM_SPESH_FACT_CONCRETE) 0).facts 2 0).flags
      MVM_SPESH_FACT_KNOWN_TYPE = false ∧
    known_value_has_type ((optimize_isconcrete (sample_tc 0)
      (g_unary MVM_OP_isconcrete MVM_SPESH_FACT_CONCRETE) 0).facts 2 0) = false :=
  ⟨g_unary_known_value_has_type _, by decide, by decide, by decide⟩


/-! ### C20: `CONCRETE` and `TYPEOBJ` -/

/-- The two branches of `optimize_decont`. -/
theorem optimize_decont_eq (tc : MVMThreadContext) (g : MVMSpeshGraph) (bb ins : Nat) :
    optimize_decont tc g bb ins
      = if has_flag (g.facts_at (((g.ins ins).operand 1).get_reg tc)).flags
            (MVM_SPESH_FACT_DECONTED ||| MVM_SPESH_FACT_TYPEOBJ) then
          copy_facts tc
            (MVM_spesh_use_facts tc (g.set_info ins (tc.MVM_op_get_op MVM_OP_set))
              (((g.ins ins).operand 1).get_reg tc))
            (((MVM_spesh_use_facts tc (g.set_info ins (tc.MVM_op_get_op MVM_OP_set))
              (((g.ins ins).operand 1).get_reg tc)).ins ins).operand 0)
            (((MVM_spesh_use_facts tc (g.set_info ins (tc.MVM_op_get_op MVM_OP_set))
              (((g.ins ins).operand 1).get_reg tc)).ins ins).operand 1)
        else
          optimize_decont_propagate tc
            (optimize_decont_hooked tc g bb ins (((g.ins ins).operand 1).get_reg tc)) ins
            (((g.ins ins).operand 1).get_reg tc) := rfl

/-- The container's `spesh` hook leaving facts and the destination operand alone, so does
the hooked graph of `optimize_decont`. -/
theorem optimize_decont_hooked_frame (tc : MVMThreadContext) (g : MVMSpeshGraph)
    (bb ins : Nat) (o : Nat × Nat)
    (hhook : ∀ st cs sp, tc.container_spec st = some cs → cs.spesh = some sp →
      ∀ g1 b1 i1, (sp st g1 b1 i1).facts = g1.facts ∧
        ((sp st g1 b1 i1).ins i1).operand 0 = (g1.ins i1).operand 0) :
    (optimize_decont_hooked tc g bb ins o).facts = g.facts ∧
    ((optimize_decont_hooked tc g bb ins o).ins ins).operand 0 = (g.ins ins).operand 0 := by
  unfold optimize_decont_hooked
  split
  · simp only []
    split
    · rename_i cs hcs
      split
      · split
        · rename_i sp hsp
          exact hhook _ cs sp hcs hsp g bb ins
        · exact ⟨rfl, rfl⟩
      · exact ⟨rfl, rfl⟩
    · exact ⟨rfl, rfl⟩
  · exact ⟨rfl, rfl⟩

/-- The flags after the end of `optimize_decont`: every record keeps its flags, except that
the one of the destination may get `KNOWN_TYPE` and one of `CONCRETE` and `TYPEOBJ` or-ed
in. -/
theorem optimize_decont_propagate_flags (tc : MVMThreadContext) (g : MVMSpeshGraph)
    (ins a b : Nat) (o : Nat × Nat) :
    ((optimize_decont_propagate tc g ins o).facts a b).flags = (g.facts a b).flags ∨
    ((a, b) = ((g.ins ins).operand 0).get_reg tc ∧
      (((optimize_decont_propagate tc g ins o).facts a b).flags
          = (g.facts a b).flags ||| MVM_SPESH_FACT_KNOWN_TYPE ∨
        ((optimize_decont_propagate tc g ins o).facts a b).flags
          = (g.facts a b).flags ||| MVM_SPESH_FACT_CONCRETE ∨
        ((optimize_decont_propagate tc g ins o).facts a b).flags
          = (g.facts a b).flags ||| MVM_SPESH_FACT_TYPEOBJ ∨
        ((optimize_decont_propagate tc g ins o).facts a b).flags
          = (g.facts a b).flags ||| MVM_SPESH_FACT_KNOWN_TYPE ||| MVM_SPESH_FACT_CONCRETE ∨
        ((optimize_decont_propagate tc g ins o).facts a b).flags
          = (g.facts a b).flags ||| MVM_SPESH_FACT_KNOWN_TYPE ||| MVM_SPESH_FACT_TYPEOBJ)) := by
  obtain ⟨d, hd⟩ : ∃ d, ((g.ins ins).operand 0).get_reg tc = d := ⟨_, rfl⟩
  rw [hd]
  by_cases had : (a, b) = d
  · subst had
    by_cases hao : (a, b) = o
    · subst hao
      simp [optimize_decont_propagate, MVM_spesh_get_facts, get_facts_direct,
        MVMSpeshGraph.facts_at, hd]
      split_ifs <;> simp_all
    · have hao2 : ¬ o = (a, b) := fun h => hao h.symm
      simp [optimize_decont_propagate, MVM_spesh_get_facts, get_facts_direct,
        MVMSpeshGraph.facts_at, hd, hao, hao2]
      split_ifs <;> simp_all
  · have had2 : ¬ d = (a, b) := fun h => had h.symm
    left
    simp [optimize_decont_propagate, MVM_spesh_get_facts, get_facts_direct,
      MVMSpeshGraph.facts_at, hd, had, had2]
    split_ifs <;> simp_all

/-- A record without `CONCRETE` and `TYPEOBJ` has at most one of them after flags other than
both of them are or-ed in. -/
theorem concrete_excludes_typeobj_or (f f' : MVMSpeshFacts) (m : Nat)
    (hf : has_flag f.flags (MVM_SPESH_FACT_CONCRETE ||| MVM_SPESH_FACT_TYPEOBJ) = false)
    (hm : (has_flag m MVM_SPESH_FACT_CONCRETE && has_flag m MVM_SPESH_FACT_TYPEOBJ) = false)
    (h : f'.flags = f.flags ||| m) : concrete_excludes_typeobj f' = true := by
  rw [has_flag_or] at hf
  unfold concrete_excludes_typeobj
  rw [h, has_flag_or_left, has_flag_or_left]
  cases h1 : has_flag f.flags MVM_SPESH_FACT_CONCRETE <;>
    cases h2 : has_flag f.flags MVM_SPESH_FACT_TYPEOBJ <;>
    cases h3 : has_flag m MVM_SPESH_FACT_CONCRETE <;>
    cases h4 : has_flag m MVM_SPESH_FACT_TYPEOBJ <;> simp_all

/-- C20, as amended: if no fact record has both `CONCRETE` and `TYPEOBJ`, then none has both
after `copy_facts`; and none has both after `optimize_decont` (whose container hook leaves
facts and the destination operand alone) and after `optimize_getlex_known` provided the
fact of the destination had neither flag before. -/
theorem C20_concrete_typeobj_invariant (tc : MVMThreadContext) (g : MVMSpeshGraph)
    (bb ins : Nat) (to_op from_op : MVMSpeshOperand)
    (hinv : ∀ a b, concrete_excludes_typeobj (g.facts a b) = true)
    (hhook : ∀ st cs sp, tc.container_spec st = some cs → cs.spesh = some sp →
      ∀ g1 b1 i1, (sp st g1 b1 i1).facts = g1.facts ∧
        ((sp st g1 b1 i1).ins i1).operand 0 = (g1.ins i1).operand 0) :
    (∀ a b, concrete_excludes_typeobj ((copy_facts tc g to_op from_op).facts a b) = true) ∧
    (has_flag (g.facts_at (((g.ins ins).operand 0).get_reg tc)).flags
        (MVM_SPESH_FACT_CONCRETE ||| MVM_SPESH_FACT_TYPEOBJ) = false →
      (∀ a b, concrete_excludes_typeobj ((optimize_decont tc g bb ins).facts a b) = true) ∧
      (∀ a b, concrete_excludes_typeobj ((optimize_getlex_known tc g bb ins).facts a b)
        = true)) := by
  have hcopy : ∀ (g0 : MVMSpeshGraph), g0.facts = g.facts → ∀ t f a b,
      concrete_excludes_typeobj ((copy_facts tc g0 t f).facts a b) = true := by
    intro g0 h0 t f a b
    rw [copy_facts_facts]
    split_ifs
    · exact (show concrete_excludes_typeobj (g0.facts _ _) = true by rw [h0]; exact hinv _ _)
    · rw [h0]; exact hinv a b
  refine ⟨hcopy g rfl to_op from_op, fun hdst => ⟨fun a b => ?_, fun a b => ?_⟩⟩
  · rw [optimize_decont_eq]
    split
    · exact hcopy _ (by simp) _ _ a b
    · obtain ⟨hf, hop⟩ := optimize_decont_hooked_frame tc g bb ins
        (((g.ins ins).operand 1).get_reg tc) hhook
      have hk := optimize_decont_propagate_flags tc
        (optimize_decont_hooked tc g bb ins (((g.ins ins).operand 1).get_reg tc)) ins a b
        (((g.ins ins).operand 1).get_reg tc)
      rw [hf, hop] at hk
      rcases hk with h | ⟨hab, h | h | h | h | h⟩
      · unfold concrete_excludes_typeobj; rw [h]; exact hinv a b
      all_goals
        rw [← hab] at hdst
        first
          | exact concrete_excludes_typeobj_or _ _ _ hdst (by decide) h
          | exact concrete_excludes_typeobj_or _ _ _ hdst (by decide)
              (h.trans (Nat.lor_assoc _ _ _))
  · rcases getlex_known_flags tc g bb ins a b with h | ⟨hab, h | h | h⟩
    · unfold concrete_excludes_typeobj; rw [h]; exact hinv a b
    all_goals
      rw [← hab] at hdst
      first
        | exact concrete_excludes_typeobj_or _ _ _ hdst (by decide)
            (h.trans (Nat.lor_assoc _ _ _))
        | exact concrete_excludes_typeobj_or _ _ _ hdst (by decide)
            (h.trans ((Nat.lor_assoc _ _ _).trans (Nat.lor_assoc _ _ _)))

/-- The invariant of C20 holds of the graph of `decont r2, r1` where `r1` is known to hold a
concrete object once decontainerized. -/
theorem g_unary_concrete_excludes_typeobj (op : MVMOpcode) (a b : Nat) :
    concrete_excludes_typeobj ((g_unary op MVM_SPESH_FACT_DECONT_CONCRETE).facts a b) = true := by
  simp only [g_unary]
  split_ifs <;> decide

/-- C20, witness: `decont r2, r1` where `r1` is known to hold a concrete object once
decontainerized and nothing is known of `r2`: `r2` gets `CONCRETE` only. -/
theorem C20_concrete_typeobj_invariant_witness :
    has_flag ((g_unary MVM_OP_decont MVM_SPESH_FACT_DECONT_CONCRETE).facts 2 0).flags
      (MVM_SPESH_FACT_CONCRETE ||| MVM_SPESH_FACT_TYPEOBJ) = false ∧
    concrete_excludes_typeobj ((optimize_decont (sample_tc 0)
      (g_unary MVM_OP_decont MVM_SPESH_FACT_DECONT_CONCRETE) 0 0).facts 2 0) = true :=
  ⟨by decide,
   ((C20_concrete_typeobj_invariant (sample_tc 0)
      (g_unary MVM_OP_decont MVM_SPESH_FACT_DECONT_CONCRETE) 0 0
      (MVMSpeshOperand.reg 2 0) (MVMSpeshOperand.reg 1 0)
      (g_unary_concrete_excludes_typeobj _)
      (fun _ _ _ h => absurd h (by simp [sample_tc]))).2 (by decide)).1 2 0⟩

/-- C20, counterexample: `decont r2, r1` where `r1` is known to hold a concrete object once
decontainerized and `r2` carries `TYPEOBJ`: no fact record has both flags before, and the
record of `r2` has both after `optimize_decont`. -/
theorem C20_counterexample_decont :
    (∀ a b, concrete_excludes_typeobj (g_decont_clash.facts a b) = true) ∧
    has_flag ((optimize_decont (sample_tc 0) g_decont_clash 0 0).facts 2 0).flags
      MVM_SPESH_FACT_CONCRETE = true ∧
    has_flag ((optimize_decont (sample_tc 0) g_decont_clash 0 0).facts 2 0).flags
      MVM_SPESH_FACT_TYPEOBJ = true ∧
    concrete_excludes_typeobj ((optimize_decont (sample_tc 0) g_decont_clash 0 0).facts 2 0)
      = false := by
  refine ⟨fun a b => ?_, by decide, by decide, by decide⟩
  simp only [g_decont_clash, g_unary, set_facts_at_facts]
  split_ifs <;> decide

/-! ### C22: the inline cache of an unresolved `findmeth` -/

/-- The unresolved rewrite of `optimize_method_lookup`: the instruction becomes `sp_findmeth`
with the three original operands and, as the fourth, the `MVMint16` returned by the first of
two calls that each append a null slot; nothing else of the graph changes. -/
theorem method_lookup_unresolved (tc : MVMThreadContext) (g : MVMSpeshGraph) (ins : Nat)
    (o0 o1 o2 : MVMSpeshOperand) (hops : (g.ins ins).operands = [o0, o1, o2])
    (hun : has_flag (g.facts_at (MVM_spesh_get_facts tc g ((g.ins ins).operand 1))).flags
        MVM_SPESH_FACT_KNOWN_TYPE = false ∨
      tc.MVM_is_null (tc.MVM_6model_find_method_cache_only
        (g.facts_at (MVM_spesh_get_facts tc g ((g.ins ins).operand 1))).type
        (MVM_spesh_get_string tc g ((g.ins ins).operand 2))) = true) :
    (optimize_method_lookup tc g ins).ins ins
      = { g.ins ins with
          info := tc.MVM_op_get_op MVM_OP_sp_findmeth
          operands := [o0, o1, o2, MVMSpeshOperand.lit_i16 (to_int16 g.spesh_slots.length)] } ∧
    (optimize_method_lookup tc g ins).spesh_slots = g.spesh_slots ++ [0, 0] ∧
    (optimize_method_lookup tc g ins).facts = g.facts ∧
    (optimize_method_lookup tc g ins).log_guards = g.log_guards ∧
    (optimize_method_lookup tc g ins).bbs = g.bbs ∧
    ∀ q, q ≠ ins → (optimize_method_lookup tc g ins).ins q = g.ins q := by
  rcases hun with hun | hun
  · simp [optimize_method_lookup, hun, MVMSpeshGraph.set_info, MVMSpeshGraph.set_operand,
      MVMSpeshGraph.set_operands, MVMSpeshGraph.set_ins, hops, List.range, List.range.loop]
    intro q hq; simp [hq]
  · by_cases hkt : has_flag (g.facts_at (MVM_spesh_get_facts tc g ((g.ins ins).operand 1))).flags
        MVM_SPESH_FACT_KNOWN_TYPE = true
    · simp [optimize_method_lookup, hun, hkt, MVMSpeshGraph.set_info, MVMSpeshGraph.set_operand,
        MVMSpeshGraph.set_operands, MVMSpeshGraph.set_ins, hops, List.range, List.range.loop]
      intro q hq; simp [hq]
    · simp [optimize_method_lookup, hkt, MVMSpeshGraph.set_info, MVMSpeshGraph.set_operand,
        MVMSpeshGraph.set_operands, MVMSpeshGraph.set_ins, hops, List.range, List.range.loop]
      intro q hq; simp [hq]

/-- C22, as amended: when the invocant of `findmeth` lacks `KNOWN_TYPE` or the cache-only
lookup returns null, `optimize_method_lookup` replaces the instruction by `sp_findmeth` with
four operands, the first three being the original three and the fourth the table size `n`
before the call converted to `MVMint16` (`n` itself when `n < 32768`); exactly two null slots
are appended to the spesh-slot table, at the indices `n` and `n + 1`; no fact, no usages
counter, no log guard, no block and no other instruction changes. -/
theorem C22_unresolved_findmeth_cache (tc : MVMThreadContext) (g : MVMSpeshGraph) (ins : Nat)
    (o0 o1 o2 : MVMSpeshOperand) (hops : (g.ins ins).operands = [o0, o1, o2])
    (hun : has_flag (g.facts_at (MVM_spesh_get_facts tc g ((g.ins ins).operand 1))).flags
        MVM_SPESH_FACT_KNOWN_TYPE = false ∨
      tc.MVM_is_null (tc.MVM_6model_find_method_cache_only
        (g.facts_at (MVM_spesh_get_facts tc g ((g.ins ins).operand 1))).type
        (MVM_spesh_get_string tc g ((g.ins ins).operand 2))) = true) :
    ((optimize_method_lookup tc g ins).ins ins).info = tc.MVM_op_get_op MVM_OP_sp_findmeth ∧
    ((optimize_method_lookup tc g ins).ins ins).operands
      = [o0, o1, o2, MVMSpeshOperand.lit_i16 (to_int16 g.spesh_slots.length)] ∧
    (g.spesh_slots.length < 32768 →
      to_int16 g.spesh_slots.length = (g.spesh_slots.length : Int)) ∧
    (optimize_method_lookup tc g ins).spesh_slots = g.spesh_slots ++ [0, 0] ∧
    (optimize_method_lookup tc g ins).spesh_slots.length = g.spesh_slots.length + 2 ∧
    (optimize_method_lookup tc g ins).spesh_slots.get? g.spesh_slots.length = some 0 ∧
    (optimize_method_lookup tc g ins).spesh_slots.get? (g.spesh_slots.length + 1) = some 0 ∧
    (∀ k, k < g.spesh_slots.length →
      (optimize_method_lookup tc g ins).spesh_slots.get? k = g.spesh_slots.get? k) ∧
    (optimize_method_lookup tc g ins).facts = g.facts ∧
    (optimize_method_lookup tc g ins).log_guards = g.log_guards ∧
    (optimize_method_lookup tc g ins).bbs = g.bbs ∧
    ∀ q, q ≠ ins → (optimize_method_lookup tc g ins).ins q = g.ins q := by
  obtain ⟨h1, h2, h3, h4, h5, h6⟩ := method_lookup_unresolved tc g ins o0 o1 o2 hops hun
  refine ⟨by rw [h1], by rw [h1], to_int16_of_lt _, h2, by rw [h2]; simp, ?_, ?_, ?_,
    h3, h4, h5, h6⟩
  · rw [h2, List.get?_eq_getElem?, List.getElem?_append_right (le_refl _)]; simp
  · rw [h2, List.get?_eq_getElem?, List.getElem?_append_right (Nat.le_succ _)]; simp
  · intro k hk; rw [h2]; simp [List.getElem?_append_left, hk]

/-- C22, witness: `findmeth r3, r2, "5"` with an empty slot table and a method cache that
finds nothing. -/
theorem C22_unresolved_findmeth_cache_witness :
    ((optimize_method_lookup (sample_tc 0) (g_findmeth []) 0).ins 0).info.opcode
      = MVM_OP_sp_findmeth ∧
    ((optimize_method_lookup (sample_tc 0) (g_findmeth []) 0).ins 0).operands
      = [MVMSpeshOperand.reg 3 0, MVMSpeshOperand.reg 2 0, MVMSpeshOperand.lit_str_idx 5,
         MVMSpeshOperand.lit_i16 0] ∧
    (optimize_method_lookup (sample_tc 0) (g_findmeth []) 0).spesh_slots = [0, 0] ∧
    (optimize_method_lookup (sample_tc 0) (g_findmeth []) 0).facts = (g_findmeth []).facts :=
  have h := C22_unresolved_findmeth_cache (sample_tc 0) (g_findmeth []) 0
    (MVMSpeshOperand.reg 3 0) (MVMSpeshOperand.reg 2 0) (MVMSpeshOperand.lit_str_idx 5) rfl
    (Or.inr rfl)
  ⟨by rw [h.1]; rfl, h.2.1, h.2.2.2.1, h.2.2.2.2.2.2.2.2.1⟩

/-- C22, counterexample: with 32768 entries already in the slot table and a method cache that
finds nothing, the two null slots are appended at the indices 32768 and 32769, while the
fourth operand of the `sp_findmeth` is `-32768`, not the index 32768. -/
theorem C22_counterexample_cache_index_wraps :
    (g_findmeth (List.replicate 32768 0)).spesh_slots.length = 32768 ∧
    (sample_tc 0).MVM_is_null
      ((sample_tc 0).MVM_6model_find_method_cache_only
        ((g_findmeth (List.replicate 32768 0)).facts 2 0).type
        ((g_findmeth (List.replicate 32768 0)).sf.strings 5)) = true ∧
    (optimize_method_lookup (sample_tc 0) (g_findmeth (List.replicate 32768 0)) 0).spesh_slots
      = List.replicate 32768 0 ++ [0, 0] ∧
    ((optimize_method_lookup (sample_tc 0) (g_findmeth (List.replicate 32768 0)) 0).ins 0).operands
      = [MVMSpeshOperand.reg 3 0, MVMSpeshOperand.reg 2 0, MVMSpeshOperand.lit_str_idx 5,
         MVMSpeshOperand.lit_i16 (-32768)] ∧
    MVMSpeshOperand.lit_i16 (-32768) ≠ MVMSpeshOperand.lit_i16 32768 :=
  have h := method_lookup_unresolved (sample_tc 0) (g_findmeth (List.replicate 32768 0)) 0
    (MVMSpeshOperand.reg 3 0) (MVMSpeshOperand.reg 2 0) (MVMSpeshOperand.lit_str_idx 5) rfl
    (Or.inr rfl)
  ⟨List.length_replicate _ _, rfl, h.2.1,
    (congrArg MVMSpeshIns.operands h.1).trans
      (by
        show [MVMSpeshOperand.reg 3 0, MVMSpeshOperand.reg 2 0, MVMSpeshOperand.lit_str_idx 5,
          MVMSpeshOperand.lit_i16 (to_int16 ((List.replicate 32768 0).length : Nat))] = _
        rw [List.length_replicate]; rfl),
    by decide⟩

/-! ### C23: `istype` folding -/

/-- Reading `value.i16` after `value.i16 = v` gives `v` as an `MVMint16`. -/
theorem value_i16_store_i16 (w : Nat) (v : Int) : value_i16 (store_i16 w v) = to_int16 v := by
  unfold value_i16 store_i16 to_uint16 to_int16
  have h1 : 0 ≤ v % 65536 := Int.emod_nonneg _ (by decide)
  have h2 : v % 65536 < 65536 := Int.emod_lt_of_pos _ (by decide)
  have h3 : ((v % 65536).toNat : Int) = v % 65536 := Int.toNat_of_nonneg h1
  have h4 : (v % 65536).toNat < 65536 := by omega
  have h5 : (w / 65536 * 65536 + (v % 65536).toNat) % 65536 = (v % 65536).toNat := by
    rw [Nat.add_comm, Nat.add_mul_mod_self_right, Nat.mod_eq_of_lt h4]
  rw [h5, h3]
  omega

/-- Or-ing `KNOWN_VALUE` into the flags does not change the `FROM_LOG_GUARD` test. -/
theorem has_flag_known_value_from_log_guard (x : Nat) :
    has_flag (x ||| MVM_SPESH_FACT_KNOWN_VALUE) MVM_SPESH_FACT_FROM_LOG_GUARD
      = has_flag x MVM_SPESH_FACT_FROM_LOG_GUARD := by
  rw [has_flag_or_left]
  have h : has_flag MVM_SPESH_FACT_KNOWN_VALUE MVM_SPESH_FACT_FROM_LOG_GUARD = false := by decide
  rw [h, Bool.or_false]

/-- The guards marked by `MVM_spesh_use_facts` depend on the guard table and on the
`FROM_LOG_GUARD` flag and the guard index of the fact only. -/
theorem use_facts_log_guards_congr (tc : MVMThreadContext) (g1 g2 : MVMSpeshGraph)
    (f : Nat × Nat) (hl : g1.log_guards = g2.log_guards)
    (hf : has_flag (g1.facts_at f).flags MVM_SPESH_FACT_FROM_LOG_GUARD
      = has_flag (g2.facts_at f).flags MVM_SPESH_FACT_FROM_LOG_GUARD)
    (hi : (g1.facts_at f).log_guard = (g2.facts_at f).log_guard) :
    (MVM_spesh_use_facts tc g1 f).log_guards = (MVM_spesh_use_facts tc g2 f).log_guards := by
  unfold MVM_spesh_use_facts
  rw [hf, hi]
  split
  · simp only [MVMSpeshGraph.set_guard_used, hl]
  · exact hl

/-- The conclusive case of `optimize_istype` is its stores followed by the two calls of
`MVM_spesh_use_facts`. -/
theorem optimize_istype_eq (tc : MVMThreadContext) (g : MVMSpeshGraph) (ins : Nat) (b : Int)
    (hko : has_flag (g.facts_at (MVM_spesh_get_facts tc g ((g.ins ins).operand 1))).flags
      MVM_SPESH_FACT_KNOWN_TYPE = true)
    (hkt : has_flag (g.facts_at (MVM_spesh_get_facts tc g ((g.ins ins).operand 2))).flags
      MVM_SPESH_FACT_KNOWN_TYPE = true)
    (hb : tc.MVM_6model_try_cache_type_check
      (g.facts_at (MVM_spesh_get_facts tc g ((g.ins ins).operand 1))).type
      (g.facts_at (MVM_spesh_get_facts tc g ((g.ins ins).operand 2))).type = some b) :
    optimize_istype tc g ins
      = MVM_spesh_use_facts tc
          (MVM_spesh_use_facts tc
            (optimize_istype_fold tc g ins (MVM_spesh_get_facts tc g ((g.ins ins).operand 1))
              (MVM_spesh_get_facts tc g ((g.ins ins).operand 2)) b)
            (MVM_spesh_get_facts tc g ((g.ins ins).operand 1)))
          (MVM_spesh_get_facts tc g ((g.ins ins).operand 2)) := by
  unfold optimize_istype
  simp only [hko, hkt, hb, Bool.and_self, if_true]
  rfl

/-- The stores of the conclusive case of `optimize_istype`, field by field. -/
theorem optimize_istype_fold_spec (tc : MVMThreadContext) (g : MVMSpeshGraph) (ins : Nat)
    (d o t : Nat × Nat) (b : Int) (hd : ((g.ins ins).operand 0).get_reg tc = d) :
    (optimize_istype_fold tc g ins o t b).ins ins
      = { g.ins ins with
          info := tc.MVM_op_get_op MVM_OP_const_i64_16
          operands := (g.ins ins).operands.set 1 (MVMSpeshOperand.lit_i16 (to_int16 b)) } ∧
    (∀ q, q ≠ ins → (optimize_istype_fold tc g ins o t b).ins q = g.ins q) ∧
    (∀ p : Nat × Nat, (optimize_istype_fold tc g ins o t b).facts_at p
      = { g.facts_at p with
          flags := if p = d then (g.facts_at p).flags ||| MVM_SPESH_FACT_KNOWN_VALUE
            else (g.facts_at p).flags
          value := if p = d then store_i16 (g.facts_at p).value b else (g.facts_at p).value
          usages := (g.facts_at p).usages - (if p = o then 1 else 0)
            - (if p = t then 1 else 0) }) ∧
    (optimize_istype_fold tc g ins o t b).log_guards = g.log_guards ∧
    (optimize_istype_fold tc g ins o t b).bbs = g.bbs ∧
    (optimize_istype_fold tc g ins o t b).spesh_slots = g.spesh_slots := by
  refine ⟨?_, ?_, ?_, ?_, ?_, ?_⟩
  · simp [optimize_istype_fold, MVM_spesh_get_facts, get_facts_direct, hd,
      MVMSpeshGraph.set_info, MVMSpeshGraph.set_operand]
  · intro q hq
    simp [optimize_istype_fold, MVM_spesh_get_facts, get_facts_direct, hd,
      MVMSpeshGraph.set_info, MVMSpeshGraph.set_operand, hq]
  · intro p
    by_cases hpd : p = d <;> by_cases hpo : p = o <;> by_cases hpt : p = t <;>
      by_cases hdo : d = o <;> by_cases hdt : d = t <;> by_cases hot : o = t <;>
      simp_all [optimize_istype_fold, MVM_spesh_get_facts, get_facts_direct,
        MVMSpeshGraph.facts_at]
  · simp [optimize_istype_fold, MVM_spesh_get_facts, get_facts_direct, hd,
      MVMSpeshGraph.set_info, MVMSpeshGraph.set_operand]
  · simp [optimize_istype_fold, MVM_spesh_get_facts, get_facts_direct, hd,
      MVMSpeshGraph.set_info, MVMSpeshGraph.set_operand]
  · simp [optimize_istype_fold, MVM_spesh_get_facts, get_facts_direct, hd,
      MVMSpeshGraph.set_info, MVMSpeshGraph.set_operand]

/-- A guard of the table after `MVM_spesh_use_facts`: as before, or as before with `used`
set. -/
theorem use_facts_get?_cases (tc : MVMThreadContext) (g : MVMSpeshGraph) (f : Nat × Nat)
    (j : Nat) :
    (MVM_spesh_use_facts tc g f).log_guards.get? j = g.log_guards.get? j ∨
    (MVM_spesh_use_facts tc g f).log_guards.get? j
      = (g.log_guards.get? j).map fun lg => { lg with used := true } := by
  unfold MVM_spesh_use_facts
  split
  · rw [set_guard_used_get?]
    split
    · exact Or.inr rfl
    · exact Or.inl rfl
  · exact Or.inl rfl

/-- The guard of a fact with `FROM_LOG_GUARD` after `MVM_spesh_use_facts` on that fact. -/
theorem use_facts_get?_self (tc : MVMThreadContext) (g : MVMSpeshGraph) (f : Nat × Nat)
    (h : has_flag (g.facts_at f).flags MVM_SPESH_FACT_FROM_LOG_GUARD = true) :
    (MVM_spesh_use_facts tc g f).log_guards.get? (g.facts_at f).log_guard
      = (g.log_guards.get? (g.facts_at f).log_guard).map fun lg => { lg with used := true } := by
  unfold MVM_spesh_use_facts
  rw [if_pos h, set_guard_used_get?, if_pos rfl]

/-- C23: when the object and the type operand of `istype` both have `KNOWN_TYPE` and the
cache-only type check is conclusive with result `b`, `optimize_istype` turns the instruction
into `const_i64_16 dst, b` (the literal is `b` as an `MVMint16`, so `b` itself for 0 and 1),
sets `KNOWN_VALUE` on the fact of `dst` and stores `b` in its `value.i16`, decrements the
usages of every register by one for each of the object and the type operand that names it,
marks the log guards of both operands used exactly as `MVM_spesh_use_facts` does, and
changes no other field of any fact, no block and no other instruction; when one of the two
lacks `KNOWN_TYPE` or the cache is not conclusive, the graph stays as it is. -/
theorem C23_istype_folding (tc : MVMThreadContext) (g : MVMSpeshGraph) (ins : Nat)
    (d o t : Nat × Nat)
    (hd : ((g.ins ins).operand 0).get_reg tc = d)
    (ho : ((g.ins ins).operand 1).get_reg tc = o)
    (ht : ((g.ins ins).operand 2).get_reg tc = t) :
    (∀ b : Int,
      has_flag (g.facts_at o).flags MVM_SPESH_FACT_KNOWN_TYPE = true →
      has_flag (g.facts_at t).flags MVM_SPESH_FACT_KNOWN_TYPE = true →
      tc.MVM_6model_try_cache_type_check (g.facts_at o).type (g.facts_at t).type = some b →
      ((optimize_istype tc g ins).ins ins).info = tc.MVM_op_get_op MVM_OP_const_i64_16 ∧
      ((optimize_istype tc g ins).ins ins).operands
        = (g.ins ins).operands.set 1 (MVMSpeshOperand.lit_i16 (to_int16 b)) ∧
      ((optimize_istype tc g ins).ins ins).operand 0 = (g.ins ins).operand 0 ∧
      (b = 0 ∨ b = 1 → to_int16 b = b) ∧
      has_flag ((optimize_istype tc g ins).facts_at d).flags MVM_SPESH_FACT_KNOWN_VALUE = true ∧
      value_i16 ((optimize_istype tc g ins).facts_at d).value = to_int16 b ∧
      (∀ p : Nat × Nat, (optimize_istype tc g ins).facts_at p
        = { g.facts_at p with
            flags := if p = d then (g.facts_at p).flags ||| MVM_SPESH_FACT_KNOWN_VALUE
              else (g.facts_at p).flags
            value := if p = d then store_i16 (g.facts_at p).value b else (g.facts_at p).value
            usages := (g.facts_at p).usages - (if p = o then 1 else 0)
              - (if p = t then 1 else 0) }) ∧
      (optimize_istype tc g ins).log_guards
        = (MVM_spesh_use_facts tc (MVM_spesh_use_facts tc g o) t).log_guards ∧
      (∀ lg, has_flag (g.facts_at o).flags MVM_SPESH_FACT_FROM_LOG_GUARD = true →
        g.log_guards.get? (g.facts_at o).log_guard = some lg →
        (optimize_istype tc g ins).log_guards.get? (g.facts_at o).log_guard
          = some { lg with used := true }) ∧
      (∀ lg, has_flag (g.facts_at t).flags MVM_SPESH_FACT_FROM_LOG_GUARD = true →
        g.log_guards.get? (g.facts_at t).log_guard = some lg →
        (optimize_istype tc g ins).log_guards.get? (g.facts_at t).log_guard
          = some { lg with used := true }) ∧
      (optimize_istype tc g ins).bbs = g.bbs ∧
      (optimize_istype tc g ins).spesh_slots = g.spesh_slots ∧
      ∀ q, q ≠ ins → (optimize_istype tc g ins).ins q = g.ins q) ∧
    (has_flag (g.facts_at o).flags MVM_SPESH_FACT_KNOWN_TYPE = false ∨
      has_flag (g.facts_at t).flags MVM_SPESH_FACT_KNOWN_TYPE = false ∨
      tc.MVM_6model_try_cache_type_check (g.facts_at o).type (g.facts_at t).type = none →
      optimize_istype tc g ins = g) := by
  constructor
  · intro b hko hkt hb
    have ho2 : MVM_spesh_get_facts tc g ((g.ins ins).operand 1) = o := ho
    have ht2 : MVM_spesh_get_facts tc g ((g.ins ins).operand 2) = t := ht
    have heq := optimize_istype_eq tc g ins b (by rw [ho2]; exact hko) (by rw [ht2]; exact hkt)
      (by rw [ho2, ht2]; exact hb)
    rw [ho2, ht2] at heq
    obtain ⟨f1, f2, f3, f4, f5, f6⟩ := optimize_istype_fold_spec tc g ins d o t b hd
    have hfacts : ∀ p : Nat × Nat, (optimize_istype tc g ins).facts_at p
        = (optimize_istype_fold tc g ins o t b).facts_at p := by
      intro p; rw [heq]; simp only [MVMSpeshGraph.facts_at, use_facts_facts]
    have hlg : (optimize_istype tc g ins).log_guards
        = (MVM_spesh_use_facts tc (MVM_spesh_use_facts tc g o) t).log_guards := by
      rw [heq]
      apply use_facts_log_guards_congr
      · apply use_facts_log_guards_congr _ _ _ _ f4
        · rw [f3 o]; dsimp only; split
          · exact has_flag_known_value_from_log_guard _
          · rfl
        · rw [f3 o]
      · simp only [MVMSpeshGraph.facts_at, use_facts_facts]
        have h := f3 t
        simp only [MVMSpeshGraph.facts_at] at h
        rw [h]; dsimp only; split
        · exact has_flag_known_value_from_log_guard _
        · rfl
      · simp only [MVMSpeshGraph.facts_at, use_facts_facts]
        have h := f3 t
        simp only [MVMSpeshGraph.facts_at] at h
        rw [h]
    have hins : (optimize_istype tc g ins).ins = (optimize_istype_fold tc g ins o t b).ins := by
      rw [heq]; simp only [use_facts_ins]
    refine ⟨by rw [hins, f1], by rw [hins, f1], ?_, ?_, ?_, ?_, ?_, hlg, ?_, ?_, ?_, ?_, ?_⟩
    · rw [hins, f1]
      simp only [MVMSpeshIns.operand]
      cases (g.ins ins).operands <;> simp
    · intro h; rcases h with h | h <;> subst h <;> decide
    · rw [hfacts, f3]; simp only [if_true]
      exact has_flag_or_self _ _ (by decide)
    · rw [hfacts, f3]; simp only [if_true]
      exact value_i16_store_i16 _ _
    · intro p; rw [hfacts, f3]
    · intro lg hfl hget
      rw [hlg]
      have h1 := use_facts_get?_self tc g o hfl
      rw [hget] at h1
      rcases use_facts_get?_cases tc (MVM_spesh_use_facts tc g o) t (g.facts_at o).log_guard
        with h2 | h2
      · rw [h2, h1]; rfl
      · rw [h2, h1]; rfl
    · intro lg hfl hget
      rw [hlg]
      have hfl2 : has_flag ((MVM_spesh_use_facts tc g o).facts_at t).flags
          MVM_SPESH_FACT_FROM_LOG_GUARD = true := by
        simp only [MVMSpeshGraph.facts_at, use_facts_facts]; exact hfl
      have h1 := use_facts_get?_self tc (MVM_spesh_use_facts tc g o) t hfl2
      have e : ((MVM_spesh_use_facts tc g o).facts_at t).log_guard = (g.facts_at t).log_guard := by
        simp only [MVMSpeshGraph.facts_at, use_facts_facts]
      rw [e] at h1
      rw [h1]
      rcases use_facts_get?_cases tc g o (g.facts_at t).log_guard with h2 | h2
      · rw [h2, hget]; rfl
      · rw [h2, hget]; rfl
    · rw [heq]; simp only [use_facts_bbs]; exact f5
    · rw [heq]; simp only [use_facts_spesh_slots]; exact f6
    · intro q hq; rw [hins]; exact f2 q hq
  · intro h
    rcases h with h | h | h
    · simp [optimize_istype, MVM_spesh_get_facts, get_facts_direct, ho, ht, h]
    · simp [optimize_istype, MVM_spesh_get_facts, get_facts_direct, ho, ht, h]
    · unfold optimize_istype
      simp only [MVM_spesh_get_facts, get_facts_direct, ho, ht, h]
      split <;> rfl

/-- C23, witness: `istype r3, r1, r2` with both types known; with a type-check cache that
answers 1 the instruction becomes `const_i64_16 r3, 1`, `r3` has the known value 1, `r1` and
`r2` lose their reader and the log guard of `r1` is used; with a cache that has no answer the
graph stays as it is. -/
theorem C23_istype_folding_witness :
    ((optimize_istype (sample_type_tc (some 1)) g_istype 0).ins 0).info.opcode
      = MVM_OP_const_i64_16 ∧
    ((optimize_istype (sample_type_tc (some 1)) g_istype 0).ins 0).operands
      = [MVMSpeshOperand.reg 3 0, MVMSpeshOperand.lit_i16 1, MVMSpeshOperand.reg 2 0] ∧
    value_i16 ((optimize_istype (sample_type_tc (some 1)) g_istype 0).facts 3 0).value = 1 ∧
    ((optimize_istype (sample_type_tc (some 1)) g_istype 0).facts 1 0).usages = 0 ∧
    ((optimize_istype (sample_type_tc (some 1)) g_istype 0).facts 2 0).usages = 0 ∧
    (optimize_istype (sample_type_tc (some 1)) g_istype 0).log_guards.get? 0
      = some { ins := 5, bb := 0, used := true } ∧
    optimize_istype (sample_type_tc none) g_istype 0 = g_istype :=
  have h := (C23_istype_folding (sample_type_tc (some 1)) g_istype 0 (3, 0) (1, 0) (2, 0)
    rfl rfl rfl).1 1 (by decide) (by decide) rfl
  ⟨by rw [h.1]; rfl, h.2.1, h.2.2.2.2.2.1,
    by
      have h7 := h.2.2.2.2.2.2.1 (1, 0)
      simp only [MVMSpeshGraph.facts_at] at h7
      rw [h7]; decide,
    by
      have h7 := h.2.2.2.2.2.2.1 (2, 0)
      simp only [MVMSpeshGraph.facts_at] at h7
      rw [h7]; decide,
    h.2.2.2.2.2.2.2.2.1 _ (by decide) rfl,
    (C23_istype_folding (sample_type_tc none) g_istype 0 (3, 0) (1, 0) (2, 0)
      rfl rfl rfl).2 (Or.inr (Or.inr rfl))⟩

/-! ### C24: smart coercion without a known type -/

/-- C24, at the failing input: `smrt_strify r2, r1` where the fact of `r1` has `CONCRETE`
only, no `KNOWN_TYPE`, and the type field holds `7`, whose representation can box a string.
The test `flags & (KNOWN_TYPE | CONCRETE)` of `optimize_smart_coerce` succeeds, the type
field is read, and the instruction becomes `unbox_s r2, r1`. -/
theorem C24_smart_coerce_on_concrete_only :
    ((g_unary MVM_OP_smrt_strify MVM_SPESH_FACT_CONCRETE).ins 0).info.opcode
      = MVM_OP_smrt_strify ∧
    has_flag ((g_unary MVM_OP_smrt_strify MVM_SPESH_FACT_CONCRETE).facts 1 0).flags
      MVM_SPESH_FACT_KNOWN_TYPE = false ∧
    ((optimize_smart_coerce (sample_coerce_tc MVM_STORAGE_SPEC_CAN_BOX_STR (-1))
      (g_unary MVM_OP_smrt_strify MVM_SPESH_FACT_CONCRETE) 0 0).ins 0).info.opcode
      = MVM_OP_unbox_s ∧
    ((optimize_smart_coerce (sample_coerce_tc 0 (-1))
      (g_unary MVM_OP_smrt_strify MVM_SPESH_FACT_CONCRETE) 0 0).ins 0).info.opcode
      = MVM_OP_smrt_strify := by
  decide

/-! ### C25: direct unboxing in smart coercion -/

/-- A list whose first element is stored again is the list itself. -/
theorem list_set_zero_getD (l : List MVMSpeshOperand) (dflt : MVMSpeshOperand) :
    l.set 0 (l[0]?.getD dflt) = l := by
  cases l <;> simp

/-- `optimize_repr_op` when the representation of every type has no `spesh` hook. -/
theorem optimize_repr_op_no_hook (tc : MVMThreadContext) (g : MVMSpeshGraph)
    (bb ins k : Nat) (h : ∀ ty, tc.REPR_spesh ty = none) : optimize_repr_op tc g bb ins k = g := by
  unfold optimize_repr_op
  simp only [h]
  split <;> rfl

/-- The `smrt_strify` of a source of known type whose storage spec can box a string. -/
theorem smart_coerce_strify_unbox (tc : MVMThreadContext) (g : MVMSpeshGraph) (bb ins : Nat)
    (src : Nat × Nat) (hsrc : ((g.ins ins).operand 1).get_reg tc = src)
    (hop : (g.ins ins).info.opcode = MVM_OP_smrt_strify)
    (hkt : has_flag (g.facts_at src).flags MVM_SPESH_FACT_KNOWN_TYPE = true)
    (hbox : has_flag (tc.get_storage_spec (tc.STABLE (g.facts_at src).type)).can_box
      MVM_STORAGE_SPEC_CAN_BOX_STR = true) :
    optimize_smart_coerce tc g bb ins
      = optimize_repr_op tc
          ((MVM_spesh_use_facts tc g src).set_info ins (tc.MVM_op_get_op MVM_OP_unbox_s))
          bb ins 1 := by
  have hm : has_flag (g.facts_at src).flags
      (MVM_SPESH_FACT_KNOWN_TYPE ||| MVM_SPESH_FACT_CONCRETE) = true := by
    rw [has_flag_or, hkt]; rfl
  simp [optimize_smart_coerce, MVM_spesh_get_facts, get_facts_direct, hsrc, hop, hm, hbox]

/-- The `smrt_numify` of a source of known type: nothing changes unless the method cache
answers 0 for `Num`. -/
theorem smart_coerce_numify_cache (tc : MVMThreadContext) (g : MVMSpeshGraph) (bb ins : Nat)
    (src : Nat × Nat) (hsrc : ((g.ins ins).operand 1).get_reg tc = src)
    (hop : (g.ins ins).info.opcode = MVM_OP_smrt_numify)
    (hcan : tc.MVM_6model_can_method_cache_only (g.facts_at src).type tc.str_consts_Num ≠ 0) :
    optimize_smart_coerce tc g bb ins = g := by
  have hs : (MVM_OP_smrt_numify == MVM_OP_smrt_strify) = false := by decide
  simp [optimize_smart_coerce, MVM_spesh_get_facts, get_facts_direct, hsrc, hop, hs, hcan]

/-- The `smrt_numify` of a source of known type whose storage spec can box a number and not
an integer, when the method cache answers 0 for `Num`. -/
theorem smart_coerce_numify_unbox (tc : MVMThreadContext) (g : MVMSpeshGraph) (bb ins : Nat)
    (src : Nat × Nat) (hsrc : ((g.ins ins).operand 1).get_reg tc = src)
    (hop : (g.ins ins).info.opcode = MVM_OP_smrt_numify)
    (hkt : has_flag (g.facts_at src).flags MVM_SPESH_FACT_KNOWN_TYPE = true)
    (hnum : has_flag (tc.get_storage_spec (tc.STABLE (g.facts_at src).type)).can_box
      MVM_STORAGE_SPEC_CAN_BOX_NUM = true)
    (hint : has_flag (tc.get_storage_spec (tc.STABLE (g.facts_at src).type)).can_box
      MVM_STORAGE_SPEC_CAN_BOX_INT = false)
    (hcan : tc.MVM_6model_can_method_cache_only (g.facts_at src).type tc.str_consts_Num = 0)
    (halloc : ins ≠ g.ins_alloc)
    (htemp : ∀ (g1 : MVMSpeshGraph) (k : MVMRegKind),
      (tc.MVM_spesh_manipulate_get_temp_reg g1 k).2.ins ins = g1.ins ins)
    (hrel : ∀ (g1 : MVMSpeshGraph) (o : MVMSpeshOperand),
      (tc.MVM_spesh_manipulate_release_temp_reg g1 o).ins ins = g1.ins ins)
    (hhook : ∀ ty, tc.REPR_spesh ty = none)
    (hset : (tc.MVM_op_get_op MVM_OP_set).opcode = MVM_OP_set) :
    (optimize_smart_coerce tc g bb ins).ins ins
      = { g.ins ins with info := tc.MVM_op_get_op MVM_OP_unbox_n } := by
  have hm : has_flag (g.facts_at src).flags
      (MVM_SPESH_FACT_KNOWN_TYPE ||| MVM_SPESH_FACT_CONCRETE) = true := by
    rw [has_flag_or, hkt]; rfl
  have hni : has_flag (tc.get_storage_spec (tc.STABLE (g.facts_at src).type)).can_box
      (MVM_STORAGE_SPEC_CAN_BOX_NUM ||| MVM_STORAGE_SPEC_CAN_BOX_INT) = true := by
    rw [has_flag_or, hnum]; rfl
  have hs : (MVM_OP_smrt_numify == MVM_OP_smrt_strify) = false := by decide
  obtain ⟨tg, htg⟩ : ∃ tg, tc.MVM_spesh_manipulate_get_temp_reg
      (MVM_spesh_alloc_ins tc (MVM_spesh_use_facts tc g src)).2 MVM_reg_num64 = tg := ⟨_, rfl⟩
  have ht := htemp (MVM_spesh_alloc_ins tc (MVM_spesh_use_facts tc g src)).2 MVM_reg_num64
  rw [htg] at ht
  simp only [alloc_ins_ins, use_facts_ins] at ht
  have hal : ¬ ins = (MVM_spesh_use_facts tc g src).ins_alloc := by
    unfold MVM_spesh_use_facts; split <;> exact halloc
  simp only [optimize_smart_coerce, MVM_spesh_get_facts, get_facts_direct, hsrc, hop, hm, hs,
    hcan, hni, hint, optimize_repr_op_no_hook tc _ _ _ _ hhook, hrel, hset, htg, if_true,
    Bool.false_and, alloc_ins_fst, set_ins_ins]
  simp [MVMSpeshGraph.set_operand, MVMSpeshGraph.set_info, hal, ht, MVMSpeshIns.operand,
    list_set_zero_getD, hset, hcan, htg, hrel]

/-- C25, as amended: a `smrt_strify` whose source has `KNOWN_TYPE` and whose storage spec can
box a string becomes `unbox_s` with the original operands, handed to `optimize_repr_op`,
whatever the method cache answers about `Str`.  A `smrt_numify` whose source has `KNOWN_TYPE`
is left as it is unless the method cache answers 0 for `Num`; when it answers 0 and the
storage spec can box a number and not an integer, the instruction becomes `unbox_n` with the
original operands (the temporary register, its release and the `spesh` hook being
collaborators that leave the instruction alone). -/
theorem C25_direct_unboxing (tc : MVMThreadContext) (g : MVMSpeshGraph) (bb ins : Nat)
    (src : Nat × Nat) (hsrc : ((g.ins ins).operand 1).get_reg tc = src)
    (hkt : has_flag (g.facts_at src).flags MVM_SPESH_FACT_KNOWN_TYPE = true) :
    ((g.ins ins).info.opcode = MVM_OP_smrt_strify →
      has_flag (tc.get_storage_spec (tc.STABLE (g.facts_at src).type)).can_box
        MVM_STORAGE_SPEC_CAN_BOX_STR = true →
      optimize_smart_coerce tc g bb ins
        = optimize_repr_op tc
            ((MVM_spesh_use_facts tc g src).set_info ins (tc.MVM_op_get_op MVM_OP_unbox_s))
            bb ins 1 ∧
      ((∀ ty, tc.REPR_spesh ty = none) →
        (optimize_smart_coerce tc g bb ins).ins ins
          = { g.ins ins with info := tc.MVM_op_get_op MVM_OP_unbox_s })) ∧
    ((g.ins ins).info.opcode = MVM_OP_smrt_numify →
      tc.MVM_6model_can_method_cache_only (g.facts_at src).type tc.str_consts_Num ≠ 0 →
      optimize_smart_coerce tc g bb ins = g) ∧
    ((g.ins ins).info.opcode = MVM_OP_smrt_numify →
      has_flag (tc.get_storage_spec (tc.STABLE (g.facts_at src).type)).can_box
        MVM_STORAGE_SPEC_CAN_BOX_NUM = true →
      has_flag (tc.get_storage_spec (tc.STABLE (g.facts_at src).type)).can_box
        MVM_STORAGE_SPEC_CAN_BOX_INT = false →
      tc.MVM_6model_can_method_cache_only (g.facts_at src).type tc.str_consts_Num = 0 →
      ins ≠ g.ins_alloc →
      (∀ (g1 : MVMSpeshGraph) (k : MVMRegKind),
        (tc.MVM_spesh_manipulate_get_temp_reg g1 k).2.ins ins = g1.ins ins) →
      (∀ (g1 : MVMSpeshGraph) (o : MVMSpeshOperand),
        (tc.MVM_spesh_manipulate_release_temp_reg g1 o).ins ins = g1.ins ins) →
      (∀ ty, tc.REPR_spesh ty = none) →
      (tc.MVM_op_get_op MVM_OP_set).opcode = MVM_OP_set →
      (optimize_smart_coerce tc g bb ins).ins ins
        = { g.ins ins with info := tc.MVM_op_get_op MVM_OP_unbox_n }) := by
  refine ⟨fun hop hbox => ?_, fun hop hcan => smart_coerce_numify_cache tc g bb ins src hsrc hop hcan,
    fun hop hnum hint hcan halloc htemp hrel hhook hset =>
      smart_coerce_numify_unbox tc g bb ins src hsrc hop hkt hnum hint hcan halloc htemp hrel
        hhook hset⟩
  have h := smart_coerce_strify_unbox tc g bb ins src hsrc hop hkt hbox
  refine ⟨h, fun hhook => ?_⟩
  rw [h, optimize_repr_op_no_hook tc _ _ _ _ hhook]
  simp [MVMSpeshGraph.set_info]

/-- C25, witness: `smrt_strify r2, r1` on a type that can box a string becomes
`unbox_s r2, r1` although the method cache finds a `Str` method, and `smrt_numify r2, r1` on
a type that can box a number becomes `unbox_n r2, r1` when the method cache finds no `Num`
method. -/
theorem C25_direct_unboxing_witness :
    (optimize_smart_coerce (sample_coerce_tc MVM_STORAGE_SPEC_CAN_BOX_STR 1)
      (g_unary MVM_OP_smrt_strify MVM_SPESH_FACT_KNOWN_TYPE) 0 0).ins 0
      = { info := sample_op_info MVM_OP_unbox_s,
          operands := [MVMSpeshOperand.reg 2 0, MVMSpeshOperand.reg 1 0], annotations := [] } ∧
    (optimize_smart_coerce (sample_coerce_tc MVM_STORAGE_SPEC_CAN_BOX_NUM 0)
      (g_unary MVM_OP_smrt_numify MVM_SPESH_FACT_KNOWN_TYPE) 0 0).ins 0
      = { info := sample_op_info MVM_OP_unbox_n,
          operands := [MVMSpeshOperand.reg 2 0, MVMSpeshOperand.reg 1 0], annotations := [] } :=
  ⟨((C25_direct_unboxing (sample_coerce_tc MVM_STORAGE_SPEC_CAN_BOX_STR 1)
      (g_unary MVM_OP_smrt_strify MVM_SPESH_FACT_KNOWN_TYPE) 0 0 (1, 0) rfl
      (by decide)).1 rfl (by decide)).2 (fun _ => rfl),
   (C25_direct_unboxing (sample_coerce_tc MVM_STORAGE_SPEC_CAN_BOX_NUM 0)
      (g_unary MVM_OP_smrt_numify MVM_SPESH_FACT_KNOWN_TYPE) 0 0 (1, 0) rfl
      (by decide)).2.2 rfl (by decide) (by decide) rfl (by decide) (fun _ _ => rfl)
      (fun _ _ => rfl) (fun _ => rfl) rfl⟩

/-- C25, counterexample: `smrt_numify r2, r1` whose source has `KNOWN_TYPE` and a storage
spec that can box a number stays `smrt_numify` when the method cache cannot tell whether the
type has a `Num` method, and also when it finds one. -/
theorem C25_counterexample_numify_asks_cache :
    ((g_unary MVM_OP_smrt_numify MVM_SPESH_FACT_KNOWN_TYPE).ins 0).info.opcode
      = MVM_OP_smrt_numify ∧
    has_flag ((g_unary MVM_OP_smrt_numify MVM_SPESH_FACT_KNOWN_TYPE).facts 1 0).flags
      MVM_SPESH_FACT_KNOWN_TYPE = true ∧
    has_flag ((sample_coerce_tc MVM_STORAGE_SPEC_CAN_BOX_NUM (-1)).get_storage_spec
      ((sample_coerce_tc MVM_STORAGE_SPEC_CAN_BOX_NUM (-1)).STABLE 7)).can_box
      MVM_STORAGE_SPEC_CAN_BOX_NUM = true ∧
    optimize_smart_coerce (sample_coerce_tc MVM_STORAGE_SPEC_CAN_BOX_NUM (-1))
      (g_unary MVM_OP_smrt_numify MVM_SPESH_FACT_KNOWN_TYPE) 0 0
      = g_unary MVM_OP_smrt_numify MVM_SPESH_FACT_KNOWN_TYPE ∧
    optimize_smart_coerce (sample_coerce_tc MVM_STORAGE_SPEC_CAN_BOX_NUM 1)
      (g_unary MVM_OP_smrt_numify MVM_SPESH_FACT_KNOWN_TYPE) 0 0
      = g_unary MVM_OP_smrt_numify MVM_SPESH_FACT_KNOWN_TYPE ∧
    ((optimize_smart_coerce (sample_coerce_tc MVM_STORAGE_SPEC_CAN_BOX_NUM 1)
      (g_unary MVM_OP_smrt_numify MVM_SPESH_FACT_KNOWN_TYPE) 0 0).ins 0).info.opcode
      ≠ MVM_OP_unbox_n :=
  have h1 := smart_coerce_numify_cache (sample_coerce_tc MVM_STORAGE_SPEC_CAN_BOX_NUM (-1))
    (g_unary MVM_OP_smrt_numify MVM_SPESH_FACT_KNOWN_TYPE) 0 0 (1, 0) rfl rfl (by decide)
  have h2 := smart_coerce_numify_cache (sample_coerce_tc MVM_STORAGE_SPEC_CAN_BOX_NUM 1)
    (g_unary MVM_OP_smrt_numify MVM_SPESH_FACT_KNOWN_TYPE) 0 0 (1, 0) rfl rfl (by decide)
  ⟨rfl, by decide, by decide, h1, h2, by rw [h2]; decide⟩

/-! ### C26: `can` and `can_s` in the driver -/

/-- C26: on a `can` or `can_s` instruction the `switch` of `optimize_bb` returns the graph
and the call info it was given, whatever the facts and the method cache: the instruction,
its operands, all facts, all usages and all log guards are as before, and the walk goes on
with the instruction that follows in the block. -/
theorem C26_can_rewrite_disabled (tc : MVMThreadContext) (fuel : Nat) (g : MVMSpeshGraph)
    (bb ins : Nat) (arg_info : MVMSpeshCallInfo)
    (hop : (g.ins ins).info.opcode = MVM_OP_can ∨ (g.ins ins).info.opcode = MVM_OP_can_s) :
    optimize_bb_switch tc fuel g bb ins arg_info = Except.ok (g, arg_info) ∧
    ∀ n, optimize_bb_ins tc fuel bb (n + 1) g arg_info (some ins)
      = optimize_bb_ins tc fuel bb n g arg_info (list_next ins (g.bbs bb).ins) := by
  have h : optimize_bb_switch tc fuel g bb ins arg_info = Except.ok (g, arg_info) := by
    unfold optimize_bb_switch
    rcases hop with hop | hop <;> rw [hop]
  refine ⟨h, fun n => ?_⟩
  rw [optimize_bb_ins, h]
  simp only [ins_next]
  split <;> rfl

/-- C26, witness: `can r2, r1` with `r1` of known type and a method cache that answers 1;
the disabled rewriter would fold the instruction into a constant. -/
theorem C26_can_rewrite_disabled_witness :
    optimize_bb_switch (sample_coerce_tc 0 1) 4 (g_unary MVM_OP_can MVM_SPESH_FACT_KNOWN_TYPE)
      0 0 sample_arg_info
      = Except.ok (g_unary MVM_OP_can MVM_SPESH_FACT_KNOWN_TYPE, sample_arg_info) ∧
    ((optimize_can_op (sample_coerce_tc 0 1) (g_unary MVM_OP_can MVM_SPESH_FACT_KNOWN_TYPE)
      0 0).ins 0).info.opcode = MVM_OP_const_i64_16 :=
  ⟨(C26_can_rewrite_disabled (sample_coerce_tc 0 1) 4
      (g_unary MVM_OP_can MVM_SPESH_FACT_KNOWN_TYPE) 0 0 sample_arg_info (Or.inl rfl)).1,
   by decide⟩

/-! ### C27: known lexical lookup -/

/-- The slot index after its passage through `MVMint16`, `MVMuint16` and `lit_i16`. -/
theorem to_int16_to_uint16 (v : Int) : to_int16 ((to_uint16 v : Nat) : Int) = to_int16 v := by
  unfold to_uint16 to_int16
  have h1 : 0 ≤ v % 65536 := Int.emod_nonneg _ (by decide)
  rw [Int.toNat_of_nonneg h1]
  omega

/-- Converting to `MVMint16` twice is converting once. -/
theorem to_int16_idem (v : Int) : to_int16 (to_int16 v) = to_int16 v := by
  unfold to_int16; omega

/-- The rewrite of `optimize_getlex_known` on a lookup followed by an `sp_log` whose log slot
holds the non-null object `O`. -/
theorem getlex_known_rewrite (tc : MVMThreadContext) (g : MVMSpeshGraph) (bb ins next O : Nat)
    (d : Nat × Nat) (hd : ((g.ins ins).operand 0).get_reg tc = d)
    (hnext : list_next ins (g.bbs bb).ins = some next)
    (hlog : (g.ins next).info.opcode = MVM_OP_sp_log)
    (hO : g.log_slots
      (to_uint16 (((g.ins next).operand 1).get_lit_i16 * tc.MVM_SPESH_LOG_RUNS)) = O)
    (hnn : O ≠ 0) :
    (optimize_getlex_known tc g bb ins).spesh_slots = g.spesh_slots ++ [O] ∧
    (optimize_getlex_known tc g bb ins).ins ins
      = { g.ins ins with
          info := tc.MVM_op_get_op MVM_OP_sp_getspeshslot
          operands := (g.ins ins).operands.set 1
            (MVMSpeshOperand.lit_i16 (to_int16 g.spesh_slots.length)) } ∧
    (∀ q, q ≠ ins → (optimize_getlex_known tc g bb ins).ins q = g.ins q) ∧
    ((optimize_getlex_known tc g bb ins).bbs bb).ins = (g.bbs bb).ins.erase next ∧
    (∀ b, b ≠ bb → (optimize_getlex_known tc g bb ins).bbs b = g.bbs b) ∧
    ((optimize_getlex_known tc g bb ins).facts_at d).flags
      = (if tc.IS_CONCRETE O = true then
          if (tc.container_spec (tc.STABLE O)).isNone = true then
            (g.facts_at d).flags ||| (MVM_SPESH_FACT_KNOWN_TYPE ||| MVM_SPESH_FACT_KNOWN_VALUE)
              ||| MVM_SPESH_FACT_CONCRETE ||| MVM_SPESH_FACT_DECONTED
          else
            (g.facts_at d).flags ||| (MVM_SPESH_FACT_KNOWN_TYPE ||| MVM_SPESH_FACT_KNOWN_VALUE)
              ||| MVM_SPESH_FACT_CONCRETE
        else
          (g.facts_at d).flags ||| (MVM_SPESH_FACT_KNOWN_TYPE ||| MVM_SPESH_FACT_KNOWN_VALUE)
            ||| MVM_SPESH_FACT_TYPEOBJ) ∧
    ((optimize_getlex_known tc g bb ins).facts_at d).type = tc.WHAT (tc.STABLE O) ∧
    ((optimize_getlex_known tc g bb ins).facts_at d).value = O ∧
    ((optimize_getlex_known tc g bb ins).facts_at d).decont_type = (g.facts_at d).decont_type ∧
    ((optimize_getlex_known tc g bb ins).facts_at d).log_guard = (g.facts_at d).log_guard ∧
    (∀ p : Nat × Nat, ((optimize_getlex_known tc g bb ins).facts_at p).usages
      = (g.facts_at p).usages
        - (if p = ((g.ins ins).operand 1).get_reg tc then 1 else 0)) ∧
    (∀ p : Nat × Nat, p ≠ d → (optimize_getlex_known tc g bb ins).facts_at p
      = { g.facts_at p with
          usages := (g.facts_at p).usages
            - (if p = ((g.ins ins).operand 1).get_reg tc then 1 else 0) }) ∧
    (optimize_getlex_known tc g bb ins).log_guards = g.log_guards := by
  obtain ⟨o, ho⟩ : ∃ o, ((g.ins ins).operand 1).get_reg tc = o := ⟨_, rfl⟩
  have hnn2 : ¬ g.log_slots
      (to_uint16 (((g.ins next).operand 1).get_lit_i16 * tc.MVM_SPESH_LOG_RUNS)) = 0 := by
    rw [hO]; exact hnn
  have h16 := to_int16_to_uint16
  have h16b := to_int16_idem
  rw [ho]
  refine ⟨?_, ?_, ?_, ?_, ?_, ?_, ?_, ?_, ?_, ?_, ?_, ?_, ?_⟩
  · by_cases hc : tc.IS_CONCRETE O = true <;>
      by_cases hs : (tc.container_spec (tc.STABLE O)).isNone = true <;>
      simp [optimize_getlex_known, hnext, hlog, hnn2, hO, hc, hs, hnn,
        MVM_spesh_manipulate_delete_ins, MVMSpeshGraph.set_info, MVMSpeshGraph.set_operand]
  · by_cases hc : tc.IS_CONCRETE O = true <;>
      by_cases hs : (tc.container_spec (tc.STABLE O)).isNone = true <;>
      simp [optimize_getlex_known, hnext, hlog, hnn2, hO, hc, hs, hnn,
        MVM_spesh_manipulate_delete_ins, MVMSpeshGraph.set_info, MVMSpeshGraph.set_operand,
        h16, h16b, MVM_spesh_get_facts, get_facts_direct, ho, hd]
  · intro q hq
    by_cases hc : tc.IS_CONCRETE O = true <;>
      by_cases hs : (tc.container_spec (tc.STABLE O)).isNone = true <;>
      simp [optimize_getlex_known, hnext, hlog, hnn2, hO, hc, hs, hnn,
        MVM_spesh_manipulate_delete_ins, MVMSpeshGraph.set_info, MVMSpeshGraph.set_operand,
        MVM_spesh_get_facts, get_facts_direct, ho, hd, hq]
  · by_cases hc : tc.IS_CONCRETE O = true <;>
      by_cases hs : (tc.container_spec (tc.STABLE O)).isNone = true <;>
      simp [optimize_getlex_known, hnext, hlog, hnn2, hO, hc, hs, hnn,
        MVM_spesh_manipulate_delete_ins, MVMSpeshGraph.set_info, MVMSpeshGraph.set_operand,
        MVM_spesh_get_facts, get_facts_direct, ho, hd]
  · intro b hb
    by_cases hc : tc.IS_CONCRETE O = true <;>
      by_cases hs : (tc.container_spec (tc.STABLE O)).isNone = true <;>
      simp [optimize_getlex_known, hnext, hlog, hnn2, hO, hc, hs, hnn,
        MVM_spesh_manipulate_delete_ins, MVMSpeshGraph.set_info, MVMSpeshGraph.set_operand,
        MVM_spesh_get_facts, get_facts_direct, ho, hd, hb]
  · by_cases hc : tc.IS_CONCRETE O = true <;>
      by_cases hs : (tc.container_spec (tc.STABLE O)).isNone = true <;>
      by_cases hdo : d = o <;>
      simp_all [optimize_getlex_known, MVM_spesh_manipulate_delete_ins,
        MVMSpeshGraph.facts_at, MVM_spesh_get_facts, get_facts_direct]
  · by_cases hc : tc.IS_CONCRETE O = true <;>
      by_cases hs : (tc.container_spec (tc.STABLE O)).isNone = true <;>
      by_cases hdo : d = o <;>
      simp_all [optimize_getlex_known, MVM_spesh_manipulate_delete_ins,
        MVMSpeshGraph.facts_at, MVM_spesh_get_facts, get_facts_direct]
  · by_cases hc : tc.IS_CONCRETE O = true <;>
      by_cases hs : (tc.container_spec (tc.STABLE O)).isNone = true <;>
      by_cases hdo : d = o <;>
      simp_all [optimize_getlex_known, MVM_spesh_manipulate_delete_ins,
        MVMSpeshGraph.facts_at, MVM_spesh_get_facts, get_facts_direct]
  · by_cases hc : tc.IS_CONCRETE O = true <;>
      by_cases hs : (tc.container_spec (tc.STABLE O)).isNone = true <;>
      by_cases hdo : d = o <;>
      simp_all [optimize_getlex_known, MVM_spesh_manipulate_delete_ins,
        MVMSpeshGraph.facts_at, MVM_spesh_get_facts, get_facts_direct]
  · by_cases hc : tc.IS_CONCRETE O = true <;>
      by_cases hs : (tc.container_spec (tc.STABLE O)).isNone = true <;>
      by_cases hdo : d = o <;>
      simp_all [optimize_getlex_known, MVM_spesh_manipulate_delete_ins,
        MVMSpeshGraph.facts_at, MVM_spesh_get_facts, get_facts_direct]
  · intro p
    by_cases hpd : p = d <;> by_cases hpo : p = o <;>
      by_cases hc : tc.IS_CONCRETE O = true <;>
      by_cases hs : (tc.container_spec (tc.STABLE O)).isNone = true <;>
      by_cases hdo : d = o <;>
      simp_all [optimize_getlex_known, MVM_spesh_manipulate_delete_ins,
        MVMSpeshGraph.facts_at, MVM_spesh_get_facts, get_facts_direct]
  · intro p hpd
    by_cases hpo : p = o <;>
      by_cases hc : tc.IS_CONCRETE O = true <;>
      by_cases hs : (tc.container_spec (tc.STABLE O)).isNone = true <;>
      by_cases hdo : d = o <;>
      simp_all [optimize_getlex_known, MVM_spesh_manipulate_delete_ins,
        MVMSpeshGraph.facts_at, MVM_spesh_get_facts, get_facts_direct]
  · by_cases hc : tc.IS_CONCRETE O = true <;>
      by_cases hs : (tc.container_spec (tc.STABLE O)).isNone = true <;>
      simp [optimize_getlex_known, hnext, hlog, hnn2, hO, hc, hs, hnn,
        MVM_spesh_manipulate_delete_ins, MVMSpeshGraph.set_info, MVMSpeshGraph.set_operand,
        MVM_spesh_get_facts, get_facts_direct, ho, hd]

/-- `optimize_getlex_known` changes nothing when no instruction follows, when the one that
follows is not `sp_log`, or when the log slot is null. -/
theorem getlex_known_unchanged (tc : MVMThreadContext) (g : MVMSpeshGraph) (bb ins : Nat) :
    (list_next ins (g.bbs bb).ins = none → optimize_getlex_known tc g bb ins = g) ∧
    (∀ next, list_next ins (g.bbs bb).ins = some next →
      (g.ins next).info.opcode ≠ MVM_OP_sp_log → optimize_getlex_known tc g bb ins = g) ∧
    (∀ next, list_next ins (g.bbs bb).ins = some next →
      g.log_slots (to_uint16 (((g.ins next).operand 1).get_lit_i16 * tc.MVM_SPESH_LOG_RUNS)) = 0 →
      optimize_getlex_known tc g bb ins = g) := by
  refine ⟨fun h => ?_, fun next h hl => ?_, fun next h hz => ?_⟩
  · simp [optimize_getlex_known, h]
  · simp [optimize_getlex_known, h, hl]
  · simp [optimize_getlex_known, h, hz]

/-- C27, as amended: `optimize_bb` hands every `getlexstatic_o`, and every
`getlexperinvtype_o` of a graph one of whose argument guards has slot 0, to
`optimize_getlex_known`.  When the lookup is immediately followed by an `sp_log` whose first
log slot (the entry index times `MVM_SPESH_LOG_RUNS`, as an `MVMuint16`) holds a non-null
object `O`, `optimize_getlex_known` appends `O` to the spesh-slot table, turns the lookup into
`sp_getspeshslot dst, s` with `s` the index of `O` converted to `MVMint16` (the index itself
when the table held fewer than 32768 entries), deletes the `sp_log`, or-s `KNOWN_TYPE` and
`KNOWN_VALUE` into the flags of `dst` with the type `WHAT` of `O` and the value `O`, together
with `CONCRETE` when `O` is concrete (and then `DECONTED` exactly when the type of `O` has no
container spec) or `TYPEOBJ` when it is not, and takes one from the usages of the register
that the second operand of the lookup names; when no instruction follows, the next one is not `sp_log`, the
log slot is null, or (for `getlexperinvtype_o`) no argument guard has slot 0, nothing
changes. -/
theorem C27_getlex_known (tc : MVMThreadContext) (fuel : Nat) (g : MVMSpeshGraph)
    (bb ins : Nat) (arg_info : MVMSpeshCallInfo) (d : Nat × Nat)
    (hd : ((g.ins ins).operand 0).get_reg tc = d) :
    ((g.ins ins).info.opcode = MVM_OP_getlexstatic_o →
      optimize_bb_switch tc fuel g bb ins arg_info
        = Except.ok (optimize_getlex_known tc g bb ins, arg_info)) ∧
    ((g.ins ins).info.opcode = MVM_OP_getlexperinvtype_o →
      optimize_bb_switch tc fuel g bb ins arg_info
        = if (g.arg_guards.any fun guard => guard.slot == 0) = true then
            Except.ok (optimize_getlex_known tc g bb ins, arg_info)
          else Except.ok (g, arg_info)) ∧
    (∀ next O, list_next ins (g.bbs bb).ins = some next →
      (g.ins next).info.opcode = MVM_OP_sp_log →
      g.log_slots (to_uint16 (((g.ins next).operand 1).get_lit_i16 * tc.MVM_SPESH_LOG_RUNS)) = O →
      O ≠ 0 →
      (optimize_getlex_known tc g bb ins).spesh_slots = g.spesh_slots ++ [O] ∧
      (optimize_getlex_known tc g bb ins).spesh_slots.get? g.spesh_slots.length = some O ∧
      ((optimize_getlex_known tc g bb ins).ins ins).info
        = tc.MVM_op_get_op MVM_OP_sp_getspeshslot ∧
      ((optimize_getlex_known tc g bb ins).ins ins).operands
        = (g.ins ins).operands.set 1
            (MVMSpeshOperand.lit_i16 (to_int16 g.spesh_slots.length)) ∧
      (g.spesh_slots.length < 32768 →
        to_int16 g.spesh_slots.length = (g.spesh_slots.length : Int)) ∧
      ((optimize_getlex_known tc g bb ins).bbs bb).ins = (g.bbs bb).ins.erase next ∧
      ((g.bbs bb).ins.Nodup → next ∉ ((optimize_getlex_known tc g bb ins).bbs bb).ins) ∧
      ((optimize_getlex_known tc g bb ins).facts_at d).flags
        = (if tc.IS_CONCRETE O = true then
            if (tc.container_spec (tc.STABLE O)).isNone = true then
              (g.facts_at d).flags ||| (MVM_SPESH_FACT_KNOWN_TYPE ||| MVM_SPESH_FACT_KNOWN_VALUE)
                ||| MVM_SPESH_FACT_CONCRETE ||| MVM_SPESH_FACT_DECONTED
            else
              (g.facts_at d).flags ||| (MVM_SPESH_FACT_KNOWN_TYPE ||| MVM_SPESH_FACT_KNOWN_VALUE)
                ||| MVM_SPESH_FACT_CONCRETE
          else
            (g.facts_at d).flags ||| (MVM_SPESH_FACT_KNOWN_TYPE ||| MVM_SPESH_FACT_KNOWN_VALUE)
              ||| MVM_SPESH_FACT_TYPEOBJ) ∧
      ((optimize_getlex_known tc g bb ins).facts_at d).type = tc.WHAT (tc.STABLE O) ∧
      ((optimize_getlex_known tc g bb ins).facts_at d).value = O ∧
      (∀ p : Nat × Nat, ((optimize_getlex_known tc g bb ins).facts_at p).usages
        = (g.facts_at p).usages
          - (if p = ((g.ins ins).operand 1).get_reg tc then 1 else 0)) ∧
      (∀ p : Nat × Nat, p ≠ d → (optimize_getlex_known tc g bb ins).facts_at p
        = { g.facts_at p with
            usages := (g.facts_at p).usages
              - (if p = ((g.ins ins).operand 1).get_reg tc then 1 else 0) }) ∧
      (optimize_getlex_known tc g bb ins).log_guards = g.log_guards) ∧
    (list_next ins (g.bbs bb).ins = none → optimize_getlex_known tc g bb ins = g) ∧
    (∀ next, list_next ins (g.bbs bb).ins = some next →
      (g.ins next).info.opcode ≠ MVM_OP_sp_log → optimize_getlex_known tc g bb ins = g) ∧
    (∀ next, list_next ins (g.bbs bb).ins = some next →
      g.log_slots (to_uint16 (((g.ins next).operand 1).get_lit_i16 * tc.MVM_SPESH_LOG_RUNS)) = 0 →
      optimize_getlex_known tc g bb ins = g) := by
  refine ⟨fun hop => ?_, fun hop => ?_, fun next O hnext hlog hO hnn => ?_,
    (getlex_known_unchanged tc g bb ins).1, (getlex_known_unchanged tc g bb ins).2.1,
    (getlex_known_unchanged tc g bb ins).2.2⟩
  · unfold optimize_bb_switch; rw [hop]
  · unfold optimize_bb_switch; rw [hop]; rfl
  · obtain ⟨h1, h2, _, h4, _, h6, h7, h8, _, _, h11, h12, h13⟩ :=
      getlex_known_rewrite tc g bb ins next O d hd hnext hlog hO hnn
    refine ⟨h1, ?_, by rw [h2], by rw [h2], to_int16_of_lt _, h4, ?_, h6, h7, h8, h11, h12, h13⟩
    · rw [h1, List.get?_eq_getElem?, List.getElem?_append_right (le_refl _)]; simp
    · intro hnd; rw [h4]; exact fun hmem => (List.Nodup.mem_erase_iff hnd).1 hmem |>.1 rfl

/-- C27, witness: `getlexstatic_o r2, r3` followed by `sp_log r2, 0` whose log slot holds the
concrete object `9`, with an empty slot table; the usages counter of `r3`, which the lookup
read, goes from 1 to 0. -/
theorem C27_getlex_known_witness :
    (optimize_getlex_known (sample_tc 0) (g_getlex MVM_OP_getlexstatic_o [] 0) 0 0).spesh_slots
      = [9] ∧
    ((optimize_getlex_known (sample_tc 0) (g_getlex MVM_OP_getlexstatic_o [] 0) 0 0).ins 0).operands
      = [MVMSpeshOperand.reg 2 0, MVMSpeshOperand.lit_i16 0] ∧
    ((optimize_getlex_known (sample_tc 0) (g_getlex MVM_OP_getlexstatic_o [] 0) 0 0).bbs 0).ins
      = [0] ∧
    ((optimize_getlex_known (sample_tc 0) (g_getlex MVM_OP_getlexstatic_o [] 0) 0 0).facts 2 0).value
      = 9 ∧
    ((g_getlex MVM_OP_getlexstatic_o [] 0).facts 3 0).usages = 1 ∧
    ((optimize_getlex_known (sample_tc 0) (g_getlex MVM_OP_getlexstatic_o [] 0) 0 0).facts_at
      (3, 0)).usages = 0 ∧
    optimize_bb_switch (sample_tc 0) 1 (g_getlex MVM_OP_getlexperinvtype_o [] 1) 0 0
      sample_arg_info = Except.ok (g_getlex MVM_OP_getlexperinvtype_o [] 1, sample_arg_info) :=
  have h := (C27_getlex_known (sample_tc 0) 1 (g_getlex MVM_OP_getlexstatic_o [] 0) 0 0
    sample_arg_info (2, 0) rfl).2.2.1 1 9 rfl rfl rfl (by decide)
  ⟨h.1, h.2.2.2.1, h.2.2.2.2.2.1, h.2.2.2.2.2.2.2.2.2.1, rfl,
    (h.2.2.2.2.2.2.2.2.2.2.1 (3, 0)).trans (by decide),
    (C27_getlex_known (sample_tc 0) 1 (g_getlex MVM_OP_getlexperinvtype_o [] 1) 0 0
      sample_arg_info (2, 0) rfl).2.1 rfl⟩

/-- C27, counterexample: with 32768 entries already in the slot table the object `9` is
stored at the index 32768, while the rewritten lookup is `sp_getspeshslot r2, -32768`. -/
theorem C27_counterexample_slot_index_wraps :
    list_next 0 ((g_getlex MVM_OP_getlexstatic_o (List.replicate 32768 0) 0).bbs 0).ins
      = some 1 ∧
    ((g_getlex MVM_OP_getlexstatic_o (List.replicate 32768 0) 0).ins 1).info.opcode
      = MVM_OP_sp_log ∧
    (optimize_getlex_known (sample_tc 0)
      (g_getlex MVM_OP_getlexstatic_o (List.replicate 32768 0) 0) 0 0).spesh_slots
      = List.replicate 32768 0 ++ [9] ∧
    (List.replicate 32768 0 ++ [9]).get? 32768 = some 9 ∧
    ((optimize_getlex_known (sample_tc 0)
      (g_getlex MVM_OP_getlexstatic_o (List.replicate 32768 0) 0) 0 0).ins 0).operands
      = [MVMSpeshOperand.reg 2 0, MVMSpeshOperand.lit_i16 (-32768)] ∧
    MVMSpeshOperand.lit_i16 (-32768) ≠ MVMSpeshOperand.lit_i16 32768 :=
  have h := getlex_known_rewrite (sample_tc 0)
    (g_getlex MVM_OP_getlexstatic_o (List.replicate 32768 0) 0) 0 0 1 9 (2, 0) rfl rfl rfl rfl
    (by decide)
  ⟨rfl, rfl, h.1,
    (fun (l : List Nat) (n : Nat) (hl : l.length = n) =>
      show (l ++ [9]).get? n = some 9 by subst hl; simp) _ _ (List.length_replicate _ _),
    (congrArg MVMSpeshIns.operands h.2.1).trans
      (by
        show [MVMSpeshOperand.reg 2 0,
          MVMSpeshOperand.lit_i16 (to_int16 ((List.replicate 32768 0).length : Nat))] = _
        rw [List.length_replicate]; rfl),
    by decide⟩

/-! ### C28: `isfalse` is `istrue` followed by a negation -/

/-- On `istrue` and `isfalse`, `optimize_istrue_isfalse` is the rewrite by boolification
mode, then for `isfalse` the negation, then `MVM_spesh_use_facts` on the source. -/
theorem optimize_istrue_isfalse_eq (tc : MVMThreadContext) (g : MVMSpeshGraph) (bb ins : Nat)
    (negated : Bool)
    (hop : (g.ins ins).info.opcode = if negated then MVM_OP_isfalse else MVM_OP_istrue) :
    optimize_istrue_isfalse tc g bb ins
      = if has_flag (g.facts_at (MVM_spesh_get_facts tc g ((g.ins ins).operand 1))).flags
            MVM_SPESH_FACT_KNOWN_TYPE then
          match optimize_istrue_isfalse_rewrite tc g bb ins with
          | none => g
          | some r =>
            MVM_spesh_use_facts tc
              (if negated then optimize_istrue_isfalse_negate tc r bb ins else r)
              (MVM_spesh_get_facts tc g ((g.ins ins).operand 1))
        else g := by
  unfold optimize_istrue_isfalse
  cases negated
  · simp only [hop, Bool.false_eq_true, if_false, if_true]
    rfl
  · have h1 : ¬ MVM_OP_isfalse = MVM_OP_istrue := by decide
    simp only [hop, if_true, if_neg h1]
    rfl

/-- The instruction right after `p` once `x` has been inserted after it. -/
theorem list_next_insert_after (p x : Nat) (l : List Nat) (h : p ∈ l) :
    list_next p (insert_after p x l) = some x := by
  induction l with
  | nil => cases h
  | cons q rest ih =>
    by_cases hq : q = p
    · simp [insert_after, list_next, hq]
    · have hmem : p ∈ rest := by
        rcases List.mem_cons.1 h with h1 | h1
        · exact absurd h1.symm hq
        · exact h1
      simp [insert_after, list_next, hq, ih hmem]

/-- The negation block of `optimize_istrue_isfalse`, field by field. -/
theorem istrue_isfalse_negate_spec (tc : MVMThreadContext) (r : MVMSpeshGraph) (bb ins : Nat)
    (d : Nat × Nat) (hd : ((r.ins ins).operand 0).get_reg tc = d) :
    (optimize_istrue_isfalse_negate tc r bb ins).ins r.ins_alloc
      = { info := tc.MVM_op_get_op MVM_OP_not_i,
          operands := [(r.ins ins).operand 0, (r.ins ins).operand 0], annotations := [] } ∧
    (∀ q, q ≠ r.ins_alloc → (optimize_istrue_isfalse_negate tc r bb ins).ins q = r.ins q) ∧
    ((optimize_istrue_isfalse_negate tc r bb ins).bbs bb).ins
      = insert_after ins r.ins_alloc (r.bbs bb).ins ∧
    (∀ b, b ≠ bb → (optimize_istrue_isfalse_negate tc r bb ins).bbs b = r.bbs b) ∧
    (∀ p : Nat × Nat, (optimize_istrue_isfalse_negate tc r bb ins).facts_at p
      = if p = d ∧ has_flag (r.facts_at d).flags MVM_SPESH_FACT_KNOWN_VALUE = true then
          { r.facts_at p with
            value := store_i64 (if value_i64 (r.facts_at p).value = 0 then 1 else 0) }
        else r.facts_at p) ∧
    (optimize_istrue_isfalse_negate tc r bb ins).log_guards = r.log_guards ∧
    (optimize_istrue_isfalse_negate tc r bb ins).spesh_slots = r.spesh_slots := by
  refine ⟨?_, ?_, ?_, ?_, ?_, ?_, ?_⟩
  · simp only [optimize_istrue_isfalse_negate, MVM_spesh_alloc_ins, MVM_spesh_get_facts,
      get_facts_direct, MVM_spesh_manipulate_insert_ins]
    split <;> simp
  · intro q hq
    simp only [optimize_istrue_isfalse_negate, MVM_spesh_alloc_ins, MVM_spesh_get_facts,
      get_facts_direct, MVM_spesh_manipulate_insert_ins]
    split <;> simp [hq]
  · simp only [optimize_istrue_isfalse_negate, MVM_spesh_alloc_ins, MVM_spesh_get_facts,
      get_facts_direct, MVM_spesh_manipulate_insert_ins]
    split <;> simp
  · intro b hb
    simp only [optimize_istrue_isfalse_negate, MVM_spesh_alloc_ins, MVM_spesh_get_facts,
      get_facts_direct, MVM_spesh_manipulate_insert_ins]
    split <;> simp [hb]
  · intro p
    simp only [optimize_istrue_isfalse_negate, MVM_spesh_alloc_ins, MVM_spesh_get_facts,
      get_facts_direct, MVM_spesh_manipulate_insert_ins, hd]
    by_cases hk : has_flag (r.facts_at d).flags MVM_SPESH_FACT_KNOWN_VALUE = true <;>
      by_cases hp : p = d <;>
      simp_all [MVMSpeshGraph.facts_at, MVMSpeshGraph.set_facts_at, MVMSpeshGraph.set_bb,
        MVMSpeshGraph.set_ins]
  · simp only [optimize_istrue_isfalse_negate, MVM_spesh_alloc_ins, MVM_spesh_get_facts,
      get_facts_direct, MVM_spesh_manipulate_insert_ins]
    split <;> simp
  · simp only [optimize_istrue_isfalse_negate, MVM_spesh_alloc_ins, MVM_spesh_get_facts,
      get_facts_direct, MVM_spesh_manipulate_insert_ins]
    split <;> simp

/-- `optimize_isconcrete` leaves the first operand of every instruction alone. -/
theorem optimize_isconcrete_operand_zero (tc : MVMThreadContext) (g : MVMSpeshGraph)
    (ins q : Nat) :
    ((optimize_isconcrete tc g ins).ins q).operand 0 = (g.ins q).operand 0 := by
  unfold optimize_isconcrete
  simp only []
  split
  · simp
  · rfl

/-- The rewrite of `optimize_istrue_isfalse` by boolification mode. -/
theorem istrue_isfalse_rewrite_cases (tc : MVMThreadContext) (g : MVMSpeshGraph) (bb ins : Nat)
    (src : Nat × Nat) (hsrc : ((g.ins ins).operand 1).get_reg tc = src) :
    (tc.boolification_mode (tc.STABLE (g.facts_at src).type) = some MVM_BOOL_MODE_UNBOX_INT →
      optimize_istrue_isfalse_rewrite tc g bb ins
        = some (optimize_repr_op tc (g.set_info ins (tc.MVM_op_get_op MVM_OP_unbox_i))
            bb ins 1)) ∧
    (tc.boolification_mode (tc.STABLE (g.facts_at src).type) = none ∨
      tc.boolification_mode (tc.STABLE (g.facts_at src).type)
        = some MVM_BOOL_MODE_NOT_TYPE_OBJECT →
      optimize_istrue_isfalse_rewrite tc g bb ins
        = some (optimize_isconcrete tc (g.set_info ins (tc.MVM_op_get_op MVM_OP_isconcrete))
            ins)) ∧
    (∀ m, tc.boolification_mode (tc.STABLE (g.facts_at src).type) = some m →
      m ≠ MVM_BOOL_MODE_UNBOX_INT → m ≠ MVM_BOOL_MODE_NOT_TYPE_OBJECT →
      optimize_istrue_isfalse_rewrite tc g bb ins = none) := by
  refine ⟨fun h => ?_, fun h => ?_, fun m h h1 h2 => ?_⟩
  · simp [optimize_istrue_isfalse_rewrite, MVM_spesh_get_facts, get_facts_direct, hsrc, h]
  · rcases h with h | h <;>
      simp [optimize_istrue_isfalse_rewrite, MVM_spesh_get_facts, get_facts_direct, hsrc, h]
  · cases m <;>
      simp_all [optimize_istrue_isfalse_rewrite, MVM_spesh_get_facts, get_facts_direct]

/-- The rewrite of `optimize_istrue_isfalse` does not depend on the op descriptor the
instruction had. -/
theorem istrue_isfalse_rewrite_info (tc : MVMThreadContext) (g : MVMSpeshGraph) (bb ins : Nat)
    (i1 i2 : MVMOpInfo) :
    optimize_istrue_isfalse_rewrite tc (g.set_info ins i1) bb ins
      = optimize_istrue_isfalse_rewrite tc (g.set_info ins i2) bb ins := by
  have h : ∀ i x : MVMOpInfo, (g.set_info ins i).set_info ins x = g.set_info ins x := by
    intro i x
    simp only [MVMSpeshGraph.set_info, MVMSpeshGraph.set_ins]
    congr 1
    funext q
    by_cases hq : q = ins <;> simp [hq]
  simp only [optimize_istrue_isfalse_rewrite, h, set_info_operand, MVM_spesh_get_facts,
    get_facts_direct, MVMSpeshGraph.facts_at, set_info_facts]

/-- C28: on an `isfalse` whose source has `KNOWN_TYPE` and whose boolification mode is
unbox-int or not-type-object (no boolification spec counting as not-type-object),
`optimize_istrue_isfalse` performs the rewrite it performs on `istrue` (`unbox_i` handed to
`optimize_repr_op`, or `isconcrete` handed to `optimize_isconcrete`, the rewrite not looking
at the op it replaces), then stores a new `not_i dst, dst` on the destination operand of the
rewritten instruction (the original one on the `isconcrete` path) and inserts it directly
after the instruction, and, if the fact of the destination then has `KNOWN_VALUE` with a
value `b` in {0,1}, makes the value `1 - b`; on `istrue` nothing is inserted; both end with
`MVM_spesh_use_facts` on the source; with any other boolification mode or without
`KNOWN_TYPE` the graph stays as it is. -/
theorem C28_isfalse_negation (tc : MVMThreadContext) (g : MVMSpeshGraph) (bb ins : Nat)
    (src : Nat × Nat) (hsrc : ((g.ins ins).operand 1).get_reg tc = src)
    (hop : (g.ins ins).info.opcode = MVM_OP_istrue ∨ (g.ins ins).info.opcode = MVM_OP_isfalse) :
    (tc.boolification_mode (tc.STABLE (g.facts_at src).type) = some MVM_BOOL_MODE_UNBOX_INT →
      optimize_istrue_isfalse_rewrite tc g bb ins
        = some (optimize_repr_op tc (g.set_info ins (tc.MVM_op_get_op MVM_OP_unbox_i))
            bb ins 1)) ∧
    (tc.boolification_mode (tc.STABLE (g.facts_at src).type) = none ∨
      tc.boolification_mode (tc.STABLE (g.facts_at src).type)
        = some MVM_BOOL_MODE_NOT_TYPE_OBJECT →
      optimize_istrue_isfalse_rewrite tc g bb ins
        = some (optimize_isconcrete tc (g.set_info ins (tc.MVM_op_get_op MVM_OP_isconcrete))
            ins) ∧
      ((optimize_isconcrete tc (g.set_info ins (tc.MVM_op_get_op MVM_OP_isconcrete))
            ins).ins ins).operand 0 = (g.ins ins).operand 0) ∧
    (∀ i1 i2 : MVMOpInfo, optimize_istrue_isfalse_rewrite tc (g.set_info ins i1) bb ins
      = optimize_istrue_isfalse_rewrite tc (g.set_info ins i2) bb ins) ∧
    (∀ r, has_flag (g.facts_at src).flags MVM_SPESH_FACT_KNOWN_TYPE = true →
      optimize_istrue_isfalse_rewrite tc g bb ins = some r →
      (g.ins ins).info.opcode = MVM_OP_istrue →
      optimize_istrue_isfalse tc g bb ins = MVM_spesh_use_facts tc r src ∧
      (optimize_istrue_isfalse tc g bb ins).bbs = r.bbs ∧
      (optimize_istrue_isfalse tc g bb ins).ins = r.ins ∧
      (optimize_istrue_isfalse tc g bb ins).facts = r.facts) ∧
    (∀ r d, has_flag (g.facts_at src).flags MVM_SPESH_FACT_KNOWN_TYPE = true →
      optimize_istrue_isfalse_rewrite tc g bb ins = some r →
      (g.ins ins).info.opcode = MVM_OP_isfalse →
      ((r.ins ins).operand 0).get_reg tc = d →
      optimize_istrue_isfalse tc g bb ins
        = MVM_spesh_use_facts tc (optimize_istrue_isfalse_negate tc r bb ins) src ∧
      (optimize_istrue_isfalse tc g bb ins).ins r.ins_alloc
        = { info := tc.MVM_op_get_op MVM_OP_not_i,
            operands := [(r.ins ins).operand 0, (r.ins ins).operand 0], annotations := [] } ∧
      (∀ q, q ≠ r.ins_alloc → (optimize_istrue_isfalse tc g bb ins).ins q = r.ins q) ∧
      ((optimize_istrue_isfalse tc g bb ins).bbs bb).ins
        = insert_after ins r.ins_alloc (r.bbs bb).ins ∧
      (ins ∈ (r.bbs bb).ins →
        list_next ins ((optimize_istrue_isfalse tc g bb ins).bbs bb).ins = some r.ins_alloc) ∧
      (∀ b, b ≠ bb → (optimize_istrue_isfalse tc g bb ins).bbs b = r.bbs b) ∧
      (∀ p : Nat × Nat, (optimize_istrue_isfalse tc g bb ins).facts_at p
        = if p = d ∧ has_flag (r.facts_at d).flags MVM_SPESH_FACT_KNOWN_VALUE = true then
            { r.facts_at p with
              value := store_i64 (if value_i64 (r.facts_at p).value = 0 then 1 else 0) }
          else r.facts_at p) ∧
      (has_flag (r.facts_at d).flags MVM_SPESH_FACT_KNOWN_VALUE = true →
        ∀ b : Int, b = 0 ∨ b = 1 → value_i64 (r.facts_at d).value = b →
        value_i64 ((optimize_istrue_isfalse tc g bb ins).facts_at d).value = 1 - b)) ∧
    (has_flag (g.facts_at src).flags MVM_SPESH_FACT_KNOWN_TYPE = false →
      optimize_istrue_isfalse tc g bb ins = g) ∧
    (∀ m, tc.boolification_mode (tc.STABLE (g.facts_at src).type) = some m →
      m ≠ MVM_BOOL_MODE_UNBOX_INT → m ≠ MVM_BOOL_MODE_NOT_TYPE_OBJECT →
      optimize_istrue_isfalse tc g bb ins = g) := by
  obtain ⟨c1, c2, c3⟩ := istrue_isfalse_rewrite_cases tc g bb ins src hsrc
  have hsrc2 : MVM_spesh_get_facts tc g ((g.ins ins).operand 1) = src := hsrc
  have heq : ∀ negated : Bool,
      (g.ins ins).info.opcode = (if negated then MVM_OP_isfalse else MVM_OP_istrue) →
      optimize_istrue_isfalse tc g bb ins
        = if has_flag (g.facts_at src).flags MVM_SPESH_FACT_KNOWN_TYPE then
            match optimize_istrue_isfalse_rewrite tc g bb ins with
            | none => g
            | some r =>
              MVM_spesh_use_facts tc
                (if negated then optimize_istrue_isfalse_negate tc r bb ins else r) src
          else g := by
    intro negated h
    have := optimize_istrue_isfalse_eq tc g bb ins negated h
    rw [hsrc2] at this
    exact this
  have hany : ∃ negated : Bool,
      (g.ins ins).info.opcode = (if negated then MVM_OP_isfalse else MVM_OP_istrue) := by
    rcases hop with h | h
    · exact ⟨false, by simp [h]⟩
    · exact ⟨true, by simp [h]⟩
  refine ⟨c1, fun h => ⟨c2 h, ?_⟩, istrue_isfalse_rewrite_info tc g bb ins, ?_, ?_, ?_, ?_⟩
  · rw [optimize_isconcrete_operand_zero, set_info_operand]
  · intro r hkt hr ho
    have h := heq false (by simp [ho])
    rw [hkt, hr] at h
    simp only [if_true, Bool.false_eq_true, if_false] at h
    refine ⟨h, ?_, ?_, ?_⟩ <;> rw [h] <;> simp
  · intro r d hkt hr ho hd
    have h := heq true (by simp [ho])
    rw [hkt, hr] at h
    simp only [if_true] at h
    obtain ⟨n1, n2, n3, n4, n5, _, _⟩ := istrue_isfalse_negate_spec tc r bb ins d hd
    have hf : ∀ p : Nat × Nat, (optimize_istrue_isfalse tc g bb ins).facts_at p
        = (optimize_istrue_isfalse_negate tc r bb ins).facts_at p := by
      intro p; rw [h]; simp only [MVMSpeshGraph.facts_at, use_facts_facts]
    have hb : ((optimize_istrue_isfalse tc g bb ins).bbs bb).ins
        = insert_after ins r.ins_alloc (r.bbs bb).ins := by
      rw [h, use_facts_bbs]; exact n3
    refine ⟨h, ?_, ?_, hb, ?_, ?_, ?_, ?_⟩
    · rw [h, use_facts_ins]; exact n1
    · intro q hq; rw [h, use_facts_ins]; exact n2 q hq
    · intro hmem; rw [hb]; exact list_next_insert_after _ _ _ hmem
    · intro b hb2; rw [h, use_facts_bbs]; exact n4 b hb2
    · intro p; rw [hf, n5]
    · intro hkv b hb01 hv
      rw [hf, n5, if_pos ⟨rfl, hkv⟩]
      simp only [hv]
      rcases hb01 with hb0 | hb1
      · subst hb0; decide
      · subst hb1; decide
  · intro hkt
    obtain ⟨negated, hn⟩ := hany
    have h := heq negated hn
    rw [hkt] at h
    simpa using h
  · intro m hm h1 h2
    obtain ⟨negated, hn⟩ := hany
    have h := heq negated hn
    rw [c3 m hm h1 h2] at h
    rw [h]
    split <;> rfl

/-- C28, witness: `isfalse r2, r1` where `r1` is known to hold a concrete object of a type
without boolification spec: the instruction is folded as `istrue` would be, to
`const_i64_16 r2, 1`, a new `not_i r2, r2` follows it directly, and the known value of `r2`
is 0. -/
theorem C28_isfalse_negation_witness :
    ((optimize_istrue_isfalse (sample_tc 0)
      (g_unary MVM_OP_isfalse (MVM_SPESH_FACT_KNOWN_TYPE ||| MVM_SPESH_FACT_CONCRETE))
      0 0).bbs 0).ins = [0, 1] ∧
    (optimize_istrue_isfalse (sample_tc 0)
      (g_unary MVM_OP_isfalse (MVM_SPESH_FACT_KNOWN_TYPE ||| MVM_SPESH_FACT_CONCRETE))
      0 0).ins 1
      = { info := sample_op_info MVM_OP_not_i,
          operands := [MVMSpeshOperand.reg 2 0, MVMSpeshOperand.reg 2 0], annotations := [] } ∧
    ((optimize_istrue_isfalse (sample_tc 0)
      (g_unary MVM_OP_isfalse (MVM_SPESH_FACT_KNOWN_TYPE ||| MVM_SPESH_FACT_CONCRETE))
      0 0).ins 0).info.opcode = MVM_OP_const_i64_16 ∧
    value_i64 ((optimize_istrue_isfalse (sample_tc 0)
      (g_unary MVM_OP_isfalse (MVM_SPESH_FACT_KNOWN_TYPE ||| MVM_SPESH_FACT_CONCRETE))
      0 0).facts 2 0).value = 0 ∧
    ((optimize_istrue_isfalse (sample_tc 0)
      (g_unary MVM_OP_istrue (MVM_SPESH_FACT_KNOWN_TYPE ||| MVM_SPESH_FACT_CONCRETE))
      0 0).bbs 0).ins = [0] :=
  have h := (C28_isfalse_negation (sample_tc 0)
    (g_unary MVM_OP_isfalse (MVM_SPESH_FACT_KNOWN_TYPE ||| MVM_SPESH_FACT_CONCRETE)) 0 0 (1, 0)
    rfl (Or.inr rfl)).2.2.2.2.1
    (optimize_isconcrete (sample_tc 0)
      ((g_unary MVM_OP_isfalse
        (MVM_SPESH_FACT_KNOWN_TYPE ||| MVM_SPESH_FACT_CONCRETE)).set_info 0
        ((sample_tc 0).MVM_op_get_op MVM_OP_isconcrete)) 0)
    (2, 0) (by decide) rfl rfl rfl
  have h2 := (C28_isfalse_negation (sample_tc 0)
    (g_unary MVM_OP_istrue (MVM_SPESH_FACT_KNOWN_TYPE ||| MVM_SPESH_FACT_CONCRETE)) 0 0 (1, 0)
    rfl (Or.inl rfl)).2.2.2.1
    (optimize_isconcrete (sample_tc 0)
      ((g_unary MVM_OP_istrue
        (MVM_SPESH_FACT_KNOWN_TYPE ||| MVM_SPESH_FACT_CONCRETE)).set_info 0
        ((sample_tc 0).MVM_op_get_op MVM_OP_isconcrete)) 0)
    (by decide) rfl rfl
  ⟨by rw [h.2.2.2.1]; decide, h.2.1, by rw [h.2.2.1 0 (by decide)]; decide,
    h.2.2.2.2.2.2.2 (by decide) 1 (Or.inr rfl) (by decide),
    by rw [h2.2.1]; decide⟩

/-! ### C29: the second unwrap of a multi-dispatch callee -/

/-- C29, at the failing input: the multi-dispatch cache of the callee `9` finds the object
`20`, which is not a code object and whose own invocation spec (class handle `21`, attribute
`22`, hint `23`) designates the code object `30`.  `optimize_call` reads the object `20` with
the class handle, attribute and hint of the invocation spec of the callee (`11`, `12`, `13`)
and resolves the target `31`. -/
theorem C29_second_unwrap_reads_outer_spec :
    sample_multi_tc.MVM_multi_cache_find_spesh 19 sample_arg_info = 20 ∧
    sample_multi_tc.REPR_ID 20 ≠ MVM_REPR_ID_MVMCode ∧
    (sample_multi_tc.invocation_spec (sample_multi_tc.STABLE 20)).map
      (fun m_is => (m_is.class_handle, m_is.attr_name, m_is.hint)) = some (21, 22, 23) ∧
    sample_multi_tc.get_attribute_o 20 21 22 23 = 30 ∧
    sample_multi_tc.REPR_ID 30 = MVM_REPR_ID_MVMCode ∧
    (sample_multi_tc.invocation_spec (sample_multi_tc.STABLE 9)).map
      (fun is => (is.class_handle, is.attr_name, is.hint)) = some (11, 12, 13) ∧
    sample_multi_tc.get_attribute_o 20 11 12 13 = 31 ∧
    optimize_call_target sample_multi_tc 9 sample_arg_info = 31 := by
  decide

/-! ### C30: the slot load of a resolved target -/

/-- `optimize_call` is the use of the callee fact, then the insertion of the slot load, then
the pointing of the call at a specialization. -/
theorem optimize_call_eq (tc : MVMThreadContext) (g : MVMSpeshGraph) (bb ins callee_idx : Nat)
    (arg_info : MVMSpeshCallInfo) :
    optimize_call tc g bb ins callee_idx arg_info
      = if has_flag ((MVM_spesh_get_and_use_facts tc g ((g.ins ins).operand callee_idx)).2.facts_at
            (MVM_spesh_get_and_use_facts tc g ((g.ins ins).operand callee_idx)).1).flags
            MVM_SPESH_FACT_KNOWN_VALUE then
          match optimize_call_insert tc
              (MVM_spesh_get_and_use_facts tc g ((g.ins ins).operand callee_idx)).2 bb ins
              callee_idx arg_info
              ((MVM_spesh_get_and_use_facts tc g ((g.ins ins).operand callee_idx)).2.facts_at
                (MVM_spesh_get_and_use_facts tc g ((g.ins ins).operand callee_idx)).1).value
              (optimize_call_target tc
                ((MVM_spesh_get_and_use_facts tc g ((g.ins ins).operand callee_idx)).2.facts_at
                  (MVM_spesh_get_and_use_facts tc g ((g.ins ins).operand callee_idx)).1).value
                arg_info) with
          | Except.error e => Except.error e
          | Except.ok g1 =>
            optimize_call_point tc g1 bb ins arg_info
              (optimize_call_target tc
                ((MVM_spesh_get_and_use_facts tc g ((g.ins ins).operand callee_idx)).2.facts_at
                  (MVM_spesh_get_and_use_facts tc g ((g.ins ins).operand callee_idx)).1).value
                arg_info)
        else Except.ok (MVM_spesh_get_and_use_facts tc g ((g.ins ins).operand callee_idx)).2 :=
  rfl

/-- The instruction before `pa` in a list without repetition. -/
theorem list_prev_concat (pa p : Nat) (l1 l2 : List Nat) (h : pa ∉ l1 ++ [p]) :
    list_prev pa (l1 ++ p :: pa :: l2) = some p := by
  induction l1 with
  | nil =>
    have hp : ¬ p = pa := fun e => h (by simp [e])
    simp [list_prev, hp]
  | cons q rest ih =>
    have hq : ¬ q = pa := fun e => h (by simp [e])
    have hrest : pa ∉ rest ++ [p] := fun e => h (by simp at e ⊢; tauto)
    have hh : ¬ (rest ++ p :: pa :: l2).head? = some pa := by
      cases rest with
      | nil =>
        have hp : ¬ p = pa := fun e => h (by simp [e])
        simpa using hp
      | cons r rest2 =>
        have hr : ¬ r = pa := fun e => h (by simp [e])
        simpa using hr
    show (if q = pa then none
      else if (rest ++ p :: pa :: l2).head? = some pa then some q
      else list_prev pa (rest ++ p :: pa :: l2)) = some p
    rw [if_neg hq, if_neg hh, ih hrest]

/-- Insertion after an instruction that occurs once. -/
theorem insert_after_concat (p x : Nat) (l1 rest : List Nat) (h : p ∉ l1) :
    insert_after p x (l1 ++ p :: rest) = l1 ++ p :: x :: rest := by
  induction l1 with
  | nil => simp [insert_after]
  | cons q l ih =>
    have hq : ¬ q = p := fun e => h (by simp [e])
    have hl : p ∉ l := fun e => h (by simp [e])
    simp [insert_after, hq, ih hl]

/-- Insertion after `pa->prev`, or first when `pa` has no predecessor, puts the new
instruction right before `pa` and keeps every other instruction in place. -/
theorem insert_before_spec (tc : MVMThreadContext) (g : MVMSpeshGraph) (bb pa x : Nat)
    (l1 l2 : List Nat) (hl : (g.bbs bb).ins = l1 ++ pa :: l2) (hnd : (g.bbs bb).ins.Nodup) :
    ((MVM_spesh_manipulate_insert_ins tc g bb (list_prev pa (g.bbs bb).ins) x).bbs bb).ins
      = l1 ++ x :: pa :: l2 := by
  rw [hl] at hnd
  rcases List.eq_nil_or_concat l1 with h | ⟨l, p, h⟩
  · subst h
    simp [hl, list_prev, MVM_spesh_manipulate_insert_ins]
  · rw [List.concat_eq_append] at h
    subst h
    have hpa : pa ∉ l ++ [p] := by
      intro hmem
      have := List.nodup_append.1 hnd
      exact this.2.2 hmem (List.mem_cons_self _ _)
    have hp : p ∉ l := by
      have h1 := (List.nodup_append.1 hnd).1
      have h2 := List.nodup_append.1 h1
      intro hmem
      exact h2.2.2 hmem (List.mem_singleton_self _)
    have e : l ++ [p] ++ pa :: l2 = l ++ p :: pa :: l2 := by simp
    rw [hl, e, list_prev_concat pa p l l2 hpa]
    simp [MVM_spesh_manipulate_insert_ins, hl, insert_after_concat p x l (pa :: l2) hp]

/-- The insertion block of `optimize_call`, field by field. -/
theorem optimize_call_insert_spec (tc : MVMThreadContext) (g : MVMSpeshGraph)
    (bb ins callee_idx : Nat) (arg_info : MVMSpeshCallInfo) (code target pa : Nat)
    (l1 l2 : List Nat) (hpa : arg_info.prepargs_ins = some pa)
    (hl : (g.bbs bb).ins = l1 ++ pa :: l2) (hnd : (g.bbs bb).ins.Nodup) :
    (target ≠ 0 → target ≠ code → tc.is_compiler_stub target = false →
      ∃ g1, optimize_call_insert tc g bb ins callee_idx arg_info code target = Except.ok g1 ∧
        g1.spesh_slots = g.spesh_slots ++ [target] ∧
        (g1.bbs bb).ins = l1 ++ g.ins_alloc :: pa :: l2 ∧
        (∀ b, b ≠ bb → g1.bbs b = g.bbs b) ∧
        g1.ins g.ins_alloc
          = { info := tc.MVM_op_get_op MVM_OP_sp_getspeshslot,
              operands := [(g.ins ins).operand callee_idx,
                MVMSpeshOperand.lit_i16 (to_int16 g.spesh_slots.length)],
              annotations := [] } ∧
        (∀ q, q ≠ g.ins_alloc → g1.ins q = g.ins q) ∧
        g1.facts = g.facts ∧ g1.log_guards = g.log_guards) ∧
    (target = 0 ∨ target = code ∨ tc.is_compiler_stub target = true →
      optimize_call_insert tc g bb ins callee_idx arg_info code target = Except.ok g) := by
  constructor
  · intro h1 h2 h3
    have hbb : ((MVM_spesh_add_spesh_slot tc (MVM_spesh_alloc_ins tc g).2 target).2.set_ins
        g.ins_alloc
        { info := tc.MVM_op_get_op MVM_OP_sp_getspeshslot,
          operands := [(g.ins ins).operand callee_idx,
            MVMSpeshOperand.lit_i16 (to_int16 g.spesh_slots.length)],
          annotations := [] }).bbs = g.bbs := by
      simp [MVM_spesh_alloc_ins]
    have e : optimize_call_insert tc g bb ins callee_idx arg_info code target
        = Except.ok (MVM_spesh_manipulate_insert_ins tc
            ((MVM_spesh_add_spesh_slot tc (MVM_spesh_alloc_ins tc g).2 target).2.set_ins
              g.ins_alloc
              { info := tc.MVM_op_get_op MVM_OP_sp_getspeshslot,
                operands := [(g.ins ins).operand callee_idx,
                  MVMSpeshOperand.lit_i16 (to_int16 g.spesh_slots.length)],
                annotations := [] }) bb (list_prev pa (g.bbs bb).ins) g.ins_alloc) := by
      unfold optimize_call_insert
      have hc : (decide (target ≠ 0) && decide (target ≠ code) && !tc.is_compiler_stub target)
          = true := by simp [h1, h2, h3]
      rw [if_pos hc, hpa]
      have e2 : (MVM_spesh_alloc_ins tc g).2.spesh_slots = g.spesh_slots := rfl
      have e3 : (MVM_spesh_alloc_ins tc g).2.bbs = g.bbs := rfl
      simp only [alloc_ins_fst, add_spesh_slot_fst, add_spesh_slot_ins, add_spesh_slot_bbs,
        alloc_ins_ins, set_ins_bbs, e2, e3]
    refine ⟨_, e, ?_, ?_, ?_, ?_, ?_, ?_, ?_⟩
    · unfold MVM_spesh_manipulate_insert_ins
      split <;> simp [MVM_spesh_alloc_ins]
    · have h := insert_before_spec tc _ bb pa g.ins_alloc l1 l2
        (show (((MVM_spesh_add_spesh_slot tc (MVM_spesh_alloc_ins tc g).2 target).2.set_ins
          g.ins_alloc
          { info := tc.MVM_op_get_op MVM_OP_sp_getspeshslot,
            operands := [(g.ins ins).operand callee_idx,
              MVMSpeshOperand.lit_i16 (to_int16 g.spesh_slots.length)],
            annotations := [] }).bbs bb).ins = l1 ++ pa :: l2 by rw [hbb]; exact hl)
        (by rw [hbb]; exact hnd)
      rw [hbb] at h
      exact h
    · intro b hb
      unfold MVM_spesh_manipulate_insert_ins
      split <;> simp [MVM_spesh_alloc_ins, hb]
    · simp [MVM_spesh_alloc_ins]
    · intro q hq
      simp [MVM_spesh_alloc_ins, hq]
    · simp [MVM_spesh_alloc_ins]
    · unfold MVM_spesh_manipulate_insert_ins
      split <;> simp [MVM_spesh_alloc_ins]
  · intro h
    rcases h with h | h | h <;> simp [optimize_call_insert, h]

/-- The pointing of a call at a specialization, when the inliner grants no inline graph and
the opcode is one of the five `invoke_*`: the call returns, and neither the blocks nor the
spesh-slot table nor any other instruction changes. -/
theorem optimize_call_point_frame (tc : MVMThreadContext) (g : MVMSpeshGraph) (bb ins : Nat)
    (arg_info : MVMSpeshCallInfo) (target : Nat)
    (hop : (g.ins ins).info.opcode = MVM_OP_invoke_v ∨ (g.ins ins).info.opcode = MVM_OP_invoke_i ∨
      (g.ins ins).info.opcode = MVM_OP_invoke_n ∨ (g.ins ins).info.opcode = MVM_OP_invoke_s ∨
      (g.ins ins).info.opcode = MVM_OP_invoke_o)
    (hinl : ∀ g1 k, tc.MVM_spesh_inline_try_get_graph g1 target k = none) :
    ∃ g1, optimize_call_point tc g bb ins arg_info target = Except.ok g1 ∧
      g1.bbs = g.bbs ∧ g1.spesh_slots = g.spesh_slots ∧ ∀ q, q ≠ ins → g1.ins q = g.ins q := by
  unfold optimize_call_point
  by_cases ht : target ≠ 0
  · by_cases hc : try_find_spesh_candidate tc g target arg_info ≥ 0
    · simp only [ht, hc, hinl, if_true, ne_eq, not_false_eq_true]
      rcases hop with hop | hop | hop | hop | hop
      · simp only [hop, if_true]
        exact ⟨_, rfl, rfl, rfl, fun q hq => by
          simp [MVMSpeshGraph.set_info, MVMSpeshGraph.set_operands, hq]⟩
      all_goals
        simp only [hop, MVMSpeshGraph.set_operands, set_ins_ins, if_true]
        exact ⟨_, rfl, rfl, rfl, fun q hq => by
          simp [MVMSpeshGraph.set_info, MVMSpeshGraph.set_operands, hq]⟩
    · simp only [ht, hc, if_true, if_false, ne_eq, not_false_eq_true]
      exact ⟨g, rfl, rfl, rfl, fun _ _ => rfl⟩
  · simp only [ht, if_false]
    exact ⟨g, rfl, rfl, rfl, fun _ _ => rfl⟩

/-- What `optimize_call` does to the blocks and the spesh-slot table for a known callee, when
the `prepargs` of the call info is in the block and the inliner grants no inline graph. -/
theorem optimize_call_slot_load (tc : MVMThreadContext) (g : MVMSpeshGraph)
    (bb ins callee_idx : Nat) (arg_info : MVMSpeshCallInfo) (pa : Nat) (l1 l2 : List Nat)
    (code target : Nat) (hins : ins ≠ g.ins_alloc)
    (hop : (g.ins ins).info.opcode = MVM_OP_invoke_v ∨ (g.ins ins).info.opcode = MVM_OP_invoke_i ∨
      (g.ins ins).info.opcode = MVM_OP_invoke_n ∨ (g.ins ins).info.opcode = MVM_OP_invoke_s ∨
      (g.ins ins).info.opcode = MVM_OP_invoke_o)
    (hkv : has_flag (g.facts_at (((g.ins ins).operand callee_idx).get_reg tc)).flags
      MVM_SPESH_FACT_KNOWN_VALUE = true)
    (hcode : (g.facts_at (((g.ins ins).operand callee_idx).get_reg tc)).value = code)
    (htarget : optimize_call_target tc code arg_info = target)
    (hpa : arg_info.prepargs_ins = some pa)
    (hl : (g.bbs bb).ins = l1 ++ pa :: l2) (hnd : (g.bbs bb).ins.Nodup)
    (hinl : ∀ g1 k, tc.MVM_spesh_inline_try_get_graph g1 target k = none) :
    ∃ g', optimize_call tc g bb ins callee_idx arg_info = Except.ok g' ∧
      (target ≠ 0 → target ≠ code → tc.is_compiler_stub target = false →
        g'.spesh_slots = g.spesh_slots ++ [target] ∧
        (g'.bbs bb).ins = l1 ++ g.ins_alloc :: pa :: l2 ∧
        (∀ b, b ≠ bb → g'.bbs b = g.bbs b) ∧
        g'.ins g.ins_alloc
          = { info := tc.MVM_op_get_op MVM_OP_sp_getspeshslot,
              operands := [(g.ins ins).operand callee_idx,
                MVMSpeshOperand.lit_i16 (to_int16 g.spesh_slots.length)],
              annotations := [] }) ∧
      (target = 0 ∨ target = code ∨ tc.is_compiler_stub target = true →
        g'.spesh_slots = g.spesh_slots ∧ g'.bbs = g.bbs) := by
  have hfa : (MVM_spesh_get_and_use_facts tc g ((g.ins ins).operand callee_idx)).2.facts_at
      (MVM_spesh_get_and_use_facts tc g ((g.ins ins).operand callee_idx)).1
      = g.facts_at (((g.ins ins).operand callee_idx).get_reg tc) := by
    simp [MVMSpeshGraph.facts_at]
  obtain ⟨G, hG⟩ : ∃ G, (MVM_spesh_get_and_use_facts tc g ((g.ins ins).operand callee_idx)).2 = G :=
    ⟨_, rfl⟩
  have gb : G.bbs = g.bbs := by rw [← hG]; simp
  have gi : G.ins = g.ins := by rw [← hG]; simp
  have gs : G.spesh_slots = g.spesh_slots := by rw [← hG]; simp
  have ga : G.ins_alloc = g.ins_alloc := by rw [← hG]; simp
  rw [optimize_call_eq]
  simp only [hfa, hkv, hcode, htarget, if_true]
  simp only [hG]
  have hspec := optimize_call_insert_spec tc G bb ins callee_idx arg_info code target pa l1 l2
    hpa (by rw [gb]; exact hl) (by rw [gb]; exact hnd)
  by_cases hyes : target ≠ 0 ∧ target ≠ code ∧ tc.is_compiler_stub target = false
  · obtain ⟨g1, e1, s1, s2, s3, s4, s5, _, _⟩ := hspec.1 hyes.1 hyes.2.1 hyes.2.2
    have hi1 : g1.ins ins = g.ins ins := by
      rw [s5 ins (by rw [ga]; exact hins), gi]
    obtain ⟨g2, e2, p1, p2, p3⟩ := optimize_call_point_frame tc g1 bb ins arg_info target
      (by rw [hi1]; exact hop) hinl
    rw [e1]
    refine ⟨g2, e2, fun _ _ _ => ⟨?_, ?_, ?_, ?_⟩, fun hno => ?_⟩
    · rw [p2, s1, gs]
    · rw [p1, s2, ga]
    · intro b hb; rw [p1, s3 b hb, gb]
    · rw [p3 _ (fun e => hins e.symm), ← ga, s4, gi, gs]
    · exfalso
      rcases hno with h | h | h
      · exact hyes.1 h
      · exact hyes.2.1 h
      · rw [hyes.2.2] at h; cases h
  · have hno : target = 0 ∨ target = code ∨ tc.is_compiler_stub target = true := by
      by_cases h1 : target = 0
      · exact Or.inl h1
      · by_cases h2 : target = code
        · exact Or.inr (Or.inl h2)
        · refine Or.inr (Or.inr ?_)
          cases h3 : tc.is_compiler_stub target
          · exact absurd ⟨h1, h2, h3⟩ hyes
          · rfl
    rw [hspec.2 hno]
    obtain ⟨g2, e2, p1, p2, _⟩ := optimize_call_point_frame tc G bb ins arg_info target
      (by rw [gi]; exact hop) hinl
    refine ⟨g2, e2, fun h1 h2 h3 => absurd ⟨h1, h2, h3⟩ hyes, fun _ => ⟨?_, ?_⟩⟩
    · rw [p2, gs]
    · rw [p1, gb]

/-- C30, as amended: for an `invoke_*` with a callee of known value, the `prepargs` of the
call info in the block and no inline graph granted, `optimize_call` returns; when it resolves
a target that differs from the known value and is not a compiler stub, the target is
appended to the spesh-slot table and one new `sp_getspeshslot callee_reg, s` is inserted, `s`
being the index of the new slot converted to `MVMint16` (the index itself when the table held
fewer than 32768 entries), so that it immediately precedes the `prepargs` and every other
instruction of the block keeps its place, `prepargs`, `arg*` and `invoke` staying contiguous;
when the target is unresolved, equal to the known value, or a compiler stub, no instruction
is inserted and no slot is added. -/
theorem C30_slot_load_before_prepargs (tc : MVMThreadContext) (g : MVMSpeshGraph)
    (bb ins callee_idx : Nat) (arg_info : MVMSpeshCallInfo) (pa : Nat) (l1 l2 : List Nat)
    (code target : Nat) (hins : ins ≠ g.ins_alloc)
    (hop : (g.ins ins).info.opcode = MVM_OP_invoke_v ∨ (g.ins ins).info.opcode = MVM_OP_invoke_i ∨
      (g.ins ins).info.opcode = MVM_OP_invoke_n ∨ (g.ins ins).info.opcode = MVM_OP_invoke_s ∨
      (g.ins ins).info.opcode = MVM_OP_invoke_o)
    (hkv : has_flag (g.facts_at (((g.ins ins).operand callee_idx).get_reg tc)).flags
      MVM_SPESH_FACT_KNOWN_VALUE = true)
    (hcode : (g.facts_at (((g.ins ins).operand callee_idx).get_reg tc)).value = code)
    (htarget : optimize_call_target tc code arg_info = target)
    (hpa : arg_info.prepargs_ins = some pa)
    (hl : (g.bbs bb).ins = l1 ++ pa :: l2) (hnd : (g.bbs bb).ins.Nodup)
    (hfresh : g.ins_alloc ∉ (g.bbs bb).ins)
    (hinl : ∀ g1 k, tc.MVM_spesh_inline_try_get_graph g1 target k = none) :
    ∃ g', optimize_call tc g bb ins callee_idx arg_info = Except.ok g' ∧
      (target ≠ 0 → target ≠ code → tc.is_compiler_stub target = false →
        g'.spesh_slots = g.spesh_slots ++ [target] ∧
        g'.spesh_slots.get? g.spesh_slots.length = some target ∧
        (g'.bbs bb).ins = l1 ++ g.ins_alloc :: pa :: l2 ∧
        list_prev pa (g'.bbs bb).ins = some g.ins_alloc ∧
        list_next g.ins_alloc (g'.bbs bb).ins = some pa ∧
        (∀ b, b ≠ bb → g'.bbs b = g.bbs b) ∧
        g'.ins g.ins_alloc
          = { info := tc.MVM_op_get_op MVM_OP_sp_getspeshslot,
              operands := [(g.ins ins).operand callee_idx,
                MVMSpeshOperand.lit_i16 (to_int16 g.spesh_slots.length)],
              annotations := [] } ∧
        (g.spesh_slots.length < 32768 →
          to_int16 g.spesh_slots.length = (g.spesh_slots.length : Int))) ∧
      (target = 0 ∨ target = code ∨ tc.is_compiler_stub target = true →
        g'.spesh_slots = g.spesh_slots ∧ g'.bbs = g.bbs) := by
  obtain ⟨g', e, hyes, hno⟩ := optimize_call_slot_load tc g bb ins callee_idx arg_info pa l1 l2
    code target hins hop hkv hcode htarget hpa hl hnd hinl
  refine ⟨g', e, fun h1 h2 h3 => ?_, hno⟩
  obtain ⟨s1, s2, s3, s4⟩ := hyes h1 h2 h3
  rw [hl] at hnd hfresh
  have hpa1 : pa ∉ l1 := fun hm =>
    (List.nodup_append.1 hnd).2.2 hm (List.mem_cons_self _ _)
  have hne : ¬ g.ins_alloc = pa := fun e => hfresh (by simp [e])
  have hn1 : g.ins_alloc ∉ l1 := fun hm => hfresh (by simp [hm])
  refine ⟨s1, ?_, s2, ?_, ?_, s3, s4, to_int16_of_lt _⟩
  · rw [s1, List.get?_eq_getElem?, List.getElem?_append_right (le_refl _)]; simp
  · rw [s2]
    apply list_prev_concat
    intro hm
    rcases List.mem_append.1 hm with h | h
    · exact hpa1 h
    · exact hne (List.mem_singleton.1 h).symm
  · rw [s2]
    have : ∀ l : List Nat, g.ins_alloc ∉ l →
        list_next g.ins_alloc (l ++ g.ins_alloc :: pa :: l2) = some pa := by
      intro l
      induction l with
      | nil => intro _; simp [list_next]
      | cons q rest ih =>
        intro hq
        have hq1 : ¬ q = g.ins_alloc := fun e => hq (by simp [e])
        have hq2 : g.ins_alloc ∉ rest := fun hm => hq (by simp [hm])
        simp [list_next, hq1, ih hq2]
    exact this l1 hn1

/-- C30, witness: the second call of `g_two_calls`, whose callee `r5` holds the object `9`
that resolves to the code object `31`: the slot table gets `31`, and the new instruction 6,
`sp_getspeshslot r5, 0`, stands right before the `prepargs` at 3. -/
theorem C30_slot_load_before_prepargs_witness :
    ∃ g', optimize_call sample_multi_tc g_two_calls 0 5 1 second_arg_info = Except.ok g' ∧
      g'.spesh_slots = [31] ∧
      (g'.bbs 0).ins = [0, 1, 2, 6, 3, 4, 5] ∧
      g'.ins 6
        = { info := sample_op_info MVM_OP_sp_getspeshslot,
            operands := [MVMSpeshOperand.reg 5 0, MVMSpeshOperand.lit_i16 0],
            annotations := [] } :=
  match C30_slot_load_before_prepargs sample_multi_tc g_two_calls 0 5 1 second_arg_info 3
    [0, 1, 2] [4, 5] 9 31 (by decide) (by decide) (by decide) rfl (by decide) rfl rfl
    (by decide) (by decide) (fun _ _ => rfl) with
  | ⟨g', e, hyes, _⟩ =>
    ⟨g', e, (hyes (by decide) (by decide) rfl).1, (hyes (by decide) (by decide) rfl).2.2.1,
      (hyes (by decide) (by decide) rfl).2.2.2.2.2.2.1⟩

/-- C30, counterexample: with 32768 entries already in the slot table the resolved target
`31` is stored at the index 32768, while the inserted instruction is
`sp_getspeshslot r5, -32768`. -/
theorem C30_counterexample_slot_index_wraps :
    ∃ g', optimize_call sample_multi_tc (g_two_calls_slots (List.replicate 32768 0)) 0 5 1
        second_arg_info = Except.ok g' ∧
      g'.spesh_slots = List.replicate 32768 0 ++ [31] ∧
      (List.replicate 32768 0 ++ [31]).get? 32768 = some 31 ∧
      (g'.bbs 0).ins = [0, 1, 2, 6, 3, 4, 5] ∧
      g'.ins 6
        = { info := sample_op_info MVM_OP_sp_getspeshslot,
            operands := [MVMSpeshOperand.reg 5 0, MVMSpeshOperand.lit_i16 (-32768)],
            annotations := [] } ∧
      MVMSpeshOperand.lit_i16 (-32768) ≠ MVMSpeshOperand.lit_i16 32768 :=
  match optimize_call_slot_load sample_multi_tc (g_two_calls_slots (List.replicate 32768 0)) 0 5 1
    second_arg_info 3 [0, 1, 2] [4, 5] 9 31 (by decide) (Or.inr (Or.inr (Or.inr (Or.inr rfl))))
    rfl rfl (by decide) rfl rfl (by decide) (fun _ _ => rfl) with
  | ⟨g', e, hyes, _⟩ =>
    ⟨g', e, (hyes (by decide) (by decide) rfl).1,
      (fun (l : List Nat) (n : Nat) (hl : l.length = n) =>
        show (l ++ [31]).get? n = some 31 by subst hl; simp) _ _ (List.length_replicate _ _),
      (hyes (by decide) (by decide) rfl).2.1,
      (hyes (by decide) (by decide) rfl).2.2.2.trans
        (by
          show ({ info := sample_op_info MVM_OP_sp_getspeshslot,
                  operands := [MVMSpeshOperand.reg 5 0,
                    MVMSpeshOperand.lit_i16
                      (to_int16 ((List.replicate 32768 0).length : Nat))],
                  annotations := [] } : MVMSpeshIns) = _
          rw [List.length_replicate]; rfl),
      by decide⟩

/-! ### C39: the boolification of a string -/

/-- What `MVM_coerce_istrue_s` returns is 0 or 1. -/
theorem coerce_istrue_s_zero_or_one (str : Option MVMString) :
    MVM_coerce_istrue_s str = 0 ∨ MVM_coerce_istrue_s str = 1 := by
  cases str with
  | none => simp [MVM_coerce_istrue_s]
  | some s =>
    simp only [MVM_coerce_istrue_s]
    split
    · exact Or.inl rfl
    · exact Or.inr rfl

/-- C39: `MVM_coerce_istrue_s` returns 0 exactly when the string is null, is a type object, has
no grapheme, or is the single codepoint 48; it returns 1 for every other string; and what it
returns is always 0 or 1. -/
theorem C39_coerce_istrue_s (str : Option MVMString) :
    (MVM_coerce_istrue_s str = 0 ↔
      str = none ∨ ∃ s, str = some s ∧
        (s.is_concrete = false ∨ s.graphs.length = 0 ∨ s.graphs = [48])) ∧
    (MVM_coerce_istrue_s str = 1 ↔
      ∃ s, str = some s ∧ s.is_concrete = true ∧ s.graphs.length ≠ 0 ∧ s.graphs ≠ [48]) ∧
    (MVM_coerce_istrue_s str = 0 ∨ MVM_coerce_istrue_s str = 1) := by
  cases str with
  | none => simp [MVM_coerce_istrue_s]
  | some s =>
    obtain ⟨c, l⟩ := s
    cases c <;> rcases l with _ | ⟨a, _ | ⟨b, rest⟩⟩ <;> simp [MVM_coerce_istrue_s]
    by_cases h : a = 48 <;> simp [h]

/-! ### C40: the boolification of an object -/

/-- C40: `MVM_coerce_istrue` returns 0 for a null object and for every type object whose
mode is one of the six handled ones; whenever it returns, it returns 0 or 1; it returns 1 for
every concrete object in not-type-object mode, which is also the mode of a type without
boolification spec; and it throws exactly when the object is non-null and either its mode is
none of the six handled ones, the message then being "Invalid boolification spec mode used",
or it is a concrete object in iter mode whose iteration mode is neither array nor hash, the
message then being "Invalid iteration mode used". -/
theorem C40_coerce_istrue (obj : Option MVMObject) :
    MVM_coerce_istrue none = Except.ok 0 ∧
    (∀ o, obj = some o → o.is_concrete = false → handled_bool_mode (effective_bool_mode o) = true →
      MVM_coerce_istrue obj = Except.ok 0) ∧
    (∀ v, MVM_coerce_istrue obj = Except.ok v → v = 0 ∨ v = 1) ∧
    (∀ o, obj = some o → o.is_concrete = true →
      effective_bool_mode o = MVM_BOOL_MODE_NOT_TYPE_OBJECT →
      MVM_coerce_istrue obj = Except.ok 1) ∧
    (∀ o, obj = some o → o.boolification_spec = none →
      effective_bool_mode o = MVM_BOOL_MODE_NOT_TYPE_OBJECT) ∧
    ((∃ message, MVM_coerce_istrue obj = Except.error (Thrown.adhoc message)) ↔
      ∃ o, obj = some o ∧
        (handled_bool_mode (effective_bool_mode o) = false ∨
          (effective_bool_mode o = MVM_BOOL_MODE_ITER ∧ o.is_concrete = true ∧
            o.iter_mode ≠ MVM_ITER_MODE_ARRAY ∧ o.iter_mode ≠ MVM_ITER_MODE_HASH))) ∧
    (∀ o, obj = some o → handled_bool_mode (effective_bool_mode o) = false →
      MVM_coerce_istrue obj
        = Except.error (Thrown.adhoc "Invalid boolification spec mode used")) ∧
    (∀ o, obj = some o → effective_bool_mode o = MVM_BOOL_MODE_ITER → o.is_concrete = true →
      o.iter_mode ≠ MVM_ITER_MODE_ARRAY → o.iter_mode ≠ MVM_ITER_MODE_HASH →
      MVM_coerce_istrue obj = Except.error (Thrown.adhoc "Invalid iteration mode used")) := by
  have hs := coerce_istrue_s_zero_or_one
  cases obj with
  | none => simp [MVM_coerce_istrue]
  | some o =>
    obtain ⟨bs, c, gi, gn, gs, im, ai, al, hn⟩ := o
    refine ⟨rfl, ?_, ?_, ?_, ?_, ?_, ?_, ?_⟩
    · intro o ho hc hm
      cases ho
      cases bs with
      | none => simp_all [MVM_coerce_istrue]
      | some mode =>
        cases mode <;> simp_all [MVM_coerce_istrue, handled_bool_mode, effective_bool_mode]
    · intro v hv
      rcases bs with _ | mode
      · simp only [MVM_coerce_istrue] at hv
        injection hv with hv
        subst hv
        split <;> simp
      · cases mode <;> cases c <;> cases im <;> rcases gs with _ | s <;>
          simp [MVM_coerce_istrue] at hv <;>
          subst hv <;>
          first
            | (split <;> simp)
            | exact hs _
            | simp
    · intro o ho hc hm
      cases ho
      rcases bs with _ | mode
      · simp_all [MVM_coerce_istrue]
      · cases mode <;> simp_all [MVM_coerce_istrue, effective_bool_mode]
    · intro o ho hb
      cases ho
      simp_all [effective_bool_mode]
    · constructor
      · rintro ⟨message, hm⟩
        refine ⟨_, rfl, ?_⟩
        rcases bs with _ | mode
        · simp [MVM_coerce_istrue] at hm
        · cases mode <;> cases c <;> cases im <;> rcases gs with _ | s <;>
            simp [MVM_coerce_istrue, handled_bool_mode, effective_bool_mode] at hm ⊢
      · rintro ⟨o, ho, h⟩
        cases ho
        rcases bs with _ | mode
        · simp [handled_bool_mode, effective_bool_mode] at h
        · cases mode <;> cases c <;> cases im <;>
            simp [MVM_coerce_istrue, handled_bool_mode, effective_bool_mode] at h ⊢
    · intro o ho hm
      cases ho
      rcases bs with _ | mode
      · simp [handled_bool_mode, effective_bool_mode] at hm
      · cases mode <;> simp [MVM_coerce_istrue, handled_bool_mode, effective_bool_mode] at hm ⊢
    · intro o ho hm hc h1 h2
      cases ho
      rcases bs with _ | mode
      · simp [effective_bool_mode] at hm
      · cases mode <;> cases im <;>
          simp_all [MVM_coerce_istrue, effective_bool_mode]

/-- C40, witness: a type object in unbox-int mode gives 0, a concrete object without
boolification spec gives 1, and a concrete iterator of another iteration mode throws. -/
theorem C40_coerce_istrue_witness :
    MVM_coerce_istrue (some (sample_object (some MVM_BOOL_MODE_UNBOX_INT) false))
      = Except.ok 0 ∧
    MVM_coerce_istrue (some (sample_object none true)) = Except.ok 1 ∧
    MVM_coerce_istrue (some (sample_object (some MVM_BOOL_MODE_ITER) true))
      = Except.error (Thrown.adhoc "Invalid iteration mode used") :=
  ⟨(C40_coerce_istrue (some (sample_object (some MVM_BOOL_MODE_UNBOX_INT) false))).2.1
      _ rfl rfl rfl,
   (C40_coerce_istrue (some (sample_object none true))).2.2.2.1 _ rfl rfl rfl,
   (C40_coerce_istrue (some (sample_object (some MVM_BOOL_MODE_ITER) true))).2.2.2.2.2.2.2
      _ rfl rfl rfl (by decide) (by decide)⟩

/-! ### C34: a rewriter whose fact precondition fails changes nothing -/

/-- A flag word that has neither of two masks has none of their union. -/
theorem has_flag_or_false (a m1 m2 : Nat) (h1 : has_flag a m1 = false)
    (h2 : has_flag a m2 = false) : has_flag a (m1 ||| m2) = false := by
  rw [has_flag_or, h1, h2]; rfl

/-- What `optimize_coerce` does not bail on: a known value of `0` is converted like any
other, the instruction becoming `const_n64`. -/
theorem optimize_coerce_known_zero (tc : MVMThreadContext) (g : MVMSpeshGraph) (bb ins : Nat)
    (hk : has_flag (g.facts_at (MVM_spesh_get_facts tc g ((g.ins ins).operand 1))).flags
      MVM_SPESH_FACT_KNOWN_VALUE = true) :
    ((optimize_coerce tc g bb ins).ins ins).info = tc.MVM_op_get_op MVM_OP_const_n64 := by
  simp [optimize_coerce, hk, MVMSpeshGraph.set_facts_at, MVMSpeshGraph.set_info,
    MVMSpeshGraph.set_operand, MVMSpeshGraph.set_ins]

/-- C34: each of the six rewriters returns the graph it was given, which holds the
instruction, the instruction list and the successors of every block, every fact record with
its usages counter, the `used` flag of every log guard and the spesh-slot table, when the
fact precondition of its rewrite fails: `optimize_iffy` when the flag has no `KNOWN_VALUE`,
or when the op is `if_o` or `unless_o` and the boolification mode of the known object is
call-method; `optimize_isconcrete` when the object has neither `CONCRETE` nor `TYPEOBJ`;
`optimize_objprimspec` when the object has no `KNOWN_TYPE`; `optimize_hllize` when the object
has no `KNOWN_TYPE`, or its type has another HLL owner than the compilation unit;
`optimize_coerce` when the source has no `KNOWN_VALUE`; `optimize_assertparamcheck` when the
operand has no `KNOWN_VALUE`, or has the known value `0`. -/
theorem C34_bail_leaves_everything_untouched (tc : MVMThreadContext) (g : MVMSpeshGraph)
    (ins bb : Nat) :
    (has_flag (g.facts_at (MVM_spesh_get_facts tc g ((g.ins ins).operand 0))).flags
        MVM_SPESH_FACT_KNOWN_VALUE = false →
      optimize_iffy tc g ins bb = g) ∧
    (((g.ins ins).info.opcode = MVM_OP_if_o ∨ (g.ins ins).info.opcode = MVM_OP_unless_o) →
      tc.boolification_mode (tc.STABLE
          (g.facts_at (MVM_spesh_get_facts tc g ((g.ins ins).operand 0))).value)
        = some MVM_BOOL_MODE_CALL_METHOD →
      optimize_iffy tc g ins bb = g) ∧
    (has_flag (g.facts_at (MVM_spesh_get_facts tc g ((g.ins ins).operand 1))).flags
        MVM_SPESH_FACT_CONCRETE = false →
      has_flag (g.facts_at (MVM_spesh_get_facts tc g ((g.ins ins).operand 1))).flags
        MVM_SPESH_FACT_TYPEOBJ = false →
      optimize_isconcrete tc g ins = g) ∧
    (has_flag (g.facts_at (MVM_spesh_get_facts tc g ((g.ins ins).operand 1))).flags
        MVM_SPESH_FACT_KNOWN_TYPE = false →
      optimize_objprimspec tc g ins = g ∧ optimize_hllize tc g ins = g) ∧
    (tc.hll_owner (tc.STABLE
          (g.facts_at (MVM_spesh_get_facts tc g ((g.ins ins).operand 1))).type)
        ≠ g.sf.hll_config →
      optimize_hllize tc g ins = g) ∧
    (has_flag (g.facts_at (MVM_spesh_get_facts tc g ((g.ins ins).operand 1))).flags
        MVM_SPESH_FACT_KNOWN_VALUE = false →
      optimize_coerce tc g bb ins = g) ∧
    (has_flag (g.facts_at (MVM_spesh_get_facts tc g ((g.ins ins).operand 0))).flags
        MVM_SPESH_FACT_KNOWN_VALUE = false ∨
      value_i64 (g.facts_at (MVM_spesh_get_facts tc g ((g.ins ins).operand 0))).value = 0 →
      optimize_assertparamcheck tc g bb ins = g) := by
  refine ⟨?_, ?_, ?_, ?_, ?_, ?_, ?_⟩
  · intro h
    unfold optimize_iffy
    cases iffy_negated_op (g.ins ins).info.opcode <;> simp [h]
  · intro hop hmode
    unfold optimize_iffy
    cases iffy_negated_op (g.ins ins).info.opcode with
    | none => rfl
    | some n =>
      have ht : iffy_truthvalue tc g (MVM_spesh_get_facts tc g ((g.ins ins).operand 0))
          (g.ins ins).info.opcode = none := by
        rcases hop with hop | hop <;> simp [iffy_truthvalue, hop, hmode]
      simp only [ht]
      split <;> rfl
  · intro h1 h2
    unfold optimize_isconcrete
    simp [has_flag_or_false _ _ _ h1 h2]
  · intro h
    constructor
    · unfold optimize_objprimspec
      simp [h]
    · unfold optimize_hllize
      simp [h]
  · intro h
    unfold optimize_hllize
    simp [h]
  · intro h
    unfold optimize_coerce
    simp [h]
  · intro h
    unfold optimize_assertparamcheck
    rcases h with h | h <;> simp [h]

/-- C34 on graphs of one instruction: operands that carry no fact flag, `if_o` on a known
object with call-method boolification, `hllize` of a type of another HLL, and
`assertparamcheck` of the known value `0`. -/
theorem C34_bail_leaves_everything_untouched_witness :
    optimize_iffy (sample_tc 0) (g_unary MVM_OP_if_i 0) 0 0 = g_unary MVM_OP_if_i 0 ∧
    optimize_iffy sample_bail_tc (g_flag_op MVM_OP_if_o MVM_SPESH_FACT_KNOWN_VALUE 9) 0 0
      = g_flag_op MVM_OP_if_o MVM_SPESH_FACT_KNOWN_VALUE 9 ∧
    optimize_isconcrete (sample_tc 0) (g_unary MVM_OP_isconcrete 0) 0
      = g_unary MVM_OP_isconcrete 0 ∧
    optimize_objprimspec (sample_tc 0) (g_unary MVM_OP_objprimspec 0) 0
      = g_unary MVM_OP_objprimspec 0 ∧
    optimize_hllize (sample_tc 0) (g_unary MVM_OP_hllize 0) 0 = g_unary MVM_OP_hllize 0 ∧
    optimize_hllize sample_bail_tc (g_unary MVM_OP_hllize MVM_SPESH_FACT_KNOWN_TYPE) 0
      = g_unary MVM_OP_hllize MVM_SPESH_FACT_KNOWN_TYPE ∧
    optimize_coerce (sample_tc 0) (g_unary MVM_OP_coerce_in 0) 0 0
      = g_unary MVM_OP_coerce_in 0 ∧
    optimize_assertparamcheck (sample_tc 0) (g_unary MVM_OP_assertparamcheck 0) 0 0
      = g_unary MVM_OP_assertparamcheck 0 ∧
    optimize_assertparamcheck (sample_tc 0)
        (g_flag_op MVM_OP_assertparamcheck MVM_SPESH_FACT_KNOWN_VALUE 0) 0 0
      = g_flag_op MVM_OP_assertparamcheck MVM_SPESH_FACT_KNOWN_VALUE 0 :=
  ⟨(C34_bail_leaves_everything_untouched (sample_tc 0) (g_unary MVM_OP_if_i 0) 0 0).1
      (by decide),
    (C34_bail_leaves_everything_untouched sample_bail_tc
      (g_flag_op MVM_OP_if_o MVM_SPESH_FACT_KNOWN_VALUE 9) 0 0).2.1 (Or.inl rfl) rfl,
    (C34_bail_leaves_everything_untouched (sample_tc 0) (g_unary MVM_OP_isconcrete 0) 0 0).2.2.1
      (by decide) (by decide),
    ((C34_bail_leaves_everything_untouched (sample_tc 0) (g_unary MVM_OP_objprimspec 0)
      0 0).2.2.2.1 (by decide)).1,
    ((C34_bail_leaves_everything_untouched (sample_tc 0) (g_unary MVM_OP_hllize 0)
      0 0).2.2.2.1 (by decide)).2,
    (C34_bail_leaves_everything_untouched sample_bail_tc
      (g_unary MVM_OP_hllize MVM_SPESH_FACT_KNOWN_TYPE) 0 0).2.2.2.2.1 (by decide),
    (C34_bail_leaves_everything_untouched (sample_tc 0) (g_unary MVM_OP_coerce_in 0)
      0 0).2.2.2.2.2.1 (by decide),
    (C34_bail_leaves_everything_untouched (sample_tc 0) (g_unary MVM_OP_assertparamcheck 0)
      0 0).2.2.2.2.2.2 (Or.inl (by decide)),
    (C34_bail_leaves_everything_untouched (sample_tc 0)
      (g_flag_op MVM_OP_assertparamcheck MVM_SPESH_FACT_KNOWN_VALUE 0) 0 0).2.2.2.2.2.2
      (Or.inr (by decide))⟩

/-! ### C31: the throwcat rewrite goes to a goto block of the innermost handler only -/

/-- After handler `h` is picked, the flat search over a stretch of other instructions keeps
it picked; if the stretch carries a goto annotation of `h`, the goto target of `h` ends up
being the block of an instruction of the stretch that carries one, and if it carries none
the goto target of `h` is left as it was. -/
theorem search_flat_picked_first (g : MVMSpeshGraph) (ins : Nat) (found : List Nat) (h : Nat) :
    ∀ (l : List (Nat × Nat)) (st : ThrowcatSearch),
      (∀ x ∈ l, x.2 ≠ ins) → st.picked = some h →
      (throwcat_search_flat g ins found l st).1.picked = some h ∧
      ((∃ x ∈ l, ∃ a ∈ (g.ins x.2).annotations, is_goto_marker h a = true) →
        ∃ x ∈ l, (∃ a ∈ (g.ins x.2).annotations, is_goto_marker h a = true) ∧
          (throwcat_search_flat g ins found l st).1.goto_bbs h = some x.1) ∧
      ((∀ x ∈ l, ∀ a ∈ (g.ins x.2).annotations, is_goto_marker h a = false) →
        (throwcat_search_flat g ins found l st).1.goto_bbs h = st.goto_bbs h) := by
  intro l
  induction l with
  | nil => intro st _ hp; simp [throwcat_search_flat, hp]
  | cons x rest ih =>
    intro st hne hp
    obtain ⟨b, p⟩ := x
    obtain ⟨t1, t2, t3⟩ := track_handlers_picked b h (g.ins p).annotations st hp
    have hpne : p ≠ ins := hne (b, p) (List.mem_cons_self _ _)
    have hrest : ∀ x ∈ rest, x.2 ≠ ins := fun x hx => hne x (List.mem_cons_of_mem _ hx)
    by_cases hex : ∃ a ∈ (g.ins p).annotations, is_goto_marker h a = true
    · obtain ⟨u1, u2⟩ := t2 hex
      have htr : throwcat_track_handlers b (g.ins p).annotations st
          = ((throwcat_track_handlers b (g.ins p).annotations st).1, true) := Prod.ext rfl u1
      have hres : throwcat_search_flat g ins found ((b, p) :: rest) st
          = ((throwcat_track_handlers b (g.ins p).annotations st).1, true) := by
        simp only [throwcat_search_flat]
        rw [htr]
      rw [hres]
      refine ⟨t1, fun _ => ⟨(b, p), List.mem_cons_self _ _, hex, u2⟩, ?_⟩
      intro hall
      obtain ⟨a, ha, hm⟩ := hex
      have := hall (b, p) (List.mem_cons_self _ _) a ha
      rw [hm] at this
      exact absurd this (by simp)
    · have hnone : ∀ a ∈ (g.ins p).annotations, is_goto_marker h a = false := by
        intro a ha
        cases hm : is_goto_marker h a with
        | false => rfl
        | true => exact absurd ⟨a, ha, hm⟩ hex
      obtain ⟨u1, u2⟩ := t3 hnone
      have htr : throwcat_track_handlers b (g.ins p).annotations st
          = ((throwcat_track_handlers b (g.ins p).annotations st).1, false) := Prod.ext rfl u1
      have hres : throwcat_search_flat g ins found ((b, p) :: rest) st
          = throwcat_search_flat g ins found rest
              (throwcat_track_handlers b (g.ins p).annotations st).1 := by
        simp only [throwcat_search_flat]
        rw [htr]
        simp only [hpne, if_false]
      rw [hres]
      obtain ⟨i1, i2, i3⟩ := ih _ hrest t1
      refine ⟨i1, ?_, ?_⟩
      · rintro ⟨x, hx, a, ha, hm⟩
        rcases List.mem_cons.1 hx with hx1 | hx1
        · subst hx1
          have := hnone a ha
          rw [hm] at this
          exact absurd this (by simp)
        · obtain ⟨y, hy, hy1, hy2⟩ := i2 ⟨x, hx1, a, ha, hm⟩
          exact ⟨y, List.mem_cons_of_mem _ hy, hy1, hy2⟩
      · intro hall
        rw [i3 (fun x hx => hall x (List.mem_cons_of_mem _ hx)), u2]

/-- The outcome of the search of `optimize_throwcat` for a throwcat instruction that occurs
once in the chain: the search returns; it picks the first of the handlers found in whose
scope the instruction lies, and none if there is no such handler; the goto target of the
handler picked is the block of an instruction of the chain that carries a goto annotation of
it, and is null if no instruction does. -/
theorem throwcat_search_outcome (g : MVMSpeshGraph) (ins fuel bb : Nat) (found chain : List Nat)
    (pre post : List (Nat × Nat))
    (hchain : linear_chain g fuel (some g.entry) = some chain)
    (hsplit : chain_ins g chain = pre ++ (bb, ins) :: post)
    (hpre : ∀ x ∈ pre, x.2 ≠ ins) (hpost : ∀ x ∈ post, x.2 ≠ ins) :
    ∃ stf, throwcat_search_bb g ins found fuel (some g.entry)
        { in_handlers := fun _ => false, goto_bbs := fun _ => none, picked := none }
          = Except.ok stf ∧
      stf.picked = found.find? (fun k => handler_in_scope
        ((annotations_of g (pre ++ [(bb, ins)])).map fun x => x.2) k) ∧
      ∀ h, stf.picked = some h →
        ((∃ x ∈ chain_ins g chain, ∃ a ∈ (g.ins x.2).annotations, is_goto_marker h a = true) →
          ∃ x ∈ chain_ins g chain,
            (∃ a ∈ (g.ins x.2).annotations, is_goto_marker h a = true) ∧
            stf.goto_bbs h = some x.1) ∧
        ((∀ x ∈ chain_ins g chain, ∀ a ∈ (g.ins x.2).annotations, is_goto_marker h a = false) →
          stf.goto_bbs h = none) := by
  rw [search_bb_eq_flat g ins found fuel _ chain _ hchain, hsplit, search_flat_append]
  obtain ⟨a1, a2, a3⟩ := search_flat_unpicked g ins found pre
    { in_handlers := fun _ => false, goto_bbs := fun _ => none, picked := none } [] hpre rfl
    ⟨fun k => by simp [handler_in_scope], fun k => by simp [last_goto]⟩
  rw [a1]
  simp only [Bool.false_eq_true, if_false]
  refine ⟨_, rfl, ?_⟩
  rw [List.nil_append] at a3
  generalize throwcat_search_flat g ins found pre
    { in_handlers := fun _ => false, goto_bbs := fun _ => none, picked := none } = r0 at a2 a3
  obtain ⟨t1, t2, t3⟩ := track_handlers_unpicked bb (g.ins ins).annotations _
    (annotations_of g pre) a2 a3
  have htr : throwcat_track_handlers bb (g.ins ins).annotations r0.1
      = ((throwcat_track_handlers bb (g.ins ins).annotations r0.1).1, false) :=
    Prod.ext rfl t1
  have hann : annotations_of g pre ++ ((g.ins ins).annotations.map fun a => (bb, a))
      = annotations_of g (pre ++ [(bb, ins)]) := by
    simp [annotations_of]
  rw [hann] at t3
  have hfun : (fun k => (throwcat_track_handlers bb (g.ins ins).annotations r0.1).1.in_handlers k)
      = fun k => handler_in_scope
        ((annotations_of g (pre ++ [(bb, ins)])).map fun x => x.2) k :=
    funext fun k => t3.1 k
  simp only [throwcat_search_flat]
  rw [htr]
  simp only [if_true]
  rw [hfun]
  generalize throwcat_track_handlers bb (g.ins ins).annotations r0.1 = r1 at t2 t3
  cases hf : found.find? (fun k => handler_in_scope
      ((annotations_of g (pre ++ [(bb, ins)])).map fun x => x.2) k) with
  | none =>
    simp only []
    obtain ⟨_, b2, _⟩ := search_flat_unpicked g ins found post r1.1 _ hpost t2 t3
    refine ⟨b2, fun h hh => ?_⟩
    rw [b2] at hh
    cases hh
  | some h =>
    simp only []
    have hgo := t3.2 h
    by_cases hg : (r1.1.goto_bbs h).isSome = true
    · simp only [hg, if_true]
      refine ⟨trivial, fun h' hh' => ?_⟩
      have e : h' = h := by
        have : some h = some h' := hh'
        injection this with this
        exact this.symm
      subst e
      obtain ⟨b0, hb0⟩ := Option.isSome_iff_exists.1 hg
      obtain ⟨y, hy, hy1, hy2⟩ := last_goto_some _ h' b0 (hgo ▸ hb0)
      obtain ⟨x, hx, hx1, hx2⟩ := (mem_annotations_of g _ y).1 hy
      have hxc : x ∈ pre ++ (bb, ins) :: post := by
        rcases List.mem_append.1 hx with hx' | hx'
        · exact List.mem_append_left _ hx'
        · rw [List.mem_singleton] at hx'
          exact List.mem_append_right _ (hx' ▸ List.mem_cons_self _ _)
      refine ⟨fun _ => ⟨x, hxc, ⟨y.2, hx2, hy2⟩, ?_⟩, fun hall => ?_⟩
      · show r1.1.goto_bbs h' = some x.1
        rw [hb0, hx1, hy1]
      · have := hall x hxc y.2 hx2
        rw [hy2] at this
        exact absurd this (by simp)
    · simp only [hg]
      have hnone : last_goto (annotations_of g (pre ++ [(bb, ins)])) h = none := by
        rw [← hgo]
        cases hc : r1.1.goto_bbs h with
        | none => rfl
        | some v => rw [hc] at hg; simp at hg
      obtain ⟨i1, i2, i3⟩ := search_flat_picked_first g ins found h post
        { r1.1 with picked := some h } hpost rfl
      refine ⟨i1, fun h' hh' => ?_⟩
      have e : h' = h := by
        have : some h = some h' := i1.symm.trans hh'
        injection this with this
        exact this.symm
      subst e
      have hprefix : ∀ x ∈ pre ++ [(bb, ins)], ∀ a ∈ (g.ins x.2).annotations,
          is_goto_marker h' a = false := by
        intro x hx a ha
        exact last_goto_none _ h' hnone (x.1, a)
          ((mem_annotations_of g _ (x.1, a)).2 ⟨x, hx, rfl, ha⟩)
      refine ⟨?_, fun hall => ?_⟩
      · rintro ⟨x, hx, a, ha, hm⟩
        rcases List.mem_append.1 hx with hx' | hx'
        · have := hprefix x (List.mem_append_left _ hx') a ha
          rw [hm] at this
          exact absurd this (by simp)
        · rcases List.mem_cons.1 hx' with hx'' | hx''
          · have := hprefix x
              (List.mem_append_right _ (by rw [hx'']; exact List.mem_singleton_self _)) a ha
            rw [hm] at this
            exact absurd this (by simp)
          · obtain ⟨y, hy, hy1, hy2⟩ := i2 ⟨x, hx'', a, ha, hm⟩
            exact ⟨y, List.mem_append_right _ (List.mem_cons_of_mem _ hy), hy1, hy2⟩
      · refine (i3 (fun x hx =>
          hall x (List.mem_append_right _ (List.mem_cons_of_mem _ hx)))).trans ?_
        show r1.1.goto_bbs h' = none
        rw [hgo, hnone]

/-- The first element of a filtered range that passes a test: it passes the filter and the
test, and no smaller number of the range passes both. -/
theorem find_filter_range'_some (P Q : Nat → Bool) (h : Nat) :
    ∀ (n s : Nat), ((List.range' s n).filter P).find? Q = some h →
      P h = true ∧ Q h = true ∧ ∀ k, s ≤ k → k < h → P k = true → Q k = false := by
  intro n
  induction n with
  | zero => intro s hf; simp at hf
  | succ n ih =>
    intro s hf
    rw [List.range'_succ] at hf
    cases hPs : P s with
    | false =>
      rw [List.filter_cons_of_neg (by simp [hPs])] at hf
      obtain ⟨h1, h2, h3⟩ := ih (s + 1) hf
      refine ⟨h1, h2, fun k hk1 hk2 hPk => ?_⟩
      by_cases e : k = s
      · subst e; rw [hPs] at hPk; cases hPk
      · exact h3 k (by omega) hk2 hPk
    | true =>
      rw [List.filter_cons_of_pos (by simp [hPs])] at hf
      cases hQs : Q s with
      | true =>
        rw [List.find?_cons_of_pos _ (by simp [hQs])] at hf
        injection hf with hf
        subst hf
        exact ⟨hPs, hQs, fun k hk1 hk2 _ => by omega⟩
      | false =>
        rw [List.find?_cons_of_neg _ (by simp [hQs])] at hf
        obtain ⟨h1, h2, h3⟩ := ih (s + 1) hf
        refine ⟨h1, h2, fun k hk1 hk2 hPk => ?_⟩
        by_cases e : k = s
        · subst e; exact hQs
        · exact h3 k (by omega) hk2 hPk

/-- The handler that `optimize_throwcat` picks out of `handlers_found`, in terms of the
handlers of the static frame: none if no handler qualifies, and otherwise the lowest-indexed
handler that qualifies. -/
theorem handlers_found_find (g : MVMSpeshGraph) (category : Nat) (anns : List MVMSpeshAnn) :
    ((∀ h, handler_qualifies g category anns h = false) →
      (handlers_found g category).find? (fun k => handler_in_scope anns k) = none) ∧
    (∀ h, handler_qualifies g category anns h = true →
      (∀ k, k < h → handler_qualifies g category anns k = false) →
      (handlers_found g category).find? (fun k => handler_in_scope anns k) = some h) ∧
    (∀ h, (handlers_found g category).find? (fun k => handler_in_scope anns k) = some h →
      handler_qualifies g category anns h = true ∧
      ∀ k, k < h → handler_qualifies g category anns k = false) := by
  refine ⟨fun hno => ?_, fun h hq hlow => ?_, fun h hf => ?_⟩
  · rw [List.find?_eq_none]
    intro k hk
    have hk2 := (List.mem_filter.1 hk).2
    have := hno k
    unfold handler_qualifies at this
    cases hget : g.sf.handlers.get? k with
    | none => simp only [hget] at hk2; cases hk2
    | some hd =>
      simp only [hget] at hk2 this
      simp only [Bool.and_eq_true, decide_eq_true_eq] at hk2
      simp only [hk2.1, hk2.2, decide_True, Bool.true_and] at this
      simp [this]
  · unfold handlers_found
    rw [List.range_eq_range']
    unfold handler_qualifies at hq
    cases hget : g.sf.handlers.get? h with
    | none => simp only [hget] at hq; cases hq
    | some hd =>
      simp only [hget, Bool.and_eq_true, decide_eq_true_eq] at hq
      have hlt : h < g.sf.handlers.length := by
        rw [List.get?_eq_some] at hget
        exact hget.1
      refine find_filter_range' _ _ h ?_ hq.2 ?_ _ 0 (Nat.zero_le _) (by omega)
      · simp only [hget]
        simp [hq.1.1, hq.1.2]
      · intro k hk hPk
        have := hlow k hk
        unfold handler_qualifies at this
        cases hgk : g.sf.handlers.get? k with
        | none => simp only [hgk] at hPk; cases hPk
        | some hd' =>
          simp only [hgk] at hPk this
          simp only [Bool.and_eq_true, decide_eq_true_eq] at hPk
          simpa [hPk.1, hPk.2] using this
  · unfold handlers_found at hf
    rw [List.range_eq_range'] at hf
    obtain ⟨h1, h2, h3⟩ := find_filter_range'_some _ _ h _ _ hf
    constructor
    · unfold handler_qualifies
      cases hget : g.sf.handlers.get? h with
      | none => simp only [hget] at h1; cases h1
      | some hd =>
        simp only [hget] at h1
        simp only [Bool.and_eq_true, decide_eq_true_eq] at h1
        simp [h1.1, h1.2, h2]
    · intro k hk
      unfold handler_qualifies
      cases hget : g.sf.handlers.get? k with
      | none => rfl
      | some hd =>
        simp only []
        cases hP : (decide (hd.action = MVM_EX_ACTION_GOTO) &&
            has_flag hd.category_mask category) with
        | false => rfl
        | true =>
          have := h3 k (Nat.zero_le _) hk (by
            simp only [hget]
            simpa using hP)
          simp [this]

/-- C31: let the throwcat instruction `ins` of block `bb` occur once in the linear chain,
and say that a handler qualifies when it has action GOTO, its category mask meets the
category operand of the instruction, and the instruction lies in its scope (going through
the annotations in linear order up to and including those of the instruction, the last
`FH_START` or `FH_END` of the handler is an `FH_START`).  Then `optimize_throwcat` returns
the graph unchanged if no handler qualifies; and with `h` the lowest-indexed handler that
qualifies, it returns the graph unchanged if no instruction of the chain carries the
`FH_GOTO` annotation of `h`, and otherwise it makes the instruction a `goto B` and `B` the
first successor of `bb`, for a block `B` of the chain that holds an instruction carrying the
`FH_GOTO` annotation of `h`, and changes nothing else (when `bb` has no successor to
overwrite, the store to `bb->succ[0]` is out of bounds).  So whatever graph it returns is
either the graph it was given or that rewrite for the lowest-indexed handler that qualifies. -/
theorem C31_throwcat_rewrite_sound (tc : MVMThreadContext) (g : MVMSpeshGraph)
    (fuel bb ins : Nat) (chain : List Nat) (pre post : List (Nat × Nat))
    (hchain : linear_chain g fuel (some g.entry) = some chain)
    (hsplit : chain_ins g chain = pre ++ (bb, ins) :: post)
    (hpre : ∀ x ∈ pre, x.2 ≠ ins) (hpost : ∀ x ∈ post, x.2 ≠ ins) :
    ((∀ h, handler_qualifies g (to_uint32 ((g.ins ins).operand 1).get_lit_i64)
        ((annotations_of g (pre ++ [(bb, ins)])).map fun x => x.2) h = false) →
      optimize_throwcat tc fuel g bb ins = Except.ok g) ∧
    (∀ h, handler_qualifies g (to_uint32 ((g.ins ins).operand 1).get_lit_i64)
        ((annotations_of g (pre ++ [(bb, ins)])).map fun x => x.2) h = true →
      (∀ k, k < h → handler_qualifies g (to_uint32 ((g.ins ins).operand 1).get_lit_i64)
        ((annotations_of g (pre ++ [(bb, ins)])).map fun x => x.2) k = false) →
      ((∀ x ∈ chain_ins g chain,
          { type := MVM_SPESH_ANN_FH_GOTO, frame_handler_index := h } ∉ (g.ins x.2).annotations) →
        optimize_throwcat tc fuel g bb ins = Except.ok g) ∧
      ((∃ x ∈ chain_ins g chain,
          { type := MVM_SPESH_ANN_FH_GOTO, frame_handler_index := h } ∈ (g.ins x.2).annotations) →
        ∃ B, (∃ x ∈ chain_ins g chain, x.1 = B ∧
            { type := MVM_SPESH_ANN_FH_GOTO, frame_handler_index := h }
              ∈ (g.ins x.2).annotations) ∧
          optimize_throwcat tc fuel g bb ins
            = if (g.bbs bb).succ.length = 0 then Except.error Fault.out_of_bounds
              else Except.ok
                (((g.set_info ins (tc.MVM_op_get_op MVM_OP_goto)).set_operand ins 0
                  (MVMSpeshOperand.ins_bb B)).set_bb bb
                    { g.bbs bb with succ := (g.bbs bb).succ.set 0 B }))) ∧
    (∀ g', optimize_throwcat tc fuel g bb ins = Except.ok g' → g' ≠ g →
      ∃ h B, handler_qualifies g (to_uint32 ((g.ins ins).operand 1).get_lit_i64)
          ((annotations_of g (pre ++ [(bb, ins)])).map fun x => x.2) h = true ∧
        (∀ k, k < h → handler_qualifies g (to_uint32 ((g.ins ins).operand 1).get_lit_i64)
          ((annotations_of g (pre ++ [(bb, ins)])).map fun x => x.2) k = false) ∧
        (∃ x ∈ chain_ins g chain, x.1 = B ∧
          { type := MVM_SPESH_ANN_FH_GOTO, frame_handler_index := h }
            ∈ (g.ins x.2).annotations) ∧
        g' = ((g.set_info ins (tc.MVM_op_get_op MVM_OP_goto)).set_operand ins 0
          (MVMSpeshOperand.ins_bb B)).set_bb bb
            { g.bbs bb with succ := (g.bbs bb).succ.set 0 B }) := by
  obtain ⟨stf, hs, hp, hgb⟩ := throwcat_search_outcome g ins fuel bb
    (handlers_found g (to_uint32 ((g.ins ins).operand 1).get_lit_i64)) chain pre post
    hchain hsplit hpre hpost
  obtain ⟨f1, f2, f3⟩ := handlers_found_find g (to_uint32 ((g.ins ins).operand 1).get_lit_i64)
    ((annotations_of g (pre ++ [(bb, ins)])).map fun x => x.2)
  have hmark : ∀ (h : Nat) (x : Nat × Nat),
      ({ type := MVM_SPESH_ANN_FH_GOTO, frame_handler_index := h } : MVMSpeshAnn)
          ∈ (g.ins x.2).annotations
        ↔ ∃ a ∈ (g.ins x.2).annotations, is_goto_marker h a = true := by
    intro h x
    constructor
    · intro hm
      exact ⟨_, hm, (is_goto_marker_iff h _).2 rfl⟩
    · rintro ⟨a, ha, hm⟩
      rw [(is_goto_marker_iff h a).1 hm] at ha
      exact ha
  -- the outcome of the function in terms of the state the search ends in
  have hrun : optimize_throwcat tc fuel g bb ins
      = if (handlers_found g (to_uint32 ((g.ins ins).operand 1).get_lit_i64)).length ≠ 0 then
          match stf.picked with
          | some picked =>
            match stf.goto_bbs picked with
            | some target =>
              if (g.bbs bb).succ.length = 0 then Except.error Fault.out_of_bounds
              else Except.ok
                (((g.set_info ins (tc.MVM_op_get_op MVM_OP_goto)).set_operand ins 0
                  (MVMSpeshOperand.ins_bb target)).set_bb bb
                    { g.bbs bb with succ := (g.bbs bb).succ.set 0 target })
            | none => Except.ok g
          | none => Except.ok g
        else Except.ok g := by
    unfold optimize_throwcat
    simp only [hs]
    rfl
  have hnone : stf.picked = none → optimize_throwcat tc fuel g bb ins = Except.ok g := by
    intro h0
    rw [hrun, h0]
    split <;> rfl
  have hsome : ∀ h, stf.picked = some h →
      ((∀ x ∈ chain_ins g chain,
          { type := MVM_SPESH_ANN_FH_GOTO, frame_handler_index := h } ∉ (g.ins x.2).annotations) →
        optimize_throwcat tc fuel g bb ins = Except.ok g) ∧
      ((∃ x ∈ chain_ins g chain,
          { type := MVM_SPESH_ANN_FH_GOTO, frame_handler_index := h } ∈ (g.ins x.2).annotations) →
        ∃ B, (∃ x ∈ chain_ins g chain, x.1 = B ∧
            { type := MVM_SPESH_ANN_FH_GOTO, frame_handler_index := h }
              ∈ (g.ins x.2).annotations) ∧
          optimize_throwcat tc fuel g bb ins
            = if (g.bbs bb).succ.length = 0 then Except.error Fault.out_of_bounds
              else Except.ok
                (((g.set_info ins (tc.MVM_op_get_op MVM_OP_goto)).set_operand ins 0
                  (MVMSpeshOperand.ins_bb B)).set_bb bb
                    { g.bbs bb with succ := (g.bbs bb).succ.set 0 B })) := by
    intro h hpk
    obtain ⟨g1, g2⟩ := hgb h hpk
    have hne : (handlers_found g (to_uint32 ((g.ins ins).operand 1).get_lit_i64)).length ≠ 0 := by
      intro h0
      rw [List.length_eq_zero] at h0
      rw [hp, h0] at hpk
      simp at hpk
    constructor
    · intro hall
      have hgn := g2 (fun x hx a ha => by
        cases hm : is_goto_marker h a with
        | false => rfl
        | true => exact absurd ((hmark h x).2 ⟨a, ha, hm⟩) (hall x hx))
      rw [hrun, if_pos hne, hpk]
      simp only [hgn]
    · rintro ⟨x, hx, hm⟩
      obtain ⟨y, hy, hy1, hy2⟩ := g1 ⟨x, hx, (hmark h x).1 hm⟩
      refine ⟨y.1, ⟨y, hy, rfl, (hmark h y).2 hy1⟩, ?_⟩
      rw [hrun, if_pos hne, hpk]
      simp only [hy2]
  refine ⟨fun hno => hnone (by rw [hp]; exact f1 hno), fun h hq hlow => ?_, ?_⟩
  · exact hsome h (by rw [hp]; exact f2 h hq hlow)
  · intro g' hg' hne
    cases hpk : stf.picked with
    | none =>
      rw [hnone hpk] at hg'
      injection hg' with hg'
      exact absurd hg'.symm hne
    | some h =>
      obtain ⟨q1, q2⟩ := f3 h (by rw [← hp]; exact hpk)
      obtain ⟨s1, s2⟩ := hsome h hpk
      by_cases hex : ∃ x ∈ chain_ins g chain,
          ({ type := MVM_SPESH_ANN_FH_GOTO, frame_handler_index := h } : MVMSpeshAnn)
            ∈ (g.ins x.2).annotations
      · obtain ⟨B, hB, hres⟩ := s2 hex
        refine ⟨h, B, q1, q2, hB, ?_⟩
        rw [hres] at hg'
        split at hg'
        · cases hg'
        · injection hg' with hg'
          exact hg'.symm
      · have := s1 (fun x hx hm => hex ⟨x, hx, hm⟩)
        rw [this] at hg'
        injection hg' with hg'
        exact absurd hg'.symm hne

/-- C31, witness: in `g_throwcat` handler 0 is the lowest-indexed handler that qualifies for
the `throwcatlex` of block 1, and its goto annotation is in block 2; the instruction becomes
`goto` block 2 with block 2 as first successor of block 1. -/
theorem C31_throwcat_rewrite_sound_witness :
    ∃ B, (∃ x ∈ chain_ins g_throwcat [0, 1, 2], x.1 = B ∧
        { type := MVM_SPESH_ANN_FH_GOTO, frame_handler_index := 0 }
          ∈ (g_throwcat.ins x.2).annotations) ∧
      optimize_throwcat (sample_tc 0) 3 g_throwcat 1 1
        = if (g_throwcat.bbs 1).succ.length = 0 then Except.error Fault.out_of_bounds
          else Except.ok
            (((g_throwcat.set_info 1 ((sample_tc 0).MVM_op_get_op MVM_OP_goto)).set_operand 1 0
              (MVMSpeshOperand.ins_bb B)).set_bb 1
                { g_throwcat.bbs 1 with succ := (g_throwcat.bbs 1).succ.set 0 B }) :=
  ((C31_throwcat_rewrite_sound (sample_tc 0) g_throwcat 3 1 1 [0, 1, 2] [(0, 0)]
    [(1, 2), (2, 3)] (by decide) (by decide) (by decide) (by decide)).2.1 0 (by decide)
    (by intro k hk; omega)).2 ⟨(2, 3), by decide, by decide⟩

/-! ### The linear chain as a list -/

/-- A walk along `linear_next` that ends within the fuel is the chain. -/
theorem linear_chain_is_chain (g : MVMSpeshGraph) :
    ∀ (fuel : Nat) (o : Option Nat) (l : List Nat),
      linear_chain g fuel o = some l → is_chain g o l ∧ l.length ≤ fuel := by
  intro fuel
  induction fuel with
  | zero =>
    intro o l h
    cases o with
    | none =>
      simp only [linear_chain] at h
      injection h with h
      subst h
      exact ⟨rfl, Nat.le_refl _⟩
    | some b => simp [linear_chain] at h
  | succ n ih =>
    intro o l h
    cases o with
    | none =>
      simp only [linear_chain] at h
      injection h with h
      subst h
      exact ⟨rfl, Nat.zero_le _⟩
    | some b =>
      simp only [linear_chain, Option.map_eq_some'] at h
      obtain ⟨t, ht, rfl⟩ := h
      obtain ⟨h1, h2⟩ := ih _ _ ht
      exact ⟨⟨rfl, h1⟩, Nat.succ_le_succ h2⟩

/-- The chain is what a walk along `linear_next` with enough fuel returns. -/
theorem is_chain_linear_chain (g : MVMSpeshGraph) :
    ∀ (l : List Nat) (o : Option Nat) (fuel : Nat),
      is_chain g o l → l.length ≤ fuel → linear_chain g fuel o = some l := by
  intro l
  induction l with
  | nil =>
    intro o fuel h _
    simp only [is_chain] at h
    subst h
    cases fuel <;> rfl
  | cons b t ih =>
    intro o fuel h hl
    obtain ⟨h1, h2⟩ := h
    subst h1
    cases fuel with
    | zero => simp at hl
    | succ n =>
      simp only [linear_chain]
      rw [ih _ n h2 (Nat.le_of_succ_le_succ hl)]
      rfl

/-- The chain depends on the `linear_next` of its own blocks only. -/
theorem is_chain_congr (g g' : MVMSpeshGraph) :
    ∀ (l : List Nat) (o : Option Nat),
      (∀ b ∈ l, (g'.bbs b).linear_next = (g.bbs b).linear_next) →
      is_chain g o l → is_chain g' o l := by
  intro l
  induction l with
  | nil => intro o _ h; exact h
  | cons b t ih =>
    intro o hb h
    refine ⟨h.1, ?_⟩
    rw [hb b (List.mem_cons_self _ _)]
    exact ih _ (fun c hc => hb c (List.mem_cons_of_mem _ hc)) h.2

/-- There is one chain from a block pointer. -/
theorem is_chain_unique (g : MVMSpeshGraph) :
    ∀ (l1 l2 : List Nat) (o : Option Nat), is_chain g o l1 → is_chain g o l2 → l1 = l2 := by
  intro l1
  induction l1 with
  | nil =>
    intro l2 o h1 h2
    cases l2 with
    | nil => rfl
    | cons b t =>
      have e1 : o = none := h1
      have e2 : o = some b := h2.1
      rw [e1] at e2
      cases e2
  | cons a t ih =>
    intro l2 o h1 h2
    cases l2 with
    | nil =>
      have e1 : o = some a := h1.1
      have e2 : o = none := h2
      rw [e1] at e2
      cases e2
    | cons b t2 =>
      have e1 : o = some a := h1.1
      have e2 : o = some b := h2.1
      rw [e1] at e2
      injection e2 with e2
      subst e2
      rw [ih t2 _ h1.2 h2.2]

/-- The rest of a chain is the chain from where it starts. -/
theorem is_chain_suffix (g : MVMSpeshGraph) :
    ∀ (x : List Nat) (b : Nat) (y : List Nat) (o : Option Nat),
      is_chain g o (x ++ b :: y) → is_chain g (some b) (b :: y) := by
  intro x
  induction x with
  | nil =>
    intro b y o h
    exact ⟨rfl, h.2⟩
  | cons a t ih =>
    intro b y o h
    exact ih b y _ h.2

/-- A chain that ends passes through no block twice. -/
theorem is_chain_nodup (g : MVMSpeshGraph) :
    ∀ (l : List Nat) (o : Option Nat), is_chain g o l → l.Nodup := by
  intro l
  induction l with
  | nil => intro o _; exact List.nodup_nil
  | cons b t ih =>
    intro o h
    refine List.nodup_cons.2 ⟨fun hmem => ?_, ih _ h.2⟩
    obtain ⟨x, y, hxy⟩ := List.append_of_mem hmem
    have h2 := h.2
    rw [hxy] at h2
    have h3 := (is_chain_suffix g x b y _ h2).2
    have h4 := is_chain_unique g _ _ _ h3 h.2
    have h5 := congrArg List.length h4
    rw [hxy] at h5
    simp at h5
    omega

/-- The chain from a block starts with that block. -/
theorem is_chain_some (g : MVMSpeshGraph) (b : Nat) (l : List Nat)
    (h : is_chain g (some b) l) :
    ∃ t, l = b :: t ∧ is_chain g (g.bbs b).linear_next t := by
  cases l with
  | nil => cases (h : some b = none)
  | cons a t =>
    have e : some b = some a := h.1
    injection e with e
    subst e
    exact ⟨t, rfl, h.2⟩

/-! ### The second pass of `eliminate_dead_bbs` on lists -/

/-- What the second pass leaves of a chain: a subsequence with the same first block, from
which only blocks told dead are gone. -/
theorem splice_list_spec (dead : Nat → Bool) :
    ∀ (n : Nat) (l l' : List Nat), l.length ≤ n → splice_list dead l = some l' →
      l'.Sublist l ∧ l'.head? = l.head? ∧ (∀ b ∈ l, b ∉ l' → dead b = true) ∧
      l' ≠ [] := by
  intro n
  induction n with
  | zero =>
    intro l l' hl h
    cases l with
    | nil => simp [splice_list] at h
    | cons a t => simp at hl
  | succ n ih =>
    intro l l' hl h
    cases l with
    | nil => simp [splice_list] at h
    | cons a t =>
      cases t with
      | nil =>
        simp only [splice_list] at h
        injection h with h
        subst h
        exact ⟨List.Sublist.refl _, rfl, fun b hb hnb => absurd hb hnb, by simp⟩
      | cons m rest =>
        simp only [splice_list] at h
        by_cases hd : dead m = true
        · rw [if_pos hd] at h
          simp only [Option.map_eq_some'] at h
          obtain ⟨l2, h2, rfl⟩ := h
          obtain ⟨i1, i2, i3, i4⟩ := ih rest l2 (by simp at hl; omega) h2
          refine ⟨(i1.cons m).cons₂ a, rfl, fun b hb hnb => ?_, by simp⟩
          rcases List.mem_cons.1 hb with rfl | hb
          · exact absurd (List.mem_cons_self _ _) hnb
          · rcases List.mem_cons.1 hb with rfl | hb
            · exact hd
            · exact i3 b hb (fun hin => hnb (List.mem_cons_of_mem _ hin))
        · rw [if_neg hd] at h
          simp only [Option.map_eq_some'] at h
          obtain ⟨l2, h2, rfl⟩ := h
          obtain ⟨i1, i2, i3, i4⟩ := ih (m :: rest) l2 (by simp at hl ⊢; omega) h2
          refine ⟨i1.cons₂ a, rfl, fun b hb hnb => ?_, by simp⟩
          rcases List.mem_cons.1 hb with rfl | hb
          · exact absurd (List.mem_cons_self _ _) hnb
          · exact i3 b hb (fun hin => hnb (List.mem_cons_of_mem _ hin))

/-- Relinking is reflexive. -/
theorem relinked_refl (g : MVMSpeshGraph) : relinked g g := ⟨rfl, fun _ => rfl⟩

/-- Relinking is transitive. -/
theorem relinked_trans (g1 g2 g3 : MVMSpeshGraph) (h12 : relinked g1 g2)
    (h23 : relinked g2 g3) : relinked g1 g3 := by
  obtain ⟨a1, a2⟩ := h12
  obtain ⟨b1, b2⟩ := h23
  constructor
  · rw [← a1, ← b1]
  · intro b
    rw [← a2 b, ← b2 b]

/-- What relinking keeps of a block and of the graph. -/
theorem relinked_fields (g g' : MVMSpeshGraph) (h : relinked g g') :
    g'.entry = g.entry ∧ g'.ins = g.ins ∧ g'.facts = g.facts ∧
    ∀ b, (g'.bbs b).idx = (g.bbs b).idx ∧ (g'.bbs b).inlined = (g.bbs b).inlined ∧
      (g'.bbs b).succ = (g.bbs b).succ ∧ (g'.bbs b).ins = (g.bbs b).ins ∧
      (g'.bbs b).children = (g.bbs b).children := by
  obtain ⟨a1, a2⟩ := h
  refine ⟨?_, ?_, ?_, fun b => ?_⟩
  · rw [← a1]
  · rw [← a1]
  · rw [← a1]
  · have := a2 b
    refine ⟨?_, ?_, ?_, ?_, ?_⟩ <;> rw [← this]

/-- The second pass of `eliminate_dead_bbs` along a chain: it stops on an index that the
`seen` array does not have, or reads through a null `cur_bb` where the pass on the list has
no result, or returns the graph relinked to the chain that the pass on the list leaves, with
`num_bbs` lowered by the number of blocks gone and `death` set if a block is gone. -/
theorem eliminate_dead_bbs_splice_spec (seen : Nat → Bool) (size : Nat) (dead : Nat → Bool) :
    ∀ (fuel : Nat) (l : List Nat) (cur : Nat) (g : MVMSpeshGraph) (death : Bool),
      (∀ b, dead b = (!seen (g.bbs b).idx && !(g.bbs b).inlined)) →
      is_chain g (some cur) l → l.Nodup → l.length ≤ fuel →
      (eliminate_dead_bbs_splice seen size fuel (some cur) (g, death)
          = Except.error Fault.out_of_bounds ∧ ∃ b ∈ l, ¬ (g.bbs b).idx < size) ∨
      (eliminate_dead_bbs_splice seen size fuel (some cur) (g, death)
          = Except.error Fault.null_deref ∧ splice_list dead l = none) ∨
      (∃ l' g', splice_list dead l = some l' ∧
        eliminate_dead_bbs_splice seen size fuel (some cur) (g, death)
          = Except.ok (g', death || decide (l'.length < l.length)) ∧
        is_chain g' (some cur) l' ∧ relinked g g' ∧
        (∀ b, b ∉ l → (g'.bbs b).linear_next = (g.bbs b).linear_next) ∧
        g'.num_bbs = g.num_bbs - (l.length - l'.length)) := by
  intro fuel
  induction fuel with
  | zero =>
    intro l cur g death _ hc _ hl
    obtain ⟨t, rfl, _⟩ := is_chain_some g cur l hc
    simp at hl
  | succ n ih =>
    intro l cur g death hdead hc hnd hl
    obtain ⟨t, rfl, hct⟩ := is_chain_some g cur l hc
    cases t with
    | nil =>
      have hnext : (g.bbs cur).linear_next = none := hct
      refine Or.inr (Or.inr ⟨[cur], g, rfl, ?_, hc, relinked_refl g, fun _ _ => rfl, by simp⟩)
      simp [eliminate_dead_bbs_splice, hnext]
    | cons m t' =>
      obtain ⟨t2, e2, hcm⟩ := is_chain_some g m (m :: t') (by
        have := hct.1
        exact ⟨rfl, hct.2⟩)
      have hnext : (g.bbs cur).linear_next = some m := hct.1
      have hcur_not : cur ∉ m :: t' := (List.nodup_cons.1 hnd).1
      have hnd' : (m :: t').Nodup := (List.nodup_cons.1 hnd).2
      by_cases hidx : (g.bbs m).idx < size
      · by_cases hd : dead m = true
        · -- the block after `cur` is spliced out
          have hd2 := hd
          rw [hdead m] at hd2
          simp only [Bool.and_eq_true, Bool.not_eq_true', ] at hd2
          obtain ⟨g1, hg1⟩ : ∃ g1 : MVMSpeshGraph, g1
              = { g.set_bb cur { g.bbs cur with linear_next := (g.bbs m).linear_next }
                  with num_bbs := g.num_bbs - 1 } := ⟨_, rfl⟩
          have hstep : eliminate_dead_bbs_splice seen size (n + 1) (some cur) (g, death)
              = eliminate_dead_bbs_splice seen size n (g.bbs m).linear_next (g1, true) := by
            rw [hg1]
            simp [eliminate_dead_bbs_splice, hnext, hidx, hd2.1, hd2.2, MVMSpeshGraph.set_bb]
          have hg1cur : (g1.bbs cur).linear_next = (g.bbs m).linear_next := by
            rw [hg1]; simp [MVMSpeshGraph.set_bb]
          have hg1other : ∀ b, b ≠ cur → g1.bbs b = g.bbs b := by
            intro b hb
            rw [hg1]; simp [MVMSpeshGraph.set_bb, hb]
          have hg1num : g1.num_bbs = g.num_bbs - 1 := by rw [hg1]
          have hrel1 : relinked g g1 := by
            rw [hg1]
            constructor
            · rfl
            · intro b
              simp only [MVMSpeshGraph.set_bb]
              by_cases hb : b = cur
              · subst hb; simp
              · simp [hb]
          rw [hstep]
          cases t' with
          | nil =>
            have hmn : (g.bbs m).linear_next = none := hct.2
            refine Or.inr (Or.inl ⟨?_, ?_⟩)
            · rw [hmn]
              cases n <;> rfl
            · simp [splice_list, hd]
          | cons k t'' =>
            have hmk : (g.bbs m).linear_next = some k := hct.2.1
            have hck : is_chain g (some k) (k :: t'') := ⟨rfl, hct.2.2⟩
            have hcur_not2 : cur ∉ k :: t'' := fun hin => hcur_not (List.mem_cons_of_mem _ hin)
            have hck1 : is_chain g1 (some k) (k :: t'') := by
              refine is_chain_congr g _ _ _ (fun b hb => ?_) hck
              have hb2 : b ≠ cur := fun e => hcur_not2 (e ▸ hb)
              rw [hg1other b hb2]
            have hdead1 : ∀ b, dead b = (!seen (g1.bbs b).idx && !(g1.bbs b).inlined) := by
              intro b
              rw [hdead b, ((relinked_fields _ _ hrel1).2.2.2 b).1,
                ((relinked_fields _ _ hrel1).2.2.2 b).2.1]
            rw [hmk]
            have hlen : (k :: t'').length ≤ n := by simp at hl ⊢; omega
            rcases ih (k :: t'') k g1 true hdead1 hck1 (List.nodup_cons.1 hnd').2 hlen
              with ⟨r1, b, hb, hbi⟩ | ⟨r1, r2⟩ | ⟨l2, g2, q1, q2, q3, q4, q5, q6⟩
            · refine Or.inl ⟨r1, b, List.mem_cons_of_mem _ (List.mem_cons_of_mem _ hb), ?_⟩
              rw [← ((relinked_fields _ _ hrel1).2.2.2 b).1]
              exact hbi
            · refine Or.inr (Or.inl ⟨r1, ?_⟩)
              simp [splice_list, hd, r2]
            · obtain ⟨s1, s2, s3, s4⟩ := splice_list_spec dead _ _ _ (Nat.le_refl _) q1
              have hlen2 := s1.length_le
              refine Or.inr (Or.inr ⟨cur :: l2, g2, ?_, ?_, ?_, ?_, ?_, ?_⟩)
              · simp [splice_list, hd, q1]
              · rw [q2]
                have : decide ((cur :: l2).length < (cur :: m :: k :: t'').length) = true := by
                  simp only [List.length_cons] at hlen2 ⊢
                  simp only [decide_eq_true_eq]
                  omega
                rw [this]
                simp
              · refine ⟨rfl, ?_⟩
                rw [q5 cur hcur_not2, hg1cur, hmk]
                exact q3
              · exact relinked_trans _ _ _ hrel1 q4
              · intro b hb
                have hb1 : b ≠ cur := fun e => hb (e ▸ List.mem_cons_self _ _)
                have hb2 : b ∉ k :: t'' := fun hin =>
                  hb (List.mem_cons_of_mem _ (List.mem_cons_of_mem _ hin))
                rw [q5 b hb2, hg1other b hb1]
              · rw [q6, hg1num]
                simp only [List.length_cons] at hlen2 ⊢
                omega
        · -- the block after `cur` stays
          have hd2 : (!seen (g.bbs m).idx && !(g.bbs m).inlined) = false := by
            rw [← hdead m]
            cases h : dead m with
            | false => rfl
            | true => exact absurd h hd
          have hstep : eliminate_dead_bbs_splice seen size (n + 1) (some cur) (g, death)
              = eliminate_dead_bbs_splice seen size n (some m) (g, death) := by
            simp only [eliminate_dead_bbs_splice, hnext, hidx, if_true]
            cases hs : seen (g.bbs m).idx with
            | true => simp [hnext]
            | false =>
              rw [hs] at hd2
              simp only [Bool.not_false, Bool.true_and, Bool.not_eq_false'] at hd2
              simp [hd2, hnext]
          rw [hstep]
          have hlen : (m :: t').length ≤ n := by simp at hl ⊢; omega
          rcases ih (m :: t') m g death hdead ⟨rfl, hct.2⟩ hnd' hlen
            with ⟨r1, b, hb, hbi⟩ | ⟨r1, r2⟩ | ⟨l2, g2, q1, q2, q3, q4, q5, q6⟩
          · exact Or.inl ⟨r1, b, List.mem_cons_of_mem _ hb, hbi⟩
          · refine Or.inr (Or.inl ⟨r1, ?_⟩)
            simp [splice_list, hd, r2]
          · obtain ⟨s1, s2, s3, s4⟩ := splice_list_spec dead _ _ _ (Nat.le_refl _) q1
            have hlen2 := s1.length_le
            refine Or.inr (Or.inr ⟨cur :: l2, g2, ?_, ?_, ?_, ?_, ?_, ?_⟩)
            · simp [splice_list, hd, q1]
            · rw [q2]
              have e : decide (l2.length < (m :: t').length)
                  = decide ((cur :: l2).length < (cur :: m :: t').length) := by
                simp only [List.length_cons, Nat.add_lt_add_iff_right]
              rw [e]
            · refine ⟨rfl, ?_⟩
              rw [q5 cur hcur_not, hnext]
              exact q3
            · exact q4
            · intro b hb
              exact q5 b (fun hin => hb (List.mem_cons_of_mem _ hin))
            · rw [q6]
              simp only [List.length_cons] at hlen2 ⊢
              omega
      · refine Or.inl ⟨?_, m, List.mem_cons_of_mem _ (List.mem_cons_self _ _), hidx⟩
        simp [eliminate_dead_bbs_splice, hnext, hidx]

/-- The marking of the successors of one block stops on a successor whose index the `seen`
array does not have, and returns otherwise. -/
theorem mark_successors_cases (g : MVMSpeshGraph) (size : Nat) :
    ∀ (succs : List Nat) (seen : Nat → Bool),
      (mark_successors g size succs seen = Except.error Fault.out_of_bounds ∧
        ∃ s ∈ succs, ¬ (g.bbs s).idx < size) ∨
      ∃ seen', mark_successors g size succs seen = Except.ok seen' := by
  intro succs
  induction succs with
  | nil => intro seen; exact Or.inr ⟨seen, rfl⟩
  | cons s rest ih =>
    intro seen
    by_cases h : (g.bbs s).idx < size
    · simp only [mark_successors, h, if_true]
      rcases ih (fun k => if k = (g.bbs s).idx then true else seen k) with ⟨h1, t, ht, hti⟩ | h1
      · exact Or.inl ⟨h1, t, List.mem_cons_of_mem _ ht, hti⟩
      · exact Or.inr h1
    · refine Or.inl ⟨?_, s, List.mem_cons_self _ _, h⟩
      simp [mark_successors, h]

/-- The first pass of `eliminate_dead_bbs` along a chain that ends within the fuel stops on
a successor whose index the `seen` array does not have, and returns otherwise. -/
theorem eliminate_dead_bbs_mark_cases (g : MVMSpeshGraph) (size : Nat) :
    ∀ (fuel : Nat) (l : List Nat) (o : Option Nat) (seen : Nat → Bool),
      is_chain g o l → l.length ≤ fuel →
      (eliminate_dead_bbs_mark g size fuel o seen = Except.error Fault.out_of_bounds ∧
        ∃ b ∈ l, ∃ s ∈ (g.bbs b).succ, ¬ (g.bbs s).idx < size) ∨
      ∃ seen', eliminate_dead_bbs_mark g size fuel o seen = Except.ok seen' := by
  intro fuel
  induction fuel with
  | zero =>
    intro l o seen hc hl
    cases l with
    | nil =>
      have : o = none := hc
      subst this
      exact Or.inr ⟨seen, rfl⟩
    | cons b t => simp at hl
  | succ n ih =>
    intro l o seen hc hl
    cases l with
    | nil =>
      have : o = none := hc
      subst this
      exact Or.inr ⟨seen, rfl⟩
    | cons b t =>
      have e : o = some b := hc.1
      subst e
      simp only [eliminate_dead_bbs_mark]
      rcases mark_successors_cases g size (g.bbs b).succ seen with ⟨h1, s, hs, hsi⟩ | ⟨seen1, h1⟩
      · rw [h1]
        exact Or.inl ⟨rfl, b, List.mem_cons_self _ _, s, hs, hsi⟩
      · rw [h1]
        simp only []
        rcases ih t _ seen1 hc.2 (by simp at hl; omega) with ⟨h2, c, hc2, hrest⟩ | h2
        · exact Or.inl ⟨h2, c, List.mem_cons_of_mem _ hc2, hrest⟩
        · exact Or.inr h2

/-- One round of the loop `while (death)` of `eliminate_dead_bbs`. -/
theorem eliminate_dead_bbs_loop_step (chain_fuel size n : Nat) (seen : Nat → Bool)
    (g : MVMSpeshGraph) :
    eliminate_dead_bbs_loop chain_fuel size (n + 1) seen g
      = if size = 0 then Except.error Fault.out_of_bounds
        else
          match eliminate_dead_bbs_mark g size chain_fuel (some g.entry)
              (fun k => if k = 0 then true else if k < g.num_bbs then false else seen k) with
          | Except.error e => Except.error e
          | Except.ok seen1 =>
            match eliminate_dead_bbs_splice seen1 size chain_fuel (some g.entry) (g, false) with
            | Except.error e => Except.error e
            | Except.ok (g1, death) =>
              if death then eliminate_dead_bbs_loop chain_fuel size n seen1 g1
              else Except.ok g1 := rfl

/-- The loop `while (death)` of `eliminate_dead_bbs` on a graph whose chain has no more
blocks than the rounds and the walks are given fuel for: it does not run out of fuel.  It
stops on an index that the `seen` array does not have, or reads through a null `cur_bb`, or
returns the graph relinked to a subsequence of the chain that starts with the entry block,
with `num_bbs` lowered by the number of blocks gone, none of which is marked inlined. -/
theorem eliminate_dead_bbs_loop_spec (chain_fuel size : Nat) :
    ∀ (fuel : Nat) (seen : Nat → Bool) (g : MVMSpeshGraph) (l : List Nat),
      is_chain g (some g.entry) l → l.length ≤ chain_fuel → l.length ≤ fuel →
      (eliminate_dead_bbs_loop chain_fuel size fuel seen g = Except.error Fault.out_of_bounds ∧
        ¬ (size ≠ 0 ∧ valid_indices g size l)) ∨
      eliminate_dead_bbs_loop chain_fuel size fuel seen g = Except.error Fault.null_deref ∨
      ∃ g' l', eliminate_dead_bbs_loop chain_fuel size fuel seen g = Except.ok g' ∧
        is_chain g' (some g.entry) l' ∧ l'.Sublist l ∧ l'.head? = l.head? ∧ relinked g g' ∧
        g'.num_bbs = g.num_bbs - (l.length - l'.length) ∧
        ∀ b ∈ l, b ∉ l' → (g.bbs b).inlined = false := by
  intro fuel
  induction fuel with
  | zero =>
    intro seen g l hc _ hl
    obtain ⟨t, rfl, _⟩ := is_chain_some g _ l hc
    simp at hl
  | succ n ih =>
    intro seen g l hc hcf hl
    rw [eliminate_dead_bbs_loop_step]
    by_cases hsize : size = 0
    · rw [if_pos hsize]
      exact Or.inl ⟨rfl, fun h => h.1 hsize⟩
    · rw [if_neg hsize]
      rcases eliminate_dead_bbs_mark_cases g size chain_fuel l (some g.entry)
          (fun k => if k = 0 then true else if k < g.num_bbs then false else seen k) hc hcf
        with ⟨h1, b, hb, s, hs, hsi⟩ | ⟨seen1, h1⟩
      · rw [h1]
        exact Or.inl ⟨rfl, fun h => hsi ((h.2 b hb).2 s hs)⟩
      · rw [h1]
        simp only []
        rcases eliminate_dead_bbs_splice_spec seen1 size
            (fun b => !seen1 (g.bbs b).idx && !(g.bbs b).inlined) chain_fuel l g.entry g false
            (fun _ => rfl) hc (is_chain_nodup g l _ hc) hcf
          with ⟨h2, b, hb, hbi⟩ | ⟨h2, _⟩ | ⟨l1, g1, q1, q2, q3, q4, q5, q6⟩
        · rw [h2]
          exact Or.inl ⟨rfl, fun h => hbi (h.2 b hb).1⟩
        · rw [h2]
          exact Or.inr (Or.inl rfl)
        · rw [q2]
          simp only [Bool.false_or]
          obtain ⟨s1, s2, s3, s4⟩ := splice_list_spec _ _ _ _ (Nat.le_refl _) q1
          obtain ⟨f1, f2, f3, f4⟩ := relinked_fields g g1 q4
          have hlen1 := s1.length_le
          by_cases hdeath : l1.length < l.length
          · have hdt : decide (l1.length < l.length) = true := by simpa using hdeath
            rw [hdt]
            simp only [if_true]
            have hc1 : is_chain g1 (some g1.entry) l1 := by rw [f1]; exact q3
            rcases ih seen1 g1 l1 hc1 (Nat.le_trans hlen1 hcf) (by omega)
              with ⟨r1, r2⟩ | r1 | ⟨g2, l2, r1, r2, r3, r4, r5, r6, r7⟩
            · refine Or.inl ⟨r1, fun h => r2 ⟨h.1, fun b hb => ?_⟩⟩
              obtain ⟨v1, v2⟩ := h.2 b (s1.subset hb)
              refine ⟨by rw [(f4 b).1]; exact v1, fun s hs => ?_⟩
              rw [(f4 b).2.2.1] at hs
              rw [(f4 s).1]
              exact v2 s hs
            · exact Or.inr (Or.inl r1)
            · refine Or.inr (Or.inr ⟨g2, l2, r1, by rw [← f1]; exact r2, r3.trans s1,
                by rw [r4, s2], relinked_trans _ _ _ q4 r5, ?_, fun b hb hnb => ?_⟩)
              · rw [r6, q6]
                have := r3.length_le
                omega
              · by_cases hb1 : b ∈ l1
                · rw [← (f4 b).2.1]
                  exact r7 b hb1 hnb
                · have := s3 b hb hb1
                  simp only [Bool.and_eq_true, Bool.not_eq_true'] at this
                  exact this.2
          · have hdf : decide (l1.length < l.length) = false := by simpa using hdeath
            rw [hdf]
            simp only [Bool.false_eq_true, if_false]
            refine Or.inr (Or.inr ⟨g1, l1, rfl, q3, s1, s2, q4, q6, fun b hb hnb => ?_⟩)
            have := s3 b hb hnb
            simp only [Bool.and_eq_true, Bool.not_eq_true'] at this
            exact this.2

/-- A graph that is a graph with one block stored up to the blocks is that graph up to the
blocks. -/
theorem set_bb_frame (g g2 : MVMSpeshGraph) (b : Nat) (bb : MVMSpeshBB)
    (h : { g2 with bbs := (g.set_bb b bb).bbs } = g.set_bb b bb) :
    { g2 with bbs := g.bbs } = g := by
  cases g
  cases g2
  simp only [MVMSpeshGraph.set_bb, MVMSpeshGraph.mk.injEq] at h ⊢
  obtain ⟨h1, -, h3, h4, h5, h6, h7, h8, h9, h10, h11, h12⟩ := h
  exact ⟨h1, trivial, h3, h4, h5, h6, h7, h8, h9, h10, h11, h12⟩

/-- The renumbering loop at the end of `eliminate_dead_bbs` along a chain that ends within
the fuel: it returns, the blocks of the chain carry consecutive indices in chain order, and
nothing else is changed. -/
theorem eliminate_dead_bbs_renumber_spec :
    ∀ (fuel : Nat) (l : List Nat) (o : Option Nat) (k : Nat) (g : MVMSpeshGraph),
      is_chain g o l → l.Nodup → l.length ≤ fuel →
      ∃ g', eliminate_dead_bbs_renumber fuel o k g = Except.ok g' ∧
        is_chain g' o l ∧
        (∀ i x, l.get? i = some x → (g'.bbs x).idx = k + i) ∧
        (∀ b, b ∉ l → g'.bbs b = g.bbs b) ∧
        (∀ b, { g'.bbs b with idx := (g.bbs b).idx } = g.bbs b) ∧
        { g' with bbs := g.bbs } = g := by
  intro fuel
  induction fuel with
  | zero =>
    intro l o k g hc _ hl
    cases l with
    | nil =>
      have : o = none := hc
      subst this
      exact ⟨g, rfl, hc, fun i x h => by simp at h, fun _ _ => rfl, fun _ => rfl, rfl⟩
    | cons b t => simp at hl
  | succ n ih =>
    intro l o k g hc hnd hl
    cases l with
    | nil =>
      have : o = none := hc
      subst this
      exact ⟨g, rfl, hc, fun i x h => by simp at h, fun _ _ => rfl, fun _ => rfl, rfl⟩
    | cons b t =>
      have e : o = some b := hc.1
      subst e
      obtain ⟨g1, hg1⟩ : ∃ g1 : MVMSpeshGraph,
          g1 = g.set_bb b { g.bbs b with idx := k } := ⟨_, rfl⟩
      have hstep : eliminate_dead_bbs_renumber (n + 1) (some b) k g
          = eliminate_dead_bbs_renumber n (g.bbs b).linear_next (k + 1) g1 := by
        rw [hg1]
        simp [eliminate_dead_bbs_renumber, MVMSpeshGraph.set_bb]
      have hb_not : b ∉ t := (List.nodup_cons.1 hnd).1
      have hother : ∀ c, c ≠ b → g1.bbs c = g.bbs c := by
        intro c hcb
        rw [hg1]; simp [MVMSpeshGraph.set_bb, hcb]
      have hself : g1.bbs b = { g.bbs b with idx := k } := by
        rw [hg1]; simp [MVMSpeshGraph.set_bb]
      have hc1 : is_chain g1 (g.bbs b).linear_next t := by
        refine is_chain_congr g g1 t _ (fun c hc2 => ?_) hc.2
        rw [hother c (fun e => hb_not (e ▸ hc2))]
      obtain ⟨g2, r1, r2, r3, r4, r5, r6⟩ := ih t _ (k + 1) g1 hc1 (List.nodup_cons.1 hnd).2
        (by simp at hl; omega)
      refine ⟨g2, by rw [hstep, r1], ⟨rfl, ?_⟩, fun i x hx => ?_, fun c hc2 => ?_,
        fun c => ?_, ?_⟩
      · rw [r4 b hb_not, hself]
        exact r2
      · cases i with
        | zero =>
          simp only [List.get?_cons_zero, Option.some.injEq] at hx
          subst hx
          rw [r4 _ hb_not, hself]
          rfl
        | succ j =>
          simp only [List.get?_cons_succ] at hx
          rw [r3 j x hx]
          omega
      · have hcb : c ≠ b := fun e => hc2 (e ▸ List.mem_cons_self _ _)
        rw [r4 c (fun hin => hc2 (List.mem_cons_of_mem _ hin)), hother c hcb]
      · have h5 := r5 c
        by_cases hcb : c = b
        · subst hcb
          rw [hself] at h5
          generalize g.bbs c = x at h5 ⊢
          generalize g2.bbs c = y at h5 ⊢
          cases x
          cases y
          simp_all
        · rw [hother c hcb] at h5
          exact h5
      · rw [hg1] at r6
        exact set_bb_frame g g2 _ _ r6

/-- The outcome of `eliminate_dead_bbs` on a graph whose chain from the entry block has no
more blocks than the fuel: it does not run out of fuel.  It stops on an index that the
`seen` array does not have, or it reads through a null `cur_bb`, or it returns; the chain of
the graph it returns is a subsequence of the chain it was given that starts with the entry
block, the blocks gone are not marked inlined, `num_bbs` is lowered by their number, and if
the blocks were indexed by their place in the chain, and counted by `num_bbs`, they are so
again. -/
theorem eliminate_dead_bbs_spec (tc : MVMThreadContext) (fuel : Nat) (g : MVMSpeshGraph)
    (l : List Nat) (hc : is_chain g (some g.entry) l) (hl : l.length ≤ fuel) :
    (eliminate_dead_bbs tc fuel g = Except.error Fault.out_of_bounds ∧
      ¬ (g.num_bbs ≠ 0 ∧ valid_indices g g.num_bbs l)) ∨
    eliminate_dead_bbs tc fuel g = Except.error Fault.null_deref ∨
    ∃ g' l', eliminate_dead_bbs tc fuel g = Except.ok g' ∧
      is_chain g' (some g'.entry) l' ∧ g'.entry = g.entry ∧ l'.Sublist l ∧
      l'.head? = some g.entry ∧
      (∀ b ∈ l, b ∉ l' → (g.bbs b).inlined = false) ∧
      g'.num_bbs = g.num_bbs - (l.length - l'.length) ∧
      ((g.num_bbs = l.length ∧ ∀ i x, l.get? i = some x → (g.bbs x).idx = i) →
        g'.num_bbs = l'.length ∧ ∀ i x, l'.get? i = some x → (g'.bbs x).idx = i) := by
  obtain ⟨t, rfl, _⟩ := is_chain_some g _ l hc
  unfold eliminate_dead_bbs
  simp only []
  rcases eliminate_dead_bbs_loop_spec fuel g.num_bbs fuel (fun _ => false) g _ hc hl hl
    with ⟨r1, r2⟩ | r1 | ⟨g1, l1, r1, r2, r3, r4, r5, r6, r7⟩
  · rw [r1]
    exact Or.inl ⟨rfl, r2⟩
  · rw [r1]
    exact Or.inr (Or.inl rfl)
  · rw [r1]
    simp only []
    obtain ⟨f1, f2, f3, f4⟩ := relinked_fields g g1 r5
    have hlen1 := r3.length_le
    have hhead : l1.head? = some g.entry := by rw [r4]; rfl
    by_cases hnum : g1.num_bbs ≠ g.num_bbs
    · rw [if_pos hnum]
      have hc1 : is_chain g1 (some g1.entry) l1 := by rw [f1]; exact r2
      obtain ⟨g2, q1, q2, q3, q4, q5, q6⟩ := eliminate_dead_bbs_renumber_spec fuel l1
        (some g1.entry) 0 g1 hc1 (is_chain_nodup g1 l1 _ hc1) (Nat.le_trans hlen1 hl)
      have e1 : g2.entry = g1.entry := by rw [← q6]
      have e2 : g2.num_bbs = g1.num_bbs := by rw [← q6]
      refine Or.inr (Or.inr ⟨g2, l1, q1, by rw [e1]; exact q2, by rw [e1, f1], r3, hhead, r7,
        by rw [e2, r6], fun hidx => ⟨?_, fun i x hx => ?_⟩⟩)
      · rw [e2, r6, hidx.1]
        omega
      · rw [q3 i x hx]
        omega
    · rw [if_neg hnum]
      refine Or.inr (Or.inr ⟨g1, l1, rfl, by rw [f1]; exact r2, f1, r3, hhead, r7, r6,
        fun hidx => ?_⟩)
      have hnum2 : g1.num_bbs = g.num_bbs := by
        by_contra hne
        exact hnum hne
      have hleq : l1.length = (g.entry :: t).length := by
        rw [r6, hidx.1] at hnum2
        simp only [List.length_cons] at hnum2 hlen1 ⊢
        omega
      have hl1 : l1 = g.entry :: t := r3.eq_of_length hleq
      refine ⟨by rw [hnum2, hidx.1, hl1], fun i x hx => ?_⟩
      rw [hl1] at hx
      rw [(f4 x).1]
      exact hidx.2 i x hx

/-! ### C38: the second pass of `eliminate_dead_bbs` and the last block of the chain -/

/-- C38, at the failing input: the chain `g_dead_last` of two blocks with valid indices,
whose last block is not inlined and not reached.  The second pass splices the last block out,
which leaves `cur_bb->linear_next` null, moves `cur_bb` to it, and the loop test
`cur_bb->linear_next` then reads through the null pointer, with any amount of fuel that
lets both passes walk the chain. -/
theorem C38_splice_of_last_block_reads_null (fuel : Nat) :
    linear_chain g_dead_last 2 (some g_dead_last.entry) = some [0, 1] ∧
    g_dead_last.num_bbs = 2 ∧
    (∀ b ∈ [0, 1], (g_dead_last.bbs b).idx = b ∧ (g_dead_last.bbs b).inlined = false) ∧
    (∀ b ∈ [0, 1], 1 ∉ (g_dead_last.bbs b).succ) ∧
    (g_dead_last.bbs 1).linear_next = none ∧
    eliminate_dead_bbs (sample_tc 0) (fuel + 2) g_dead_last
      = Except.error Fault.null_deref := by
  refine ⟨by decide, rfl, by decide, by decide, rfl, ?_⟩
  simp [eliminate_dead_bbs, eliminate_dead_bbs_loop, eliminate_dead_bbs_mark,
    eliminate_dead_bbs_splice, mark_successors, g_dead_last, g_blocks,
    MVMSpeshGraph.set_bb]

/-! ### C32: renumbering of the blocks that remain -/

/-- C32, at the failing input: the chain `g_dead_end` of three blocks indexed 0 to 2 in
linear order with `num_bbs = 3`.  Block 2 is not reached and is the last block, and
`eliminate_dead_bbs` does not return: after splicing block 2 out its second pass reads
`linear_next` through a null `cur_bb`.  No graph results whose blocks could carry the
indices of the claim. -/
theorem C32_no_renumbering_when_last_block_dies (fuel : Nat) :
    linear_chain g_dead_end 3 (some g_dead_end.entry) = some [0, 1, 2] ∧
    g_dead_end.num_bbs = 3 ∧
    (∀ b ∈ [0, 1, 2], (g_dead_end.bbs b).idx = b) ∧
    eliminate_dead_bbs (sample_tc 0) (fuel + 3) g_dead_end = Except.error Fault.null_deref ∧
    ¬ ∃ g, eliminate_dead_bbs (sample_tc 0) (fuel + 3) g_dead_end = Except.ok g := by
  have h : eliminate_dead_bbs (sample_tc 0) (fuel + 3) g_dead_end
      = Except.error Fault.null_deref := by
    simp [eliminate_dead_bbs, eliminate_dead_bbs_loop, eliminate_dead_bbs_mark,
      eliminate_dead_bbs_splice, mark_successors, g_dead_end, g_blocks,
      MVMSpeshGraph.set_bb]
  refine ⟨by decide, rfl, by decide, h, ?_⟩
  rintro ⟨g, hg⟩
  rw [h] at hg
  cases hg

/-! ### Usages and instruction counts under dead-instruction elimination -/

/-- The sum over the blocks of a list without repetition, when one block changes. -/
theorem sum_map_update (f f' : Nat → Nat) (bb : Nat) :
    ∀ (l : List Nat), l.Nodup → bb ∈ l → (∀ b, b ≠ bb → f' b = f b) →
      (l.map f').sum + f bb = (l.map f).sum + f' bb := by
  intro l
  induction l with
  | nil => intro _ h; cases h
  | cons a t ih =>
    intro hnd hmem hf
    have hnot : a ∉ t := (List.nodup_cons.1 hnd).1
    simp only [List.map_cons, List.sum_cons]
    by_cases ha : a = bb
    · subst ha
      have ht : t.map f' = t.map f := by
        apply List.map_congr_left
        intro b hb
        exact hf b (fun e => hnot (e ▸ hb))
      rw [ht]
      omega
    · have hmem2 : bb ∈ t := by
        rcases List.mem_cons.1 hmem with h | h
        · exact absurd h.symm ha
        · exact h
      have := ih (List.nodup_cons.1 hnd).2 hmem2 hf
      rw [hf a ha]
      omega

/-- The sum over the blocks of a list none of which changes. -/
theorem sum_map_same (f f' : Nat → Nat) (l : List Nat) (hf : ∀ b ∈ l, f' b = f b) :
    (l.map f').sum = (l.map f).sum := by
  rw [List.map_congr_left hf]

/-- The read count of an instruction depends on the instruction records only. -/
theorem ins_read_count_congr (tc : MVMThreadContext) (g g' : MVMSpeshGraph) (h : g'.ins = g.ins)
    (p : Nat) (r : Nat × Nat) : ins_read_count tc g' p r = ins_read_count tc g p r := by
  unfold ins_read_count
  rw [h]

/-- No progress is progress. -/
theorem dead_ins_progress_refl (tc : MVMThreadContext) (l : List Nat) (g : MVMSpeshGraph) :
    dead_ins_progress tc l g g :=
  ⟨rfl, rfl, fun _ => ⟨rfl, rfl⟩, Nat.le_refl _, fun _ => le_refl _, fun _ => rfl⟩

/-- Progress after progress is progress. -/
theorem dead_ins_progress_trans (tc : MVMThreadContext) (l : List Nat)
    (g1 g2 g3 : MVMSpeshGraph) (h12 : dead_ins_progress tc l g1 g2)
    (h23 : dead_ins_progress tc l g2 g3) : dead_ins_progress tc l g1 g3 := by
  obtain ⟨a1, a2, a3, a4, a5, a6⟩ := h12
  obtain ⟨b1, b2, b3, b4, b5, b6⟩ := h23
  refine ⟨by rw [b1, a1], by rw [b2, a2], fun b => ⟨by rw [(b3 b).1, (a3 b).1],
    by rw [(b3 b).2, (a3 b).2]⟩, Nat.le_trans b4 a4, fun r => le_trans (b5 r) (a5 r),
    fun r => ?_⟩
  have e1 := a6 r
  have e2 := b6 r
  omega

/-- The visit of an instruction that is in its block, the block being one of the blocks `l`
of the chain: if the instruction is dead it leaves the list of its block and the graph has
one instruction less, and in any case the visit is progress. -/
theorem eliminate_dead_ins_visit_spec (tc : MVMThreadContext) (g : MVMSpeshGraph)
    (bb ins : Nat) (l : List Nat) (hnd : l.Nodup) (hbb : bb ∈ l)
    (hin : ins ∈ (g.bbs bb).ins) :
    dead_ins_progress tc l g (eliminate_dead_ins_visit tc g bb ins).1 ∧
    (∀ b, b ≠ bb → (eliminate_dead_ins_visit tc g bb ins).1.bbs b = g.bbs b) ∧
    ((eliminate_dead_ins_visit tc g bb ins).1.bbs bb).ins
      = (if (eliminate_dead_ins_visit tc g bb ins).2 then (g.bbs bb).ins.erase ins
         else (g.bbs bb).ins) ∧
    ins_total (eliminate_dead_ins_visit tc g bb ins).1 l
        + (if (eliminate_dead_ins_visit tc g bb ins).2 then 1 else 0)
      = ins_total g l := by
  rw [eliminate_dead_ins_visit_eq]
  by_cases hdead : is_dead_ins tc g ins = true
  · rw [if_pos hdead]
    obtain ⟨g1, hg1⟩ : ∃ g1 : MVMSpeshGraph, g1 = propagate_non_usage tc ins
        (!decide ((g.ins ins).info.opcode = MVM_SSA_PHI))
        ((g.ins ins).info.num_operands - 1) g 1 := ⟨_, rfl⟩
    rw [← hg1]
    dsimp only
    have h1bbs : g1.bbs = g.bbs := by rw [hg1]; exact propagate_non_usage_bbs tc ins _ _ g 1
    have h1ins : g1.ins = g.ins := by rw [hg1]; exact (propagate_non_usage_ins tc ins _ _ g 1).1
    have h1entry : g1.entry = g.entry := by
      rw [hg1]; exact (propagate_non_usage_ins tc ins _ _ g 1).2
    have h1facts : ∀ r : Nat × Nat, (g1.facts_at r).usages
        = (g.facts_at r).usages - (ins_read_count tc g ins r : Nat) := by
      intro r
      obtain ⟨a, b⟩ := r
      rw [← dead_ins_read_count tc g ins (a, b) hdead]
      simp only [MVMSpeshGraph.facts_at, hg1, propagate_non_usage_facts]
    have hbbs : ∀ b, (MVM_spesh_manipulate_delete_ins tc g1 bb ins).bbs b
        = if b = bb then { g.bbs bb with ins := (g.bbs bb).ins.erase ins } else g.bbs b := by
      intro b
      simp only [MVM_spesh_manipulate_delete_ins, set_bb_bbs, h1bbs]
    have hfacts : ∀ r : Nat × Nat, ((MVM_spesh_manipulate_delete_ins tc g1 bb ins).facts_at r)
        = g1.facts_at r := fun r => rfl
    have hins : (MVM_spesh_manipulate_delete_ins tc g1 bb ins).ins = g.ins := by
      rw [← h1ins]; rfl
    have hentry : (MVM_spesh_manipulate_delete_ins tc g1 bb ins).entry = g.entry := by
      rw [← h1entry]; rfl
    have htotal : ins_total (MVM_spesh_manipulate_delete_ins tc g1 bb ins) l + 1
        = ins_total g l := by
      unfold ins_total
      have := sum_map_update (fun b => (g.bbs b).ins.length)
        (fun b => ((MVM_spesh_manipulate_delete_ins tc g1 bb ins).bbs b).ins.length) bb l hnd hbb
        (fun b hb => by simp only [hbbs, if_neg hb])
      simp only [hbbs, if_true] at this ⊢
      rw [List.length_erase_of_mem hin] at this
      have hpos : 0 < (g.bbs bb).ins.length := List.length_pos_of_mem hin
      omega
    have hcount : ∀ r, blocks_read_count tc (MVM_spesh_manipulate_delete_ins tc g1 bb ins) l r
        + ins_read_count tc g ins r = blocks_read_count tc g l r := by
      intro r
      unfold blocks_read_count
      have hc : (fun p => ins_read_count tc (MVM_spesh_manipulate_delete_ins tc g1 bb ins) p r)
          = fun p => ins_read_count tc g p r :=
        funext fun p => ins_read_count_congr tc g _ hins p r
      rw [hc]
      have := sum_map_update (fun b => ((g.bbs b).ins.map fun p => ins_read_count tc g p r).sum)
        (fun b => (((MVM_spesh_manipulate_delete_ins tc g1 bb ins).bbs b).ins.map
          fun p => ins_read_count tc g p r).sum) bb l hnd hbb
        (fun b hb => by simp only [hbbs, if_neg hb])
      simp only [hbbs, if_true] at this ⊢
      have he := List.sum_map_erase (fun p => ins_read_count tc g p r) hin
      beta_reduce at he
      omega
    refine ⟨⟨hins, hentry, fun b => ?_, by omega, fun r => ?_, fun r => ?_⟩,
      fun b hb => by rw [hbbs, if_neg hb], by rw [hbbs]; simp, by simpa using htotal⟩
    · rw [hbbs]
      by_cases hb : b = bb
      · subst hb; simp
      · simp [hb]
    · rw [hfacts, h1facts]
      omega
    · rw [hfacts, h1facts]
      have := hcount r
      omega
  · rw [if_neg hdead]
    exact ⟨dead_ins_progress_refl tc l g, fun _ _ => rfl, by simp, by simp⟩

/-- The walk over a block that is one of the blocks `l` of the chain, the instructions still
to visit being in the list of the block as often as they are to be visited: the walk is
progress, and if it sets `death` the graph has an instruction less. -/
theorem eliminate_dead_ins_block_spec (tc : MVMThreadContext) (bb : Nat) (l : List Nat)
    (hnd : l.Nodup) (hbb : bb ∈ l) :
    ∀ (todo : List Nat) (g : MVMSpeshGraph) (d : Bool),
      (∀ x, todo.count x ≤ (g.bbs bb).ins.count x) →
      dead_ins_progress tc l g (eliminate_dead_ins_block tc bb todo (g, d)).1 ∧
      ((eliminate_dead_ins_block tc bb todo (g, d)).2 = true →
        d = true ∨ ins_total (eliminate_dead_ins_block tc bb todo (g, d)).1 l < ins_total g l) := by
  intro todo
  induction todo with
  | nil =>
    intro g d _
    exact ⟨dead_ins_progress_refl tc l g, fun h => Or.inl h⟩
  | cons ins prevs ih =>
    intro g d hcount
    have hin : ins ∈ (g.bbs bb).ins := by
      have := hcount ins
      rw [List.count_cons_self] at this
      exact List.count_pos_iff.1 (by omega)
    obtain ⟨v1, v2, v3, v4⟩ := eliminate_dead_ins_visit_spec tc g bb ins l hnd hbb hin
    simp only [eliminate_dead_ins_block]
    have hcount2 : ∀ x, prevs.count x
        ≤ ((eliminate_dead_ins_visit tc g bb ins).1.bbs bb).ins.count x := by
      intro x
      rw [v3]
      have hx := hcount x
      by_cases hdeath : (eliminate_dead_ins_visit tc g bb ins).2 = true
      · rw [if_pos hdeath]
        by_cases hxi : x = ins
        · subst hxi
          rw [List.count_cons_self] at hx
          rw [List.count_erase_self]
          omega
        · rw [List.count_cons_of_ne hxi] at hx
          rw [List.count_erase_of_ne hxi]
          exact hx
      · rw [if_neg hdeath]
        by_cases hxi : x = ins
        · subst hxi
          rw [List.count_cons_self] at hx
          omega
        · rw [List.count_cons_of_ne hxi] at hx
          exact hx
    obtain ⟨i1, i2⟩ := ih (eliminate_dead_ins_visit tc g bb ins).1
      (d || (eliminate_dead_ins_visit tc g bb ins).2) hcount2
    refine ⟨dead_ins_progress_trans tc l _ _ _ v1 i1, fun hfin => ?_⟩
    rcases i2 hfin with h | h
    · rw [Bool.or_eq_true] at h
      rcases h with h | h
      · exact Or.inl h
      · rw [h] at v4
        simp only [if_true] at v4
        refine Or.inr ?_
        have := i1.2.2.2.1
        omega
    · refine Or.inr ?_
      have : ins_total (eliminate_dead_ins_visit tc g bb ins).1 l ≤ ins_total g l := v1.2.2.2.1
      omega

/-- A pass of `eliminate_dead_ins` along a stretch of the chain that ends within the fuel:
it returns, it is progress, and if it sets `death` the graph has an instruction less. -/
theorem eliminate_dead_ins_pass_spec (tc : MVMThreadContext) (l : List Nat) (hnd : l.Nodup) :
    ∀ (fuel : Nat) (l2 : List Nat) (start : Option Nat) (g : MVMSpeshGraph) (d : Bool),
      is_chain g start l2 → (∀ b ∈ l2, b ∈ l) → l2.length ≤ fuel →
      ∃ g' d', eliminate_dead_ins_pass tc fuel start (g, d) = Except.ok (g', d') ∧
        dead_ins_progress tc l g g' ∧
        (d' = true → d = true ∨ ins_total g' l < ins_total g l) := by
  intro fuel
  induction fuel with
  | zero =>
    intro l2 start g d hc _ hl
    cases l2 with
    | nil =>
      have : start = none := hc
      subst this
      exact ⟨g, d, rfl, dead_ins_progress_refl tc l g, fun h => Or.inl h⟩
    | cons b t => simp at hl
  | succ n ih =>
    intro l2 start g d hc hsub hl
    cases l2 with
    | nil =>
      have : start = none := hc
      subst this
      exact ⟨g, d, rfl, dead_ins_progress_refl tc l g, fun h => Or.inl h⟩
    | cons b t =>
      have e : start = some b := hc.1
      subst e
      simp only [eliminate_dead_ins_pass]
      by_cases hinl : (g.bbs b).inlined = true
      · rw [if_pos hinl]
        exact ⟨g, d, rfl, dead_ins_progress_refl tc l g, fun h => Or.inl h⟩
      · rw [if_neg hinl]
        obtain ⟨b1, b2⟩ := eliminate_dead_ins_block_spec tc b l hnd
          (hsub b (List.mem_cons_self _ _)) (g.bbs b).ins.reverse g d
          (fun x => by rw [List.count_reverse])
        obtain ⟨g1, d1, hr⟩ : ∃ g1 d1,
            eliminate_dead_ins_block tc b (g.bbs b).ins.reverse (g, d) = (g1, d1) := ⟨_, _, rfl⟩
        rw [hr] at b1 b2 ⊢
        simp only [] at b1 b2 ⊢
        have hc1 : is_chain g1 (g1.bbs b).linear_next t := by
          rw [(b1.2.2.1 b).1]
          exact is_chain_congr g g1 t _ (fun c _ => (b1.2.2.1 c).1) hc.2
        obtain ⟨g2, d2, p1, p2, p3⟩ := ih t _ g1 d1 hc1
          (fun c hc2 => hsub c (List.mem_cons_of_mem _ hc2)) (by simp at hl; omega)
        refine ⟨g2, d2, p1, dead_ins_progress_trans tc l _ _ _ b1 p2, fun hd2 => ?_⟩
        rcases p3 hd2 with h | h
        · rcases b2 h with h2 | h2
          · exact Or.inl h2
          · refine Or.inr ?_
            have := p2.2.2.2.1
            omega
        · refine Or.inr ?_
          have := b1.2.2.2.1
          omega

/-- The loop `while (death)` of `eliminate_dead_ins` on a graph whose chain from the entry
block is walked within `chain_fuel`: with one round more than the blocks of the chain hold
instructions, it returns, and what it does is progress. -/
theorem eliminate_dead_ins_loop_returns (tc : MVMThreadContext) (chain_fuel : Nat)
    (l : List Nat) :
    ∀ (fuel : Nat) (g : MVMSpeshGraph),
      is_chain g (some g.entry) l → l.length ≤ chain_fuel → ins_total g l < fuel →
      ∃ g', eliminate_dead_ins_loop tc chain_fuel fuel g = Except.ok g' ∧
        dead_ins_progress tc l g g' := by
  intro fuel
  induction fuel with
  | zero => intro g _ _ h; omega
  | succ n ih =>
    intro g hc hcf hfuel
    obtain ⟨g1, d1, p1, p2, p3⟩ := eliminate_dead_ins_pass_spec tc l (is_chain_nodup g l _ hc)
      chain_fuel l (some g.entry) g false hc (fun _ h => h) hcf
    simp only [eliminate_dead_ins_loop]
    rw [p1]
    simp only []
    cases d1 with
    | false =>
      simp only [Bool.false_eq_true, if_false]
      exact ⟨g1, rfl, p2⟩
    | true =>
      simp only [if_true]
      have hlt : ins_total g1 l < ins_total g l := by
        rcases p3 rfl with h | h
        · cases h
        · exact h
      have hc1 : is_chain g1 (some g1.entry) l := by
        rw [p2.2.1]
        exact is_chain_congr g g1 l _ (fun c _ => (p2.2.2.1 c).1) hc
      obtain ⟨g2, q1, q2⟩ := ih g1 hc1 hcf (by omega)
      exact ⟨g2, q1, dead_ins_progress_trans tc l _ _ _ p2 q2⟩

/-- Progress keeps the chain. -/
theorem dead_ins_progress_chain (tc : MVMThreadContext) (l : List Nat) (g g' : MVMSpeshGraph)
    (fuel : Nat) (hp : dead_ins_progress tc l g g')
    (hchain : linear_chain g fuel (some g.entry) = some l) :
    linear_chain g' fuel (some g'.entry) = some l := by
  obtain ⟨h1, h2⟩ := linear_chain_is_chain g fuel _ l hchain
  rw [hp.2.1]
  exact is_chain_linear_chain g' l _ fuel
    (is_chain_congr g g' l _ (fun c _ => (hp.2.2.1 c).1) h1) h2

/-- The read count of the graph is the read count over the blocks of its chain. -/
theorem graph_read_count_eq (tc : MVMThreadContext) (g : MVMSpeshGraph) (fuel : Nat)
    (l : List Nat) (hchain : linear_chain g fuel (some g.entry) = some l) (r : Nat × Nat) :
    graph_read_count tc g fuel r = blocks_read_count tc g l r := by
  unfold graph_read_count blocks_read_count
  rw [hchain]

/-- On a graph whose chain from the entry block is walked within the fuel, and whose blocks
hold fewer instructions than the fuel, `eliminate_dead_ins` returns, and what it does is
progress. -/
theorem eliminate_dead_ins_returns (tc : MVMThreadContext) (g : MVMSpeshGraph) (l : List Nat)
    (fuel : Nat) (hchain : linear_chain g fuel (some g.entry) = some l)
    (hfuel : ins_total g l < fuel) :
    ∃ g', eliminate_dead_ins tc fuel g = Except.ok g' ∧ dead_ins_progress tc l g g' := by
  obtain ⟨h1, h2⟩ := linear_chain_is_chain g fuel _ l hchain
  exact eliminate_dead_ins_loop_returns tc fuel l fuel g h1 h2 hfuel

/-! ### C37: dead-instruction elimination keeps the usage balance -/

/-- C37: let the chain of the graph be walked within the fuel, which is also more than the
number of instructions of its blocks, and let every register version's usages counter equal
the number of read-register operands that reference it (the sources of a phi included) among
the instructions of the blocks of the chain.  Then `eliminate_dead_ins` returns, the same
holds of the graph it returns, and every usages counter of that graph is at least zero and
at most what it was; as the function writes a usages counter by decrementing it only, no
counter was below zero at any point of the run. -/
theorem C37_dead_ins_keeps_usage_balance (tc : MVMThreadContext) (g : MVMSpeshGraph)
    (l : List Nat) (fuel : Nat)
    (hchain : linear_chain g fuel (some g.entry) = some l)
    (hfuel : ins_total g l < fuel)
    (hbal : ∀ r : Nat × Nat, (g.facts_at r).usages = (graph_read_count tc g fuel r : Nat)) :
    ∃ g', eliminate_dead_ins tc fuel g = Except.ok g' ∧
      (∀ r : Nat × Nat, (g'.facts_at r).usages = (graph_read_count tc g' fuel r : Nat)) ∧
      (∀ r : Nat × Nat, 0 ≤ (g'.facts_at r).usages ∧
        (g'.facts_at r).usages ≤ (g.facts_at r).usages) ∧
      linear_chain g' fuel (some g'.entry) = some l ∧ g'.ins = g.ins := by
  obtain ⟨g', h1, hp⟩ := eliminate_dead_ins_returns tc g l fuel hchain hfuel
  have hchain' := dead_ins_progress_chain tc l g g' fuel hp hchain
  have hbal' : ∀ r : Nat × Nat, (g'.facts_at r).usages = (graph_read_count tc g' fuel r : Nat) := by
    intro r
    have e1 := hbal r
    rw [graph_read_count_eq tc g fuel l hchain r] at e1
    rw [graph_read_count_eq tc g' fuel l hchain' r]
    have e2 := hp.2.2.2.2.2 r
    omega
  refine ⟨g', h1, hbal', fun r => ⟨?_, hp.2.2.2.2.1 r⟩, hchain', hp.1⟩
  rw [hbal' r]
  exact Int.natCast_nonneg _

/-- C37, witness: the graph of one unused phi `r4 = phi(r1, r2)`, in which `r1` and `r2` have
one usage each, is balanced; the phi is deleted and every counter is zero afterwards. -/
theorem C37_dead_ins_keeps_usage_balance_witness :
    ∃ g', eliminate_dead_ins (sample_tc 0) 4 g_phi = Except.ok g' ∧
      (∀ r : Nat × Nat,
        (g'.facts_at r).usages = (graph_read_count (sample_tc 0) g' 4 r : Nat)) ∧
      (∀ r : Nat × Nat, 0 ≤ (g'.facts_at r).usages ∧
        (g'.facts_at r).usages ≤ (g_phi.facts_at r).usages) ∧
      linear_chain g' 4 (some g'.entry) = some [0] ∧ g'.ins = g_phi.ins :=
  C37_dead_ins_keeps_usage_balance (sample_tc 0) g_phi [0] 4 (by decide) (by decide)
    (by
      intro r
      obtain ⟨a, b⟩ := r
      by_cases h1 : a = 1 ∧ b = 0
      · obtain ⟨e1, e2⟩ := h1
        subst e1 e2
        decide
      · by_cases h2 : a = 2 ∧ b = 0
        · obtain ⟨e1, e2⟩ := h2
          subst e1 e2
          decide
        · have n1 : ¬ ((1, 0) = (a, b)) :=
            fun e => h1 ⟨(Prod.mk.inj e).1.symm, (Prod.mk.inj e).2.symm⟩
          have n2 : ¬ ((2, 0) = (a, b)) :=
            fun e => h2 ⟨(Prod.mk.inj e).1.symm, (Prod.mk.inj e).2.symm⟩
          have n3 : ¬ ((a = 1 ∨ a = 2) ∧ b = 0) := by
            rintro ⟨h | h, hb⟩
            · exact h1 ⟨h, hb⟩
            · exact h2 ⟨h, hb⟩
          simp [g_phi, graph_read_count, linear_chain, ins_read_count, n1, n2, n3,
            blank_facts, List.range_succ, MVMSpeshIns.operand, MVMSpeshOperand.get_reg,
            List.filter, MVMSpeshGraph.facts_at])

/-! ### C33: the fixed-point loops end -/

/-- C33: let `l` be the chain of the graph from its entry block, walked within `chain_fuel`
(a chain that ends passes through no block twice).  The loop `while (death)` of
`eliminate_dead_ins` returns within one round more than the blocks of the chain hold
instructions, because a pass that sets `death` leaves an instruction less in them.  The loop
`while (death)` of `eliminate_dead_bbs` ends within one round more than the chain has
blocks, because a second pass that sets `death` leaves a block less in the chain: within
these rounds it returns, unless it stops before on an index that the `seen` array does not
have (the indices of the blocks and of their successors are not all below `num_bbs`) or on
the read through a null `cur_bb` after splicing out the last block of the chain. -/
theorem C33_fixed_point_loops_terminate (tc : MVMThreadContext) (g : MVMSpeshGraph)
    (l : List Nat) (chain_fuel : Nat)
    (hchain : linear_chain g chain_fuel (some g.entry) = some l) :
    l.Nodup ∧
    (∃ g', eliminate_dead_ins_loop tc chain_fuel (ins_total g l + 1) g = Except.ok g' ∧
      ins_total g' l ≤ ins_total g l) ∧
    (∀ g' death, eliminate_dead_ins_pass tc chain_fuel (some g.entry) (g, false)
        = Except.ok (g', death) → death = true → ins_total g' l < ins_total g l) ∧
    (∀ seen,
      (eliminate_dead_bbs_loop chain_fuel g.num_bbs (l.length + 1) seen g
          = Except.error Fault.out_of_bounds ∧
        ¬ (g.num_bbs ≠ 0 ∧ valid_indices g g.num_bbs l)) ∨
      eliminate_dead_bbs_loop chain_fuel g.num_bbs (l.length + 1) seen g
          = Except.error Fault.null_deref ∨
      ∃ g' l', eliminate_dead_bbs_loop chain_fuel g.num_bbs (l.length + 1) seen g
          = Except.ok g' ∧
        linear_chain g' chain_fuel (some g'.entry) = some l' ∧ l'.length ≤ l.length) ∧
    (∀ seen g' death, eliminate_dead_bbs_splice seen g.num_bbs chain_fuel (some g.entry)
        (g, false) = Except.ok (g', death) → death = true →
      ∃ l', linear_chain g' chain_fuel (some g'.entry) = some l' ∧ l'.length < l.length) := by
  obtain ⟨hc, hlen⟩ := linear_chain_is_chain g chain_fuel _ l hchain
  have hnd := is_chain_nodup g l _ hc
  refine ⟨hnd, ?_, ?_, ?_, ?_⟩
  · obtain ⟨g', h1, h2⟩ := eliminate_dead_ins_loop_returns tc chain_fuel l
      (ins_total g l + 1) g hc hlen (Nat.lt_succ_self _)
    exact ⟨g', h1, h2.2.2.2.1⟩
  · intro g' death hpass hdeath
    obtain ⟨g1, d1, p1, _, p3⟩ := eliminate_dead_ins_pass_spec tc l hnd chain_fuel l
      (some g.entry) g false hc (fun _ h => h) hlen
    rw [hpass] at p1
    injection p1 with p1
    injection p1 with e1 e2
    subst e1 e2
    rcases p3 hdeath with h | h
    · cases h
    · exact h
  · intro seen
    rcases eliminate_dead_bbs_loop_spec chain_fuel g.num_bbs (l.length + 1) seen g l hc hlen
        (Nat.le_succ _)
      with h | h | ⟨g', l', r1, r2, r3, _, r5, _, _⟩
    · exact Or.inl h
    · exact Or.inr (Or.inl h)
    · refine Or.inr (Or.inr ⟨g', l', r1, ?_, r3.length_le⟩)
      rw [(relinked_fields g g' r5).1]
      exact is_chain_linear_chain g' l' _ chain_fuel r2 (Nat.le_trans r3.length_le hlen)
  · intro seen g' death hsplice hdeath
    rcases eliminate_dead_bbs_splice_spec seen g.num_bbs
        (fun b => !seen (g.bbs b).idx && !(g.bbs b).inlined) chain_fuel l g.entry g false
        (fun _ => rfl) hc hnd hlen
      with ⟨h, _⟩ | ⟨h, _⟩ | ⟨l', g1, _, q2, q3, q4, _, _⟩
    · rw [hsplice] at h; cases h
    · rw [hsplice] at h; cases h
    · rw [hsplice] at q2
      injection q2 with q2
      injection q2 with e1 e2
      subst e1
      rw [hdeath] at e2
      have hlt : l'.length < l.length := by simpa using e2.symm
      refine ⟨l', ?_, hlt⟩
      rw [(relinked_fields g g' q4).1]
      exact is_chain_linear_chain g' l' _ chain_fuel q3 (by omega)

/-- C33, witness: the chain of four blocks `g_dead_tail`, each holding one instruction. -/
theorem C33_fixed_point_loops_terminate_witness :
    ∃ g', eliminate_dead_ins_loop (sample_tc 0) 4 (ins_total g_dead_tail [0, 1, 2, 3] + 1)
        g_dead_tail = Except.ok g' ∧
      ins_total g' [0, 1, 2, 3] ≤ ins_total g_dead_tail [0, 1, 2, 3] :=
  (C33_fixed_point_loops_terminate (sample_tc 0) g_dead_tail [0, 1, 2, 3] 4 (by decide)).2.1

/-! ### C35: the usages of the registers an eliminated reader read -/

/-- C35, at two failing inputs.  In the graph of `islist r2, r1`, where `r1` has a known type
that is not an array and this one reader, `optimize_is_reprid` makes the instruction
`const_i64_16 r2, 0`, which reads no register, and leaves the usages counter of `r1` at 1:
the mismatch case has no decrement.  In the graph of `sp_log r1, 0`, where `r1` has this one
reader, `optimize_bb` deletes the instruction and leaves the usages counter of `r1` at 1: the
case of `sp_log` in the driver deletes without a decrement. -/
theorem C35_eliminated_reader_still_counted :
    (ins_read_count (sample_tc 0) (g_unary MVM_OP_islist MVM_SPESH_FACT_KNOWN_TYPE) 0 (1, 0) = 1 ∧
      ((g_unary MVM_OP_islist MVM_SPESH_FACT_KNOWN_TYPE).facts 1 0).usages = 1 ∧
      ((optimize_is_reprid (sample_tc 0)
        (g_unary MVM_OP_islist MVM_SPESH_FACT_KNOWN_TYPE) 0).ins 0).info
          = (sample_tc 0).MVM_op_get_op MVM_OP_const_i64_16 ∧
      ((optimize_is_reprid (sample_tc 0)
        (g_unary MVM_OP_islist MVM_SPESH_FACT_KNOWN_TYPE) 0).ins 0).operands
          = [MVMSpeshOperand.reg 2 0, MVMSpeshOperand.lit_i16 0] ∧
      ins_read_count (sample_tc 0) (optimize_is_reprid (sample_tc 0)
        (g_unary MVM_OP_islist MVM_SPESH_FACT_KNOWN_TYPE) 0) 0 (1, 0) = 0 ∧
      ((optimize_is_reprid (sample_tc 0)
        (g_unary MVM_OP_islist MVM_SPESH_FACT_KNOWN_TYPE) 0).facts 1 0).usages = 1) ∧
    (ins_read_count (sample_tc 0) g_sp_log 0 (1, 0) = 1 ∧
      (g_sp_log.facts 1 0).usages = 1 ∧
      ∃ g, optimize_bb (sample_tc 0) 3 g_sp_log 0 = Except.ok g ∧
        (g.bbs 0).ins = [] ∧ (g.facts 1 0).usages = 1) := by
  refine ⟨by decide, by decide, by decide, ?_⟩
  exact exists_ok_of_check _ (by decide)

/-! ### C36: argument guards are kept -/

/-- Keeping the guards relied upon is reflexive. -/
theorem guards_kept_refl (g : MVMSpeshGraph) : guards_kept g g := ⟨fun _ _ h _ => h⟩

/-- Keeping the guards relied upon is transitive. -/
theorem guards_kept_trans (g1 g2 g3 : MVMSpeshGraph) (h12 : guards_kept g1 g2)
    (h23 : guards_kept g2 g3) : guards_kept g1 g3 :=
  ⟨fun k lg h hu => h23.kept k lg (h12.kept k lg h hu) hu⟩

/-- A graph with the same log-guard table keeps the guards relied upon. -/
theorem guards_kept_of_eq (g g' : MVMSpeshGraph) (h : g'.log_guards = g.log_guards) :
    guards_kept g g' := by
  refine ⟨fun k lg hk _ => ?_⟩
  rw [h]
  exact hk

/-- Setting `used` on a guard keeps the guards relied upon. -/
theorem guards_kept_set_guard_used (g : MVMSpeshGraph) (j : Nat) :
    guards_kept g (g.set_guard_used j) := by
  refine ⟨fun k lg hk hu => ?_⟩
  rw [set_guard_used_get?, hk]
  by_cases h : k = j
  · rw [if_pos h]
    cases lg
    simp_all
  · rw [if_neg h]

/-- Relying upon a fact keeps the guards relied upon. -/
theorem guards_kept_use_facts (tc : MVMThreadContext) (g : MVMSpeshGraph) (f : Nat × Nat) :
    guards_kept g (MVM_spesh_use_facts tc g f) := by
  unfold MVM_spesh_use_facts
  split
  · exact guards_kept_set_guard_used g _
  · exact guards_kept_refl g

/-- What `MVM_spesh_get_and_use_facts` does to the graph: the guard that the fact of the
operand came from is relied upon, every other guard and everything else is as it was. -/
theorem get_and_use_facts_spec (tc : MVMThreadContext) (g : MVMSpeshGraph)
    (o : MVMSpeshOperand) :
    (MVM_spesh_get_and_use_facts tc g o).1 = o.get_reg tc ∧
    (MVM_spesh_get_and_use_facts tc g o).2
      = { g with log_guards := (MVM_spesh_get_and_use_facts tc g o).2.log_guards } ∧
    (has_flag (g.facts_at (o.get_reg tc)).flags MVM_SPESH_FACT_FROM_LOG_GUARD = true →
      ∀ k, (MVM_spesh_get_and_use_facts tc g o).2.log_guards.get? k
        = if k = (g.facts_at (o.get_reg tc)).log_guard then
            (g.log_guards.get? k).map fun lg => { lg with used := true }
          else g.log_guards.get? k) ∧
    (has_flag (g.facts_at (o.get_reg tc)).flags MVM_SPESH_FACT_FROM_LOG_GUARD = false →
      (MVM_spesh_get_and_use_facts tc g o).2 = g) ∧
    guards_kept g (MVM_spesh_get_and_use_facts tc g o).2 := by
  unfold MVM_spesh_get_and_use_facts get_facts_direct
  by_cases h : has_flag (g.facts_at (o.get_reg tc)).flags MVM_SPESH_FACT_FROM_LOG_GUARD = true
  · simp only [h, if_true]
    refine ⟨trivial, rfl, fun _ k => set_guard_used_get? g _ k, fun h2 => by simp at h2,
      guards_kept_set_guard_used g _⟩
  · have h2 : has_flag (g.facts_at (o.get_reg tc)).flags MVM_SPESH_FACT_FROM_LOG_GUARD = false := by
      cases hx : has_flag (g.facts_at (o.get_reg tc)).flags MVM_SPESH_FACT_FROM_LOG_GUARD with
      | false => rfl
      | true => exact absurd hx h
    simp only [h2, Bool.false_eq_true, if_false]
    refine ⟨trivial, ?_, fun h3 => by simp at h3, fun _ => ?_, guards_kept_refl g⟩ <;> trivial

/-- The driver on an argument instruction of an opcode of the `arg_*` family. -/
theorem optimize_bb_switch_arg (tc : MVMThreadContext) (fuel : Nat) (g : MVMSpeshGraph)
    (bb ins : Nat) (arg_info : MVMSpeshCallInfo)
    (hop : is_arg_op (g.ins ins).info.opcode = true) :
    optimize_bb_switch tc fuel g bb ins arg_info = optimize_bb_arg tc g ins arg_info := by
  unfold optimize_bb_switch
  cases h : (g.ins ins).info.opcode <;> simp_all [is_arg_op]

/-- The driver on an argument instruction of an opcode of the `argconst_*` family. -/
theorem optimize_bb_switch_argconst (tc : MVMThreadContext) (fuel : Nat) (g : MVMSpeshGraph)
    (bb ins : Nat) (arg_info : MVMSpeshCallInfo)
    (hop : is_argconst_op (g.ins ins).info.opcode = true) :
    optimize_bb_switch tc fuel g bb ins arg_info = optimize_bb_argconst tc g ins arg_info := by
  unfold optimize_bb_switch
  cases h : (g.ins ins).info.opcode <;> simp_all [is_argconst_op]

/-- Keeping the guards relied upon depends on the log-guard table only. -/
theorem guards_kept_congr (g G G' : MVMSpeshGraph) (h : G'.log_guards = G.log_guards) :
    guards_kept g G' = guards_kept g G :=
  propext ⟨fun h1 => ⟨fun k lg hk hu => h ▸ h1.kept k lg hk hu⟩,
    fun h1 => ⟨fun k lg hk hu => h.symm ▸ h1.kept k lg hk hu⟩⟩

/-- A store to a fact record does not write the log-guard table. -/
theorem guards_kept_set_facts_at (g G : MVMSpeshGraph) (p : Nat × Nat) (f : MVMSpeshFacts) :
    guards_kept g (G.set_facts_at p f) = guards_kept g G :=
  guards_kept_congr g G _ rfl

/-- A store to an instruction record does not write the log-guard table. -/
theorem guards_kept_set_ins (g G : MVMSpeshGraph) (p : Nat) (i : MVMSpeshIns) :
    guards_kept g (G.set_ins p i) = guards_kept g G :=
  guards_kept_congr g G _ rfl

/-- The assignment of an op descriptor does not write the log-guard table. -/
theorem guards_kept_set_info (g G : MVMSpeshGraph) (p : Nat) (i : MVMOpInfo) :
    guards_kept g (G.set_info p i) = guards_kept g G :=
  guards_kept_congr g G _ rfl

/-- The assignment of an operand does not write the log-guard table. -/
theorem guards_kept_set_operand (g G : MVMSpeshGraph) (p k : Nat) (o : MVMSpeshOperand) :
    guards_kept g (G.set_operand p k o) = guards_kept g G :=
  guards_kept_congr g G _ rfl

/-- The assignment of an operand array does not write the log-guard table. -/
theorem guards_kept_set_operands (g G : MVMSpeshGraph) (p : Nat) (o : List MVMSpeshOperand) :
    guards_kept g (G.set_operands p o) = guards_kept g G :=
  guards_kept_congr g G _ rfl

/-- A store to a block record does not write the log-guard table. -/
theorem guards_kept_set_bb (g G : MVMSpeshGraph) (b : Nat) (bb : MVMSpeshBB) :
    guards_kept g (G.set_bb b bb) = guards_kept g G :=
  guards_kept_congr g G _ rfl

/-- The deletion of an instruction does not write the log-guard table. -/
theorem guards_kept_delete_ins (tc : MVMThreadContext) (g G : MVMSpeshGraph) (bb ins : Nat) :
    guards_kept g (MVM_spesh_manipulate_delete_ins tc G bb ins) = guards_kept g G :=
  guards_kept_congr g G _ rfl

/-- The insertion of an instruction does not write the log-guard table. -/
theorem guards_kept_insert_ins (tc : MVMThreadContext) (g G : MVMSpeshGraph) (bb : Nat)
    (previous : Option Nat) (to_insert : Nat) :
    guards_kept g (MVM_spesh_manipulate_insert_ins tc G bb previous to_insert)
      = guards_kept g G := by
  cases previous <;> exact guards_kept_congr g G _ rfl

/-- The removal of a successor does not write the log-guard table. -/
theorem guards_kept_remove_successor (tc : MVMThreadContext) (g G : MVMSpeshGraph) (bb : Nat)
    (succ : Option Nat) :
    guards_kept g (MVM_spesh_manipulate_remove_successor tc G bb succ) = guards_kept g G := by
  cases succ <;> exact guards_kept_congr g G _ rfl

/-- The allocation of an instruction record does not write the log-guard table. -/
theorem guards_kept_alloc_ins (tc : MVMThreadContext) (g G : MVMSpeshGraph) :
    guards_kept g (MVM_spesh_alloc_ins tc G).2 = guards_kept g G :=
  guards_kept_congr g G _ rfl

/-- The addition of a spesh slot does not write the log-guard table. -/
theorem guards_kept_add_spesh_slot (tc : MVMThreadContext) (g G : MVMSpeshGraph) (c : Nat) :
    guards_kept g (MVM_spesh_add_spesh_slot tc G c).2 = guards_kept g G :=
  guards_kept_congr g G _ (add_spesh_slot_log_guards tc G c)

/-- `copy_facts` does not write the log-guard table. -/
theorem guards_kept_copy_facts (tc : MVMThreadContext) (g G : MVMSpeshGraph)
    (a b : MVMSpeshOperand) :
    guards_kept g (copy_facts tc G a b) = guards_kept g G :=
  guards_kept_congr g G _ (by simp only [copy_facts, set_facts_at_log_guards])

/-- Relying upon a fact of a graph that keeps the guards keeps them. -/
theorem guards_kept_use (tc : MVMThreadContext) (g G : MVMSpeshGraph) (f : Nat × Nat)
    (h : guards_kept g G) : guards_kept g (MVM_spesh_use_facts tc G f) :=
  guards_kept_trans g G _ h (guards_kept_use_facts tc G f)

/-- Obtaining and relying upon a fact of a graph that keeps the guards keeps them. -/
theorem guards_kept_get_and_use (tc : MVMThreadContext) (g G : MVMSpeshGraph)
    (o : MVMSpeshOperand) (h : guards_kept g G) :
    guards_kept g (MVM_spesh_get_and_use_facts tc G o).2 :=
  guards_kept_trans g G _ h (get_and_use_facts_spec tc G o).2.2.2.2

/-- Keeping the guards relied upon, through a branch. -/
theorem guards_kept_ite (g : MVMSpeshGraph) (c : Prop) [Decidable c] (A B : MVMSpeshGraph)
    (hA : guards_kept g A) (hB : guards_kept g B) : guards_kept g (if c then A else B) := by
  split
  · exact hA
  · exact hB

/-- Keeping the guards relied upon, through the stores of the optimizer: none of them
writes the log-guard table. -/
theorem guards_kept_stores (tc : MVMThreadContext) (g G : MVMSpeshGraph)
    (h : guards_kept g G) :
    (∀ p f, guards_kept g (G.set_facts_at p f)) ∧
    (∀ p i, guards_kept g (G.set_ins p i)) ∧
    (∀ p i, guards_kept g (G.set_info p i)) ∧
    (∀ p k o, guards_kept g (G.set_operand p k o)) ∧
    (∀ bb previous to_insert,
      guards_kept g (MVM_spesh_manipulate_insert_ins tc G bb previous to_insert)) ∧
    guards_kept g (MVM_spesh_alloc_ins tc G).2 := by
  refine ⟨fun _ _ => ?_, fun _ _ => ?_, fun _ _ => ?_, fun _ _ _ => ?_, fun _ _ _ => ?_, ?_⟩
  · rw [guards_kept_set_facts_at]; exact h
  · rw [guards_kept_set_ins]; exact h
  · rw [guards_kept_set_info]; exact h
  · rw [guards_kept_set_operand]; exact h
  · rw [guards_kept_insert_ins]; exact h
  · rw [guards_kept_alloc_ins]; exact h

/-- `optimize_method_lookup` keeps the log guards that were relied upon. -/
theorem optimize_method_lookup_guards_kept (tc : MVMThreadContext) (g0 g : MVMSpeshGraph) (ins : Nat)
    (h : guards_kept g0 g) : guards_kept g0 (optimize_method_lookup tc g ins) := by
  unfold optimize_method_lookup
  repeat (first
    | exact h
    | simp only [guards_kept_set_facts_at, guards_kept_set_info, guards_kept_set_operand,
        guards_kept_set_operands, guards_kept_set_ins, guards_kept_set_bb,
        guards_kept_delete_ins, guards_kept_insert_ins, guards_kept_remove_successor,
        guards_kept_alloc_ins, guards_kept_add_spesh_slot, guards_kept_copy_facts]
    | apply guards_kept_use
    | apply guards_kept_get_and_use
    | split)

/-- `optimize_istype` keeps the log guards that were relied upon. -/
theorem optimize_istype_guards_kept (tc : MVMThreadContext) (g0 g : MVMSpeshGraph) (ins : Nat)
    (h : guards_kept g0 g) : guards_kept g0 (optimize_istype tc g ins) := by
  unfold optimize_istype
  repeat (first
    | exact h
    | simp only [guards_kept_set_facts_at, guards_kept_set_info, guards_kept_set_operand,
        guards_kept_set_operands, guards_kept_set_ins, guards_kept_set_bb,
        guards_kept_delete_ins, guards_kept_insert_ins, guards_kept_remove_successor,
        guards_kept_alloc_ins, guards_kept_add_spesh_slot, guards_kept_copy_facts]
    | apply guards_kept_use
    | split)

/-- `optimize_is_reprid` keeps the log guards that were relied upon. -/
theorem optimize_is_reprid_guards_kept (tc : MVMThreadContext) (g0 g : MVMSpeshGraph) (ins : Nat)
    (h : guards_kept g0 g) : guards_kept g0 (optimize_is_reprid tc g ins) := by
  unfold optimize_is_reprid
  repeat (first
    | exact h
    | simp only [guards_kept_set_facts_at, guards_kept_set_info, guards_kept_set_operand,
        guards_kept_set_operands, guards_kept_set_ins, guards_kept_set_bb,
        guards_kept_delete_ins, guards_kept_insert_ins, guards_kept_remove_successor,
        guards_kept_alloc_ins, guards_kept_add_spesh_slot, guards_kept_copy_facts]
    | apply guards_kept_use
    | split)

/-- `optimize_isconcrete` keeps the log guards that were relied upon. -/
theorem optimize_isconcrete_guards_kept (tc : MVMThreadContext) (g0 g : MVMSpeshGraph) (ins : Nat)
    (h : guards_kept g0 g) : guards_kept g0 (optimize_isconcrete tc g ins) := by
  unfold optimize_isconcrete
  repeat (first
    | exact h
    | simp only [guards_kept_set_facts_at, guards_kept_set_info, guards_kept_set_operand,
        guards_kept_set_operands, guards_kept_set_ins, guards_kept_set_bb,
        guards_kept_delete_ins, guards_kept_insert_ins, guards_kept_remove_successor,
        guards_kept_alloc_ins, guards_kept_add_spesh_slot, guards_kept_copy_facts]
    | apply guards_kept_use
    | split)

/-- `optimize_iffy` keeps the log guards that were relied upon. -/
theorem optimize_iffy_guards_kept (tc : MVMThreadContext) (g0 g : MVMSpeshGraph) (ins bb : Nat)
    (h : guards_kept g0 g) : guards_kept g0 (optimize_iffy tc g ins bb) := by
  unfold optimize_iffy
  repeat (first
    | exact h
    | simp only [guards_kept_set_facts_at, guards_kept_set_info, guards_kept_set_operand,
        guards_kept_set_operands, guards_kept_set_ins, guards_kept_set_bb,
        guards_kept_delete_ins, guards_kept_insert_ins, guards_kept_remove_successor,
        guards_kept_alloc_ins, guards_kept_add_spesh_slot, guards_kept_copy_facts]
    | apply guards_kept_use
    | split)

/-- `optimize_objprimspec` keeps the log guards that were relied upon. -/
theorem optimize_objprimspec_guards_kept (tc : MVMThreadContext) (g0 g : MVMSpeshGraph) (ins : Nat)
    (h : guards_kept g0 g) : guards_kept g0 (optimize_objprimspec tc g ins) := by
  unfold optimize_objprimspec
  repeat (first
    | exact h
    | simp only [guards_kept_set_facts_at, guards_kept_set_info, guards_kept_set_operand,
        guards_kept_set_operands, guards_kept_set_ins, guards_kept_set_bb,
        guards_kept_delete_ins, guards_kept_insert_ins, guards_kept_remove_successor,
        guards_kept_alloc_ins, guards_kept_add_spesh_slot, guards_kept_copy_facts]
    | apply guards_kept_use
    | split)

/-- `optimize_hllize` keeps the log guards that were relied upon. -/
theorem optimize_hllize_guards_kept (tc : MVMThreadContext) (g0 g : MVMSpeshGraph) (ins : Nat)
    (h : guards_kept g0 g) : guards_kept g0 (optimize_hllize tc g ins) := by
  unfold optimize_hllize
  repeat (first
    | exact h
    | simp only [guards_kept_set_facts_at, guards_kept_set_info, guards_kept_set_operand,
        guards_kept_set_operands, guards_kept_set_ins, guards_kept_set_bb,
        guards_kept_delete_ins, guards_kept_insert_ins, guards_kept_remove_successor,
        guards_kept_alloc_ins, guards_kept_add_spesh_slot, guards_kept_copy_facts]
    | apply guards_kept_use
    | split)

/-- `optimize_assertparamcheck` keeps the log guards that were relied upon. -/
theorem optimize_assertparamcheck_guards_kept (tc : MVMThreadContext) (g0 g : MVMSpeshGraph) (bb ins : Nat)
    (h : guards_kept g0 g) : guards_kept g0 (optimize_assertparamcheck tc g bb ins) := by
  unfold optimize_assertparamcheck
  repeat (first
    | exact h
    | simp only [guards_kept_set_facts_at, guards_kept_set_info, guards_kept_set_operand,
        guards_kept_set_operands, guards_kept_set_ins, guards_kept_set_bb,
        guards_kept_delete_ins, guards_kept_insert_ins, guards_kept_remove_successor,
        guards_kept_alloc_ins, guards_kept_add_spesh_slot, guards_kept_copy_facts]
    | apply guards_kept_use
    | split)

/-- `optimize_coerce` keeps the log guards that were relied upon. -/
theorem optimize_coerce_guards_kept (tc : MVMThreadContext) (g0 g : MVMSpeshGraph) (bb ins : Nat)
    (h : guards_kept g0 g) : guards_kept g0 (optimize_coerce tc g bb ins) := by
  unfold optimize_coerce
  repeat (first
    | exact h
    | simp only [guards_kept_set_facts_at, guards_kept_set_info, guards_kept_set_operand,
        guards_kept_set_operands, guards_kept_set_ins, guards_kept_set_bb,
        guards_kept_delete_ins, guards_kept_insert_ins, guards_kept_remove_successor,
        guards_kept_alloc_ins, guards_kept_add_spesh_slot, guards_kept_copy_facts]
    | apply guards_kept_use
    | split)

/-- `optimize_getlex_known` keeps the log guards that were relied upon. -/
theorem optimize_getlex_known_guards_kept (tc : MVMThreadContext) (g0 g : MVMSpeshGraph) (bb ins : Nat)
    (h : guards_kept g0 g) : guards_kept g0 (optimize_getlex_known tc g bb ins) := by
  unfold optimize_getlex_known
  repeat (first
    | exact h
    | simp only [guards_kept_set_facts_at, guards_kept_set_info, guards_kept_set_operand,
        guards_kept_set_operands, guards_kept_set_ins, guards_kept_set_bb,
        guards_kept_delete_ins, guards_kept_insert_ins, guards_kept_remove_successor,
        guards_kept_alloc_ins, guards_kept_add_spesh_slot, guards_kept_copy_facts]
    | split)

/-- `optimize_repr_op` keeps the log guards that were relied upon, if the hooks do. -/
theorem optimize_repr_op_guards_kept (tc : MVMThreadContext) (g0 g : MVMSpeshGraph)
    (bb ins type_operand : Nat) (hc : collaborators_keep_guards tc)
    (h : guards_kept g0 g) : guards_kept g0 (optimize_repr_op tc g bb ins type_operand) := by
  unfold optimize_repr_op
  repeat (first
    | exact h
    | simp only [guards_kept_set_facts_at, guards_kept_set_info, guards_kept_set_operand,
        guards_kept_set_operands, guards_kept_set_ins, guards_kept_set_bb,
        guards_kept_delete_ins, guards_kept_insert_ins, guards_kept_remove_successor,
        guards_kept_alloc_ins, guards_kept_add_spesh_slot, guards_kept_copy_facts]
    | apply guards_kept_use
    | exact guards_kept_trans _ _ _ h (hc.1 _ _ (by assumption) _ _ _ _)
    | split)

/-- The call of the container's hook in `optimize_decont` keeps the log guards that were
relied upon, if the hooks do. -/
theorem optimize_decont_hooked_guards_kept (tc : MVMThreadContext) (g0 g : MVMSpeshGraph)
    (bb ins : Nat) (f : Nat × Nat) (hc : collaborators_keep_guards tc)
    (h : guards_kept g0 g) : guards_kept g0 (optimize_decont_hooked tc g bb ins f) := by
  unfold optimize_decont_hooked
  repeat (first
    | exact h
    | simp only [guards_kept_set_facts_at, guards_kept_set_info, guards_kept_set_operand,
        guards_kept_set_operands, guards_kept_set_ins, guards_kept_set_bb,
        guards_kept_delete_ins, guards_kept_insert_ins, guards_kept_remove_successor,
        guards_kept_alloc_ins, guards_kept_add_spesh_slot, guards_kept_copy_facts]
    | exact guards_kept_trans _ _ _ h (hc.2.1 _ _ _ (by assumption) (by assumption) _ _ _ _)
    | split)

/-- The end of `optimize_decont` keeps the log guards that were relied upon. -/
theorem optimize_decont_propagate_guards_kept (tc : MVMThreadContext) (g0 g : MVMSpeshGraph)
    (ins : Nat) (f : Nat × Nat)
    (h : guards_kept g0 g) : guards_kept g0 (optimize_decont_propagate tc g ins f) := by
  unfold optimize_decont_propagate
  repeat (first
    | exact h
    | simp only [guards_kept_set_facts_at, guards_kept_set_info, guards_kept_set_operand,
        guards_kept_set_operands, guards_kept_set_ins, guards_kept_set_bb,
        guards_kept_delete_ins, guards_kept_insert_ins, guards_kept_remove_successor,
        guards_kept_alloc_ins, guards_kept_add_spesh_slot, guards_kept_copy_facts]
    | apply guards_kept_use
    | split)

/-- `optimize_decont` keeps the log guards that were relied upon, if the hooks do. -/
theorem optimize_decont_guards_kept (tc : MVMThreadContext) (g0 g : MVMSpeshGraph)
    (bb ins : Nat) (hc : collaborators_keep_guards tc)
    (h : guards_kept g0 g) : guards_kept g0 (optimize_decont tc g bb ins) := by
  rw [optimize_decont_eq]
  split
  · rw [guards_kept_copy_facts]
    apply guards_kept_use
    rw [guards_kept_set_info]
    exact h
  · exact optimize_decont_propagate_guards_kept tc g0 _ ins _
      (optimize_decont_hooked_guards_kept tc g0 g bb ins _ hc h)

/-- The branches of `optimize_smart_coerce`. -/
theorem optimize_smart_coerce_eq (tc : MVMThreadContext) (g : MVMSpeshGraph) (bb ins : Nat) :
    optimize_smart_coerce tc g bb ins
      = if has_flag (g.facts_at (MVM_spesh_get_facts tc g ((g.ins ins).operand 1))).flags
            (MVM_SPESH_FACT_KNOWN_TYPE ||| MVM_SPESH_FACT_CONCRETE) then
          if ((g.ins ins).info.opcode == MVM_OP_smrt_strify) &&
              has_flag (tc.get_storage_spec (tc.STABLE
                (g.facts_at (MVM_spesh_get_facts tc g ((g.ins ins).operand 1))).type)).can_box
                MVM_STORAGE_SPEC_CAN_BOX_STR then
            optimize_repr_op tc
              ((MVM_spesh_use_facts tc g
                (MVM_spesh_get_facts tc g ((g.ins ins).operand 1))).set_info ins
                  (tc.MVM_op_get_op MVM_OP_unbox_s)) bb ins 1
          else if tc.MVM_6model_can_method_cache_only
              (g.facts_at (MVM_spesh_get_facts tc g ((g.ins ins).operand 1))).type
              (if ((g.ins ins).info.opcode == MVM_OP_smrt_strify) then tc.str_consts_Str
               else tc.str_consts_Num) = -1 then g
          else if tc.MVM_6model_can_method_cache_only
              (g.facts_at (MVM_spesh_get_facts tc g ((g.ins ins).operand 1))).type
              (if ((g.ins ins).info.opcode == MVM_OP_smrt_strify) then tc.str_consts_Str
               else tc.str_consts_Num) = 0 then
            if ((g.ins ins).info.opcode == MVM_OP_smrt_strify) &&
                tc.REPR_ID ((MVM_spesh_use_facts tc g
                  (MVM_spesh_get_facts tc g ((g.ins ins).operand 1))).facts_at
                  (MVM_spesh_get_facts tc g ((g.ins ins).operand 1))).type
                  == MVM_REPR_ID_MVMException then
              ((MVM_spesh_use_facts tc g
                (MVM_spesh_get_facts tc g ((g.ins ins).operand 1))).set_info ins
                  (tc.MVM_op_get_op MVM_OP_sp_get_s)).set_operands ins
                [((MVM_spesh_use_facts tc g
                    (MVM_spesh_get_facts tc g ((g.ins ins).operand 1))).ins ins).operands.getD 0
                    (MVMSpeshOperand.lit_i64 0),
                 ((MVM_spesh_use_facts tc g
                    (MVM_spesh_get_facts tc g ((g.ins ins).operand 1))).ins ins).operands.getD 1
                    (MVMSpeshOperand.lit_i64 0),
                 MVMSpeshOperand.lit_i16 tc.offsetof_MVMException_body_message]
            else if has_flag (tc.get_storage_spec (tc.STABLE
                (g.facts_at (MVM_spesh_get_facts tc g ((g.ins ins).operand 1))).type)).can_box
                (MVM_STORAGE_SPEC_CAN_BOX_NUM ||| MVM_STORAGE_SPEC_CAN_BOX_INT) then
              optimize_smart_coerce_unbox tc
                (MVM_spesh_use_facts tc g (MVM_spesh_get_facts tc g ((g.ins ins).operand 1)))
                bb ins ((g.ins ins).info.opcode == MVM_OP_smrt_strify)
                (if has_flag (tc.get_storage_spec (tc.STABLE
                    (g.facts_at (MVM_spesh_get_facts tc g ((g.ins ins).operand 1))).type)).can_box
                    MVM_STORAGE_SPEC_CAN_BOX_INT then MVM_reg_int64
                 else MVM_reg_num64)
            else if !((g.ins ins).info.opcode == MVM_OP_smrt_strify) &&
                (tc.REPR_ID ((MVM_spesh_use_facts tc g
                    (MVM_spesh_get_facts tc g ((g.ins ins).operand 1))).facts_at
                    (MVM_spesh_get_facts tc g ((g.ins ins).operand 1))).type
                    == MVM_REPR_ID_MVMArray ||
                  tc.REPR_ID ((MVM_spesh_use_facts tc g
                    (MVM_spesh_get_facts tc g ((g.ins ins).operand 1))).facts_at
                    (MVM_spesh_get_facts tc g ((g.ins ins).operand 1))).type
                    == MVM_REPR_ID_MVMHash) then
              optimize_smart_coerce_elems tc
                (MVM_spesh_use_facts tc g (MVM_spesh_get_facts tc g ((g.ins ins).operand 1)))
                bb ins
            else MVM_spesh_use_facts tc g (MVM_spesh_get_facts tc g ((g.ins ins).operand 1))
          else g
        else g := rfl

/-- The branch of `optimize_smart_coerce` through a temporary register keeps the log guards
that were relied upon, if the hooks and the allocator of temporary registers do. -/
theorem optimize_smart_coerce_unbox_guards_kept (tc : MVMThreadContext) (g0 g : MVMSpeshGraph)
    (bb ins : Nat) (is_strify : Bool) (register_type : MVMRegKind)
    (hc : collaborators_keep_guards tc) (h : guards_kept g0 g) :
    guards_kept g0 (optimize_smart_coerce_unbox tc g bb ins is_strify register_type) := by
  unfold optimize_smart_coerce_unbox
  refine guards_kept_trans _ _ _ ?_ (hc.2.2.2.2.1 _ _)
  refine optimize_repr_op_guards_kept tc _ _ _ _ _ hc ?_
  have hbase : guards_kept g0
      (tc.MVM_spesh_manipulate_get_temp_reg (MVM_spesh_alloc_ins tc g).2 register_type).2 :=
    guards_kept_trans _ _ _ (guards_kept_stores tc g0 g h).2.2.2.2.2 (hc.2.2.2.1 _ _)
  refine guards_kept_ite _ _ _ _ ?_ ?_
  · refine (guards_kept_stores tc _ _ ?_).1 _ _
    refine (guards_kept_stores tc _ _ ?_).2.2.2.2.1 _ _ _
    refine (guards_kept_stores tc _ _ ?_).2.1 _ _
    refine (guards_kept_stores tc _ _ ?_).2.2.2.1 _ _ _
    refine (guards_kept_stores tc _ _ ?_).2.2.1 _ _
    exact hbase
  · refine (guards_kept_stores tc _ _ ?_).2.2.2.1 _ _ _
    refine (guards_kept_stores tc _ _ ?_).2.1 _ _
    refine (guards_kept_stores tc _ _ ?_).2.2.2.1 _ _ _
    refine (guards_kept_stores tc _ _ ?_).2.2.1 _ _
    exact hbase

/-- The branch of `optimize_smart_coerce` for arrays and hashes keeps the log guards that
were relied upon, if the hooks and the allocator of temporary registers do. -/
theorem optimize_smart_coerce_elems_guards_kept (tc : MVMThreadContext) (g0 g : MVMSpeshGraph)
    (bb ins : Nat) (hc : collaborators_keep_guards tc) (h : guards_kept g0 g) :
    guards_kept g0 (optimize_smart_coerce_elems tc g bb ins) := by
  unfold optimize_smart_coerce_elems
  refine guards_kept_trans _ _ _ ?_ (hc.2.2.2.2.1 _ _)
  refine (guards_kept_stores tc _ _ ?_).1 _ _
  refine optimize_repr_op_guards_kept tc _ _ _ _ _ hc ?_
  refine (guards_kept_stores tc _ _ ?_).2.2.2.2.1 _ _ _
  refine (guards_kept_stores tc _ _ ?_).2.1 _ _
  refine (guards_kept_stores tc _ _ ?_).2.2.2.1 _ _ _
  refine (guards_kept_stores tc _ _ ?_).2.2.1 _ _
  exact guards_kept_trans _ _ _ (guards_kept_stores tc g0 g h).2.2.2.2.2 (hc.2.2.2.1 _ _)

/-- `optimize_smart_coerce` keeps the log guards that were relied upon, if the hooks and the
allocator of temporary registers do. -/
theorem optimize_smart_coerce_guards_kept (tc : MVMThreadContext) (g0 g : MVMSpeshGraph)
    (bb ins : Nat) (hc : collaborators_keep_guards tc)
    (h : guards_kept g0 g) : guards_kept g0 (optimize_smart_coerce tc g bb ins) := by
  rw [optimize_smart_coerce_eq]
  have hu := guards_kept_use tc g0 g (MVM_spesh_get_facts tc g ((g.ins ins).operand 1)) h
  refine guards_kept_ite _ _ _ _ (guards_kept_ite _ _ _ _ ?_ (guards_kept_ite _ _ _ _ h
    (guards_kept_ite _ _ _ _ (guards_kept_ite _ _ _ _ ?_ (guards_kept_ite _ _ _ _ ?_
      (guards_kept_ite _ _ _ _ ?_ hu))) h))) h
  · refine optimize_repr_op_guards_kept tc _ _ _ _ _ hc ?_
    rw [guards_kept_set_info]
    exact hu
  · rw [guards_kept_set_operands, guards_kept_set_info]
    exact hu
  · exact optimize_smart_coerce_unbox_guards_kept tc _ _ _ _ _ _ hc hu
  · exact optimize_smart_coerce_elems_guards_kept tc _ _ _ _ hc hu

/-- The rewrite of `optimize_istrue_isfalse` by boolification mode keeps the log guards that
were relied upon, if the hooks do. -/
theorem optimize_istrue_isfalse_rewrite_guards_kept (tc : MVMThreadContext)
    (g0 g r : MVMSpeshGraph) (bb ins : Nat) (hc : collaborators_keep_guards tc)
    (h : guards_kept g0 g) (hr : optimize_istrue_isfalse_rewrite tc g bb ins = some r) :
    guards_kept g0 r := by
  unfold optimize_istrue_isfalse_rewrite at hr
  simp only [] at hr
  split at hr
  · injection hr with hr
    subst hr
    exact optimize_repr_op_guards_kept tc g0 _ bb ins 1 hc
      (by rw [guards_kept_set_info]; exact h)
  · injection hr with hr
    subst hr
    exact optimize_isconcrete_guards_kept tc g0 _ ins
      (by rw [guards_kept_set_info]; exact h)
  · cases hr

/-- The negation of `optimize_istrue_isfalse` keeps the log guards that were relied upon. -/
theorem optimize_istrue_isfalse_negate_guards_kept (tc : MVMThreadContext)
    (g0 g : MVMSpeshGraph) (bb ins : Nat)
    (h : guards_kept g0 g) : guards_kept g0 (optimize_istrue_isfalse_negate tc g bb ins) := by
  unfold optimize_istrue_isfalse_negate
  repeat (first
    | exact h
    | simp only [guards_kept_set_facts_at, guards_kept_set_info, guards_kept_set_operand,
        guards_kept_set_operands, guards_kept_set_ins, guards_kept_set_bb,
        guards_kept_delete_ins, guards_kept_insert_ins, guards_kept_remove_successor,
        guards_kept_alloc_ins, guards_kept_add_spesh_slot, guards_kept_copy_facts]
    | split)

/-- `optimize_istrue_isfalse` keeps the log guards that were relied upon, if the hooks do. -/
theorem optimize_istrue_isfalse_guards_kept (tc : MVMThreadContext) (g0 g : MVMSpeshGraph)
    (bb ins : Nat) (hc : collaborators_keep_guards tc)
    (h : guards_kept g0 g) : guards_kept g0 (optimize_istrue_isfalse tc g bb ins) := by
  by_cases h1 : (g.ins ins).info.opcode = MVM_OP_istrue
  · rw [optimize_istrue_isfalse_eq tc g bb ins false (by simpa using h1)]
    split
    · split
      · exact h
      · rename_i r hr
        apply guards_kept_use
        simp only [Bool.false_eq_true, if_false]
        exact optimize_istrue_isfalse_rewrite_guards_kept tc g0 g r bb ins hc h hr
    · exact h
  · by_cases h2 : (g.ins ins).info.opcode = MVM_OP_isfalse
    · rw [optimize_istrue_isfalse_eq tc g bb ins true (by simpa using h2)]
      split
      · split
        · exact h
        · rename_i r hr
          apply guards_kept_use
          simp only [if_true]
          exact optimize_istrue_isfalse_negate_guards_kept tc g0 r bb ins
            (optimize_istrue_isfalse_rewrite_guards_kept tc g0 g r bb ins hc h hr)
      · exact h
    · unfold optimize_istrue_isfalse
      simp only [h1, h2, if_false]
      exact h

/-- The loop of `optimize_extop` keeps the log guards that were relied upon, if the hooks of
the extension ops do. -/
theorem optimize_extop_from_guards_kept (g0 g : MVMSpeshGraph) (bb ins : Nat) :
    ∀ (l : List MVMExtOpRecord),
      (∀ r ∈ l, ∀ hook, r.spesh = some hook → ∀ g bb ins, guards_kept g (hook g bb ins)) →
      guards_kept g0 g → guards_kept g0 (optimize_extop_from g bb ins l) := by
  intro l
  induction l with
  | nil => intro _ h; exact h
  | cons r rest ih =>
    intro hl h
    unfold optimize_extop_from
    split
    · split
      · rename_i hook hk
        exact guards_kept_trans _ _ _ h (hl r (List.mem_cons_self _ _) hook hk _ _ _)
      · exact h
    · exact ih (fun r2 hr2 => hl r2 (List.mem_cons_of_mem _ hr2)) h

/-- The insertion of the slot load in `optimize_call` keeps the log guards that were relied
upon. -/
theorem optimize_call_insert_guards_kept (tc : MVMThreadContext) (g0 g g' : MVMSpeshGraph)
    (bb ins callee_idx : Nat) (arg_info : MVMSpeshCallInfo) (code target : Nat)
    (h : guards_kept g0 g)
    (hr : optimize_call_insert tc g bb ins callee_idx arg_info code target = Except.ok g') :
    guards_kept g0 g' := by
  unfold optimize_call_insert at hr
  split at hr
  · split at hr
    · cases hr
    · simp only [] at hr
      injection hr with hr
      subst hr
      simp only [guards_kept_set_ins, guards_kept_insert_ins, guards_kept_alloc_ins,
        guards_kept_add_spesh_slot]
      exact h
  · injection hr with hr
    subst hr
    exact h

/-- The pointing of the call at a specialization in `optimize_call` keeps the log guards
that were relied upon, if the inliner does. -/
theorem optimize_call_point_guards_kept (tc : MVMThreadContext) (g0 g g' : MVMSpeshGraph)
    (bb ins : Nat) (arg_info : MVMSpeshCallInfo) (target : Nat)
    (hc : collaborators_keep_guards tc) (h : guards_kept g0 g)
    (hr : optimize_call_point tc g bb ins arg_info target = Except.ok g') :
    guards_kept g0 g' := by
  unfold optimize_call_point at hr
  simp only [] at hr
  repeat' split at hr
  all_goals first
    | (injection hr with hr
       subst hr
       first
        | exact h
        | exact guards_kept_trans _ _ _ h (hc.2.2.1 _ _ _ _ _ _)
        | (simp only [guards_kept_set_info, guards_kept_set_operands]
           exact h))
    | cases hr

/-- `optimize_call` keeps the log guards that were relied upon, if the inliner does. -/
theorem optimize_call_guards_kept (tc : MVMThreadContext) (g0 g g' : MVMSpeshGraph)
    (bb ins callee_idx : Nat) (arg_info : MVMSpeshCallInfo)
    (hc : collaborators_keep_guards tc) (h : guards_kept g0 g)
    (hr : optimize_call tc g bb ins callee_idx arg_info = Except.ok g') :
    guards_kept g0 g' := by
  rw [optimize_call_eq] at hr
  have h1 := guards_kept_get_and_use tc g0 g ((g.ins ins).operand callee_idx) h
  split at hr
  · split at hr
    · cases hr
    · rename_i g1 hins
      exact optimize_call_point_guards_kept tc g0 g1 g' bb ins arg_info _ hc
        (optimize_call_insert_guards_kept tc g0 _ g1 bb ins callee_idx arg_info _ _ h1 hins) hr
  · injection hr with hr
    subst hr
    exact h1

/-- `optimize_throwcat` keeps the log guards that were relied upon. -/
theorem optimize_throwcat_guards_kept (tc : MVMThreadContext) (fuel : Nat)
    (g0 g g' : MVMSpeshGraph) (bb ins : Nat) (h : guards_kept g0 g)
    (hr : optimize_throwcat tc fuel g bb ins = Except.ok g') : guards_kept g0 g' := by
  unfold optimize_throwcat at hr
  simp only [] at hr
  repeat' split at hr
  all_goals first
    | (injection hr with hr
       subst hr
       first
        | exact h
        | (simp only [guards_kept_set_info, guards_kept_set_operand, guards_kept_set_bb]
           exact h))
    | cases hr

/-- The `arg_*` case of the driver keeps the log guards that were relied upon. -/
theorem optimize_bb_arg_guards_kept (tc : MVMThreadContext) (g0 g g' : MVMSpeshGraph)
    (ins : Nat) (arg_info arg_info' : MVMSpeshCallInfo) (h : guards_kept g0 g)
    (hr : optimize_bb_arg tc g ins arg_info = Except.ok (g', arg_info')) :
    guards_kept g0 g' := by
  unfold optimize_bb_arg at hr
  simp only [] at hr
  split at hr
  · split at hr
    · cases hr
    · cases hr
      exact guards_kept_get_and_use tc g0 g _ h
  · cases hr
    exact h

/-- The `argconst_*` case of the driver leaves the graph as it is. -/
theorem optimize_bb_argconst_graph (tc : MVMThreadContext) (g g' : MVMSpeshGraph)
    (ins : Nat) (arg_info arg_info' : MVMSpeshCallInfo)
    (hr : optimize_bb_argconst tc g ins arg_info = Except.ok (g', arg_info')) : g' = g := by
  unfold optimize_bb_argconst at hr
  simp only [] at hr
  split at hr
  · split at hr
    · cases hr
    · cases hr
      rfl
  · cases hr
    rfl

/-- One step of the driver keeps the log guards that were relied upon, if the collaborators
do. -/
theorem optimize_bb_switch_guards_kept (tc : MVMThreadContext) (fuel : Nat)
    (g0 g g' : MVMSpeshGraph) (bb ins : Nat) (arg_info arg_info' : MVMSpeshCallInfo)
    (hc : collaborators_keep_guards tc) (h : guards_kept g0 g)
    (hr : optimize_bb_switch tc fuel g bb ins arg_info = Except.ok (g', arg_info')) :
    guards_kept g0 g' := by
  unfold optimize_bb_switch at hr
  cases hop : (g.ins ins).info.opcode with
  | MVM_OP_set =>
    simp only [hop] at hr
    cases hr
    rw [guards_kept_copy_facts]
    exact h
  | MVM_OP_istrue | MVM_OP_isfalse =>
    simp only [hop] at hr
    cases hr
    exact optimize_istrue_isfalse_guards_kept tc g0 g bb ins hc h
  | MVM_OP_prepargs =>
    simp only [hop] at hr
    cases hr
    exact h
  | MVM_OP_arg_i | MVM_OP_arg_n | MVM_OP_arg_s | MVM_OP_arg_o =>
    simp only [hop] at hr
    exact optimize_bb_arg_guards_kept tc g0 g g' ins arg_info arg_info' h hr
  | MVM_OP_argconst_i | MVM_OP_argconst_n | MVM_OP_argconst_s =>
    simp only [hop] at hr
    rw [optimize_bb_argconst_graph tc g g' ins arg_info arg_info' hr]
    exact h
  | MVM_OP_invoke_v | MVM_OP_invoke_i | MVM_OP_invoke_n | MVM_OP_invoke_s | MVM_OP_invoke_o =>
    simp only [hop] at hr
    cases hcall : optimize_call tc g bb ins _ arg_info with
    | error e =>
      rw [hcall] at hr
      cases hr
    | ok g1 =>
      rw [hcall] at hr
      cases hr
      exact optimize_call_guards_kept tc g0 g _ bb ins _ arg_info hc h hcall
  | MVM_OP_throwcatdyn | MVM_OP_throwcatlex | MVM_OP_throwcatlexotic =>
    simp only [hop] at hr
    cases hthrow : optimize_throwcat tc fuel g bb ins with
    | error e =>
      rw [hthrow] at hr
      cases hr
    | ok g1 =>
      rw [hthrow] at hr
      cases hr
      exact optimize_throwcat_guards_kept tc fuel g0 g _ bb ins h hthrow
  | MVM_OP_getlexperinvtype_o =>
    simp only [hop] at hr
    split at hr
    · cases hr
      exact optimize_getlex_known_guards_kept tc g0 g bb ins h
    · cases hr
      exact h
  | MVM_OP_sp_log | MVM_OP_sp_osrfinalize =>
    simp only [hop] at hr
    cases hr
    rw [guards_kept_delete_ins]
    exact h
  | MVM_OP_ext =>
    simp only [hop] at hr
    cases hr
    exact optimize_extop_from_guards_kept g0 g bb ins tc.extops hc.2.2.2.2.2 h
  | MVM_OP_if_i | MVM_OP_unless_i | MVM_OP_if_n | MVM_OP_unless_n | MVM_OP_if_o
  | MVM_OP_unless_o =>
    simp only [hop] at hr
    cases hr
    exact optimize_iffy_guards_kept tc g0 g ins bb h
  | MVM_OP_coerce_in =>
    simp only [hop] at hr
    cases hr
    exact optimize_coerce_guards_kept tc g0 g bb ins h
  | MVM_OP_smrt_numify | MVM_OP_smrt_strify =>
    simp only [hop] at hr
    cases hr
    exact optimize_smart_coerce_guards_kept tc g0 g bb ins hc h
  | MVM_OP_islist | MVM_OP_ishash | MVM_OP_isint | MVM_OP_isnum | MVM_OP_isstr =>
    simp only [hop] at hr
    cases hr
    exact optimize_is_reprid_guards_kept tc g0 g ins h
  | MVM_OP_findmeth =>
    simp only [hop] at hr
    cases hr
    exact optimize_method_lookup_guards_kept tc g0 g ins h
  | MVM_OP_can | MVM_OP_can_s =>
    simp only [hop] at hr
    cases hr
    exact h
  | MVM_OP_create =>
    simp only [hop] at hr
    cases hr
    exact optimize_repr_op_guards_kept tc g0 g bb ins 1 hc h
  | MVM_OP_isconcrete =>
    simp only [hop] at hr
    cases hr
    exact optimize_isconcrete_guards_kept tc g0 g ins h
  | MVM_OP_istype =>
    simp only [hop] at hr
    cases hr
    exact optimize_istype_guards_kept tc g0 g ins h
  | MVM_OP_objprimspec =>
    simp only [hop] at hr
    cases hr
    exact optimize_objprimspec_guards_kept tc g0 g ins h
  | MVM_OP_bindattr_i | MVM_OP_bindattr_n | MVM_OP_bindattr_s | MVM_OP_bindattr_o
  | MVM_OP_bindattrs_i | MVM_OP_bindattrs_n | MVM_OP_bindattrs_s | MVM_OP_bindattrs_o =>
    simp only [hop] at hr
    cases hr
    exact optimize_repr_op_guards_kept tc g0 g bb ins 0 hc h
  | MVM_OP_getattr_i | MVM_OP_getattr_n | MVM_OP_getattr_s | MVM_OP_getattr_o
  | MVM_OP_getattrs_i | MVM_OP_getattrs_n | MVM_OP_getattrs_s | MVM_OP_getattrs_o =>
    simp only [hop] at hr
    cases hr
    exact optimize_repr_op_guards_kept tc g0 g bb ins 1 hc h
  | MVM_OP_box_i | MVM_OP_box_n | MVM_OP_box_s =>
    simp only [hop] at hr
    cases hr
    exact optimize_repr_op_guards_kept tc g0 g bb ins 2 hc h
  | MVM_OP_unbox_i | MVM_OP_unbox_n | MVM_OP_unbox_s =>
    simp only [hop] at hr
    cases hr
    exact optimize_repr_op_guards_kept tc g0 g bb ins 1 hc h
  | MVM_OP_elems =>
    simp only [hop] at hr
    cases hr
    exact optimize_repr_op_guards_kept tc g0 g bb ins 1 hc h
  | MVM_OP_hllize =>
    simp only [hop] at hr
    cases hr
    exact optimize_hllize_guards_kept tc g0 g ins h
  | MVM_OP_decont =>
    simp only [hop] at hr
    cases hr
    exact optimize_decont_guards_kept tc g0 g bb ins hc h
  | MVM_OP_assertparamcheck =>
    simp only [hop] at hr
    cases hr
    exact optimize_assertparamcheck_guards_kept tc g0 g bb ins h
  | MVM_OP_getlexstatic_o =>
    simp only [hop] at hr
    cases hr
    exact optimize_getlex_known_guards_kept tc g0 g bb ins h
  | _ =>
    simp only [hop] at hr
    cases hr
    exact h

/-- The instruction loop of the driver keeps the log guards that were relied upon, if the
collaborators do. -/
theorem optimize_bb_ins_guards_kept (tc : MVMThreadContext) (fuel bb : Nat)
    (hc : collaborators_keep_guards tc) :
    ∀ (n : Nat) (g0 g g' : MVMSpeshGraph) (arg_info : MVMSpeshCallInfo) (cur : Option Nat),
      guards_kept g0 g → optimize_bb_ins tc fuel bb n g arg_info cur = Except.ok g' →
      guards_kept g0 g' := by
  intro n
  induction n with
  | zero =>
    intro g0 g g' arg_info cur h hr
    cases cur with
    | none =>
      unfold optimize_bb_ins at hr
      cases hr
      exact h
    | some ins =>
      unfold optimize_bb_ins at hr
      cases hr
  | succ n ih =>
    intro g0 g g' arg_info cur h hr
    cases cur with
    | none =>
      unfold optimize_bb_ins at hr
      cases hr
      exact h
    | some ins =>
      unfold optimize_bb_ins at hr
      cases hsw : optimize_bb_switch tc fuel g bb ins arg_info with
      | error e =>
        simp only [hsw] at hr
        cases hr
      | ok p =>
        obtain ⟨g1, arg_info1⟩ := p
        simp only [hsw] at hr
        exact ih g0 g1 g' arg_info1 _
          (optimize_bb_switch_guards_kept tc fuel g0 g g1 bb ins arg_info arg_info1 hc h hsw) hr

/-- The loop of the driver over the children of a block keeps the log guards that were relied
upon, if the visit of a child does. -/
theorem optimize_bb_children_guards_kept
    (visit : MVMSpeshGraph → Nat → Except Fault MVMSpeshGraph) (bb : Nat)
    (hv : ∀ g0 g g' child, guards_kept g0 g → visit g child = Except.ok g' →
      guards_kept g0 g') :
    ∀ (n : Nat) (g0 g g' : MVMSpeshGraph) (i : Nat),
      guards_kept g0 g → optimize_bb_children visit bb n g i = Except.ok g' →
      guards_kept g0 g' := by
  intro n
  induction n with
  | zero =>
    intro g0 g g' i h hr
    unfold optimize_bb_children at hr
    cases hr
  | succ n ih =>
    intro g0 g g' i h hr
    unfold optimize_bb_children at hr
    cases hch : (g.bbs bb).children.get? i with
    | none =>
      simp only [hch] at hr
      cases hr
      exact h
    | some child =>
      simp only [hch] at hr
      cases hvis : visit g child with
      | error e =>
        simp only [hvis] at hr
        cases hr
      | ok g1 =>
        simp only [hvis] at hr
        exact ih g0 g1 g' (i + 1) (hv g0 g g1 child h hvis) hr

/-- The driver `optimize_bb` keeps the log guards that were relied upon, if the collaborators
do. -/
theorem optimize_bb_guards_kept (tc : MVMThreadContext) (hc : collaborators_keep_guards tc) :
    ∀ (fuel : Nat) (g0 g g' : MVMSpeshGraph) (bb : Nat),
      guards_kept g0 g → optimize_bb tc fuel g bb = Except.ok g' → guards_kept g0 g' := by
  intro fuel
  induction fuel with
  | zero =>
    intro g0 g g' bb h hr
    unfold optimize_bb at hr
    cases hr
  | succ fuel ih =>
    intro g0 g g' bb h hr
    unfold optimize_bb at hr
    cases hins : optimize_bb_ins tc fuel bb fuel g tc.uninit_arg_info (g.bbs bb).ins.head? with
    | error e =>
      simp only [hins] at hr
      cases hr
    | ok g1 =>
      simp only [hins] at hr
      exact optimize_bb_children_guards_kept _ bb
        (fun a b c child hab hvis => ih a b c child hab hvis) fuel g0 g1 g' 0
        (optimize_bb_ins_guards_kept tc fuel bb hc fuel g0 g g1 _ _ h hins) hr

/-- The sample thread context has no hooks, its inliner and its allocator of temporary
registers return the graph they were given: they keep the log guards. -/
theorem sample_tc_keeps_guards (meth : Nat) : collaborators_keep_guards (sample_tc meth) := by
  refine ⟨?_, ?_, ?_, ?_, ?_, ?_⟩
  · intro t hook h
    cases h
  · intro st cs hook h
    cases h
  · intro g info bb ins inline_graph target
    exact guards_kept_refl g
  · intro g kind
    exact guards_kept_refl g
  · intro g o
    exact guards_kept_refl g
  · intro r hr
    cases hr

/-- C36: when the driver is at an instruction `arg_i`, `arg_n`, `arg_s` or `arg_o` whose index
`idx` is within `0 .. MAX_ARGS_FOR_OPT - 1`, its step returns, the call info records for slot
`idx` the fact of the source register, the instruction and `arg_is_const = 0`, and, when that
fact carries `FROM_LOG_GUARD` and names a guard of the table, that guard has `used` set right
after the step, at the end of the instruction loop of the block and at the end of the loop
over its children, which is the end of `optimize_bb` on the block, whenever these return (the
collaborators that receive the graph are asked to keep the guards relied upon); at an
`argconst_i`, `argconst_n` or `argconst_s` the step returns the graph as it was and the call
info records for slot `idx` the instruction and `arg_is_const = 1`. -/
theorem C36_argument_guards_preserved (tc : MVMThreadContext) (fuel n m : Nat)
    (g : MVMSpeshGraph) (bb ins : Nat) (arg_info : MVMSpeshCallInfo)
    (hc : collaborators_keep_guards tc)
    (hlo : 0 ≤ to_int16 ((g.ins ins).operand 0).get_lit_i16)
    (hhi : to_int16 ((g.ins ins).operand 0).get_lit_i16 < MAX_ARGS_FOR_OPT) :
    (is_arg_op (g.ins ins).info.opcode = true →
      ∃ info', optimize_bb_switch tc fuel g bb ins arg_info
          = Except.ok ((MVM_spesh_get_and_use_facts tc g ((g.ins ins).operand 1)).2, info') ∧
        info'.arg_facts (to_int16 ((g.ins ins).operand 0).get_lit_i16).toNat
          = some (((g.ins ins).operand 1).get_reg tc) ∧
        info'.arg_ins (to_int16 ((g.ins ins).operand 0).get_lit_i16).toNat = some ins ∧
        info'.arg_is_const (to_int16 ((g.ins ins).operand 0).get_lit_i16).toNat = false ∧
        (has_flag (g.facts_at (((g.ins ins).operand 1).get_reg tc)).flags
            MVM_SPESH_FACT_FROM_LOG_GUARD = true →
          ∀ lg, g.log_guards.get? (g.facts_at (((g.ins ins).operand 1).get_reg tc)).log_guard
              = some lg →
            (MVM_spesh_get_and_use_facts tc g ((g.ins ins).operand 1)).2.log_guards.get?
                (g.facts_at (((g.ins ins).operand 1).get_reg tc)).log_guard
              = some { lg with used := true } ∧
            ∀ g1, optimize_bb_ins tc fuel bb (n + 1) g arg_info (some ins) = Except.ok g1 →
              g1.log_guards.get? (g.facts_at (((g.ins ins).operand 1).get_reg tc)).log_guard
                = some { lg with used := true } ∧
              ∀ g2, optimize_bb_children (fun g child => optimize_bb tc fuel g child) bb m g1 0
                  = Except.ok g2 →
                g2.log_guards.get? (g.facts_at (((g.ins ins).operand 1).get_reg tc)).log_guard
                  = some { lg with used := true })) ∧
    (is_argconst_op (g.ins ins).info.opcode = true →
      ∃ info', optimize_bb_switch tc fuel g bb ins arg_info = Except.ok (g, info') ∧
        info'.arg_ins (to_int16 ((g.ins ins).operand 0).get_lit_i16).toNat = some ins ∧
        info'.arg_is_const (to_int16 ((g.ins ins).operand 0).get_lit_i16).toNat = true) := by
  have hneg : ¬ to_int16 ((g.ins ins).operand 0).get_lit_i16 < 0 := not_lt.mpr hlo
  refine ⟨fun harg => ?_, fun hconst => ?_⟩
  · obtain ⟨info', hinfo⟩ : ∃ info', optimize_bb_switch tc fuel g bb ins arg_info
        = Except.ok ((MVM_spesh_get_and_use_facts tc g ((g.ins ins).operand 1)).2, info') ∧
        info'.arg_facts (to_int16 ((g.ins ins).operand 0).get_lit_i16).toNat
          = some (((g.ins ins).operand 1).get_reg tc) ∧
        info'.arg_ins (to_int16 ((g.ins ins).operand 0).get_lit_i16).toNat = some ins ∧
        info'.arg_is_const (to_int16 ((g.ins ins).operand 0).get_lit_i16).toNat = false := by
      rw [optimize_bb_switch_arg tc fuel g bb ins arg_info harg]
      unfold optimize_bb_arg
      simp only [hhi, hneg, if_true, if_false]
      refine ⟨_, rfl, ?_, ?_, ?_⟩
      · simp only [if_true]
        rw [(get_and_use_facts_spec tc g ((g.ins ins).operand 1)).1]
      · simp only [if_true]
      · simp only [if_true]
    obtain ⟨hsw, h1, h2, h3⟩ := hinfo
    refine ⟨info', hsw, h1, h2, h3, fun hflag lg hlg => ?_⟩
    have hG : (MVM_spesh_get_and_use_facts tc g ((g.ins ins).operand 1)).2.log_guards.get?
        (g.facts_at (((g.ins ins).operand 1).get_reg tc)).log_guard
        = some { lg with used := true } := by
      rw [(get_and_use_facts_spec tc g ((g.ins ins).operand 1)).2.2.1 hflag _, if_pos rfl, hlg]
      rfl
    refine ⟨hG, fun g1 hg1 => ?_⟩
    unfold optimize_bb_ins at hg1
    simp only [hsw] at hg1
    have k1 := optimize_bb_ins_guards_kept tc fuel bb hc n _ _ g1 _ _
      (guards_kept_refl (MVM_spesh_get_and_use_facts tc g ((g.ins ins).operand 1)).2) hg1
    have hg1used := k1.kept _ _ hG rfl
    refine ⟨hg1used, fun g2 hg2 => ?_⟩
    have k2 := optimize_bb_children_guards_kept _ bb
      (fun a b c child hab hvis => optimize_bb_guards_kept tc hc fuel a b c child hab hvis)
      m g1 g1 g2 0 (guards_kept_refl g1) hg2
    exact k2.kept _ _ hg1used rfl
  · rw [optimize_bb_switch_argconst tc fuel g bb ins arg_info hconst]
    unfold optimize_bb_argconst
    simp only [hhi, hneg, if_true, if_false]
    refine ⟨_, rfl, ?_, ?_⟩
    · simp only [if_true]
    · simp only [if_true]

/-- C36, witness: in the block `prepargs 3; arg_o 0, r1`, where the fact of `r1` came from log
guard 1, the driver, at the `arg_o` with the call info that `prepargs` left, records slot 0
and relies upon guard 1; the whole `optimize_bb` on the block returns with guard 1 relied upon
and guard 0 not. -/
theorem C36_argument_guards_preserved_witness :
    collaborators_keep_guards (sample_tc 0) ∧
    is_arg_op (g_arg_logged.ins 1).info.opcode = true ∧
    has_flag (g_arg_logged.facts_at (((g_arg_logged.ins 1).operand 1).get_reg (sample_tc 0))).flags
      MVM_SPESH_FACT_FROM_LOG_GUARD = true ∧
    g_arg_logged.log_guards.get? 1 = some { ins := 8, bb := 0, used := false } ∧
    (∃ g', optimize_bb (sample_tc 0) 3 g_arg_logged 0 = Except.ok g' ∧
      g'.log_guards = [{ ins := 7, bb := 0, used := false }, { ins := 8, bb := 0, used := true }]) ∧
    (∃ info', optimize_bb_switch (sample_tc 0) 2 g_arg_logged 0 1
        { (sample_tc 0).uninit_arg_info with cs := 3, prepargs_ins := some 0 }
        = Except.ok ((MVM_spesh_get_and_use_facts (sample_tc 0) g_arg_logged
            ((g_arg_logged.ins 1).operand 1)).2, info') ∧
      info'.arg_facts 0 = some (1, 0) ∧ info'.arg_ins 0 = some 1 ∧
      info'.arg_is_const 0 = false ∧
      ∀ g1, optimize_bb_ins (sample_tc 0) 2 0 1 g_arg_logged
          { (sample_tc 0).uninit_arg_info with cs := 3, prepargs_ins := some 0 } (some 1)
          = Except.ok g1 →
        g1.log_guards.get? 1 = some { ins := 8, bb := 0, used := true } ∧
        ∀ g2, optimize_bb_children (fun g child => optimize_bb (sample_tc 0) 2 g child) 0 2 g1 0
            = Except.ok g2 →
          g2.log_guards.get? 1 = some { ins := 8, bb := 0, used := true }) := by
  refine ⟨sample_tc_keeps_guards 0, by decide, by decide, by decide,
    exists_ok_of_check _ (by decide), ?_⟩
  obtain ⟨info', h1, h2, h3, h4, h5⟩ :=
    (C36_argument_guards_preserved (sample_tc 0) 2 0 2 g_arg_logged 0 1
      { (sample_tc 0).uninit_arg_info with cs := 3, prepargs_ins := some 0 }
      (sample_tc_keeps_guards 0) (by decide) (by decide)).1 (by decide)
  exact ⟨info', h1, h2, h3, h4,
    (h5 (by decide) { ins := 8, bb := 0, used := false } (by decide)).2⟩

end MoarVM
